import Mathlib

/-!
# FIFO drain engine of the st_asm330lhhx IMU driver

Shallow embedding of `drivers/iio/imu/st_asm330lhhx/st_asm330lhhx_buffer.c`.

* Machine integers are `Nat` / `Int` with explicit wrap-around (`s64`, `u32`, ...).
* The register transport (`st_asm330lhhx_read_locked`) is a device model `Dev`
  that holds the status bytes, the byte stream behind the FIFO data register
  and the return codes of the upcoming register reads.
* Everything the driver does to the outside (register reads, samples pushed to
  an IIO buffer, wake-up events) is appended to a trace of `Action`s.
* `store_acc_gyro_boot_sample` is the empty variant of the source (the one
  compiled without `CONFIG_ENABLE_ASMX_ACC_GYRO_BUFFERING`; the other variant
  returns at once while `buffer_asm_samples` is false).
-/

namespace Asm330lhhx

/-! ## Constants of st_asm330lhhx_buffer.c -/

def ST_ASM330LHHX_SAMPLE_DISCHARD : Int := 0x7ffd

def ST_ASM330LHHX_EWMA_LEVEL : Int := 120

def ST_ASM330LHHX_EWMA_DIV : Int := 128

def ST_ASM330LHHX_WAKEUP_MS : Nat := 10000

def ST_ASM330LHHX_GYRO_TAG : Nat := 0x01

def ST_ASM330LHHX_ACC_TAG : Nat := 0x02

def ST_ASM330LHHX_TEMP_TAG : Nat := 0x03

def ST_ASM330LHHX_TS_TAG : Nat := 0x04

def ST_ASM330LHHX_EXT0_TAG : Nat := 0x0f

def ST_ASM330LHHX_EXT1_TAG : Nat := 0x10

/-! ## Declarations of st_asm330lhhx.h (the header is not part of the tree) -/

/-- Modelled from the spec: `ST_ASM330LHHX_TAG_SIZE` of st_asm330lhhx.h; byte 0 of a
record carries the tag and the payload fields start at byte 1. -/
def ST_ASM330LHHX_TAG_SIZE : Nat := 1

/-- Modelled from the spec: `ST_ASM330LHHX_SAMPLE_SIZE` of st_asm330lhhx.h; the payload
forwarded for a sample is the fixed block of 6 bytes (x, y, z as 16-bit values). -/
def ST_ASM330LHHX_SAMPLE_SIZE : Nat := 6

/-- Modelled from the spec: `ST_ASM330LHHX_FIFO_SAMPLE_SIZE` of st_asm330lhhx.h, the
`record_size`: one tag byte followed by the payload block. -/
def ST_ASM330LHHX_FIFO_SAMPLE_SIZE : Nat := ST_ASM330LHHX_SAMPLE_SIZE + ST_ASM330LHHX_TAG_SIZE

/-- Modelled from the spec: `enum st_asm330lhhx_sensor_id` of st_asm330lhhx.h; the channels
Gyro, Accel, Temp, Ext0, Ext1 in the order in which `st_asm330lhhx_update_watermark`
walks them (`ST_ASM330LHHX_ID_GYRO` .. `ST_ASM330LHHX_ID_EXT1`). -/
def ST_ASM330LHHX_ID_GYRO : Nat := 0

/-- Modelled from the spec: see `ST_ASM330LHHX_ID_GYRO`. -/
def ST_ASM330LHHX_ID_ACC : Nat := 1

/-- Modelled from the spec: see `ST_ASM330LHHX_ID_GYRO`. -/
def ST_ASM330LHHX_ID_TEMP : Nat := 2

/-- Modelled from the spec: see `ST_ASM330LHHX_ID_GYRO`. -/
def ST_ASM330LHHX_ID_EXT0 : Nat := 3

/-- Modelled from the spec: see `ST_ASM330LHHX_ID_GYRO`. -/
def ST_ASM330LHHX_ID_EXT1 : Nat := 4

/-- What the build and the missing header fix and the source only names. -/
structure Config where
  /-- `ST_ASM330LHHX_REG_FIFO_STATUS_DIFF`, the mask of the depth bits of the status word. -/
  fifo_status_diff : Nat
  /-- `ST_ASM330LHHX_ID_FIFO_MLC`, the slot of the wake-replay device in `hw->iio_devs`. -/
  id_fifo_mlc : Nat
  /-- Whether `CONFIG_IIO_ST_ASM330LHHX_MAY_WAKEUP` is defined. -/
  may_wakeup : Bool
  /-- `ST_ASM330LHHX_MAX_FIFO_DEPTH`, the value the watermark scan starts from. -/
  max_fifo_depth : Nat
  /-- `ST_ASM330LHHX_REG_FIFO_WTM_MASK`, the bits of the watermark word that hold the
  depth threshold. -/
  fifo_wtm_mask : Nat
deriving DecidableEq, Repr

/-- C macro `BIT(n)`. -/
def BIT (n : Nat) : Nat := 2 ^ n

/-! ## Machine integers -/

/-- Value of a 64-bit two's complement pattern: wrap an integer into `s64`. -/
def s64 (x : Int) : Int := (x + 2 ^ 63) % 2 ^ 64 - 2 ^ 63

/-- Cast to `s16`. -/
def s16 (x : Int) : Int := (x + 2 ^ 15) % 2 ^ 16 - 2 ^ 15

/-- Wrap a natural number into `u32`. -/
def u32 (x : Nat) : Nat := x % 2 ^ 32

/-- Wrap a natural number into `u16`. -/
def u16 (x : Nat) : Nat := x % 2 ^ 16

/-- Kernel helper `div_s64`: signed division truncating toward zero. -/
def div_s64 (dividend divisor : Int) : Int := s64 (Int.tdiv dividend divisor)

/-- Byte `i` of a buffer (`u8`). -/
def byte (buf : List Nat) (i : Nat) : Nat := buf.getD i 0 % 256

/-- Kernel helper `get_unaligned_le16` at offset `p`. -/
def get_unaligned_le16 (buf : List Nat) (p : Nat) : Nat :=
  byte buf p + 256 * byte buf (p + 1)

/-- Kernel helper `get_unaligned_le32` at offset `p`. -/
def get_unaligned_le32 (buf : List Nat) (p : Nat) : Nat :=
  byte buf p + 256 * byte buf (p + 1) + 65536 * byte buf (p + 2) + 16777216 * byte buf (p + 3)

/-- C `memcpy(dst, buf + p, n)`: the `n` bytes copied. -/
def memcpy (buf : List Nat) (p n : Nat) : List Nat :=
  (List.range n).map (fun k => byte buf (p + k))

/-! ## Data model -/

/-- `enum st_asm330lhhx_fifo_mode`. -/
inductive FifoMode where
  | ST_ASM330LHHX_FIFO_BYPASS
  | ST_ASM330LHHX_FIFO_CONT
deriving DecidableEq, Repr

/-- The fields of `struct st_asm330lhhx_sensor` used by the buffer code. -/
structure Sensor where
  decimator : Nat := 0
  dec_counter : Nat := 0
  last_fifo_timestamp : Int := 0
  watermark : Nat := 0
deriving DecidableEq, Repr

/-- The fields of `struct st_asm330lhhx_hw` used by the buffer code. The two bits of
`hw->state` are the booleans `operational` and `flush`; `iio_devs` is indexed by
sensor id and `none` is a NULL slot. -/
structure Hw where
  fifo_mode : FifoMode := FifoMode.ST_ASM330LHHX_FIFO_BYPASS
  operational : Bool := false
  flush : Bool := false
  enable_mask : Nat := 0
  ts_offset : Int := 0
  ts_delta_ns : Nat := 0
  hw_ts : Int := 0
  val_ts_old : Nat := 0
  hw_ts_high : Nat := 0
  tsample : Int := 0
  delta_ts : Int := 0
  ts : Int := 0
  resuming : Bool := false
  ts_offset_resume : Int := 0
  resume_sample_in_packet : Nat := 0
  resume_sample_tick_ns : Int := 0
  fifo_watermark : Nat := 0
  hw_timestamp_enabled : Bool := false
  asm330_hrtimer : Bool := false
  iio_devs : List (Option Sensor) := []
  /-- The file-scope `static bool delayed_enable_gyro`. -/
  delayed_enable_gyro : Bool := true
  /-- The module parameter `asm330lhhx_delay_gyro`. -/
  asm330lhhx_delay_gyro : Nat := 10
deriving DecidableEq, Repr

/-- Registers the buffer code reads and writes. -/
inductive Reg where
  | ST_ASM330LHHX_REG_FIFO_STATUS1_ADDR
  | ST_ASM330LHHX_REG_FIFO_DATA_OUT_TAG_ADDR
  | ST_ASM330LHHX_REG_FIFO_CTRL4_ADDR
  | ST_ASM330LHHX_REG_TIMESTAMP2_ADDR
  | ST_ASM330LHHX_REG_FIFO_CTRL1_ADDR
  /-- The register `hw->odr_table_entry[id].batching_reg.addr`. -/
  | batching_reg (id : Nat)
deriving DecidableEq, Repr

/-- The device behind the register transport. -/
structure Dev where
  /-- Low byte of the FIFO status word. -/
  fifo_status1 : Nat := 0
  /-- High byte of the FIFO status word. -/
  fifo_status2 : Nat := 0
  /-- Bytes still to come out of the FIFO data register, oldest first. -/
  fifo : List Nat := []
  /-- The register at `ST_ASM330LHHX_REG_FIFO_CTRL1_ADDR`, low byte of the watermark word. -/
  fifo_ctrl1 : Nat := 0
  /-- The register at `ST_ASM330LHHX_REG_FIFO_CTRL1_ADDR + 1`, high byte of the watermark
  word. -/
  fifo_ctrl2 : Nat := 0
  /-- Return codes of the upcoming register accesses, in order (0 once exhausted);
  a negative code is a failed access. -/
  rc : List Int := []
deriving DecidableEq, Repr

/-- What the driver does to its collaborators. -/
inductive Action where
  /-- A register read of `len` bytes was issued at `reg`. -/
  | read (reg : Reg) (len : Nat)
  /-- Call of `iio_push_to_buffers_with_timestamp` on the device in slot `dev`. -/
  | push (dev : Nat) (data : List Nat) (ts : Int)
  /-- Call of `pm_wakeup_ws_event` with the given timeout. -/
  | wakeup (msec : Nat)
  /-- Call of `st_asm330lhhx_write_with_mask_locked` that puts `fifo_mode` in the
  `ST_ASM330LHHX_REG_FIFO_MODE_MASK` field of the register. -/
  | write_fifo_mode (addr : Reg) (fifo_mode : FifoMode)
  /-- Call of `st_asm330lhhx_write_locked` of one byte. -/
  | write (addr : Reg) (data : Nat)
  /-- Call of `st_asm330lhhx_set_cpu_idle_state`. -/
  | cpu_idle_state (enable : Bool)
  /-- Call of `iio_push_event` with the flush event on the device in slot `dev`;
  `data` tells `CUSTOM_IIO_EV_DIR_FIFO_DATA` from `CUSTOM_IIO_EV_DIR_FIFO_EMPTY`. -/
  | event (dev : Nat) (data : Bool) (ts : Int)
  /-- Call of `regmap_read` of the register at `addr + offset`. -/
  | regmap_read (addr : Reg) (offset : Nat)
  /-- Call of `regmap_bulk_write` of the bytes `data` starting at `addr`. -/
  | regmap_bulk_write (addr : Reg) (data : List Nat)
  /-- Call of `st_asm330lhhx_update_bits_locked` that puts `data` in the masked field of
  the register. -/
  | update_bits (addr : Reg) (data : Nat)
  /-- Call of `st_asm330lhhx_sensor_set_enable` or `st_asm330lhhx_shub_set_enable` for the
  sensor in slot `id`. -/
  | set_enable (id : Nat) (enable : Bool)
  /-- Call of `disable_irq(hw->irq)`. -/
  | disable_irq
  /-- Call of `enable_irq(hw->irq)`. -/
  | enable_irq
  /-- Call of `msleep`. -/
  | msleep (msecs : Nat)
deriving DecidableEq, Repr

/-- Outcome of a driver call: return value, driver state, device and what was done. -/
structure Result where
  ret : Int
  hw : Hw
  dev : Dev
  trace : List Action
deriving DecidableEq, Repr

/-! ## Register transport -/

/-- Transport call `st_asm330lhhx_read_locked(hw, addr, buf, len)`: the return code, the
`len` bytes put in `buf` and the device afterwards. A read of the data register takes
the next `len` bytes out of the FIFO (0 beyond its end). -/
def st_asm330lhhx_read_locked (dev : Dev) (addr : Reg) (len : Nat) : Int × List Nat × Dev :=
  let err := dev.rc.headD 0
  let dev1 := { dev with rc := dev.rc.tail }
  if err < 0 then (err, [], dev1)
  else
    match addr with
    | Reg.ST_ASM330LHHX_REG_FIFO_STATUS1_ADDR =>
        (err, [dev.fifo_status1 % 256, dev.fifo_status2 % 256].take len, dev1)
    | Reg.ST_ASM330LHHX_REG_FIFO_DATA_OUT_TAG_ADDR =>
        (err, (List.range len).map (fun k => dev.fifo.getD k 0 % 256),
          { dev1 with fifo := dev.fifo.drop len })
    | _ => (err, List.replicate len 0, dev1)

/-- Transport calls `st_asm330lhhx_write_locked` and `st_asm330lhhx_write_with_mask_locked`:
the return code and the device afterwards. -/
def st_asm330lhhx_write_locked (dev : Dev) : Int × Dev :=
  (dev.rc.headD 0, { dev with rc := dev.rc.tail })

/-! ## Timestamp filter -/

def st_asm330lhhx_ewma (old new weight : Int) : Int :=
  let diff := s64 (new - old)
  let incr := div_s64 (s64 ((ST_ASM330LHHX_EWMA_DIV - weight) * diff)) ST_ASM330LHHX_EWMA_DIV
  s64 (old + incr)

def st_asm330lhhx_sync_hw_ts (hw : Hw) (ts : Int) : Hw :=
  let delta := s64 (ts - hw.hw_ts)
  { hw with ts_offset := st_asm330lhhx_ewma hw.ts_offset delta ST_ASM330LHHX_EWMA_LEVEL }

/-! ## Tag demultiplexer -/

/-- Slot `id` of `hw->iio_devs` when it is not NULL. -/
def iio_dev_at (hw : Hw) (id : Nat) : Option Nat :=
  match hw.iio_devs.getD id none with
  | some _ => some id
  | none => none

/-- The device a tag belongs to, as its slot in `hw->iio_devs`; `none` is NULL. -/
def st_asm330lhhx_get_iiodev_from_tag (hw : Hw) (tag : Nat) : Option Nat :=
  if tag = ST_ASM330LHHX_GYRO_TAG then iio_dev_at hw ST_ASM330LHHX_ID_GYRO
  else if tag = ST_ASM330LHHX_ACC_TAG then iio_dev_at hw ST_ASM330LHHX_ID_ACC
  else if tag = ST_ASM330LHHX_TEMP_TAG then iio_dev_at hw ST_ASM330LHHX_ID_TEMP
  else if tag = ST_ASM330LHHX_EXT0_TAG then
    if hw.enable_mask &&& BIT ST_ASM330LHHX_ID_EXT0 ≠ 0 then iio_dev_at hw ST_ASM330LHHX_ID_EXT0
    else iio_dev_at hw ST_ASM330LHHX_ID_EXT1
  else if tag = ST_ASM330LHHX_EXT1_TAG then iio_dev_at hw ST_ASM330LHHX_ID_EXT1
  else none

/-! ## FIFO drain -/

/-- What the `for` loop over the records of a chunk changes: the driver state, the
trace and the local `ts_irq`. -/
structure Loop where
  hw : Hw
  trace : List Action
  ts_irq : Int
deriving DecidableEq, Repr

/-- What the `while` loop over the chunks changes: the above, the device and the local
`read_len`. -/
structure Drain where
  loop : Loop
  dev : Dev
  read_len : Nat
deriving DecidableEq, Repr

/-- The sensor behind a device slot, `iio_priv(hw->iio_devs[id])`. -/
def iio_priv (hw : Hw) (id : Nat) : Sensor :=
  (hw.iio_devs.getD id none).getD {}

/-- Store the sensor of slot `id` back. -/
def set_sensor (hw : Hw) (id : Nat) (sensor : Sensor) : Hw :=
  { hw with iio_devs := hw.iio_devs.set id (some sensor) }

/-- One pass of the body of the `for` loop of `st_asm330lhhx_read_fifo`, for the record
at offset `i` of `buf`. In the wake-replay branch the source hands
`hw->iio_devs[ST_ASM330LHHX_ID_FIFO_MLC]` to `iio_push_to_buffers_with_timestamp` without
a NULL test: the push to slot `cfg.id_fifo_mlc` stands for that call only where the slot
holds a device. -/
def read_fifo_record (cfg : Config) (notify : Int) (delta : Int) (buf : List Nat)
    (st : Loop) (i : Nat) : Loop :=
  let ptr := i + ST_ASM330LHHX_TAG_SIZE
  let tag := byte buf i >>> 3
  let ts_irq := s64 (st.ts_irq + delta)
  let hw := st.hw
  if tag = ST_ASM330LHHX_TS_TAG then
    let val := get_unaligned_le32 buf ptr
    let hw_ts_high := if hw.val_ts_old > val then u32 (hw.hw_ts_high + 1) else hw.hw_ts_high
    let hw1 := { hw with
      hw_ts_high := hw_ts_high
      val_ts_old := val
      hw_ts := s64 ((((val : Nat) : Int) + (hw_ts_high : Int) * 2 ^ 32) * (hw.ts_delta_ns : Int)) }
    if !hw1.flush then
      { st with hw := st_asm330lhhx_sync_hw_ts hw1 ts_irq, ts_irq := ts_irq }
    else
      { st with hw := hw1, ts_irq := ts_irq }
  else
    match st_asm330lhhx_get_iiodev_from_tag hw tag with
    | none => { st with ts_irq := ts_irq }
    | some iio_dev =>
      let drdymask := s16 (get_unaligned_le16 buf ptr)
      if drdymask ≥ ST_ASM330LHHX_SAMPLE_DISCHARD then
        { st with ts_irq := ts_irq }
      else
        let iio_buf := memcpy buf ptr ST_ASM330LHHX_SAMPLE_SIZE
        if cfg.may_wakeup && hw.resuming && decide (notify ≠ 0) then
          { st with
            hw := { hw with ts_offset_resume := s64 (hw.ts_offset_resume + hw.resume_sample_tick_ns) }
            trace := st.trace ++ [Action.push cfg.id_fifo_mlc iio_buf hw.ts_offset_resume]
            ts_irq := ts_irq }
        else
          let sensor := iio_priv hw iio_dev
          let ts := s64 (hw.hw_ts + hw.ts_offset)
          if sensor.dec_counter > 0 then
            { st with
              hw := set_sensor hw iio_dev { sensor with dec_counter := sensor.dec_counter - 1 }
              ts_irq := ts_irq }
          else
            { st with
              hw := set_sensor hw iio_dev
                { sensor with dec_counter := sensor.decimator, last_fifo_timestamp := ts }
              trace := st.trace ++ [Action.push iio_dev iio_buf ts]
              ts_irq := ts_irq }

/-- The values `i` takes in `for (i = 0; i < n; i += step)`. -/
def for_offsets (n step : Nat) : List Nat :=
  (List.range ((n + step - 1) / step)).map (fun k => k * step)

/-- One pass of the body of the `while (read_len < fifo_len)` loop: the chunk read and,
when it succeeds, the `for` loop over its records. The first component is the return
code of the read. -/
def read_fifo_chunk (cfg : Config) (notify : Int) (fifo_len : Nat) (delta : Int)
    (st : Drain) : Int × Drain :=
  let word_len := min (fifo_len - st.read_len) (60 * ST_ASM330LHHX_FIFO_SAMPLE_SIZE)
  let r := st_asm330lhhx_read_locked st.dev Reg.ST_ASM330LHHX_REG_FIFO_DATA_OUT_TAG_ADDR word_len
  let loop1 := { st.loop with
    trace := st.loop.trace ++
      [Action.read Reg.ST_ASM330LHHX_REG_FIFO_DATA_OUT_TAG_ADDR word_len] }
  if r.1 < 0 then (r.1, { st with loop := loop1, dev := r.2.2 })
  else
    let loop2 := (for_offsets word_len ST_ASM330LHHX_FIFO_SAMPLE_SIZE).foldl
      (read_fifo_record cfg notify delta r.2.1) loop1
    (r.1, { loop := loop2, dev := r.2.2, read_len := st.read_len + word_len })

/-- The `while (read_len < fifo_len)` loop of `st_asm330lhhx_read_fifo`. The result is
the error code of the failing read (0 when the loop ran to its end) and the variables
at that point; `none` stands for a loop still running when `fuel` passes are used up. -/
def read_fifo_loop (cfg : Config) (notify : Int) (fifo_len : Nat) (delta : Int) :
    Nat → Drain → Option (Int × Drain)
  | fuel, st =>
    if st.read_len < fifo_len then
      match fuel with
      | 0 => none
      | fuel + 1 =>
        let r := read_fifo_chunk cfg notify fifo_len delta st
        if r.1 < 0 then some r
        else read_fifo_loop cfg notify fifo_len delta fuel r.2
    else some (0, st)

/-- The marker pushed to the wake-replay device at the end of a notifying drain:
`iio_last_buf` (16 zero bytes) with `last_ts`. -/
def wake_marker (cfg : Config) : Action :=
  Action.push cfg.id_fifo_mlc (List.replicate 16 0) 0xFFFFFFFF

/-- The statements of `st_asm330lhhx_read_fifo` between the depth test and the chunk
loop: the variables with which the loop starts, `dev` being the device after the status
read. -/
def read_fifo_begin (hw : Hw) (dev : Dev) (notify now : Int) (fifo_depth : Nat) : Drain :=
  { loop :=
      { hw :=
          if hw.resuming && decide (notify ≠ 0) then
            { hw with
              ts_offset_resume :=
                s64 (now - ((fifo_depth >>> hw.resume_sample_in_packet : Nat) : Int) *
                  hw.resume_sample_tick_ns) }
          else hw
        trace := [Action.read Reg.ST_ASM330LHHX_REG_FIFO_STATUS1_ADDR 2]
        ts_irq := s64 (hw.ts - hw.delta_ts) }
    dev := dev
    read_len := 0 }

/-- The statements of `st_asm330lhhx_read_fifo` from the exit of the chunk loop on:
the error return inside the loop, or the wake marker and `return read_len`. The source
hands `hw->iio_devs[ST_ASM330LHHX_ID_FIFO_MLC]` to `iio_push_to_buffers_with_timestamp`
without a NULL test: the marker pushed to slot `cfg.id_fifo_mlc` stands for that call only
where the slot holds a device. -/
def read_fifo_end (cfg : Config) (notify : Int) (r : Int × Drain) : Result :=
  if r.1 < 0 then
    { ret := r.1, hw := r.2.loop.hw, dev := r.2.dev, trace := r.2.loop.trace }
  else if r.2.loop.hw.resuming && decide (notify ≠ 0) then
    { ret := r.2.read_len, hw := r.2.loop.hw, dev := r.2.dev,
      trace := r.2.loop.trace ++ [wake_marker cfg, Action.wakeup ST_ASM330LHHX_WAKEUP_MS] }
  else
    { ret := r.2.read_len, hw := r.2.loop.hw, dev := r.2.dev, trace := r.2.loop.trace }

/-- Driver function `st_asm330lhhx_read_fifo(hw, notify)`; `now` is what
`st_asm330lhhx_get_time_ns()` returns if it is called. `none` only if the chunk loop
were still running after `fifo_len` passes. -/
def st_asm330lhhx_read_fifo (cfg : Config) (hw : Hw) (dev : Dev) (notify : Int) (now : Int) :
    Option Result :=
  if !hw.operational then
    some { ret := 0, hw := hw, dev := dev, trace := [] }
  else
    let r := st_asm330lhhx_read_locked dev Reg.ST_ASM330LHHX_REG_FIFO_STATUS1_ADDR 2
    let trace := [Action.read Reg.ST_ASM330LHHX_REG_FIFO_STATUS1_ADDR 2]
    if r.1 < 0 then
      some { ret := r.1, hw := hw, dev := r.2.2, trace := trace }
    else
      let fifo_depth := u16 (get_unaligned_le16 r.2.1 0 &&& cfg.fifo_status_diff)
      if fifo_depth = 0 then
        some { ret := 0, hw := hw, dev := r.2.2, trace := trace }
      else
        let fifo_len := fifo_depth * ST_ASM330LHHX_FIFO_SAMPLE_SIZE
        let delta := div_s64 hw.delta_ts fifo_depth
        (read_fifo_loop cfg notify fifo_len delta fifo_len
          (read_fifo_begin hw r.2.2 notify now fifo_depth)).map (read_fifo_end cfg notify)

/-! ## Mode, timestamp reset, flush and interrupt handlers -/

def st_asm330lhhx_reset_hwts (hw : Hw) (dev : Dev) (now : Int) : Result :=
  let data := 0xaa
  let hw1 := { hw with ts := now, ts_offset := now, val_ts_old := 0, hw_ts_high := 0, tsample := 0 }
  let trace := if hw.asm330_hrtimer then [Action.cpu_idle_state true] else []
  let w := st_asm330lhhx_write_locked dev
  { ret := w.1, hw := hw1, dev := w.2,
    trace := trace ++ [Action.write Reg.ST_ASM330LHHX_REG_TIMESTAMP2_ADDR data] }

def st_asm330lhhx_set_fifo_mode (hw : Hw) (dev : Dev) (fifo_mode : FifoMode) : Result :=
  let w := st_asm330lhhx_write_locked dev
  let trace := [Action.write_fifo_mode Reg.ST_ASM330LHHX_REG_FIFO_CTRL4_ADDR fifo_mode]
  if w.1 < 0 then { ret := w.1, hw := hw, dev := w.2, trace := trace }
  else
    let hw1 := { hw with fifo_mode := fifo_mode }
    if fifo_mode = FifoMode.ST_ASM330LHHX_FIFO_BYPASS then
      { ret := 0, hw := { hw1 with operational := false }, dev := w.2, trace := trace }
    else
      { ret := 0, hw := { hw1 with operational := true }, dev := w.2, trace := trace }

/-- Driver function `st_asm330lhhx_flush_fifo` on the device in slot `id`; the value
returned is `size`, which the model leaves out (`ret` is 0). -/
def st_asm330lhhx_flush_fifo (cfg : Config) (hw : Hw) (dev : Dev) (id : Nat) (now : Int) :
    Option Result :=
  let ts := now
  let hw1 := { hw with delta_ts := s64 (ts - hw.ts), ts := ts, flush := true }
  match st_asm330lhhx_read_fifo cfg hw1 dev 0 now with
  | none => none
  | some r =>
    let count := r.ret
    let sensor := { iio_priv r.hw id with dec_counter := 0 }
    let fts := if count > 0 then sensor.last_fifo_timestamp else ts
    some { ret := 0, hw := set_sensor r.hw id sensor, dev := r.dev,
           trace := r.trace ++ [Action.event id (decide (count > 0)) fts] }

def st_asm330lhhx_suspend_fifo (cfg : Config) (hw : Hw) (dev : Dev) (now : Int) :
    Option Result :=
  match st_asm330lhhx_read_fifo cfg hw dev 0 now with
  | none => none
  | some r =>
    let m := st_asm330lhhx_set_fifo_mode r.hw r.dev FifoMode.ST_ASM330LHHX_FIFO_BYPASS
    some { m with trace := r.trace ++ m.trace }

/-- Fast handler `st_asm330lhhx_handler_irq`; the call of `st_asm330lhhx_hrtimer_reset`
is outside the model. -/
def st_asm330lhhx_handler_irq (hw : Hw) (now : Int) : Hw :=
  let ts := now
  { hw with delta_ts := s64 (ts - hw.ts), ts := ts }

/-- Slow handler `st_asm330lhhx_handler_thread`; `notify` is what
`st_asm330lhhx_mlc_check_status` gave (0 without `CONFIG_IIO_ST_ASM330LHHX_MLC`). -/
def st_asm330lhhx_handler_thread (cfg : Config) (hw : Hw) (dev : Dev) (notify : Int)
    (now : Int) : Option Result :=
  let trace := if hw.asm330_hrtimer then [Action.cpu_idle_state false] else []
  match st_asm330lhhx_read_fifo cfg hw dev notify now with
  | none => none
  | some r =>
    some { ret := 0, hw := { r.hw with flush := false }, dev := r.dev, trace := trace ++ r.trace }

/-! ## Sequences of driver calls -/

/-- One call into the buffer code. -/
inductive Call where
  | read_fifo (notify : Int) (now : Int)
  | flush_fifo (id : Nat) (now : Int)
  | suspend_fifo (now : Int)
  | handler_irq (now : Int)
  | handler_thread (notify : Int) (now : Int)
  | set_fifo_mode (fifo_mode : FifoMode)
  | reset_hwts (now : Int)
deriving DecidableEq, Repr

/-- Run one call on the driver state `hw` against the device `dev`. -/
def exec (cfg : Config) (hw : Hw) (dev : Dev) : Call → Option Result
  | Call.read_fifo notify now => st_asm330lhhx_read_fifo cfg hw dev notify now
  | Call.flush_fifo id now => st_asm330lhhx_flush_fifo cfg hw dev id now
  | Call.suspend_fifo now => st_asm330lhhx_suspend_fifo cfg hw dev now
  | Call.handler_irq now =>
      some { ret := 0, hw := st_asm330lhhx_handler_irq hw now, dev := dev, trace := [] }
  | Call.handler_thread notify now => st_asm330lhhx_handler_thread cfg hw dev notify now
  | Call.set_fifo_mode fifo_mode => some (st_asm330lhhx_set_fifo_mode hw dev fifo_mode)
  | Call.reset_hwts now => some (st_asm330lhhx_reset_hwts hw dev now)

/-- Run a sequence of calls, each against the device as it is when the call is made
(the device goes on filling between calls); the outcomes in order. -/
def run (cfg : Config) : Hw → List (Call × Dev) → Option (List Result)
  | _, [] => some []
  | hw, (c, dev) :: rest =>
    match exec cfg hw dev c with
    | none => none
    | some r =>
      match run cfg r.hw rest with
      | none => none
      | some rs => some (r :: rs)

/-! ## Reading a trace -/

/-- Total number of bytes asked from the FIFO data register in a trace. -/
def data_bytes_requested : List Action → Nat
  | [] => 0
  | Action.read Reg.ST_ASM330LHHX_REG_FIFO_DATA_OUT_TAG_ADDR len :: rest =>
      len + data_bytes_requested rest
  | _ :: rest => data_bytes_requested rest

/-- Whether an action is a register access. -/
def Action.is_access : Action → Bool
  | Action.read _ _ => true
  | Action.write_fifo_mode _ _ => true
  | Action.write _ _ => true
  | Action.regmap_read _ _ => true
  | Action.regmap_bulk_write _ _ => true
  | Action.update_bits _ _ => true
  | _ => false

/-- Whether an action forwards a sample to an IIO buffer. -/
def Action.is_push : Action → Bool
  | Action.push _ _ _ => true
  | _ => false

/-- The samples forwarded to the device in slot `id`, in order, as (payload, timestamp). -/
def pushed_to (id : Nat) : List Action → List (List Nat × Int)
  | [] => []
  | Action.push dev data ts :: rest =>
      if dev = id then (data, ts) :: pushed_to id rest else pushed_to id rest
  | _ :: rest => pushed_to id rest

/-- The timestamps of the samples forwarded in a trace, in order. -/
def push_timestamps : List Action → List Int
  | [] => []
  | Action.push _ _ ts :: rest => ts :: push_timestamps rest
  | _ :: rest => push_timestamps rest

/-- Every return code still to come from the transport is a success. -/
def reads_succeed (dev : Dev) : Prop := ∀ c ∈ dev.rc, (0 : Int) ≤ c

/-! ## States used as examples -/

/-- A build with a 10-bit depth field and the wake-replay path compiled in. -/
def example_cfg : Config :=
  { fifo_status_diff := 0x3ff, id_fifo_mlc := 5, may_wakeup := true,
    max_fifo_depth := 416, fifo_wtm_mask := 0x1ff }

/-- An operational driver with the gyroscope and the accelerometer registered. -/
def example_hw : Hw :=
  { operational := true, fifo_mode := FifoMode.ST_ASM330LHHX_FIFO_CONT, enable_mask := 3,
    ts := 1000000, delta_ts := 30000, ts_offset := 500, ts_delta_ns := 25000,
    iio_devs := [some {}, some {}, none, none, none, none] }

/-- A device holding a timestamp record (tick 100), a ready accelerometer record and a
not-ready gyroscope record. -/
def example_dev : Dev :=
  { fifo_status1 := 3,
    fifo := [0x20, 100, 0, 0, 0, 0, 0, 0x10, 1, 0, 2, 0, 3, 0, 0x08, 0xff, 0x7f, 0, 0, 0, 0] }

/-! ## Passes of the chunk loop -/

/-- The variables of the drain after `k` passes of the body of the `while` loop. -/
def read_fifo_passes (cfg : Config) (notify : Int) (fifo_len : Nat) (delta : Int) :
    Nat → Drain → Drain
  | 0, st => st
  | k + 1, st => read_fifo_passes cfg notify fifo_len delta k
      (read_fifo_chunk cfg notify fifo_len delta st).2

/-- The FIFO depth a successful status read yields:
`le16_to_cpu(fifo_status) & ST_ASM330LHHX_REG_FIFO_STATUS_DIFF`, kept in a `u16`. -/
def status_fifo_depth (cfg : Config) (dev : Dev) : Nat :=
  u16 (get_unaligned_le16 [dev.fifo_status1 % 256, dev.fifo_status2 % 256] 0 &&&
    cfg.fifo_status_diff)

/-- The driver state after a sequence of calls, each against the device as it is when
the call is made. -/
def run_hw (cfg : Config) : Hw → List (Call × Dev) → Option Hw
  | hw, [] => some hw
  | hw, (c, dev) :: rest =>
    match exec cfg hw dev c with
    | none => none
    | some r => run_hw cfg r.hw rest

/-- A device reporting 61 records, on which the status read and the first chunk read
succeed and the second chunk read fails with -5 (`-EIO`). -/
def example_dev_failing : Dev :=
  { fifo_status1 := 61,
    fifo := [0x20, 100, 0, 0, 0, 0, 0, 0x10, 1, 0, 2, 0, 3, 0, 0x08, 0xff, 0x7f, 0, 0, 0, 0],
    rc := [0, 0, -5] }

/-! ## Records one after the other -/

/-- One pass of the `for` loop of `st_asm330lhhx_read_fifo`: what the pass reads, which
is the `notify` and `delta` of its drain, the chunk buffer and the offset of the record. -/
structure Step where
  notify : Int
  delta : Int
  buf : List Nat
  i : Nat
deriving DecidableEq, Repr

/-- The records of a list of passes handled in order by the body of the `for` loop,
within a chunk, from chunk to chunk and from drain to drain. -/
def process (cfg : Config) (steps : List Step) (st : Loop) : Loop :=
  steps.foldl (fun st s => read_fifo_record cfg s.notify s.delta s.buf st s.i) st

/-- Whether the record of a pass is a sample of the device in slot `id` that is ready:
its tag is not the timestamp tag, belongs to that device, and its 16-bit ready field read
as `s16` is below `ST_ASM330LHHX_SAMPLE_DISCHARD`. -/
def Step.is_ready_sample_of (hw : Hw) (id : Nat) (s : Step) : Bool :=
  decide (byte s.buf s.i >>> 3 ≠ ST_ASM330LHHX_TS_TAG) &&
  decide (st_asm330lhhx_get_iiodev_from_tag hw (byte s.buf s.i >>> 3) = some id) &&
  decide (s16 (get_unaligned_le16 s.buf (s.i + ST_ASM330LHHX_TAG_SIZE)) <
    ST_ASM330LHHX_SAMPLE_DISCHARD)

/-- Two driver states send every tag to the same device: same enable mask and the same
slots of `iio_devs` in use. -/
def same_routing (a b : Hw) : Prop :=
  a.enable_mask = b.enable_mask ∧
  ∀ j, (a.iio_devs.getD j none).isSome = (b.iio_devs.getD j none).isSome

/-- The statements of the timestamp branch of the `for` loop that recompute the rollover
count, the stored ticks and the hardware time from the tick value `val` of the record. -/
def timestamp_tick (hw : Hw) (val : Nat) : Hw :=
  { hw with
    hw_ts_high := if hw.val_ts_old > val then u32 (hw.hw_ts_high + 1) else hw.hw_ts_high
    val_ts_old := val
    hw_ts := s64 (((val : Int) +
      ((if hw.val_ts_old > val then u32 (hw.hw_ts_high + 1) else hw.hw_ts_high : Nat) : Int) *
        2 ^ 32) * (hw.ts_delta_ns : Int)) }

/-- The example driver with decimation factor 1 on the accelerometer. -/
def example_hw_decimating : Hw :=
  { example_hw with iio_devs := [some {}, some { decimator := 1 }, none, none, none, none] }

/-- A device holding one ready accelerometer record. -/
def example_dev_accel : Dev :=
  { fifo_status1 := 1, fifo := [0x10, 1, 0, 2, 0, 3, 0] }

/-- A chunk buffer holding a ready accelerometer record, a timestamp record (tick 101)
and a second ready accelerometer record. -/
def example_buf : List Nat :=
  [0x10, 1, 0, 2, 0, 3, 0, 0x20, 101, 0, 0, 0, 0, 0, 0x10, 4, 0, 5, 0, 6, 0]

/-- The three records of `example_buf`, offset by offset. -/
def example_steps : List Step :=
  [{ notify := 0, delta := 10000, buf := example_buf, i := 0 },
   { notify := 0, delta := 10000, buf := example_buf, i := 7 },
   { notify := 0, delta := 10000, buf := example_buf, i := 14 }]

/-! ## Watermark -/

/-- C `a & ~m` on non-negative values: the bits of `a` that are not bits of `m`. -/
def and_not (a m : Nat) : Nat := a ^^^ (a &&& m)

/-- Kernel call `regmap_read(hw->regmap, addr + offset, &data)`: the return code, the
value put in `data` (left at its initial 0 when the read fails) and the device
afterwards. -/
def regmap_read (dev : Dev) (addr : Reg) (offset : Nat) : Int × Nat × Dev :=
  let err := dev.rc.headD 0
  let dev1 := { dev with rc := dev.rc.tail }
  if err < 0 then (err, 0, dev1)
  else
    match addr with
    | Reg.ST_ASM330LHHX_REG_FIFO_CTRL1_ADDR =>
        (err, (if offset = 0 then dev.fifo_ctrl1 else if offset = 1 then dev.fifo_ctrl2
          else 0) % 256, dev1)
    | _ => (err, 0, dev1)

/-- Kernel call `regmap_bulk_write(hw->regmap, addr, data, len)`: the return code and the
device afterwards. A failed write leaves the registers as they were. -/
def regmap_bulk_write (dev : Dev) (addr : Reg) (data : List Nat) : Int × Dev :=
  let err := dev.rc.headD 0
  let dev1 := { dev with rc := dev.rc.tail }
  if err < 0 then (err, dev1)
  else
    match addr with
    | Reg.ST_ASM330LHHX_REG_FIFO_CTRL1_ADDR =>
        (err, { dev1 with
          fifo_ctrl1 := data.getD 0 dev.fifo_ctrl1
          fifo_ctrl2 := data.getD 1 dev.fifo_ctrl2 })
    | _ => (err, dev1)

/-- The ids `ST_ASM330LHHX_ID_GYRO` .. `ST_ASM330LHHX_ID_EXT1` in the order of the `for`
loop of `st_asm330lhhx_update_watermark`. -/
def watermark_ids : List Nat :=
  List.range' ST_ASM330LHHX_ID_GYRO (ST_ASM330LHHX_ID_EXT1 + 1 - ST_ASM330LHHX_ID_GYRO)

/-- One pass of the `for` loop of `st_asm330lhhx_update_watermark` with `sensor` the
sensor of slot `id`. A sensor carries the id of its slot, so `cur_sensor->id` is `i`
and `cur_sensor == sensor` is `i = id`. -/
def update_watermark_step (hw : Hw) (id watermark : Nat) (fifo_watermark : Nat)
    (i : Nat) : Nat :=
  match iio_dev_at hw i with
  | none => fifo_watermark
  | some cur =>
      if hw.enable_mask &&& BIT cur = 0 then fifo_watermark
      else
        let cur_watermark := u16 (if cur = id then watermark else (iio_priv hw cur).watermark)
        min (u16 fifo_watermark) (u16 cur_watermark)

/-- The value of `fifo_watermark` in `st_asm330lhhx_update_watermark` when the register
accesses start: the scan of the sensors followed by the `hw->resuming` test. -/
def update_watermark_threshold (cfg : Config) (hw : Hw) (id watermark : Nat) : Nat :=
  let watermark := u16 watermark
  let fifo_watermark :=
    watermark_ids.foldl (update_watermark_step hw id watermark) (u16 cfg.max_fifo_depth)
  if hw.resuming then watermark
  else max (u16 fifo_watermark) (u16 (if hw.hw_timestamp_enabled then 2 else 1))

/-- The word `((data << 8) & ~ST_ASM330LHHX_REG_FIFO_WTM_MASK) |
(fifo_watermark & ST_ASM330LHHX_REG_FIFO_WTM_MASK)` stored in the `u16`. -/
def merge_watermark (cfg : Config) (data fifo_watermark : Nat) : Nat :=
  u16 (and_not (data <<< 8) cfg.fifo_wtm_mask ||| (fifo_watermark &&& cfg.fifo_wtm_mask))

/-- The two bytes of `cpu_to_le16(x)` in memory order. -/
def cpu_to_le16 (x : Nat) : List Nat := [u16 x % 256, u16 x / 256]

/-- `st_asm330lhhx_update_watermark(sensor, watermark)` with `sensor` the sensor of slot
`id`. -/
def st_asm330lhhx_update_watermark (cfg : Config) (hw : Hw) (dev : Dev) (id watermark : Nat) :
    Result :=
  let fifo_watermark := update_watermark_threshold cfg hw id watermark
  let r := regmap_read dev Reg.ST_ASM330LHHX_REG_FIFO_CTRL1_ADDR 1
  let trace := [Action.regmap_read Reg.ST_ASM330LHHX_REG_FIFO_CTRL1_ADDR 1]
  if r.1 < 0 then { ret := r.1, hw := hw, dev := r.2.2, trace := trace }
  else
    let data := r.2.1
    let fifo_watermark := merge_watermark cfg data fifo_watermark
    let wdata := cpu_to_le16 fifo_watermark
    let w := regmap_bulk_write r.2.2 Reg.ST_ASM330LHHX_REG_FIFO_CTRL1_ADDR wdata
    { ret := w.1, hw := { hw with fifo_watermark := fifo_watermark }, dev := w.2,
      trace := trace ++ [Action.regmap_bulk_write Reg.ST_ASM330LHHX_REG_FIFO_CTRL1_ADDR wdata] }

/-- What `st_asm330lhhx_set_watermark` gets from outside the buffer code. -/
structure WatermarkRequest where
  /-- Result of `asm330lhhx_check_acc_gyro_early_buff_enable_flag(sensor)`. -/
  early_buff : Bool := false
  /-- Return code of `iio_device_claim_direct_mode`. -/
  claim : Int := 0
  /-- Return code of `kstrtoint(buf, 10, &val)`. -/
  kstrtoint : Int := 0
  /-- The parsed `val`. -/
  val : Int := 0
  /-- The `size` of the written text. -/
  size : Nat := 0
deriving DecidableEq, Repr

/-- `-EBUSY`. -/
def EBUSY : Int := 16

/-- `st_asm330lhhx_set_watermark` on the device of slot `id`. The `int val` reaches
`st_asm330lhhx_update_watermark` as a `u16`, and the stored request is only read back
through a `u16`, so it is kept as that value. -/
def st_asm330lhhx_set_watermark (cfg : Config) (hw : Hw) (dev : Dev) (id : Nat)
    (req : WatermarkRequest) : Result :=
  if req.early_buff then { ret := -EBUSY, hw := hw, dev := dev, trace := [] }
  else if req.claim ≠ 0 then { ret := req.claim, hw := hw, dev := dev, trace := [] }
  else if req.kstrtoint < 0 then { ret := req.kstrtoint, hw := hw, dev := dev, trace := [] }
  else
    let val := (req.val % 2 ^ 16).toNat
    let r := st_asm330lhhx_update_watermark cfg hw dev id val
    if r.ret < 0 then r
    else
      { r with
        ret := req.size
        hw := set_sensor r.hw id { iio_priv r.hw id with watermark := val } }

/-! ## Enabling and disabling a sensor -/

/-- Transport call `st_asm330lhhx_update_bits_locked`: the return code and the device
afterwards. -/
def st_asm330lhhx_update_bits_locked (dev : Dev) : Int × Dev :=
  (dev.rc.headD 0, { dev with rc := dev.rc.tail })

/-- Modelled from the spec: `st_asm330lhhx_sensor_set_enable(sensor, enable)` of
st_asm330lhhx_core.c for the sensor of slot `id`; it toggles the sensor-on bit through
the register transport and, when that succeeds, records the sensor as enabled or
disabled in `hw->enable_mask`. -/
def st_asm330lhhx_sensor_set_enable (hw : Hw) (dev : Dev) (id : Nat) (enable : Bool) :
    Result :=
  let w := st_asm330lhhx_write_locked dev
  let trace := [Action.set_enable id enable]
  if w.1 < 0 then { ret := w.1, hw := hw, dev := w.2, trace := trace }
  else if enable then
    { ret := 0, hw := { hw with enable_mask := hw.enable_mask ||| BIT id }, dev := w.2,
      trace := trace }
  else
    { ret := 0, hw := { hw with enable_mask := and_not hw.enable_mask (BIT id) }, dev := w.2,
      trace := trace }

/-- Modelled from the spec: `st_asm330lhhx_shub_set_enable(sensor, enable)` of
st_asm330lhhx_shub.c, the bus-shuttle collaborator that enables or disables a
bus-relayed channel; seen from the buffer code it behaves as
`st_asm330lhhx_sensor_set_enable`. -/
def st_asm330lhhx_shub_set_enable (hw : Hw) (dev : Dev) (id : Nat) (enable : Bool) :
    Result :=
  st_asm330lhhx_sensor_set_enable hw dev id enable

/-- What a call of `st_asm330lhhx_update_fifo` gets from outside the buffer code. -/
structure UpdateEnv where
  /-- Return code of `st_asm330lhhx_get_batch_val(sensor, sensor->odr, sensor->uodr, &data)`. -/
  batch_err : Int := 0
  /-- The `data` it yields. -/
  batch_data : Nat := 0
  /-- Return code of `st_asm330lhhx_get_batch_val(acc_sensor, sensor->odr, sensor->uodr,
  &data)` in the Temp branch. -/
  acc_batch_err : Int := 0
  /-- The `data` it yields. -/
  acc_batch_data : Nat := 0
  /-- Reading of `st_asm330lhhx_get_time_ns()` in `st_asm330lhhx_reset_hwts`. -/
  now : Int := 0
deriving DecidableEq, Repr

/-- `st_asm330lhhx_set_sensor_batching_odr(sensor, enable)` for the sensor of slot `id`. -/
def st_asm330lhhx_set_sensor_batching_odr (hw : Hw) (dev : Dev) (id : Nat) (enable : Bool)
    (env : UpdateEnv) : Result :=
  if enable = true ∧ env.batch_err < 0 then
    { ret := env.batch_err, hw := hw, dev := dev, trace := [] }
  else
    let data := if enable then env.batch_data % 256 else 0
    let w := st_asm330lhhx_update_bits_locked dev
    { ret := w.1, hw := hw, dev := w.2,
      trace := [Action.update_bits (Reg.batching_reg id) data] }

/-- First `if` after `disable_irq` in `st_asm330lhhx_update_fifo`: enable or disable the
sensor and program its batching register. -/
def update_fifo_enable (hw : Hw) (dev : Dev) (id : Nat) (enable : Bool) (env : UpdateEnv) :
    Result :=
  if id = ST_ASM330LHHX_ID_EXT0 ∨ id = ST_ASM330LHHX_ID_EXT1 then
    st_asm330lhhx_shub_set_enable hw dev id enable
  else
    let r := st_asm330lhhx_sensor_set_enable hw dev id enable
    if r.ret < 0 then r
    else
      let b := st_asm330lhhx_set_sensor_batching_odr r.hw r.dev id enable env
      { b with trace := r.trace ++ [Action.msleep 100] ++ b.trace }

/-- The `if (sensor->id == ST_ASM330LHHX_ID_TEMP)` block of `st_asm330lhhx_update_fifo`. -/
def update_fifo_temp (hw : Hw) (dev : Dev) (id : Nat) (enable : Bool) (env : UpdateEnv) :
    Result :=
  if id = ST_ASM330LHHX_ID_TEMP ∧
      hw.enable_mask &&& (BIT ST_ASM330LHHX_ID_ACC ||| BIT ST_ASM330LHHX_ID_GYRO) = 0 then
    if enable = true ∧ env.acc_batch_err < 0 then
      { ret := env.acc_batch_err, hw := hw, dev := dev, trace := [] }
    else
      let data := if enable then env.acc_batch_data % 256 else 0
      let w := st_asm330lhhx_update_bits_locked dev
      { ret := w.1, hw := hw, dev := w.2,
        trace := [Action.update_bits (Reg.batching_reg ST_ASM330LHHX_ID_ACC) data] }
  else { ret := 0, hw := hw, dev := dev, trace := [] }

/-- The sub-steps of `st_asm330lhhx_update_fifo` from `disable_irq` to the watermark:
what is left to do when they return without error is the mode. -/
def update_fifo_prepare (cfg : Config) (hw : Hw) (dev : Dev) (id : Nat) (enable : Bool)
    (env : UpdateEnv) : Result :=
  let r1 := update_fifo_enable hw dev id enable env
  if r1.ret < 0 then r1
  else
    let r2 := update_fifo_temp r1.hw r1.dev id enable env
    if r2.ret < 0 then { r2 with trace := r1.trace ++ r2.trace }
    else
      let r3 := st_asm330lhhx_update_watermark cfg r2.hw r2.dev id (iio_priv r2.hw id).watermark
      { r3 with trace := r1.trace ++ r2.trace ++ r3.trace }

/-- The last `if` of `st_asm330lhhx_update_fifo`, entered with `err` the return code of the
watermark update. The return code of `st_asm330lhhx_reset_hwts` is not looked at. -/
def update_fifo_mode (hw : Hw) (dev : Dev) (enable : Bool) (env : UpdateEnv) (err : Int) :
    Result :=
  if enable = true ∧ hw.fifo_mode = FifoMode.ST_ASM330LHHX_FIFO_BYPASS then
    let r := st_asm330lhhx_reset_hwts hw dev env.now
    let m := st_asm330lhhx_set_fifo_mode r.hw r.dev FifoMode.ST_ASM330LHHX_FIFO_CONT
    { m with trace := r.trace ++ m.trace }
  else if hw.enable_mask = 0 then
    st_asm330lhhx_set_fifo_mode hw dev FifoMode.ST_ASM330LHHX_FIFO_BYPASS
  else { ret := err, hw := hw, dev := dev, trace := [] }

/-- The two `if`s on `delayed_enable_gyro` at the head of `st_asm330lhhx_update_fifo`. -/
def update_fifo_gyro_delay (hw : Hw) (id : Nat) (enable : Bool) : Hw × List Action :=
  let hw1 :=
    if id = ST_ASM330LHHX_ID_GYRO ∧ enable = false then { hw with delayed_enable_gyro := true }
    else hw
  if id = ST_ASM330LHHX_ID_GYRO ∧ enable = true ∧ hw1.delayed_enable_gyro = true then
    ({ hw1 with delayed_enable_gyro := false }, [Action.msleep hw1.asm330lhhx_delay_gyro])
  else (hw1, [])

/-- `st_asm330lhhx_update_fifo(iio_dev, enable)` for the device of slot `id`. -/
def st_asm330lhhx_update_fifo (cfg : Config) (hw : Hw) (dev : Dev) (id : Nat) (enable : Bool)
    (env : UpdateEnv) : Result :=
  let g := update_fifo_gyro_delay hw id enable
  let p := update_fifo_prepare cfg g.1 dev id enable env
  if p.ret < 0 then
    { p with trace := g.2 ++ [Action.disable_irq] ++ p.trace ++ [Action.enable_irq] }
  else
    let m := update_fifo_mode p.hw p.dev enable env p.ret
    { m with trace := g.2 ++ [Action.disable_irq] ++ p.trace ++ m.trace ++ [Action.enable_irq] }

/-- One call of `st_asm330lhhx_update_fifo` in a sequence. -/
structure UpdateCall where
  id : Nat
  enable : Bool
  env : UpdateEnv := {}
deriving DecidableEq, Repr

/-- A sequence of `st_asm330lhhx_update_fifo` calls: for each call the driver state it
started from and its outcome. The return codes of the register accesses come from
`dev.rc` in order, so every pattern of sub-step failures is a choice of `dev.rc` and of
the `env` of the calls. -/
def run_update_fifo (cfg : Config) (hw : Hw) (dev : Dev) : List UpdateCall → List (Hw × Result)
  | [] => []
  | c :: rest =>
      let r := st_asm330lhhx_update_fifo cfg hw dev c.id c.enable c.env
      (hw, r) :: run_update_fifo cfg r.hw r.dev rest

/-- A buffer whose one record has tag 0x1f. -/
def example_buf_unknown : List Nat := [0xff, 1, 2, 3, 4, 5, 6]

/-- The word `st_asm330lhhx_update_watermark` writes once the read-back has succeeded: the
high byte read back merged with the threshold. -/
def update_watermark_word (cfg : Config) (hw : Hw) (dev : Dev) (id watermark : Nat) : Nat :=
  merge_watermark cfg (dev.fifo_ctrl2 % 256) (update_watermark_threshold cfg hw id watermark)

/-- Whether the `for` loop of `st_asm330lhhx_update_watermark` takes the sensor of slot
`i` into account: the slot is registered and its bit of `hw->enable_mask` is set. -/
def watermark_enabled (hw : Hw) (i : Nat) : Bool :=
  (iio_dev_at hw i).isSome && decide (hw.enable_mask &&& BIT i ≠ 0)

/-- The requested depths of the enabled registered channels Gyro .. Ext1, with `watermark`
in the place of the stored request of channel `id`. -/
def enabled_requests (hw : Hw) (id watermark : Nat) : List Nat :=
  (watermark_ids.filter (watermark_enabled hw)).map
    (fun i => if i = id then watermark else (iio_priv hw i).watermark)

/-- Gyro (request 5) and Accel (request 10) enabled, Temp (request 1) registered and
disabled, hardware timestamping on. -/
def example_hw_watermark : Hw :=
  { enable_mask := BIT ST_ASM330LHHX_ID_GYRO ||| BIT ST_ASM330LHHX_ID_ACC
    hw_timestamp_enabled := true
    iio_devs := [some { watermark := 5 }, some { watermark := 10 }, some { watermark := 1 },
      none, none] }

/-- The same state while the device resumes. -/
def example_hw_watermark_resuming : Hw := { example_hw_watermark with resuming := true }

/-- A device on which the read-back of the high byte succeeds and the write that follows
fails with -5. -/
def example_dev_write_fails : Dev := { rc := [0, -5] }

/-- A device on which the read-back of the high byte fails with -5. -/
def example_dev_read_fails : Dev := { rc := [-5] }

/-- Two driver states have the same FIFO mode and the same clock reconciliation state. -/
def same_mode_and_clock (a b : Hw) : Prop :=
  a.fifo_mode = b.fifo_mode ∧ a.operational = b.operational ∧ a.ts = b.ts ∧
  a.ts_offset = b.ts_offset ∧ a.val_ts_old = b.val_ts_old ∧ a.hw_ts_high = b.hw_ts_high ∧
  a.hw_ts = b.hw_ts ∧ a.tsample = b.tsample

/-- The state at probe time: mode Bypass, nothing enabled, Gyro, Accel and Temp
registered, hardware timestamping on. -/
def example_hw_initial : Hw :=
  { hw_timestamp_enabled := true
    iio_devs := [some { watermark := 5 }, some { watermark := 10 }, some { watermark := 1 },
      none, none] }

/-- Register accesses of an enable of Accel from Bypass, in order: sensor enable, batching
register, watermark read-back, watermark write, timestamp write, mode write. Here the
mode write fails with -5. -/
def example_dev_mode_write_fails : Dev := { rc := [0, 0, 0, 0, 0, -5] }

/-- The same accesses with the timestamp write of `st_asm330lhhx_reset_hwts` failing
with -5 and the mode write succeeding. -/
def example_dev_timestamp_write_fails : Dev := { rc := [0, 0, 0, 0, -5, 0] }

/-- An enable of Accel whose accesses all succeed, then a disable of Accel whose accesses
are sensor disable, batching register, watermark read-back, watermark write and a mode
write that fails with -5. -/
def example_dev_disable_mode_write_fails : Dev :=
  { rc := [0, 0, 0, 0, 0, 0, 0, 0, 0, 0, -5] }

/-- A hardware clock 32768 ns short of 2^63 ns: rollover count 65535, tick period
32768 ns, a flush in progress so that the offset filter stays out of the way. -/
def example_hw_late : Hw :=
  { example_hw with hw_ts_high := 65535, val_ts_old := 0, ts_delta_ns := 32768, flush := true }

/-- A timestamp record with tick 0xFFFFFFFF followed by one with tick 0. -/
def example_buf_wrap : List Nat :=
  [0x20, 0xff, 0xff, 0xff, 0xff, 0, 0, 0x20, 0, 0, 0, 0, 0, 0]

/-- The hardware clock of a driver state: stored low ticks, rollover count, hardware time
and tick period. -/
def hw_clock (hw : Hw) : Nat × Nat × Int × Nat :=
  (hw.val_ts_old, hw.hw_ts_high, hw.hw_ts, hw.ts_delta_ns)

/-- The example driver with a flush in progress. -/
def example_hw_flush : Hw := { example_hw with flush := true }

/-- A device holding a timestamp record (tick 100), a ready accelerometer record, a
timestamp record (tick 101) and a second ready accelerometer record. -/
def example_dev_two_ticks : Dev :=
  { fifo_status1 := 4,
    fifo := [0x20, 100, 0, 0, 0, 0, 0, 0x10, 1, 0, 2, 0, 3, 0,
             0x20, 101, 0, 0, 0, 0, 0, 0x10, 4, 0, 5, 0, 6, 0] }

/-- The example driver after one rollover of the hardware tick counter. -/
def example_hw_rolled : Hw := { example_hw with hw_ts_high := 1 }

/-- A driver with the five channels registered and only Ext1 enabled. -/
def example_hw_ext : Hw :=
  { example_hw with
    enable_mask := BIT ST_ASM330LHHX_ID_EXT1
    iio_devs := [some {}, some {}, some {}, some {}, some {}] }

/-- A chunk buffer holding an accelerometer record whose bytes 1-2 are 0x8000. -/
def example_buf_negative : List Nat := [0x10, 0x00, 0x80, 2, 0, 3, 0]

/-- The example driver at hardware time 2500000 ns. -/
def example_hw_running : Hw := { example_hw with val_ts_old := 100, hw_ts := 2500000 }

/-- Whether an action is one the chunk loop of `st_asm330lhhx_read_fifo` performs: a
register read, or the forwarding of `iio_buf` filled with the
`ST_ASM330LHHX_SAMPLE_SIZE` bytes of a sample. -/
def Action.is_drain_step : Action → Bool
  | Action.read _ _ => true
  | Action.push _ data _ => decide (data.length = ST_ASM330LHHX_SAMPLE_SIZE)
  | _ => false

/-- A resuming driver in front of `example_dev`, with a device registered in the
wake-replay slot of `example_cfg`. -/
def example_hw_resuming : Hw :=
  { example_hw with
    resuming := true
    resume_sample_tick_ns := 1000
    iio_devs := [some {}, some {}, none, none, none, some {}] }

/-- The lengths of the reads of the FIFO data register in a trace, in order. -/
def data_read_lengths : List Action → List Nat
  | [] => []
  | Action.read Reg.ST_ASM330LHHX_REG_FIFO_DATA_OUT_TAG_ADDR len :: rest =>
      len :: data_read_lengths rest
  | _ :: rest => data_read_lengths rest

/-- The samples forwarded in a trace, in order. -/
def pushes (trace : List Action) : List Action := trace.filter Action.is_push

/-- The records of a drain of `depth` records taken one by one from the content `fifo` of
the FIFO, oldest first: record `m` is the pass of the `for` loop over the seven bytes at
offset `m * ST_ASM330LHHX_FIFO_SAMPLE_SIZE`. -/
def fifo_steps (notify delta : Int) (fifo : List Nat) (depth : Nat) : List Step :=
  (List.range depth).map (fun m =>
    { notify := notify, delta := delta, buf := fifo, i := m * ST_ASM330LHHX_FIFO_SAMPLE_SIZE })

/-- The lengths of the chunk reads of a drain of `depth` records when the local buffer of
60 records is filled as long as records remain: full buffers, then the remainder. -/
def chunk_lengths (depth : Nat) : List Nat :=
  List.replicate (depth / 60) (60 * ST_ASM330LHHX_FIFO_SAMPLE_SIZE) ++
    (if depth % 60 = 0 then [] else [depth % 60 * ST_ASM330LHHX_FIFO_SAMPLE_SIZE])

/-- Two states of the record loop that differ at most in the register reads of their
traces. -/
def same_effect (a b : Loop) : Prop :=
  a.hw = b.hw ∧ a.ts_irq = b.ts_irq ∧ pushes a.trace = pushes b.trace

/-- A device reporting 61 records, that is one full buffer and one record more: a
timestamp record (tick 100), a ready accelerometer record and records of zero bytes. -/
def example_dev_two_chunks : Dev :=
  { fifo_status1 := 61,
    fifo := [0x20, 100, 0, 0, 0, 0, 0, 0x10, 1, 0, 2, 0, 3, 0] }

/-- The provisional timestamp `ts_irq` of the `k`-th record of a drain: its value after
the first `k` records of the FIFO went through the `for` loop, starting from the
variables `st_asm330lhhx_read_fifo` enters the chunk loop with. -/
def provisional_timestamp (cfg : Config) (hw : Hw) (dev : Dev) (notify now : Int) (k : Nat) :
    Int :=
  (process cfg
    ((fifo_steps notify (div_s64 hw.delta_ts (status_fifo_depth cfg dev)) dev.fifo
      (status_fifo_depth cfg dev)).take k)
    (read_fifo_begin hw { dev with rc := dev.rc.tail } notify now
      (status_fifo_depth cfg dev)).loop).ts_irq

/-- The example driver with an interrupt period that the depth of `example_dev` does not
divide. -/
def example_hw_uneven : Hw := { example_hw with delta_ts := 30001 }

/-- The contexts that call `st_asm330lhhx_read_fifo` between `mutex_lock(&hw->fifo_lock)`
and `mutex_unlock(&hw->fifo_lock)`: a caller of `st_asm330lhhx_flush_fifo` and the slow
handler `st_asm330lhhx_handler_thread`. -/
inductive Context where
  | flush
  | handler
deriving DecidableEq, Repr

/-- Where a context is in its drain. -/
inductive Pc where
  /-- Before `mutex_lock(&hw->fifo_lock)`. -/
  | start
  /-- The lock is held and `st_asm330lhhx_read_fifo` is about to be entered. -/
  | entry
  /-- In `st_asm330lhhx_read_fifo`, before the test of `while (read_len < fifo_len)`, with
  the locals and what the call did so far. -/
  | loop (fifo_len : Nat) (delta : Int) (read_len : Nat) (ts_irq : Int) (trace : List Action)
  /-- `st_asm330lhhx_read_fifo` has returned `ret`; the lock is still held. -/
  | returned (ret : Int) (trace : List Action)
  /-- After `mutex_unlock(&hw->fifo_lock)`. -/
  | finished (ret : Int) (trace : List Action)
deriving DecidableEq, Repr

/-- Whether the context holds the lock. -/
def Pc.inside : Pc → Bool
  | Pc.entry => true
  | Pc.loop _ _ _ _ _ => true
  | Pc.returned _ _ => true
  | _ => false

/-- Whether the context has released the lock. -/
def Pc.is_finished : Pc → Bool
  | Pc.finished _ _ => true
  | _ => false

/-- The arguments of the two calls: the slot of the device that is flushed and what
`st_asm330lhhx_mlc_check_status` gave the slow handler. -/
structure DrainCalls where
  id : Nat
  notify : Int
deriving DecidableEq, Repr

/-- The `notify` argument with which a context calls `st_asm330lhhx_read_fifo`. -/
def Context.notify (p : DrainCalls) : Context → Int
  | Context.flush => 0
  | Context.handler => p.notify

/-- The driver call a context makes. -/
def Context.call (p : DrainCalls) (now : Int) : Context → Call
  | Context.flush => Call.flush_fifo p.id now
  | Context.handler => Call.handler_thread p.notify now

/-- The driver state with which a context enters `st_asm330lhhx_read_fifo`:
`st_asm330lhhx_flush_fifo` first sets `hw->delta_ts`, `hw->ts` and the flush flag, the slow
handler changes nothing. -/
def Context.enter (now : Int) (hw : Hw) : Context → Hw
  | Context.flush => { hw with delta_ts := s64 (now - hw.ts), ts := now, flush := true }
  | Context.handler => hw

/-- A read of a FIFO register as the transport served it: the context that issued it, the
register, the number of bytes asked for, the return code and the bytes that left the device
FIFO through it. -/
structure FifoRead where
  ctx : Context
  reg : Reg
  len : Nat
  err : Int
  bytes : List Nat
deriving DecidableEq, Repr

/-- A read that took out of the device FIFO what it stands for: the whole `len` bytes if it
is a read of the data register that succeeded, nothing otherwise. -/
def FifoRead.whole (e : FifoRead) : Bool :=
  if e.reg = Reg.ST_ASM330LHHX_REG_FIFO_DATA_OUT_TAG_ADDR ∧ ¬ e.err < 0 then
    decide (e.bytes.length = e.len)
  else decide (e.bytes = [])

/-- The bytes that a list of reads took out of the device FIFO, in order. -/
def taken_bytes : List FifoRead → List Nat
  | [] => []
  | e :: rest => e.bytes ++ taken_bytes rest

/-- The driver, the device and the two contexts. `reads` is the list of the FIFO register
reads in the order the transport serves them; `captured` is every byte that has been in the
device FIFO, oldest first. -/
structure Sys where
  hw : Hw
  dev : Dev
  fifo_lock : Option Context
  reads : List FifoRead
  captured : List Nat
  pc : Context → Pc

/-- Modelled from the spec: the drain lock excludes concurrent drains. The call
`mutex_lock(&hw->fifo_lock)` of context `c` goes through only while no context holds the
lock, which `c` holds from then on; `none` is a caller that has to wait. -/
def mutex_lock (lock : Option Context) (c : Context) : Option (Option Context) :=
  if lock = none then some (some c) else none

/-- Modelled from the spec: the call `mutex_unlock(&hw->fifo_lock)` of the holder frees
the lock. -/
def mutex_unlock (_lock : Option Context) : Option Context := none

/-- Modelled from the spec: the low bits of the 16-bit status register are the current
FIFO depth in records. The device with its status word showing the number of whole records
that its FIFO holds. -/
def hardware_status (dev : Dev) : Dev :=
  { dev with
    fifo_status1 := dev.fifo.length / ST_ASM330LHHX_FIFO_SAMPLE_SIZE % 256
    fifo_status2 := dev.fifo.length / ST_ASM330LHHX_FIFO_SAMPLE_SIZE / 256 % 256 }

/-- The bytes at the head of the FIFO of `before` that are no longer in the FIFO of
`after`. -/
def fifo_taken (before after : Dev) : List Nat :=
  before.fifo.take (before.fifo.length - after.fifo.length)

/-- The step `mutex_lock(&hw->fifo_lock)` together with the statements of
`st_asm330lhhx_flush_fifo` up to the call of `st_asm330lhhx_read_fifo`. What the slow
handler does before it takes the lock (`hw->handler_lock`,
`st_asm330lhhx_set_cpu_idle_state`, `st_asm330lhhx_mlc_check_status`) touches neither the
FIFO registers nor the variables of the drain and is left out. -/
def sys_lock (s : Sys) (c : Context) (now : Int) : Sys :=
  match mutex_lock s.fifo_lock c with
  | none => s
  | some lock =>
    { s with
      hw := c.enter now s.hw
      fifo_lock := lock
      pc := Function.update s.pc c Pc.entry }

/-- The statements of `st_asm330lhhx_read_fifo` up to the chunk loop, with the read of the
status register, which the device answers with the depth of its FIFO at that moment. -/
def sys_entry (cfg : Config) (p : DrainCalls) (s : Sys) (c : Context) (now : Int) : Sys :=
  if !s.hw.operational then
    { s with pc := Function.update s.pc c (Pc.returned 0 []) }
  else
    let r := st_asm330lhhx_read_locked (hardware_status s.dev)
      Reg.ST_ASM330LHHX_REG_FIFO_STATUS1_ADDR 2
    let trace := [Action.read Reg.ST_ASM330LHHX_REG_FIFO_STATUS1_ADDR 2]
    let reads := s.reads ++
      [{ ctx := c, reg := Reg.ST_ASM330LHHX_REG_FIFO_STATUS1_ADDR, len := 2, err := r.1,
         bytes := fifo_taken s.dev r.2.2 }]
    if r.1 < 0 then
      { s with dev := r.2.2, reads := reads, pc := Function.update s.pc c (Pc.returned r.1 trace) }
    else
      let fifo_depth := u16 (get_unaligned_le16 r.2.1 0 &&& cfg.fifo_status_diff)
      if fifo_depth = 0 then
        { s with dev := r.2.2, reads := reads, pc := Function.update s.pc c (Pc.returned 0 trace) }
      else
        let b := read_fifo_begin s.hw r.2.2 (c.notify p) now fifo_depth
        { s with
          hw := b.loop.hw
          dev := b.dev
          reads := reads
          pc := Function.update s.pc c
            (Pc.loop (fifo_depth * ST_ASM330LHHX_FIFO_SAMPLE_SIZE)
              (div_s64 s.hw.delta_ts fifo_depth) b.read_len b.loop.ts_irq b.loop.trace) }

/-- One test of `while (read_len < fifo_len)` of `st_asm330lhhx_read_fifo`: a pass of the
loop with its read of the data register, or the statements after the loop. -/
def sys_pass (cfg : Config) (p : DrainCalls) (s : Sys) (c : Context)
    (fifo_len : Nat) (delta : Int) (read_len : Nat) (ts_irq : Int) (trace : List Action) : Sys :=
  let st : Drain :=
    { loop := { hw := s.hw, trace := trace, ts_irq := ts_irq }, dev := s.dev,
      read_len := read_len }
  if read_len < fifo_len then
    let r := read_fifo_chunk cfg (c.notify p) fifo_len delta st
    let reads := s.reads ++
      [{ ctx := c, reg := Reg.ST_ASM330LHHX_REG_FIFO_DATA_OUT_TAG_ADDR,
         len := min (fifo_len - read_len) (60 * ST_ASM330LHHX_FIFO_SAMPLE_SIZE), err := r.1,
         bytes := fifo_taken s.dev r.2.dev }]
    if r.1 < 0 then
      { s with
        hw := r.2.loop.hw
        dev := r.2.dev
        reads := reads
        pc := Function.update s.pc c (Pc.returned r.1 r.2.loop.trace) }
    else
      { s with
        hw := r.2.loop.hw
        dev := r.2.dev
        reads := reads
        pc := Function.update s.pc c
          (Pc.loop fifo_len delta r.2.read_len r.2.loop.ts_irq r.2.loop.trace) }
  else
    let e := read_fifo_end cfg (c.notify p) (0, st)
    { s with hw := e.hw, dev := e.dev, pc := Function.update s.pc c (Pc.returned e.ret e.trace) }

/-- The statements between the return of `st_asm330lhhx_read_fifo` and
`mutex_unlock(&hw->fifo_lock)`, with the unlock: `sensor->dec_counter = 0` in
`st_asm330lhhx_flush_fifo`, `clear_bit(ST_ASM330LHHX_HW_FLUSH, &hw->state)` in the slow
handler. The event the flush pushes after the unlock is left out. -/
def sys_unlock (p : DrainCalls) (s : Sys) (c : Context) (ret : Int) (trace : List Action) :
    Sys :=
  { s with
    hw :=
      match c with
      | Context.flush => set_sensor s.hw p.id { iio_priv s.hw p.id with dec_counter := 0 }
      | Context.handler => { s.hw with flush := false }
    fifo_lock := mutex_unlock s.fifo_lock
    pc := Function.update s.pc c (Pc.finished ret trace) }

/-- The next step of context `c`; `now` is what `st_asm330lhhx_get_time_ns()` returns if
the step calls it. A context that is waiting for the lock or has finished stays where it
is. -/
def sys_step (cfg : Config) (p : DrainCalls) (s : Sys) (c : Context) (now : Int) : Sys :=
  match s.pc c with
  | Pc.start => sys_lock s c now
  | Pc.entry => sys_entry cfg p s c now
  | Pc.loop fifo_len delta read_len ts_irq trace =>
      sys_pass cfg p s c fifo_len delta read_len ts_irq trace
  | Pc.returned ret trace => sys_unlock p s c ret trace
  | Pc.finished _ _ => s

/-- What happens next: a context takes a step, or the device captures the records `bytes`
and puts them at the end of its FIFO. -/
inductive Event where
  | run (c : Context) (now : Int)
  | capture (bytes : List Nat)
deriving DecidableEq, Repr

def sys_event (cfg : Config) (p : DrainCalls) (s : Sys) : Event → Sys
  | Event.run c now => sys_step cfg p s c now
  | Event.capture bytes =>
      { s with
        dev := { s.dev with fifo := s.dev.fifo ++ bytes }
        captured := s.captured ++ bytes }

/-- The two contexts before their calls, the lock free. -/
def sys_init (hw : Hw) (dev : Dev) : Sys :=
  { hw := hw, dev := dev, fifo_lock := none, reads := [], captured := dev.fifo,
    pc := fun _ => Pc.start }

/-- Any interleaving of the steps of the two contexts and of the device. -/
def sys_run (cfg : Config) (p : DrainCalls) (hw : Hw) (dev : Dev) (events : List Event) : Sys :=
  events.foldl (sys_event cfg p) (sys_init hw dev)

/-- What `sys_run` keeps true of the lock: a context is past `mutex_lock` and before
`mutex_unlock` exactly when it holds the lock; a context that has not taken the lock has
issued no read; and the reads are those of one context followed by those of the other, the
second one reading only when the first has released the lock. -/
def sys_inv (s : Sys) : Prop :=
  (∀ c, (s.pc c).inside = true ↔ s.fifo_lock = some c) ∧
  (∀ c, s.pc c = Pc.start → ∀ e ∈ s.reads, e.ctx ≠ c) ∧
  ∃ a l1 l2, s.reads = l1 ++ l2 ∧ (∀ e ∈ l1, e.ctx = a) ∧ (∀ e ∈ l2, e.ctx ≠ a) ∧
    (l2 ≠ [] → (s.pc a).is_finished = true)

/-- What `sys_run` keeps true of the bytes: every byte that has been in the device FIFO
was taken out by one read or is still there, in the order of capture; every read is
`FifoRead.whole`; and the bytes that a context in the chunk loop has still to ask for are
in the FIFO. -/
def sys_stream (s : Sys) : Prop :=
  s.captured = taken_bytes s.reads ++ s.dev.fifo ∧
  (∀ e ∈ s.reads, e.whole = true) ∧
  ∀ c fifo_len delta read_len ts_irq trace,
    s.pc c = Pc.loop fifo_len delta read_len ts_irq trace →
    fifo_len - read_len ≤ s.dev.fifo.length

/-- A flush that starts on `example_dev`, a record that the device captures once the flush
has read the FIFO, and the slow handler that waits for the lock and then drains. -/
def example_events : List Event :=
  [Event.run Context.flush 1030000, Event.run Context.handler 1030000,
   Event.run Context.flush 1030000, Event.run Context.handler 1030000,
   Event.run Context.flush 1030000,
   Event.capture [0x10, 7, 0, 8, 0, 9, 0],
   Event.run Context.handler 1030000,
   Event.run Context.flush 1030000, Event.run Context.flush 1030000,
   Event.run Context.handler 1060000, Event.run Context.handler 1060000,
   Event.run Context.handler 1060000, Event.run Context.handler 1060000,
   Event.run Context.handler 1060000]

/-- The context `c` taking `n` steps in a row. -/
def sys_steps (cfg : Config) (p : DrainCalls) (c : Context) (now : Int) : Nat → Sys → Sys
  | 0, s => s
  | n + 1, s => sys_steps cfg p c now n (sys_step cfg p s c now)

/-- The bytes that the device captures in a list of events, in order. -/
def captured_bytes : List Event → List Nat
  | [] => []
  | Event.run _ _ :: rest => captured_bytes rest
  | Event.capture bytes :: rest => bytes ++ captured_bytes rest

/-! # Theorems -/

/-! ## Machine integer facts -/

theorem s64_of_range {x : Int} (h1 : -2 ^ 63 ≤ x) (h2 : x < 2 ^ 63) : s64 x = x := by
  unfold s64
  rw [Int.emod_eq_of_lt (by omega) (by omega)]
  omega

theorem s64_range (x : Int) : -2 ^ 63 ≤ s64 x ∧ s64 x < 2 ^ 63 := by
  unfold s64
  have h1 := Int.emod_nonneg (x + 2 ^ 63) (show (2 ^ 64 : Int) ≠ 0 by norm_num)
  have h2 := Int.emod_lt_of_pos (x + 2 ^ 63) (show (0 : Int) < 2 ^ 64 by norm_num)
  constructor <;> omega

theorem byte_lt (buf : List Nat) (i : Nat) : byte buf i < 256 := by
  unfold byte
  omega

theorem get_unaligned_le16_lt (buf : List Nat) (p : Nat) : get_unaligned_le16 buf p < 65536 := by
  unfold get_unaligned_le16
  have h1 := byte_lt buf p
  have h2 := byte_lt buf (p + 1)
  omega

theorem get_unaligned_le32_lt (buf : List Nat) (p : Nat) :
    get_unaligned_le32 buf p < 4294967296 := by
  unfold get_unaligned_le32
  have h1 := byte_lt buf p
  have h2 := byte_lt buf (p + 1)
  have h3 := byte_lt buf (p + 2)
  have h4 := byte_lt buf (p + 3)
  omega

/-! ## Traces -/

theorem data_bytes_requested_append (a b : List Action) :
    data_bytes_requested (a ++ b) = data_bytes_requested a + data_bytes_requested b := by
  induction a with
  | nil => simp [data_bytes_requested]
  | cons x xs ih =>
    cases x with
    | read reg len =>
      cases reg <;> simp [data_bytes_requested, ih]; omega
    | _ => simpa [data_bytes_requested] using ih

theorem data_bytes_requested_pushes (ps : List Action) (h : ∀ a ∈ ps, a.is_push = true) :
    data_bytes_requested ps = 0 := by
  induction ps with
  | nil => rfl
  | cons x xs ih =>
    have hx := h x (List.mem_cons_self _ _)
    have hxs : ∀ a ∈ xs, a.is_push = true := fun a ha => h a (List.mem_cons_of_mem _ ha)
    cases x <;> simp [Action.is_push] at hx
    simpa [data_bytes_requested] using ih hxs

theorem mem_singleton_push {a : Action} {dev : Nat} {data : List Nat} {ts : Int}
    (h : a ∈ [Action.push dev data ts]) : a.is_push = true := by
  rw [List.mem_singleton] at h
  rw [h]
  rfl

/-! ## What one record does to the loop variables -/

/-- A record advances `ts_irq` by `delta` and appends nothing but pushes to the trace. -/
theorem read_fifo_record_frame (cfg : Config) (notify delta : Int) (buf : List Nat)
    (st : Loop) (i : Nat) :
    (read_fifo_record cfg notify delta buf st i).ts_irq = s64 (st.ts_irq + delta) ∧
    ∃ ps, (read_fifo_record cfg notify delta buf st i).trace = st.trace ++ ps ∧
      ∀ a ∈ ps, a.is_push = true := by
  unfold read_fifo_record
  dsimp only
  split_ifs <;> (try split) <;> (try split_ifs) <;>
    first
    | exact ⟨rfl, [], (List.append_nil _).symm, fun _ ha => (List.not_mem_nil _ ha).elim⟩
    | exact ⟨rfl, _, rfl, fun _ ha => mem_singleton_push ha⟩

theorem fold_record_frame (cfg : Config) (notify delta : Int) (buf : List Nat)
    (offs : List Nat) (st : Loop) :
    ∃ ps, (offs.foldl (read_fifo_record cfg notify delta buf) st).trace = st.trace ++ ps ∧
      ∀ a ∈ ps, a.is_push = true := by
  induction offs generalizing st with
  | nil => exact ⟨[], by simp, by simp⟩
  | cons i rest ih =>
    obtain ⟨_, ps, h4, h5⟩ := read_fifo_record_frame cfg notify delta buf st i
    obtain ⟨qs, k4, k5⟩ := ih (read_fifo_record cfg notify delta buf st i)
    refine ⟨ps ++ qs, ?_, ?_⟩
    · rw [List.foldl_cons, k4, h4, List.append_assoc]
    · intro a ha
      rcases List.mem_append.mp ha with h | h
      · exact h5 a h
      · exact k5 a h

theorem fold_record_data_bytes (cfg : Config) (notify delta : Int) (buf : List Nat)
    (offs : List Nat) (st : Loop) :
    data_bytes_requested (offs.foldl (read_fifo_record cfg notify delta buf) st).trace =
      data_bytes_requested st.trace := by
  obtain ⟨ps, h4, h5⟩ := fold_record_frame cfg notify delta buf offs st
  rw [h4, data_bytes_requested_append, data_bytes_requested_pushes ps h5, Nat.add_zero]

/-! ## The chunk loop when the reads succeed -/

theorem reads_succeed_head {dev : Dev} (h : reads_succeed dev) : ¬ dev.rc.headD 0 < 0 := by
  cases hrc : dev.rc with
  | nil => simp
  | cons c cs =>
    have := h c (by rw [hrc]; exact List.mem_cons_self _ _)
    simp only [List.headD_cons]
    omega

theorem reads_succeed_tail {dev : Dev} (h : reads_succeed dev) (d : Dev)
    (hd : d.rc = dev.rc.tail) : reads_succeed d := by
  intro c hc
  rw [hd] at hc
  exact h c (List.mem_of_mem_tail hc)

/-- A pass of the chunk loop whose read succeeds, spelled out. -/
theorem read_fifo_chunk_ok_eq (cfg : Config) (notify : Int) (fifo_len : Nat) (delta : Int)
    (st : Drain) (h : ¬ st.dev.rc.headD 0 < 0) :
    read_fifo_chunk cfg notify fifo_len delta st =
      (st.dev.rc.headD 0,
        { loop := (for_offsets (min (fifo_len - st.read_len) (60 * ST_ASM330LHHX_FIFO_SAMPLE_SIZE))
              ST_ASM330LHHX_FIFO_SAMPLE_SIZE).foldl
            (read_fifo_record cfg notify delta
              ((List.range (min (fifo_len - st.read_len)
                (60 * ST_ASM330LHHX_FIFO_SAMPLE_SIZE))).map (fun k => st.dev.fifo.getD k 0 % 256)))
            { st.loop with
              trace := st.loop.trace ++ [Action.read Reg.ST_ASM330LHHX_REG_FIFO_DATA_OUT_TAG_ADDR
                (min (fifo_len - st.read_len) (60 * ST_ASM330LHHX_FIFO_SAMPLE_SIZE))] }
          dev := { st.dev with
            rc := st.dev.rc.tail
            fifo := st.dev.fifo.drop
              (min (fifo_len - st.read_len) (60 * ST_ASM330LHHX_FIFO_SAMPLE_SIZE)) }
          read_len := st.read_len +
            min (fifo_len - st.read_len) (60 * ST_ASM330LHHX_FIFO_SAMPLE_SIZE) }) := by
  unfold read_fifo_chunk
  simp only [st_asm330lhhx_read_locked, h, if_false]

/-- A pass of the chunk loop whose read succeeds: it asks for `word_len` bytes, counts
them and leaves the later return codes in place. -/
theorem read_fifo_chunk_ok (cfg : Config) (notify : Int) (fifo_len : Nat) (delta : Int)
    (st : Drain) (h : ¬ st.dev.rc.headD 0 < 0) :
    ¬ (read_fifo_chunk cfg notify fifo_len delta st).1 < 0 ∧
    (read_fifo_chunk cfg notify fifo_len delta st).2.read_len =
      st.read_len + min (fifo_len - st.read_len) (60 * ST_ASM330LHHX_FIFO_SAMPLE_SIZE) ∧
    (read_fifo_chunk cfg notify fifo_len delta st).2.dev.rc = st.dev.rc.tail ∧
    data_bytes_requested (read_fifo_chunk cfg notify fifo_len delta st).2.loop.trace =
      data_bytes_requested st.loop.trace +
        min (fifo_len - st.read_len) (60 * ST_ASM330LHHX_FIFO_SAMPLE_SIZE) := by
  rw [read_fifo_chunk_ok_eq cfg notify fifo_len delta st h]
  refine ⟨h, rfl, rfl, ?_⟩
  dsimp only
  rw [fold_record_data_bytes, data_bytes_requested_append]
  simp [data_bytes_requested]

theorem read_fifo_loop_ok (cfg : Config) (notify : Int) (fifo_len : Nat) (delta : Int) :
    ∀ (fuel : Nat) (st : Drain), reads_succeed st.dev → st.read_len ≤ fifo_len →
      fifo_len - st.read_len ≤ fuel →
      ∃ st2, read_fifo_loop cfg notify fifo_len delta fuel st = some (0, st2) ∧
        st2.read_len = fifo_len ∧
        data_bytes_requested st2.loop.trace =
          data_bytes_requested st.loop.trace + (fifo_len - st.read_len) := by
  intro fuel
  induction fuel with
  | zero =>
    intro st _ h2 h3
    have : ¬ st.read_len < fifo_len := by omega
    refine ⟨st, ?_, by omega, by omega⟩
    unfold read_fifo_loop
    simp [this]
  | succ n ih =>
    intro st h1 h2 h3
    by_cases hlt : st.read_len < fifo_len
    · obtain ⟨c1, c2, c3, c4⟩ :=
        read_fifo_chunk_ok cfg notify fifo_len delta st (reads_succeed_head h1)
      have hpos : 0 < 60 * ST_ASM330LHHX_FIFO_SAMPLE_SIZE := by decide
      obtain ⟨st2, k1, k2, k3⟩ := ih (read_fifo_chunk cfg notify fifo_len delta st).2
        (reads_succeed_tail h1 _ c3) (by rw [c2]; omega) (by rw [c2]; omega)
      refine ⟨st2, ?_, k2, ?_⟩
      · rw [read_fifo_loop]
        simp only [hlt, if_true, c1, if_false]
        exact k1
      · rw [k3, c4, c2]
        omega
    · refine ⟨st, ?_, by omega, by omega⟩
      unfold read_fifo_loop
      simp [hlt]

/-- The chunk loop started by `st_asm330lhhx_read_fifo` runs to its end when the reads
succeed. -/
theorem read_fifo_loop_begin_ok (cfg : Config) (notify : Int) (fifo_len : Nat) (delta : Int)
    (hw : Hw) (dev : Dev) (now : Int) (fifo_depth : Nat) (h : reads_succeed dev) :
    ∃ st2, read_fifo_loop cfg notify fifo_len delta fifo_len
        (read_fifo_begin hw dev notify now fifo_depth) = some (0, st2) ∧
      st2.read_len = fifo_len ∧ data_bytes_requested st2.loop.trace = fifo_len := by
  obtain ⟨st2, k1, k2, k3⟩ := read_fifo_loop_ok cfg notify fifo_len delta fifo_len
    (read_fifo_begin hw dev notify now fifo_depth) h (Nat.zero_le _) (Nat.sub_le _ _)
  refine ⟨st2, k1, k2, ?_⟩
  rw [k3]
  simp [read_fifo_begin, data_bytes_requested]

/-! ## The status word -/

theorem status_word (dev : Dev) :
    get_unaligned_le16 [dev.fifo_status1 % 256, dev.fifo_status2 % 256] 0 =
      dev.fifo_status1 % 256 + 256 * (dev.fifo_status2 % 256) := by
  simp [get_unaligned_le16, byte]

theorem u16_masked (x mask : Nat) (h : x < 65536) : u16 (x &&& mask) = x &&& mask := by
  unfold u16
  exact Nat.mod_eq_of_lt (lt_of_le_of_lt Nat.and_le_left (by simpa using h))

theorem status_depth (cfg : Config) (dev : Dev) :
    u16 (get_unaligned_le16 [dev.fifo_status1 % 256, dev.fifo_status2 % 256] 0 &&&
      cfg.fifo_status_diff) =
      (dev.fifo_status1 % 256 + 256 * (dev.fifo_status2 % 256)) &&& cfg.fifo_status_diff := by
  rw [u16_masked _ _ (get_unaligned_le16_lt _ _), status_word]

/-- C1: in an operational state, when every register read succeeds, the drain returns
depth * record_size, depth being the little-endian 16-bit status word masked with the
depth mask; the bytes asked from the data register add up to the value returned; and
with a masked depth of 0 it returns 0 after the status read alone, the driver state
untouched. -/
theorem read_fifo_returns_depth_times_record_size (cfg : Config) (hw : Hw) (dev : Dev)
    (notify now : Int) (hop : hw.operational = true) (hok : reads_succeed dev) :
    ∃ r, st_asm330lhhx_read_fifo cfg hw dev notify now = some r ∧
      r.ret = ((((dev.fifo_status1 % 256 + 256 * (dev.fifo_status2 % 256)) &&&
        cfg.fifo_status_diff) * ST_ASM330LHHX_FIFO_SAMPLE_SIZE : Nat) : Int) ∧
      ((data_bytes_requested r.trace : Nat) : Int) = r.ret ∧
      ((dev.fifo_status1 % 256 + 256 * (dev.fifo_status2 % 256)) &&& cfg.fifo_status_diff = 0 →
        r.ret = 0 ∧ r.hw = hw ∧
        r.trace = [Action.read Reg.ST_ASM330LHHX_REG_FIFO_STATUS1_ADDR 2]) := by
  have hhead := reads_succeed_head hok
  unfold st_asm330lhhx_read_fifo
  simp only [hop, Bool.not_true, Bool.false_eq_true, if_false, st_asm330lhhx_read_locked, hhead,
    List.take, status_depth]
  by_cases hd : (dev.fifo_status1 % 256 + 256 * (dev.fifo_status2 % 256)) &&&
      cfg.fifo_status_diff = 0
  · simp [hd, data_bytes_requested]
  · simp only [hd, if_false]
    obtain ⟨st2, k1, k2, k3⟩ := read_fifo_loop_begin_ok cfg notify
      (((dev.fifo_status1 % 256 + 256 * (dev.fifo_status2 % 256)) &&& cfg.fifo_status_diff) *
        ST_ASM330LHHX_FIFO_SAMPLE_SIZE)
      (div_s64 hw.delta_ts (((dev.fifo_status1 % 256 + 256 * (dev.fifo_status2 % 256)) &&&
        cfg.fifo_status_diff : Nat) : Int))
      hw { dev with rc := dev.rc.tail } now
      ((dev.fifo_status1 % 256 + 256 * (dev.fifo_status2 % 256)) &&& cfg.fifo_status_diff)
      (reads_succeed_tail hok _ rfl)
    rw [k1, Option.map_some']
    refine ⟨_, rfl, ?_, ?_, fun h => h.elim⟩
    · unfold read_fifo_end
      simp only [lt_self_iff_false, if_false]
      split_ifs <;> simp [k2]
    · unfold read_fifo_end
      simp only [lt_self_iff_false, if_false]
      split_ifs <;> simp [data_bytes_requested_append, data_bytes_requested, k2, k3]

theorem read_fifo_returns_depth_times_record_size_witness :
    ∃ r, st_asm330lhhx_read_fifo example_cfg example_hw example_dev 0 0 = some r ∧
      r.ret = ((((example_dev.fifo_status1 % 256 + 256 * (example_dev.fifo_status2 % 256)) &&&
        example_cfg.fifo_status_diff) * ST_ASM330LHHX_FIFO_SAMPLE_SIZE : Nat) : Int) ∧
      ((data_bytes_requested r.trace : Nat) : Int) = r.ret ∧
      ((example_dev.fifo_status1 % 256 + 256 * (example_dev.fifo_status2 % 256)) &&&
          example_cfg.fifo_status_diff = 0 →
        r.ret = 0 ∧ r.hw = example_hw ∧
        r.trace = [Action.read Reg.ST_ASM330LHHX_REG_FIFO_STATUS1_ADDR 2]) :=
  read_fifo_returns_depth_times_record_size example_cfg example_hw example_dev 0 0 rfl
    (by intro c hc; simp [example_dev] at hc)

/-! ## A failing read -/

/-- A pass whose read fails: the code of the read comes back and only the read is added
to the trace. -/
theorem read_fifo_chunk_fail (cfg : Config) (notify : Int) (fifo_len : Nat) (delta : Int)
    (st : Drain) (h : st.dev.rc.headD 0 < 0) :
    read_fifo_chunk cfg notify fifo_len delta st =
      (st.dev.rc.headD 0,
        { st with
          loop := { st.loop with
            trace := st.loop.trace ++ [Action.read Reg.ST_ASM330LHHX_REG_FIFO_DATA_OUT_TAG_ADDR
              (min (fifo_len - st.read_len) (60 * ST_ASM330LHHX_FIFO_SAMPLE_SIZE))] }
          dev := { st.dev with rc := st.dev.rc.tail } }) := by
  unfold read_fifo_chunk
  simp only [st_asm330lhhx_read_locked, h, if_true]

theorem head_of_take {l : List Int} {k : Nat} (h : ∀ c ∈ l.take (k + 1), (0 : Int) ≤ c) :
    ¬ l.headD 0 < 0 := by
  cases l with
  | nil => simp
  | cons c cs =>
    have := h c (by simp)
    simp only [List.headD_cons]
    omega

theorem tail_of_take {l : List Int} {k : Nat} (h : ∀ c ∈ l.take (k + 1), (0 : Int) ≤ c) :
    ∀ c ∈ l.tail.take k, (0 : Int) ≤ c := by
  cases l with
  | nil => simp
  | cons c cs =>
    intro x hx
    exact h x (by simp only [List.take_succ_cons, List.mem_cons]; right; simpa using hx)

/-- The chunk loop with `k` successful reads followed by a failing one: it stops in the
failing pass, after `k` full passes. -/
theorem read_fifo_loop_fail (cfg : Config) (notify : Int) (fifo_len : Nat) (delta : Int) :
    ∀ (k : Nat) (st : Drain) (fuel : Nat),
      (∀ c ∈ st.dev.rc.take k, (0 : Int) ≤ c) → (st.dev.rc.drop k).headD 0 < 0 →
      st.read_len + k * (60 * ST_ASM330LHHX_FIFO_SAMPLE_SIZE) < fifo_len → k < fuel →
      read_fifo_loop cfg notify fifo_len delta fuel st =
        some (read_fifo_chunk cfg notify fifo_len delta
          (read_fifo_passes cfg notify fifo_len delta k st)) ∧
      (read_fifo_passes cfg notify fifo_len delta k st).dev.rc = st.dev.rc.drop k ∧
      (read_fifo_passes cfg notify fifo_len delta k st).read_len =
        st.read_len + k * (60 * ST_ASM330LHHX_FIFO_SAMPLE_SIZE) := by
  intro k
  induction k with
  | zero =>
    intro st fuel _ h2 h3 h4
    obtain ⟨f, rfl⟩ : ∃ f, fuel = f + 1 := ⟨fuel - 1, by omega⟩
    have hlt : st.read_len < fifo_len := by omega
    rw [List.drop_zero] at h2
    refine ⟨?_, rfl, by simp [read_fifo_passes]⟩
    rw [read_fifo_loop]
    simp only [hlt, if_true, read_fifo_passes]
    rw [read_fifo_chunk_fail cfg notify fifo_len delta st h2]
    simp only [h2, if_true]
  | succ n ih =>
    intro st fuel h1 h2 h3 h4
    obtain ⟨f, rfl⟩ : ∃ f, fuel = f + 1 := ⟨fuel - 1, by omega⟩
    have hlt : st.read_len < fifo_len := by omega
    obtain ⟨c1, c2, c3, _⟩ := read_fifo_chunk_ok cfg notify fifo_len delta st (head_of_take h1)
    have hw : min (fifo_len - st.read_len) (60 * ST_ASM330LHHX_FIFO_SAMPLE_SIZE) =
        60 * ST_ASM330LHHX_FIFO_SAMPLE_SIZE := by
      have : (n + 1) * (60 * ST_ASM330LHHX_FIFO_SAMPLE_SIZE) =
          n * (60 * ST_ASM330LHHX_FIFO_SAMPLE_SIZE) + 60 * ST_ASM330LHHX_FIFO_SAMPLE_SIZE := by
        ring
      omega
    obtain ⟨k1, k2, k3⟩ := ih (read_fifo_chunk cfg notify fifo_len delta st).2 f
      (by rw [c3]; exact tail_of_take h1)
      (by rw [c3, List.drop_tail]; exact h2)
      (by rw [c2, hw]
          have : (n + 1) * (60 * ST_ASM330LHHX_FIFO_SAMPLE_SIZE) =
            n * (60 * ST_ASM330LHHX_FIFO_SAMPLE_SIZE) + 60 * ST_ASM330LHHX_FIFO_SAMPLE_SIZE := by
            ring
          omega)
      (by omega)
    refine ⟨?_, ?_, ?_⟩
    · rw [read_fifo_loop]
      simp only [hlt, if_true, c1, if_false, read_fifo_passes]
      exact k1
    · simp only [read_fifo_passes]
      rw [k2, c3, List.drop_tail]
    · simp only [read_fifo_passes]
      rw [k3, c2, hw]
      ring

/-- A pass of the chunk loop starts by putting its read on the trace and takes nothing
off it. -/
theorem read_fifo_chunk_trace (cfg : Config) (notify : Int) (fifo_len : Nat) (delta : Int)
    (st : Drain) :
    st.loop.trace ++ [Action.read Reg.ST_ASM330LHHX_REG_FIFO_DATA_OUT_TAG_ADDR
        (min (fifo_len - st.read_len) (60 * ST_ASM330LHHX_FIFO_SAMPLE_SIZE))] <+:
      (read_fifo_chunk cfg notify fifo_len delta st).2.loop.trace := by
  by_cases h : st.dev.rc.headD 0 < 0
  · rw [read_fifo_chunk_fail cfg notify fifo_len delta st h]
  · rw [read_fifo_chunk_ok_eq cfg notify fifo_len delta st h]
    dsimp only
    obtain ⟨ps, h4, _⟩ := fold_record_frame cfg notify delta
      ((List.range (min (fifo_len - st.read_len)
        (60 * ST_ASM330LHHX_FIFO_SAMPLE_SIZE))).map (fun k => st.dev.fifo.getD k 0 % 256))
      (for_offsets (min (fifo_len - st.read_len) (60 * ST_ASM330LHHX_FIFO_SAMPLE_SIZE))
        ST_ASM330LHHX_FIFO_SAMPLE_SIZE)
      { st.loop with
        trace := st.loop.trace ++ [Action.read Reg.ST_ASM330LHHX_REG_FIFO_DATA_OUT_TAG_ADDR
          (min (fifo_len - st.read_len) (60 * ST_ASM330LHHX_FIFO_SAMPLE_SIZE))] }
    rw [h4]
    exact List.prefix_append _ _

/-- The chunk loop only adds to the trace. -/
theorem read_fifo_loop_trace (cfg : Config) (notify : Int) (fifo_len : Nat) (delta : Int) :
    ∀ (fuel : Nat) (st : Drain) (r : Int × Drain),
      read_fifo_loop cfg notify fifo_len delta fuel st = some r →
      st.loop.trace <+: r.2.loop.trace := by
  intro fuel
  induction fuel with
  | zero =>
    intro st r h
    unfold read_fifo_loop at h
    split_ifs at h
    simp only [Option.some.injEq] at h
    rw [← h]
  | succ n ih =>
    intro st r h
    have hc := read_fifo_chunk_trace cfg notify fifo_len delta st
    have hpre : st.loop.trace <+: (read_fifo_chunk cfg notify fifo_len delta st).2.loop.trace :=
      (List.prefix_append _ _).trans hc
    rw [read_fifo_loop] at h
    by_cases h1 : st.read_len < fifo_len
    · simp only [h1, if_true] at h
      by_cases h2 : (read_fifo_chunk cfg notify fifo_len delta st).1 < 0
      · simp only [h2, if_true, Option.some.injEq] at h
        rw [← h]
        exact hpre
      · simp only [h2, if_false] at h
        exact hpre.trans (ih _ r h)
    · simp only [h1, if_false, Option.some.injEq] at h
      rw [← h]

/-- The chunk loop with `k` successful reads ahead and more than `k` chunks to go: after
`k` passes it makes the next pass, so the read of that pass, on top of the trace of the
`k` passes, begins the trace it ends with. -/
theorem read_fifo_loop_through (cfg : Config) (notify : Int) (fifo_len : Nat) (delta : Int) :
    ∀ (k : Nat) (st : Drain) (fuel : Nat) (r : Int × Drain),
      (∀ c ∈ st.dev.rc.take k, (0 : Int) ≤ c) →
      st.read_len + k * (60 * ST_ASM330LHHX_FIFO_SAMPLE_SIZE) < fifo_len →
      read_fifo_loop cfg notify fifo_len delta fuel st = some r →
      (read_fifo_passes cfg notify fifo_len delta k st).loop.trace ++
        [Action.read Reg.ST_ASM330LHHX_REG_FIFO_DATA_OUT_TAG_ADDR
          (min (fifo_len - (read_fifo_passes cfg notify fifo_len delta k st).read_len)
            (60 * ST_ASM330LHHX_FIFO_SAMPLE_SIZE))] <+: r.2.loop.trace := by
  intro k
  induction k with
  | zero =>
    intro st fuel r _ h3 h
    have hlt : st.read_len < fifo_len := by omega
    have hc := read_fifo_chunk_trace cfg notify fifo_len delta st
    simp only [read_fifo_passes]
    cases fuel with
    | zero =>
      unfold read_fifo_loop at h
      simp [hlt] at h
    | succ f =>
      rw [read_fifo_loop] at h
      simp only [hlt, if_true] at h
      split_ifs at h
      · simp only [Option.some.injEq] at h
        rw [← h]
        exact hc
      · exact hc.trans (read_fifo_loop_trace cfg notify fifo_len delta f _ r h)
  | succ n ih =>
    intro st fuel r h1 h3 h
    have hlt : st.read_len < fifo_len := by omega
    obtain ⟨c1, c2, c3, _⟩ := read_fifo_chunk_ok cfg notify fifo_len delta st (head_of_take h1)
    have hw : min (fifo_len - st.read_len) (60 * ST_ASM330LHHX_FIFO_SAMPLE_SIZE) =
        60 * ST_ASM330LHHX_FIFO_SAMPLE_SIZE := by
      have : (n + 1) * (60 * ST_ASM330LHHX_FIFO_SAMPLE_SIZE) =
          n * (60 * ST_ASM330LHHX_FIFO_SAMPLE_SIZE) + 60 * ST_ASM330LHHX_FIFO_SAMPLE_SIZE := by
        ring
      omega
    simp only [read_fifo_passes]
    cases fuel with
    | zero =>
      unfold read_fifo_loop at h
      simp [hlt] at h
    | succ f =>
      rw [read_fifo_loop] at h
      simp only [hlt, if_true, c1, if_false] at h
      exact ih (read_fifo_chunk cfg notify fifo_len delta st).2 f r
        (by rw [c3]; exact tail_of_take h1)
        (by rw [c2, hw]
            have : (n + 1) * (60 * ST_ASM330LHHX_FIFO_SAMPLE_SIZE) =
              n * (60 * ST_ASM330LHHX_FIFO_SAMPLE_SIZE) + 60 * ST_ASM330LHHX_FIFO_SAMPLE_SIZE := by
              ring
            omega)
        h

/-- Passes whose reads succeed do the same on two devices that differ in nothing but the
return codes queued. -/
theorem read_fifo_passes_agree (cfg : Config) (notify : Int) (fifo_len : Nat) (delta : Int) :
    ∀ (k : Nat) (a b : Drain),
      a.loop = b.loop → a.read_len = b.read_len → a.dev.fifo = b.dev.fifo →
      (∀ c ∈ a.dev.rc.take k, (0 : Int) ≤ c) → (∀ c ∈ b.dev.rc.take k, (0 : Int) ≤ c) →
      (read_fifo_passes cfg notify fifo_len delta k a).loop =
        (read_fifo_passes cfg notify fifo_len delta k b).loop ∧
      (read_fifo_passes cfg notify fifo_len delta k a).read_len =
        (read_fifo_passes cfg notify fifo_len delta k b).read_len := by
  intro k
  induction k with
  | zero =>
    intro a b h1 h2 _ _ _
    exact ⟨h1, h2⟩
  | succ n ih =>
    intro a b h1 h2 h3 h4 h5
    simp only [read_fifo_passes]
    have ea := read_fifo_chunk_ok_eq cfg notify fifo_len delta a (head_of_take h4)
    have eb := read_fifo_chunk_ok_eq cfg notify fifo_len delta b (head_of_take h5)
    apply ih
    · rw [ea, eb, h1, h2, h3]
    · rw [ea, eb, h2]
    · rw [ea, eb, h2, h3]
    · rw [ea]
      exact tail_of_take h4
    · rw [eb]
      exact tail_of_take h5

/-- The drain once the status read has succeeded with a depth that is not 0. -/
theorem read_fifo_eq_loop (cfg : Config) (hw : Hw) (dev : Dev) (notify now : Int)
    (hop : hw.operational = true) (hhead : ¬ dev.rc.headD 0 < 0)
    (hd : status_fifo_depth cfg dev ≠ 0) :
    st_asm330lhhx_read_fifo cfg hw dev notify now =
      (read_fifo_loop cfg notify (status_fifo_depth cfg dev * ST_ASM330LHHX_FIFO_SAMPLE_SIZE)
        (div_s64 hw.delta_ts (status_fifo_depth cfg dev))
        (status_fifo_depth cfg dev * ST_ASM330LHHX_FIFO_SAMPLE_SIZE)
        (read_fifo_begin hw { dev with rc := dev.rc.tail } notify now
          (status_fifo_depth cfg dev))).map (read_fifo_end cfg notify) := by
  unfold st_asm330lhhx_read_fifo
  simp only [hop, Bool.not_true, Bool.false_eq_true, if_false, st_asm330lhhx_read_locked, hhead,
    List.take]
  unfold status_fifo_depth at hd ⊢
  rw [if_neg hd]

theorem read_fifo_end_trace (cfg : Config) (notify : Int) (r : Int × Drain) :
    r.2.loop.trace <+: (read_fifo_end cfg notify r).trace := by
  unfold read_fifo_end
  split_ifs
  · exact List.prefix_refl _
  · exact List.prefix_append _ _
  · exact List.prefix_refl _

/-- C2: a failing register read ends the drain with the code of that read and nothing is
done after it. When the status read fails the driver state is as before and the trace
holds that read alone. When `k` chunk reads succeed and the next one fails, the driver
state is the one after `k` passes of the chunk loop, the trace is the trace of these
passes followed by the failing read, and this trace begins the trace of the drain of the
same device on which no read fails. -/
theorem read_fifo_read_failure (cfg : Config) (hw : Hw) (dev : Dev) (notify now : Int)
    (oks : List Int) (e : Int) (rest : List Int)
    (hop : hw.operational = true) (hrc : dev.rc = oks ++ e :: rest)
    (hoks : ∀ c ∈ oks, (0 : Int) ≤ c) (he : e < 0) :
    (oks = [] →
      st_asm330lhhx_read_fifo cfg hw dev notify now =
        some { ret := e, hw := hw, dev := { dev with rc := rest },
               trace := [Action.read Reg.ST_ASM330LHHX_REG_FIFO_STATUS1_ADDR 2] }) ∧
    (∀ k, oks.length = k + 1 →
      k * (60 * ST_ASM330LHHX_FIFO_SAMPLE_SIZE) <
        status_fifo_depth cfg dev * ST_ASM330LHHX_FIFO_SAMPLE_SIZE →
      ∃ r, st_asm330lhhx_read_fifo cfg hw dev notify now = some r ∧ r.ret = e ∧
        r.hw = (read_fifo_passes cfg notify
          (status_fifo_depth cfg dev * ST_ASM330LHHX_FIFO_SAMPLE_SIZE)
          (div_s64 hw.delta_ts (status_fifo_depth cfg dev)) k
          (read_fifo_begin hw { dev with rc := dev.rc.tail } notify now
            (status_fifo_depth cfg dev))).loop.hw ∧
        r.trace = (read_fifo_passes cfg notify
          (status_fifo_depth cfg dev * ST_ASM330LHHX_FIFO_SAMPLE_SIZE)
          (div_s64 hw.delta_ts (status_fifo_depth cfg dev)) k
          (read_fifo_begin hw { dev with rc := dev.rc.tail } notify now
            (status_fifo_depth cfg dev))).loop.trace ++
          [Action.read Reg.ST_ASM330LHHX_REG_FIFO_DATA_OUT_TAG_ADDR
            (min (status_fifo_depth cfg dev * ST_ASM330LHHX_FIFO_SAMPLE_SIZE -
              k * (60 * ST_ASM330LHHX_FIFO_SAMPLE_SIZE)) (60 * ST_ASM330LHHX_FIFO_SAMPLE_SIZE))] ∧
        ∀ rS, st_asm330lhhx_read_fifo cfg hw { dev with rc := oks } notify now = some rS →
          r.trace <+: rS.trace) := by
  constructor
  · intro h0
    rw [h0, List.nil_append] at hrc
    unfold st_asm330lhhx_read_fifo
    simp [hop, st_asm330lhhx_read_locked, hrc, he]
  · intro k hk hreach
    obtain ⟨c0, oks1, rfl⟩ : ∃ c0 oks1, oks = c0 :: oks1 := by
      cases oks with
      | nil => simp at hk
      | cons c cs => exact ⟨c, cs, rfl⟩
    have hk1 : oks1.length = k := by simpa using hk
    have hc0 : ¬ c0 < 0 := by
      have := hoks c0 (List.mem_cons_self _ _)
      omega
    have hoks1 : ∀ c ∈ oks1, (0 : Int) ≤ c := fun c hc => hoks c (List.mem_cons_of_mem _ hc)
    have hd : status_fifo_depth cfg dev ≠ 0 := by
      intro h
      rw [h] at hreach
      omega
    have htail : dev.rc.tail = oks1 ++ e :: rest := by rw [hrc]; rfl
    have hheadF : ¬ dev.rc.headD 0 < 0 := by rw [hrc]; exact hc0
    rw [read_fifo_eq_loop cfg hw dev notify now hop hheadF hd, htail]
    obtain ⟨f1, f2, f3⟩ := read_fifo_loop_fail cfg notify
      (status_fifo_depth cfg dev * ST_ASM330LHHX_FIFO_SAMPLE_SIZE)
      (div_s64 hw.delta_ts (status_fifo_depth cfg dev)) k
      (read_fifo_begin hw { dev with rc := oks1 ++ e :: rest } notify now
        (status_fifo_depth cfg dev))
      (status_fifo_depth cfg dev * ST_ASM330LHHX_FIFO_SAMPLE_SIZE)
      (by
        intro c hc
        have : (oks1 ++ e :: rest).take k = oks1 := by
          rw [← hk1]; exact List.take_left' rfl
        simp only [read_fifo_begin] at hc
        rw [this] at hc
        exact hoks1 c hc)
      (by
        have : (oks1 ++ e :: rest).drop k = e :: rest := by
          rw [← hk1]; exact List.drop_left' rfl
        simp only [read_fifo_begin]
        rw [this]
        exact he)
      (by simpa [read_fifo_begin] using hreach)
      (by
        have : 0 < 60 * ST_ASM330LHHX_FIFO_SAMPLE_SIZE := by decide
        have : k ≤ k * (60 * ST_ASM330LHHX_FIFO_SAMPLE_SIZE) := Nat.le_mul_of_pos_right _ this
        omega)
    have hfailhead : ((read_fifo_passes cfg notify
        (status_fifo_depth cfg dev * ST_ASM330LHHX_FIFO_SAMPLE_SIZE)
        (div_s64 hw.delta_ts (status_fifo_depth cfg dev)) k
        (read_fifo_begin hw { dev with rc := oks1 ++ e :: rest } notify now
          (status_fifo_depth cfg dev))).dev.rc).headD 0 < 0 := by
      rw [f2]
      have : (oks1 ++ e :: rest).drop k = e :: rest := by
        rw [← hk1]; exact List.drop_left' rfl
      simp only [read_fifo_begin]
      rw [this]
      exact he
    have hfailcode : ((read_fifo_passes cfg notify
        (status_fifo_depth cfg dev * ST_ASM330LHHX_FIFO_SAMPLE_SIZE)
        (div_s64 hw.delta_ts (status_fifo_depth cfg dev)) k
        (read_fifo_begin hw { dev with rc := oks1 ++ e :: rest } notify now
          (status_fifo_depth cfg dev))).dev.rc).headD 0 = e := by
      rw [f2]
      have : (oks1 ++ e :: rest).drop k = e :: rest := by
        rw [← hk1]; exact List.drop_left' rfl
      simp only [read_fifo_begin]
      rw [this]
      rfl
    rw [f1, read_fifo_chunk_fail _ _ _ _ _ hfailhead, Option.map_some', hfailcode, f3]
    have hzero : (read_fifo_begin hw { dev with rc := oks1 ++ e :: rest } notify now
        (status_fifo_depth cfg dev)).read_len = 0 := rfl
    rw [hzero, Nat.zero_add]
    refine ⟨_, rfl, ?_, ?_, ?_, ?_⟩
    · simp [read_fifo_end, he]
    · simp [read_fifo_end, he]
    · simp [read_fifo_end, he]
    · intro rS hS
      have hheadS : ¬ ({ dev with rc := c0 :: oks1 } : Dev).rc.headD 0 < 0 := hc0
      have hdS : status_fifo_depth cfg { dev with rc := c0 :: oks1 } ≠ 0 := hd
      rw [read_fifo_eq_loop cfg hw _ notify now hop hheadS hdS] at hS
      have hdeq : status_fifo_depth cfg { dev with rc := c0 :: oks1 } =
          status_fifo_depth cfg dev := rfl
      rw [hdeq] at hS
      obtain ⟨res, hres, hend⟩ := Option.map_eq_some'.mp hS
      have hthrough := read_fifo_loop_through cfg notify
        (status_fifo_depth cfg dev * ST_ASM330LHHX_FIFO_SAMPLE_SIZE)
        (div_s64 hw.delta_ts (status_fifo_depth cfg dev)) k _ _ res
        (by
          intro c hc
          exact hoks1 c (List.mem_of_mem_take hc))
        (by simpa [read_fifo_begin] using hreach)
        hres
      obtain ⟨a1, a2⟩ := read_fifo_passes_agree cfg notify
        (status_fifo_depth cfg dev * ST_ASM330LHHX_FIFO_SAMPLE_SIZE)
        (div_s64 hw.delta_ts (status_fifo_depth cfg dev)) k
        (read_fifo_begin hw { dev with rc := oks1 ++ e :: rest } notify now
          (status_fifo_depth cfg dev))
        (read_fifo_begin hw { ({ dev with rc := c0 :: oks1 } : Dev) with
          rc := ({ dev with rc := c0 :: oks1 } : Dev).rc.tail } notify now
          (status_fifo_depth cfg dev))
        rfl rfl rfl
        (by
          intro c hc
          have : (oks1 ++ e :: rest).take k = oks1 := by
            rw [← hk1]; exact List.take_left' rfl
          simp only [read_fifo_begin] at hc
          rw [this] at hc
          exact hoks1 c hc)
        (by
          intro c hc
          exact hoks1 c (List.mem_of_mem_take hc))
      rw [← hend]
      refine List.IsPrefix.trans ?_ (read_fifo_end_trace cfg notify res)
      rw [← a1, ← a2, f3, hzero, Nat.zero_add] at hthrough
      simpa [read_fifo_end, he] using hthrough

theorem read_fifo_read_failure_witness :
    ∃ r, st_asm330lhhx_read_fifo example_cfg example_hw example_dev_failing 0 0 = some r ∧
      r.ret = -5 ∧
      r.hw = (read_fifo_passes example_cfg 0
        (status_fifo_depth example_cfg example_dev_failing * ST_ASM330LHHX_FIFO_SAMPLE_SIZE)
        (div_s64 example_hw.delta_ts (status_fifo_depth example_cfg example_dev_failing)) 1
        (read_fifo_begin example_hw
          { example_dev_failing with rc := example_dev_failing.rc.tail } 0 0
          (status_fifo_depth example_cfg example_dev_failing))).loop.hw ∧
      r.trace = (read_fifo_passes example_cfg 0
        (status_fifo_depth example_cfg example_dev_failing * ST_ASM330LHHX_FIFO_SAMPLE_SIZE)
        (div_s64 example_hw.delta_ts (status_fifo_depth example_cfg example_dev_failing)) 1
        (read_fifo_begin example_hw
          { example_dev_failing with rc := example_dev_failing.rc.tail } 0 0
          (status_fifo_depth example_cfg example_dev_failing))).loop.trace ++
        [Action.read Reg.ST_ASM330LHHX_REG_FIFO_DATA_OUT_TAG_ADDR
          (min (status_fifo_depth example_cfg example_dev_failing *
            ST_ASM330LHHX_FIFO_SAMPLE_SIZE - 1 * (60 * ST_ASM330LHHX_FIFO_SAMPLE_SIZE))
            (60 * ST_ASM330LHHX_FIFO_SAMPLE_SIZE))] ∧
      ∀ rS, st_asm330lhhx_read_fifo example_cfg example_hw
          { example_dev_failing with rc := [0, 0] } 0 0 = some rS → r.trace <+: rS.trace :=
  (read_fifo_read_failure example_cfg example_hw example_dev_failing 0 0 [0, 0] (-5) []
    rfl rfl (by decide) (by decide)).2 1 rfl (by decide)

/-! ## The drain while the FIFO is in bypass -/

/-- Without the operational bit the drain returns 0 at once. -/
theorem read_fifo_not_operational (cfg : Config) (hw : Hw) (dev : Dev) (notify now : Int)
    (h : hw.operational = false) :
    st_asm330lhhx_read_fifo cfg hw dev notify now =
      some { ret := 0, hw := hw, dev := dev, trace := [] } := by
  unfold st_asm330lhhx_read_fifo
  simp [h]

/-- No call other than a mode change to continuous whose register write succeeds sets
the operational bit. -/
theorem exec_keeps_not_operational (cfg : Config) (hw : Hw) (dev : Dev) (c : Call)
    (h : hw.operational = false)
    (hc : c = Call.set_fifo_mode FifoMode.ST_ASM330LHHX_FIFO_CONT → dev.rc.headD 0 < 0) :
    ∃ r, exec cfg hw dev c = some r ∧ r.hw.operational = false := by
  cases c with
  | read_fifo notify now =>
    exact ⟨_, read_fifo_not_operational cfg hw dev notify now h, h⟩
  | flush_fifo id now =>
    have e := read_fifo_not_operational cfg
      { hw with delta_ts := s64 (now - hw.ts), ts := now, flush := true } dev 0 now h
    simp only [exec, st_asm330lhhx_flush_fifo]
    rw [e]
    exact ⟨_, rfl, h⟩
  | suspend_fifo now =>
    simp only [exec, st_asm330lhhx_suspend_fifo]
    rw [read_fifo_not_operational cfg _ dev 0 now h]
    refine ⟨_, rfl, ?_⟩
    simp only [st_asm330lhhx_set_fifo_mode]
    split_ifs <;> simp [h]
  | handler_irq now => exact ⟨_, rfl, h⟩
  | handler_thread notify now =>
    simp only [exec, st_asm330lhhx_handler_thread]
    rw [read_fifo_not_operational cfg _ dev notify now h]
    exact ⟨_, rfl, h⟩
  | set_fifo_mode fifo_mode =>
    refine ⟨_, rfl, ?_⟩
    cases fifo_mode with
    | ST_ASM330LHHX_FIFO_BYPASS =>
      simp only [st_asm330lhhx_set_fifo_mode]
      split_ifs <;> simp [h]
    | ST_ASM330LHHX_FIFO_CONT =>
      have hfail := hc rfl
      simp only [st_asm330lhhx_set_fifo_mode, st_asm330lhhx_write_locked, hfail, if_true]
      exact h
  | reset_hwts now => exact ⟨_, rfl, h⟩

theorem run_hw_keeps_not_operational (cfg : Config) :
    ∀ (calls : List (Call × Dev)) (hw : Hw), hw.operational = false →
      (∀ cd ∈ calls, cd.1 = Call.set_fifo_mode FifoMode.ST_ASM330LHHX_FIFO_CONT →
        cd.2.rc.headD 0 < 0) →
      ∃ hwN, run_hw cfg hw calls = some hwN ∧ hwN.operational = false := by
  intro calls
  induction calls with
  | nil =>
    intro hw h _
    exact ⟨hw, rfl, h⟩
  | cons cd rest ih =>
    intro hw h hcalls
    obtain ⟨c, dev⟩ := cd
    obtain ⟨r, hr, hop⟩ := exec_keeps_not_operational cfg hw dev c h
      (hcalls (c, dev) (List.mem_cons_self _ _))
    obtain ⟨hwN, hrun, hN⟩ := ih r.hw hop (fun x hx => hcalls x (List.mem_cons_of_mem _ hx))
    refine ⟨hwN, ?_, hN⟩
    simp only [run_hw, hr]
    exact hrun

/-- C3: once `st_asm330lhhx_set_fifo_mode` has put the FIFO in bypass, after any
sequence of calls into the buffer code none of which is a mode change to continuous
whose register write succeeds, `st_asm330lhhx_read_fifo` returns 0 for every `notify`
and every device, accesses no register, forwards nothing and leaves the driver state
(clock state and decimation counters with it) as it is. -/
theorem read_fifo_no_op_after_bypass (cfg : Config) (hw : Hw) (dev0 : Dev)
    (calls : List (Call × Dev))
    (hset : (st_asm330lhhx_set_fifo_mode hw dev0 FifoMode.ST_ASM330LHHX_FIFO_BYPASS).ret = 0)
    (hcalls : ∀ cd ∈ calls, cd.1 = Call.set_fifo_mode FifoMode.ST_ASM330LHHX_FIFO_CONT →
      cd.2.rc.headD 0 < 0) :
    ∃ hwN, run_hw cfg (st_asm330lhhx_set_fifo_mode hw dev0
        FifoMode.ST_ASM330LHHX_FIFO_BYPASS).hw calls = some hwN ∧
      ∀ (dev : Dev) (notify now : Int),
        st_asm330lhhx_read_fifo cfg hwN dev notify now =
          some { ret := 0, hw := hwN, dev := dev, trace := [] } := by
  have hby : (st_asm330lhhx_set_fifo_mode hw dev0
      FifoMode.ST_ASM330LHHX_FIFO_BYPASS).hw.operational = false := by
    simp only [st_asm330lhhx_set_fifo_mode] at hset ⊢
    split_ifs at hset ⊢ with h1
    · simp only at hset
      omega
    · rfl
  obtain ⟨hwN, hrun, hN⟩ := run_hw_keeps_not_operational cfg calls _ hby hcalls
  exact ⟨hwN, hrun, fun dev notify now => read_fifo_not_operational cfg hwN dev notify now hN⟩

theorem read_fifo_no_op_after_bypass_witness :
    ∃ hwN, run_hw example_cfg (st_asm330lhhx_set_fifo_mode example_hw example_dev
        FifoMode.ST_ASM330LHHX_FIFO_BYPASS).hw
        [(Call.handler_irq 2000000, example_dev), (Call.handler_thread 1 2000100, example_dev),
         (Call.flush_fifo 1 3000000, example_dev),
         (Call.set_fifo_mode FifoMode.ST_ASM330LHHX_FIFO_CONT, { example_dev with rc := [-5] })]
        = some hwN ∧
      ∀ (dev : Dev) (notify now : Int),
        st_asm330lhhx_read_fifo example_cfg hwN dev notify now =
          some { ret := 0, hw := hwN, dev := dev, trace := [] } :=
  read_fifo_no_op_after_bypass example_cfg example_hw example_dev _ rfl (by decide)

/-! ## Decimation -/

theorem getD_set_ne {α : Type} (l : List α) (i j : Nat) (x d : α) (h : i ≠ j) :
    (l.set j x).getD i d = l.getD i d := by
  simp [List.getD_eq_getElem?_getD, List.getElem?_set, h.symm]

theorem getD_set_self {α : Type} (l : List α) (j : Nat) (x d : α) (h : j < l.length) :
    (l.set j x).getD j d = x := by
  simp [List.getD_eq_getElem?_getD, List.getElem?_set, h]

theorem lt_length_of_getD_some {l : List (Option Sensor)} {j : Nat}
    (h : (l.getD j none).isSome = true) : j < l.length := by
  by_contra hn
  have : l.getD j none = none := by
    simp [List.getD_eq_getElem?_getD, List.getElem?_eq_none (Nat.le_of_not_lt hn)]
  rw [this] at h
  simp at h

theorem iio_dev_at_some {hw : Hw} {k id : Nat} (h : iio_dev_at hw k = some id) :
    id = k ∧ (hw.iio_devs.getD id none).isSome = true := by
  unfold iio_dev_at at h
  split at h
  · next s hs =>
    simp only [Option.some.injEq] at h
    subst h
    exact ⟨rfl, by rw [hs]; rfl⟩
  · simp at h

theorem get_iiodev_from_tag_some {hw : Hw} {tag id : Nat}
    (h : st_asm330lhhx_get_iiodev_from_tag hw tag = some id) :
    (hw.iio_devs.getD id none).isSome = true := by
  unfold st_asm330lhhx_get_iiodev_from_tag at h
  split_ifs at h <;> exact (iio_dev_at_some h).2

theorem iio_dev_at_congr {a b : Hw} (h : same_routing a b) (k : Nat) :
    iio_dev_at a k = iio_dev_at b k := by
  have hk := h.2 k
  unfold iio_dev_at
  cases ha : a.iio_devs.getD k none <;> cases hb : b.iio_devs.getD k none <;>
    rw [ha, hb] at hk <;> simp at hk ⊢

theorem get_iiodev_from_tag_congr {a b : Hw} (h : same_routing a b) (tag : Nat) :
    st_asm330lhhx_get_iiodev_from_tag a tag = st_asm330lhhx_get_iiodev_from_tag b tag := by
  unfold st_asm330lhhx_get_iiodev_from_tag
  rw [h.1]
  simp only [iio_dev_at_congr h]

theorem same_routing_set_sensor (hw : Hw) (id : Nat) (sensor : Sensor)
    (h : (hw.iio_devs.getD id none).isSome = true) : same_routing (set_sensor hw id sensor) hw := by
  refine ⟨rfl, fun j => ?_⟩
  unfold set_sensor
  by_cases hj : j = id
  · subst hj
    dsimp only
    rw [getD_set_self hw.iio_devs j (some sensor) none (lt_length_of_getD_some h), h]
    rfl
  · dsimp only
    rw [getD_set_ne hw.iio_devs j id (some sensor) none hj]

theorem iio_priv_set_sensor_self (hw : Hw) (id : Nat) (sensor : Sensor)
    (h : (hw.iio_devs.getD id none).isSome = true) :
    iio_priv (set_sensor hw id sensor) id = sensor := by
  unfold iio_priv set_sensor
  dsimp only
  rw [getD_set_self hw.iio_devs id (some sensor) none (lt_length_of_getD_some h)]
  rfl

theorem iio_priv_set_sensor_ne (hw : Hw) (id j : Nat) (sensor : Sensor) (h : j ≠ id) :
    iio_priv (set_sensor hw id sensor) j = iio_priv hw j := by
  unfold iio_priv set_sensor
  dsimp only
  rw [getD_set_ne hw.iio_devs j id (some sensor) none h]

/-! ### The body of the `for` loop, case by case -/

/-- A record that is not forwarded and not a timestamp (no device for its tag, or not
ready) only moves `ts_irq` on. -/
theorem read_fifo_record_skip (cfg : Config) (notify delta : Int) (buf : List Nat)
    (st : Loop) (i : Nat) (htag : byte buf i >>> 3 ≠ ST_ASM330LHHX_TS_TAG)
    (h : st_asm330lhhx_get_iiodev_from_tag st.hw (byte buf i >>> 3) = none ∨
      s16 (get_unaligned_le16 buf (i + ST_ASM330LHHX_TAG_SIZE)) ≥ ST_ASM330LHHX_SAMPLE_DISCHARD) :
    read_fifo_record cfg notify delta buf st i = { st with ts_irq := s64 (st.ts_irq + delta) } := by
  unfold read_fifo_record
  simp only [htag, if_false]
  split
  · rfl
  · next id hid =>
    rcases h with h | h
    · rw [h] at hid
      simp at hid
    · simp only [h, if_true]

/-- A ready sample outside the wake-replay path goes through the decimation counter of
its device. -/
theorem read_fifo_record_sample (cfg : Config) (notify delta : Int) (buf : List Nat)
    (st : Loop) (i : Nat) (id : Nat) (htag : byte buf i >>> 3 ≠ ST_ASM330LHHX_TS_TAG)
    (hid : st_asm330lhhx_get_iiodev_from_tag st.hw (byte buf i >>> 3) = some id)
    (hrdy : s16 (get_unaligned_le16 buf (i + ST_ASM330LHHX_TAG_SIZE)) <
      ST_ASM330LHHX_SAMPLE_DISCHARD)
    (hrep : (cfg.may_wakeup && st.hw.resuming && decide (notify ≠ 0)) = false) :
    read_fifo_record cfg notify delta buf st i =
      if (iio_priv st.hw id).dec_counter > 0 then
        { st with
          hw := set_sensor st.hw id
            { iio_priv st.hw id with dec_counter := (iio_priv st.hw id).dec_counter - 1 }
          ts_irq := s64 (st.ts_irq + delta) }
      else
        { st with
          hw := set_sensor st.hw id
            { iio_priv st.hw id with
              dec_counter := (iio_priv st.hw id).decimator
              last_fifo_timestamp := s64 (st.hw.hw_ts + st.hw.ts_offset) }
          trace := st.trace ++ [Action.push id
            (memcpy buf (i + ST_ASM330LHHX_TAG_SIZE) ST_ASM330LHHX_SAMPLE_SIZE)
            (s64 (st.hw.hw_ts + st.hw.ts_offset))]
          ts_irq := s64 (st.ts_irq + delta) } := by
  unfold read_fifo_record
  simp only [htag, if_false, hid]
  have hnot : ¬ s16 (get_unaligned_le16 buf (i + ST_ASM330LHHX_TAG_SIZE)) ≥
      ST_ASM330LHHX_SAMPLE_DISCHARD := by omega
  simp only [hnot, if_false, hrep, Bool.false_eq_true]

/-- A timestamp record: rollover count, stored ticks and hardware time are recomputed and,
unless a flush is in progress, the offset filter is fed. -/
theorem read_fifo_record_timestamp (cfg : Config) (notify delta : Int) (buf : List Nat)
    (st : Loop) (i : Nat) (htag : byte buf i >>> 3 = ST_ASM330LHHX_TS_TAG) :
    read_fifo_record cfg notify delta buf st i =
      { st with
        hw :=
          if st.hw.flush = true then
            timestamp_tick st.hw (get_unaligned_le32 buf (i + ST_ASM330LHHX_TAG_SIZE))
          else
            st_asm330lhhx_sync_hw_ts
              (timestamp_tick st.hw (get_unaligned_le32 buf (i + ST_ASM330LHHX_TAG_SIZE)))
              (s64 (st.ts_irq + delta))
        ts_irq := s64 (st.ts_irq + delta) } := by
  unfold read_fifo_record timestamp_tick
  simp only [htag, if_true]
  cases hf : st.hw.flush <;> simp

/-- A ready sample on the wake-replay path goes to the wake-replay device with the
resume timestamp. -/
theorem read_fifo_record_replay (cfg : Config) (notify delta : Int) (buf : List Nat)
    (st : Loop) (i : Nat) (id : Nat) (htag : byte buf i >>> 3 ≠ ST_ASM330LHHX_TS_TAG)
    (hid : st_asm330lhhx_get_iiodev_from_tag st.hw (byte buf i >>> 3) = some id)
    (hrdy : s16 (get_unaligned_le16 buf (i + ST_ASM330LHHX_TAG_SIZE)) <
      ST_ASM330LHHX_SAMPLE_DISCHARD)
    (hrep : (cfg.may_wakeup && st.hw.resuming && decide (notify ≠ 0)) = true) :
    read_fifo_record cfg notify delta buf st i =
      { st with
        hw := { st.hw with
          ts_offset_resume := s64 (st.hw.ts_offset_resume + st.hw.resume_sample_tick_ns) }
        trace := st.trace ++ [Action.push cfg.id_fifo_mlc
          (memcpy buf (i + ST_ASM330LHHX_TAG_SIZE) ST_ASM330LHHX_SAMPLE_SIZE)
          st.hw.ts_offset_resume]
        ts_irq := s64 (st.ts_irq + delta) } := by
  unfold read_fifo_record
  simp only [htag, if_false, hid]
  have hnot : ¬ s16 (get_unaligned_le16 buf (i + ST_ASM330LHHX_TAG_SIZE)) ≥
      ST_ASM330LHHX_SAMPLE_DISCHARD := by omega
  simp only [hnot, if_false, hrep, if_true]

theorem pushed_to_append (id : Nat) (a b : List Action) :
    pushed_to id (a ++ b) = pushed_to id a ++ pushed_to id b := by
  induction a with
  | nil => rfl
  | cons x xs ih =>
    cases x with
    | push dev data ts =>
      simp only [List.cons_append, pushed_to]
      split_ifs <;> simp [ih]
    | _ => simpa [pushed_to] using ih

theorem same_routing_refl (hw : Hw) : same_routing hw hw := ⟨rfl, fun _ => rfl⟩

theorem same_routing_of_eq {a b : Hw} (h1 : a.enable_mask = b.enable_mask)
    (h2 : a.iio_devs = b.iio_devs) : same_routing a b :=
  ⟨h1, fun _ => by rw [h2]⟩

/-- What `timestamp_tick` leaves alone. -/
theorem timestamp_tick_frame (hw : Hw) (val : Nat) :
    (timestamp_tick hw val).iio_devs = hw.iio_devs ∧
    (timestamp_tick hw val).enable_mask = hw.enable_mask ∧
    (timestamp_tick hw val).resuming = hw.resuming ∧
    (timestamp_tick hw val).flush = hw.flush ∧
    (timestamp_tick hw val).ts_delta_ns = hw.ts_delta_ns ∧
    (timestamp_tick hw val).ts_offset = hw.ts_offset := by
  unfold timestamp_tick
  exact ⟨rfl, rfl, rfl, rfl, rfl, rfl⟩

/-- What `st_asm330lhhx_sync_hw_ts` leaves alone. -/
theorem sync_hw_ts_frame (hw : Hw) (ts : Int) :
    (st_asm330lhhx_sync_hw_ts hw ts).iio_devs = hw.iio_devs ∧
    (st_asm330lhhx_sync_hw_ts hw ts).enable_mask = hw.enable_mask ∧
    (st_asm330lhhx_sync_hw_ts hw ts).resuming = hw.resuming ∧
    (st_asm330lhhx_sync_hw_ts hw ts).flush = hw.flush ∧
    (st_asm330lhhx_sync_hw_ts hw ts).ts_delta_ns = hw.ts_delta_ns ∧
    (st_asm330lhhx_sync_hw_ts hw ts).hw_ts = hw.hw_ts ∧
    (st_asm330lhhx_sync_hw_ts hw ts).val_ts_old = hw.val_ts_old ∧
    (st_asm330lhhx_sync_hw_ts hw ts).hw_ts_high = hw.hw_ts_high := by
  unfold st_asm330lhhx_sync_hw_ts
  exact ⟨rfl, rfl, rfl, rfl, rfl, rfl, rfl, rfl⟩

/-- A timestamp record, component by component. -/
theorem read_fifo_record_timestamp_hw (cfg : Config) (notify delta : Int) (buf : List Nat)
    (st : Loop) (i : Nat) (htag : byte buf i >>> 3 = ST_ASM330LHHX_TS_TAG) :
    (read_fifo_record cfg notify delta buf st i).hw =
      (if st.hw.flush = true then
        timestamp_tick st.hw (get_unaligned_le32 buf (i + ST_ASM330LHHX_TAG_SIZE))
      else
        st_asm330lhhx_sync_hw_ts
          (timestamp_tick st.hw (get_unaligned_le32 buf (i + ST_ASM330LHHX_TAG_SIZE)))
          (s64 (st.ts_irq + delta))) ∧
    (read_fifo_record cfg notify delta buf st i).trace = st.trace ∧
    (read_fifo_record cfg notify delta buf st i).ts_irq = s64 (st.ts_irq + delta) := by
  rw [read_fifo_record_timestamp cfg notify delta buf st i htag]
  exact ⟨rfl, rfl, rfl⟩

/-- The timestamp branch leaves the devices, the enable mask and the flags alone. -/
theorem read_fifo_record_timestamp_frame (cfg : Config) (notify delta : Int) (buf : List Nat)
    (st : Loop) (i : Nat) (htag : byte buf i >>> 3 = ST_ASM330LHHX_TS_TAG) :
    (read_fifo_record cfg notify delta buf st i).hw.iio_devs = st.hw.iio_devs ∧
    (read_fifo_record cfg notify delta buf st i).hw.enable_mask = st.hw.enable_mask ∧
    (read_fifo_record cfg notify delta buf st i).hw.resuming = st.hw.resuming ∧
    (read_fifo_record cfg notify delta buf st i).hw.flush = st.hw.flush ∧
    (read_fifo_record cfg notify delta buf st i).hw.ts_delta_ns = st.hw.ts_delta_ns ∧
    (read_fifo_record cfg notify delta buf st i).trace = st.trace := by
  obtain ⟨h1, h2, _⟩ := read_fifo_record_timestamp_hw cfg notify delta buf st i htag
  rw [h1, h2]
  by_cases hf : st.hw.flush = true
  · rw [if_pos hf]
    obtain ⟨t1, t2, t3, t4, t5, _⟩ := timestamp_tick_frame st.hw
      (get_unaligned_le32 buf (i + ST_ASM330LHHX_TAG_SIZE))
    exact ⟨t1, t2, t3, t4, t5, rfl⟩
  · rw [if_neg hf]
    obtain ⟨t1, t2, t3, t4, t5, _⟩ := timestamp_tick_frame st.hw
      (get_unaligned_le32 buf (i + ST_ASM330LHHX_TAG_SIZE))
    obtain ⟨s1, s2, s3, s4, s5, _⟩ := sync_hw_ts_frame
      (timestamp_tick st.hw (get_unaligned_le32 buf (i + ST_ASM330LHHX_TAG_SIZE)))
      (s64 (st.ts_irq + delta))
    exact ⟨s1.trans t1, s2.trans t2, s3.trans t3, s4.trans t4, s5.trans t5, rfl⟩

/-- What one record does to the decimation counter of the device in slot `id` and to
the samples forwarded to it, outside the wake-replay path. -/
theorem read_fifo_record_channel (cfg : Config) (s : Step) (st : Loop) (id : Nat)
    (hrep : (cfg.may_wakeup && st.hw.resuming && decide (s.notify ≠ 0)) = false) :
    same_routing (read_fifo_record cfg s.notify s.delta s.buf st s.i).hw st.hw ∧
    (read_fifo_record cfg s.notify s.delta s.buf st s.i).hw.resuming = st.hw.resuming ∧
    (iio_priv (read_fifo_record cfg s.notify s.delta s.buf st s.i).hw id).decimator =
      (iio_priv st.hw id).decimator ∧
    (s.is_ready_sample_of st.hw id = true → 0 < (iio_priv st.hw id).dec_counter →
      (iio_priv (read_fifo_record cfg s.notify s.delta s.buf st s.i).hw id).dec_counter =
        (iio_priv st.hw id).dec_counter - 1 ∧
      pushed_to id (read_fifo_record cfg s.notify s.delta s.buf st s.i).trace =
        pushed_to id st.trace) ∧
    (s.is_ready_sample_of st.hw id = true → (iio_priv st.hw id).dec_counter = 0 →
      (iio_priv (read_fifo_record cfg s.notify s.delta s.buf st s.i).hw id).dec_counter =
        (iio_priv st.hw id).decimator ∧
      pushed_to id (read_fifo_record cfg s.notify s.delta s.buf st s.i).trace =
        pushed_to id st.trace ++
          [(memcpy s.buf (s.i + ST_ASM330LHHX_TAG_SIZE) ST_ASM330LHHX_SAMPLE_SIZE,
            s64 (st.hw.hw_ts + st.hw.ts_offset))]) ∧
    (s.is_ready_sample_of st.hw id = false →
      (iio_priv (read_fifo_record cfg s.notify s.delta s.buf st s.i).hw id).dec_counter =
        (iio_priv st.hw id).dec_counter ∧
      pushed_to id (read_fifo_record cfg s.notify s.delta s.buf st s.i).trace =
        pushed_to id st.trace) := by
  by_cases htag : byte s.buf s.i >>> 3 = ST_ASM330LHHX_TS_TAG
  · have hnr : s.is_ready_sample_of st.hw id = false := by
      simp [Step.is_ready_sample_of, htag]
    have hno : ¬ s.is_ready_sample_of st.hw id = true := by rw [hnr]; decide
    obtain ⟨f1, f2, f3, _, _, f6⟩ :=
      read_fifo_record_timestamp_frame cfg s.notify s.delta s.buf st s.i htag
    refine ⟨same_routing_of_eq f2 f1, f3, ?_, fun h => absurd h hno, fun h => absurd h hno,
      fun _ => ⟨?_, ?_⟩⟩
    · unfold iio_priv
      rw [f1]
    · unfold iio_priv
      rw [f1]
    · rw [f6]
  · by_cases hskip : st_asm330lhhx_get_iiodev_from_tag st.hw (byte s.buf s.i >>> 3) = none ∨
        s16 (get_unaligned_le16 s.buf (s.i + ST_ASM330LHHX_TAG_SIZE)) ≥
          ST_ASM330LHHX_SAMPLE_DISCHARD
    · have hnr : s.is_ready_sample_of st.hw id = false := by
        rcases hskip with h | h
        · simp [Step.is_ready_sample_of, h]
        · simp only [Step.is_ready_sample_of, Bool.and_eq_false_imp, decide_eq_true_eq,
            decide_eq_false_iff_not]
          intro _ _
          omega
      have hno : ¬ s.is_ready_sample_of st.hw id = true := by rw [hnr]; decide
      rw [read_fifo_record_skip cfg s.notify s.delta s.buf st s.i htag hskip]
      exact ⟨same_routing_refl _, rfl, rfl, fun h => absurd h hno, fun h => absurd h hno,
        fun _ => ⟨rfl, rfl⟩⟩
    · rw [not_or] at hskip
      obtain ⟨hsome, hrdy⟩ := hskip
      obtain ⟨j, hj⟩ := Option.ne_none_iff_exists'.mp hsome
      have hrdy2 : s16 (get_unaligned_le16 s.buf (s.i + ST_ASM330LHHX_TAG_SIZE)) <
          ST_ASM330LHHX_SAMPLE_DISCHARD := by omega
      have hslot := get_iiodev_from_tag_some hj
      rw [read_fifo_record_sample cfg s.notify s.delta s.buf st s.i j htag hj hrdy2 hrep]
      by_cases hji : j = id
      · subst hji
        by_cases hc : (iio_priv st.hw j).dec_counter > 0
        · rw [if_pos hc]
          refine ⟨same_routing_set_sensor _ _ _ hslot, rfl, ?_, fun _ _ => ⟨?_, rfl⟩,
            fun _ h0 => ?_, fun hr => ?_⟩
          · dsimp only
            rw [iio_priv_set_sensor_self _ _ _ hslot]
          · dsimp only
            rw [iio_priv_set_sensor_self _ _ _ hslot]
          · omega
          · simp [Step.is_ready_sample_of, htag, hj, hrdy2] at hr
        · rw [if_neg hc]
          refine ⟨same_routing_set_sensor _ _ _ hslot, rfl, ?_, fun _ h0 => ?_,
            fun _ _ => ⟨?_, ?_⟩, fun hr => ?_⟩
          · dsimp only
            rw [iio_priv_set_sensor_self _ _ _ hslot]
          · omega
          · dsimp only
            rw [iio_priv_set_sensor_self _ _ _ hslot]
          · rw [pushed_to_append]
            simp [pushed_to]
          · simp [Step.is_ready_sample_of, htag, hj, hrdy2] at hr
      · have hr : s.is_ready_sample_of st.hw id = false := by
          simp [Step.is_ready_sample_of, hj, hji]
        have hno : ¬ s.is_ready_sample_of st.hw id = true := by rw [hr]; decide
        have hij : id ≠ j := fun h => hji h.symm
        by_cases hc : (iio_priv st.hw j).dec_counter > 0
        · rw [if_pos hc]
          refine ⟨same_routing_set_sensor _ _ _ hslot, rfl, ?_, fun h => absurd h hno,
            fun h => absurd h hno, fun _ => ⟨?_, rfl⟩⟩
          · dsimp only
            rw [iio_priv_set_sensor_ne _ _ _ _ hij]
          · dsimp only
            rw [iio_priv_set_sensor_ne _ _ _ _ hij]
        · rw [if_neg hc]
          refine ⟨same_routing_set_sensor _ _ _ hslot, rfl, ?_, fun h => absurd h hno,
            fun h => absurd h hno, fun _ => ⟨?_, ?_⟩⟩
          · dsimp only
            rw [iio_priv_set_sensor_ne _ _ _ _ hij]
          · dsimp only
            rw [iio_priv_set_sensor_ne _ _ _ _ hij]
          · rw [pushed_to_append]
            simp [pushed_to, hji]

theorem is_ready_sample_of_congr {a b : Hw} (h : same_routing a b) (id : Nat) (s : Step) :
    s.is_ready_sample_of a id = s.is_ready_sample_of b id := by
  unfold Step.is_ready_sample_of
  rw [get_iiodev_from_tag_congr h]

theorem same_routing_trans {a b c : Hw} (h1 : same_routing a b) (h2 : same_routing b c) :
    same_routing a c :=
  ⟨h1.1.trans h2.1, fun j => (h1.2 j).trans (h2.2 j)⟩

/-- Counting over a list of records, outside the wake-replay path: with `r` ready
samples of the device in slot `id` among them and `p` samples forwarded to it, the
counter `c` of the device ends at `c + p * (decimator + 1) - r`, and stays within the
decimation factor. -/
theorem process_decimation (cfg : Config) (hw0 : Hw) (id : Nat) :
    ∀ (steps : List Step) (st : Loop),
      same_routing st.hw hw0 → st.hw.resuming = hw0.resuming →
      (∀ s ∈ steps, (cfg.may_wakeup && hw0.resuming && decide (s.notify ≠ 0)) = false) →
      (iio_priv st.hw id).dec_counter ≤ (iio_priv st.hw id).decimator →
      ∃ p, (pushed_to id (process cfg steps st).trace).length =
          (pushed_to id st.trace).length + p ∧
        (iio_priv (process cfg steps st).hw id).dec_counter +
            steps.countP (Step.is_ready_sample_of hw0 id) =
          (iio_priv st.hw id).dec_counter + p * ((iio_priv st.hw id).decimator + 1) ∧
        (iio_priv (process cfg steps st).hw id).dec_counter ≤ (iio_priv st.hw id).decimator ∧
        (iio_priv (process cfg steps st).hw id).decimator = (iio_priv st.hw id).decimator := by
  intro steps
  induction steps with
  | nil =>
    intro st _ _ _ hc
    exact ⟨0, by simp [process], by simp [process], by simpa [process] using hc, by simp [process]⟩
  | cons s rest ih =>
    intro st hroute hres hrep hc
    have hrep_s : (cfg.may_wakeup && st.hw.resuming && decide (s.notify ≠ 0)) = false := by
      rw [hres]
      exact hrep s (List.mem_cons_self _ _)
    obtain ⟨k1, k2, k3, k4, k5, k6⟩ := read_fifo_record_channel cfg s st id hrep_s
    have hready : s.is_ready_sample_of hw0 id = s.is_ready_sample_of st.hw id :=
      (is_ready_sample_of_congr hroute id s).symm
    have hproc : process cfg (s :: rest) st =
        process cfg rest (read_fifo_record cfg s.notify s.delta s.buf st s.i) := rfl
    rw [hproc, List.countP_cons, hready]
    by_cases hr : s.is_ready_sample_of st.hw id = true
    · by_cases hpos : 0 < (iio_priv st.hw id).dec_counter
      · obtain ⟨e1, e2⟩ := k4 hr hpos
        obtain ⟨p, q1, q2, q3, q4⟩ := ih (read_fifo_record cfg s.notify s.delta s.buf st s.i)
          (same_routing_trans k1 hroute) (k2.trans hres)
          (fun x hx => hrep x (List.mem_cons_of_mem _ hx)) (by rw [e1, k3]; omega)
        refine ⟨p, ?_, ?_, ?_, ?_⟩
        · rw [q1, e2]
        · rw [e1, k3] at q2
          simp only [hr, if_true]
          omega
        · rw [k3] at q3
          exact q3
        · rw [q4, k3]
      · have hzero : (iio_priv st.hw id).dec_counter = 0 := by omega
        obtain ⟨e1, e2⟩ := k5 hr hzero
        obtain ⟨p, q1, q2, q3, q4⟩ := ih (read_fifo_record cfg s.notify s.delta s.buf st s.i)
          (same_routing_trans k1 hroute) (k2.trans hres)
          (fun x hx => hrep x (List.mem_cons_of_mem _ hx)) (by rw [e1, k3])
        refine ⟨p + 1, ?_, ?_, ?_, ?_⟩
        · rw [q1, e2]
          simp only [List.length_append, List.length_singleton]
          omega
        · rw [e1, k3] at q2
          simp only [hr, if_true]
          rw [hzero, Nat.add_mul]
          omega
        · rw [k3] at q3
          exact q3
        · rw [q4, k3]
    · have hr2 : s.is_ready_sample_of st.hw id = false := by
        cases h : s.is_ready_sample_of st.hw id
        · rfl
        · exact absurd h hr
      obtain ⟨e1, e2⟩ := k6 hr2
      obtain ⟨p, q1, q2, q3, q4⟩ := ih (read_fifo_record cfg s.notify s.delta s.buf st s.i)
        (same_routing_trans k1 hroute) (k2.trans hres)
        (fun x hx => hrep x (List.mem_cons_of_mem _ hx)) (by rw [e1, k3]; exact hc)
      refine ⟨p, ?_, ?_, ?_, ?_⟩
      · rw [q1, e2]
      · rw [e1, k3] at q2
        simp only [hr2, Bool.false_eq_true, if_false]
        omega
      · rw [k3] at q3
        exact q3
      · rw [q4, k3]

/-- C4, as amended: take a device with decimation factor N whose counter is at most N,
and any run of records handled by the body of the record loop outside the wake-replay
path, whatever the chunks and drains they come from, with no flush in between. If N + 1
of them are ready samples of that device, exactly one sample is forwarded to it, and the
counter is back at the value it had. -/
theorem decimation_forwards_one_in_window (cfg : Config) (st : Loop) (id : Nat)
    (steps : List Step)
    (hc : (iio_priv st.hw id).dec_counter ≤ (iio_priv st.hw id).decimator)
    (hrep : ∀ s ∈ steps, (cfg.may_wakeup && st.hw.resuming && decide (s.notify ≠ 0)) = false)
    (hcount : steps.countP (Step.is_ready_sample_of st.hw id) =
      (iio_priv st.hw id).decimator + 1) :
    (pushed_to id (process cfg steps st).trace).length = (pushed_to id st.trace).length + 1 ∧
    (iio_priv (process cfg steps st).hw id).dec_counter = (iio_priv st.hw id).dec_counter := by
  obtain ⟨p, q1, q2, q3, _⟩ := process_decimation cfg st.hw id steps st
    (same_routing_refl _) rfl hrep hc
  rw [hcount] at q2
  have hp : p = 1 := by
    rcases Nat.lt_or_ge p 1 with h | h
    · have : p = 0 := by omega
      rw [this] at q2
      omega
    · rcases Nat.lt_or_ge p 2 with h2 | h2
      · omega
      · have := Nat.mul_le_mul_right ((iio_priv st.hw id).decimator + 1) h2
        omega
  rw [hp] at q1 q2
  exact ⟨q1, by omega⟩

theorem decimation_forwards_one_in_window_witness :
    (pushed_to ST_ASM330LHHX_ID_ACC (process example_cfg example_steps
        { hw := example_hw_decimating, trace := [], ts_irq := 0 }).trace).length =
      (pushed_to ST_ASM330LHHX_ID_ACC ([] : List Action)).length + 1 ∧
    (iio_priv (process example_cfg example_steps
        { hw := example_hw_decimating, trace := [], ts_irq := 0 }).hw
      ST_ASM330LHHX_ID_ACC).dec_counter =
      (iio_priv example_hw_decimating ST_ASM330LHHX_ID_ACC).dec_counter :=
  decimation_forwards_one_in_window example_cfg
    { hw := example_hw_decimating, trace := [], ts_irq := 0 } ST_ASM330LHHX_ID_ACC example_steps
    (by decide) (by decide) (by decide)

/-- C4, as stated, fails across a flush: with decimation factor 1 on the accelerometer,
a drain of one ready accelerometer sample, a flush of the accelerometer and a second
drain of one ready accelerometer sample forward both samples, two out of two in a row. -/
theorem decimation_window_broken_by_flush :
    (iio_priv example_hw_decimating ST_ASM330LHHX_ID_ACC).decimator = 1 ∧
    (run example_cfg example_hw_decimating
      [(Call.read_fifo 0 0, example_dev_accel),
       (Call.flush_fifo ST_ASM330LHHX_ID_ACC 2000000, {}),
       (Call.read_fifo 0 0, example_dev_accel)]).map
      (fun rs => rs.map (fun r => (r.ret, (pushed_to ST_ASM330LHHX_ID_ACC r.trace).length))) =
      some [(7, 1), (0, 0), (7, 1)] := by
  decide

/-! ## Records that are not ready -/

/-- C5: a data record whose tag has a device and whose 16-bit ready field, read as a
signed value, is at least 0x7FFD is dropped by the record loop in whatever state it comes:
nothing is added to the trace and the driver state, decimation counters and last
timestamps with it, is as before; only the provisional timestamp moves on. So in any run
of records the record can be taken out but for this move. -/
theorem not_ready_record_is_dropped (cfg : Config) (notify delta : Int) (buf : List Nat)
    (st : Loop) (i : Nat) (id : Nat)
    (htag : byte buf i >>> 3 ≠ ST_ASM330LHHX_TS_TAG)
    (hid : st_asm330lhhx_get_iiodev_from_tag st.hw (byte buf i >>> 3) = some id)
    (hnr : s16 (get_unaligned_le16 buf (i + 1)) ≥ 0x7ffd) :
    (read_fifo_record cfg notify delta buf st i).trace = st.trace ∧
    (read_fifo_record cfg notify delta buf st i).hw = st.hw ∧
    (iio_priv (read_fifo_record cfg notify delta buf st i).hw id).dec_counter =
      (iio_priv st.hw id).dec_counter ∧
    (iio_priv (read_fifo_record cfg notify delta buf st i).hw id).last_fifo_timestamp =
      (iio_priv st.hw id).last_fifo_timestamp ∧
    ∀ (before after : List Step) (st0 : Loop),
      process cfg before st0 = st →
      process cfg (before ++ { notify := notify, delta := delta, buf := buf, i := i } :: after)
          st0 =
        process cfg after { st with ts_irq := s64 (st.ts_irq + delta) } := by
  have h := read_fifo_record_skip cfg notify delta buf st i htag (Or.inr hnr)
  refine ⟨by rw [h], by rw [h], by rw [h], by rw [h], ?_⟩
  intro before after st0 hst
  unfold process at hst ⊢
  rw [List.foldl_append, List.foldl_cons, hst]
  dsimp only
  rw [h]

theorem not_ready_record_is_dropped_witness :
    (read_fifo_record example_cfg 0 10000 example_dev.fifo
        { hw := example_hw, trace := [], ts_irq := 0 } 14).trace = [] ∧
    (read_fifo_record example_cfg 0 10000 example_dev.fifo
        { hw := example_hw, trace := [], ts_irq := 0 } 14).hw = example_hw ∧
    (iio_priv (read_fifo_record example_cfg 0 10000 example_dev.fifo
        { hw := example_hw, trace := [], ts_irq := 0 } 14).hw ST_ASM330LHHX_ID_GYRO).dec_counter =
      (iio_priv example_hw ST_ASM330LHHX_ID_GYRO).dec_counter ∧
    (iio_priv (read_fifo_record example_cfg 0 10000 example_dev.fifo
        { hw := example_hw, trace := [], ts_irq := 0 } 14).hw
      ST_ASM330LHHX_ID_GYRO).last_fifo_timestamp =
      (iio_priv example_hw ST_ASM330LHHX_ID_GYRO).last_fifo_timestamp ∧
    ∀ (before after : List Step) (st0 : Loop),
      process example_cfg before st0 = { hw := example_hw, trace := [], ts_irq := 0 } →
      process example_cfg
          (before ++ { notify := 0, delta := 10000, buf := example_dev.fifo, i := 14 } :: after)
          st0 =
        process example_cfg after
          { ({ hw := example_hw, trace := [], ts_irq := 0 } : Loop) with
            ts_irq := s64 ((0 : Int) + 10000) } :=
  not_ready_record_is_dropped example_cfg 0 10000 example_dev.fifo
    { hw := example_hw, trace := [], ts_irq := 0 } 14 ST_ASM330LHHX_ID_GYRO
    (by decide) (by decide) (by decide)


/-! ## FIFO mode and timestamp reset -/

/-- C15: `st_asm330lhhx_set_fifo_mode` has a negative return value exactly when the write
of the mode field to the control register has one; it then returns that code and the
driver state, recorded mode and operational flag with it, is as before; when the write
succeeds it returns 0, the recorded mode is the requested one and the operational flag
is set exactly when the requested mode is not Bypass. -/
theorem set_fifo_mode_fails_iff_write_fails (hw : Hw) (dev : Dev) (fifo_mode : FifoMode) :
    ((st_asm330lhhx_set_fifo_mode hw dev fifo_mode).ret < 0 ↔
      (st_asm330lhhx_write_locked dev).1 < 0) ∧
    (st_asm330lhhx_set_fifo_mode hw dev fifo_mode).trace =
      [Action.write_fifo_mode Reg.ST_ASM330LHHX_REG_FIFO_CTRL4_ADDR fifo_mode] ∧
    (if (st_asm330lhhx_write_locked dev).1 < 0 then
      (st_asm330lhhx_set_fifo_mode hw dev fifo_mode).ret = (st_asm330lhhx_write_locked dev).1 ∧
      (st_asm330lhhx_set_fifo_mode hw dev fifo_mode).hw = hw ∧
      (st_asm330lhhx_set_fifo_mode hw dev fifo_mode).hw.fifo_mode = hw.fifo_mode ∧
      (st_asm330lhhx_set_fifo_mode hw dev fifo_mode).hw.operational = hw.operational
    else
      (st_asm330lhhx_set_fifo_mode hw dev fifo_mode).ret = 0 ∧
      (st_asm330lhhx_set_fifo_mode hw dev fifo_mode).hw.fifo_mode = fifo_mode ∧
      ((st_asm330lhhx_set_fifo_mode hw dev fifo_mode).hw.operational = true ↔
        fifo_mode ≠ FifoMode.ST_ASM330LHHX_FIFO_BYPASS)) := by
  unfold st_asm330lhhx_set_fifo_mode
  by_cases h : (st_asm330lhhx_write_locked dev).1 < 0
  · simp only [h, if_true, and_self]
  · cases fifo_mode <;> simp [h]

/-- C19: whatever the state before and whatever the return code of the write to the
timestamp register that follows, `st_asm330lhhx_reset_hwts` leaves the clock offset and
the stored host interrupt time at the host-clock reading, and the rollover count and
the stored low ticks at 0; its return value is the code of that write. -/
theorem reset_hwts_resets_clock_state (hw : Hw) (dev : Dev) (now : Int) :
    (st_asm330lhhx_reset_hwts hw dev now).hw.ts_offset = now ∧
    (st_asm330lhhx_reset_hwts hw dev now).hw.ts = now ∧
    (st_asm330lhhx_reset_hwts hw dev now).hw.hw_ts_high = 0 ∧
    (st_asm330lhhx_reset_hwts hw dev now).hw.val_ts_old = 0 ∧
    (st_asm330lhhx_reset_hwts hw dev now).hw.tsample = 0 ∧
    (st_asm330lhhx_reset_hwts hw dev now).ret = dev.rc.headD 0 ∧
    ∀ dev2 : Dev, (st_asm330lhhx_reset_hwts hw dev2 now).hw =
      (st_asm330lhhx_reset_hwts hw dev now).hw := by
  unfold st_asm330lhhx_reset_hwts
  exact ⟨rfl, rfl, rfl, rfl, rfl, rfl, fun _ => rfl⟩


/-! ## Tags -/

/-- A tag that is none of the five data tags has no device. -/
theorem get_iiodev_from_tag_unknown (hw : Hw) (tag : Nat)
    (h1 : tag ≠ ST_ASM330LHHX_GYRO_TAG) (h2 : tag ≠ ST_ASM330LHHX_ACC_TAG)
    (h3 : tag ≠ ST_ASM330LHHX_TEMP_TAG) (h4 : tag ≠ ST_ASM330LHHX_EXT0_TAG)
    (h5 : tag ≠ ST_ASM330LHHX_EXT1_TAG) :
    st_asm330lhhx_get_iiodev_from_tag hw tag = none := by
  unfold st_asm330lhhx_get_iiodev_from_tag
  rw [if_neg h1, if_neg h2, if_neg h3, if_neg h4, if_neg h5]

/-- The body of the record loop reads a record through the top five bits of its byte 0
and the bytes after it. -/
theorem read_fifo_record_congr (cfg : Config) (notify delta : Int) (buf buf2 : List Nat)
    (st : Loop) (i : Nat) (h0 : byte buf2 i >>> 3 = byte buf i >>> 3)
    (h : ∀ k, 0 < k → byte buf2 (i + k) = byte buf (i + k)) :
    read_fifo_record cfg notify delta buf2 st i = read_fifo_record cfg notify delta buf st i := by
  have e1 : byte buf2 (i + 1) = byte buf (i + 1) := h 1 (by omega)
  have e2 : byte buf2 (i + 1 + 1) = byte buf (i + 1 + 1) := h 2 (by omega)
  have e3 : byte buf2 (i + 1 + 2) = byte buf (i + 1 + 2) := h 3 (by omega)
  have e4 : byte buf2 (i + 1 + 3) = byte buf (i + 1 + 3) := h 4 (by omega)
  have h16 : get_unaligned_le16 buf2 (i + ST_ASM330LHHX_TAG_SIZE) =
      get_unaligned_le16 buf (i + ST_ASM330LHHX_TAG_SIZE) := by
    unfold get_unaligned_le16 ST_ASM330LHHX_TAG_SIZE
    rw [e1, e2]
  have h32 : get_unaligned_le32 buf2 (i + ST_ASM330LHHX_TAG_SIZE) =
      get_unaligned_le32 buf (i + ST_ASM330LHHX_TAG_SIZE) := by
    unfold get_unaligned_le32 ST_ASM330LHHX_TAG_SIZE
    rw [e1, e2, e3, e4]
  have hm : memcpy buf2 (i + ST_ASM330LHHX_TAG_SIZE) ST_ASM330LHHX_SAMPLE_SIZE =
      memcpy buf (i + ST_ASM330LHHX_TAG_SIZE) ST_ASM330LHHX_SAMPLE_SIZE := by
    unfold memcpy ST_ASM330LHHX_TAG_SIZE
    apply List.map_congr_left
    intro k _
    rw [Nat.add_assoc, h (1 + k) (by omega)]
  unfold read_fifo_record
  simp only [h0, h16, h32, hm]

/-- In an operational state whose reads succeed the drain returns the masked depth times
the record size, whatever the records are. -/
theorem read_fifo_ret_ok (cfg : Config) (hw : Hw) (dev : Dev)
    (notify now : Int) (hop : hw.operational = true) (hok : reads_succeed dev) :
    ∃ r, st_asm330lhhx_read_fifo cfg hw dev notify now = some r ∧
      r.ret = ((status_fifo_depth cfg dev * ST_ASM330LHHX_FIFO_SAMPLE_SIZE : Nat) : Int) := by
  have hhead := reads_succeed_head hok
  unfold st_asm330lhhx_read_fifo status_fifo_depth
  simp only [hop, Bool.not_true, Bool.false_eq_true, if_false, st_asm330lhhx_read_locked, hhead,
    List.take, status_depth]
  by_cases hd : (dev.fifo_status1 % 256 + 256 * (dev.fifo_status2 % 256)) &&&
      cfg.fifo_status_diff = 0
  · simp [hd]
  · simp only [hd, if_false]
    obtain ⟨st2, k1, k2, _⟩ := read_fifo_loop_begin_ok cfg notify
      (((dev.fifo_status1 % 256 + 256 * (dev.fifo_status2 % 256)) &&& cfg.fifo_status_diff) *
        ST_ASM330LHHX_FIFO_SAMPLE_SIZE)
      (div_s64 hw.delta_ts (((dev.fifo_status1 % 256 + 256 * (dev.fifo_status2 % 256)) &&&
        cfg.fifo_status_diff : Nat) : Int))
      hw { dev with rc := dev.rc.tail } now
      ((dev.fifo_status1 % 256 + 256 * (dev.fifo_status2 % 256)) &&& cfg.fifo_status_diff)
      (reads_succeed_tail hok _ rfl)
    rw [k1, Option.map_some']
    refine ⟨_, rfl, ?_⟩
    unfold read_fifo_end
    simp only [lt_self_iff_false, if_false]
    split_ifs <;> simp [k2]

/-- C20: the record loop takes the tag of a record from the top five bits of its byte 0
(two records that agree on these bits and on the bytes that follow are handled alike,
whatever the low three bits). A record whose tag is none of Gyro 0x01, Accel 0x02,
Temp 0x03, Timestamp 0x04, Ext0 0x0F, Ext1 0x10, or whose data tag has no registered
device, is dropped: the trace and the whole driver state (hardware clock, offset,
decimation counters) are as before, the loop goes on with the next record from there,
and the drain still returns depth * record_size whatever the tags in the FIFO. -/
theorem unknown_tag_record_is_dropped (cfg : Config) (notify delta : Int) (buf : List Nat)
    (st : Loop) (i : Nat)
    (hunk : (byte buf i >>> 3 ≠ 0x01 ∧ byte buf i >>> 3 ≠ 0x02 ∧ byte buf i >>> 3 ≠ 0x03 ∧
        byte buf i >>> 3 ≠ 0x04 ∧ byte buf i >>> 3 ≠ 0x0f ∧ byte buf i >>> 3 ≠ 0x10) ∨
      (byte buf i >>> 3 ≠ ST_ASM330LHHX_TS_TAG ∧
        st_asm330lhhx_get_iiodev_from_tag st.hw (byte buf i >>> 3) = none)) :
    (∀ buf2 : List Nat, byte buf2 i >>> 3 = byte buf i >>> 3 →
      (∀ k, 0 < k → byte buf2 (i + k) = byte buf (i + k)) →
      read_fifo_record cfg notify delta buf2 st i = read_fifo_record cfg notify delta buf st i) ∧
    (read_fifo_record cfg notify delta buf st i).trace = st.trace ∧
    (read_fifo_record cfg notify delta buf st i).hw = st.hw ∧
    (∀ (before after : List Step) (st0 : Loop),
      process cfg before st0 = st →
      process cfg (before ++ { notify := notify, delta := delta, buf := buf, i := i } :: after)
          st0 =
        process cfg after { st with ts_irq := s64 (st.ts_irq + delta) }) ∧
    ∀ (hw : Hw) (dev : Dev) (now : Int), hw.operational = true → reads_succeed dev →
      ∃ r, st_asm330lhhx_read_fifo cfg hw dev notify now = some r ∧
        r.ret = ((status_fifo_depth cfg dev * ST_ASM330LHHX_FIFO_SAMPLE_SIZE : Nat) : Int) := by
  have htag : byte buf i >>> 3 ≠ ST_ASM330LHHX_TS_TAG := by
    rcases hunk with h | h
    · exact h.2.2.2.1
    · exact h.1
  have hnone : st_asm330lhhx_get_iiodev_from_tag st.hw (byte buf i >>> 3) = none := by
    rcases hunk with h | h
    · exact get_iiodev_from_tag_unknown _ _ h.1 h.2.1 h.2.2.1 h.2.2.2.2.1 h.2.2.2.2.2
    · exact h.2
  have h := read_fifo_record_skip cfg notify delta buf st i htag (Or.inl hnone)
  refine ⟨fun buf2 h0 hk => read_fifo_record_congr cfg notify delta buf buf2 st i h0 hk,
    by rw [h], by rw [h], ?_,
    fun hw dev now hop hok => read_fifo_ret_ok cfg hw dev notify now hop hok⟩
  intro before after st0 hst
  unfold process at hst ⊢
  rw [List.foldl_append, List.foldl_cons, hst]
  dsimp only
  rw [h]

theorem unknown_tag_record_is_dropped_witness :
    (∀ buf2 : List Nat, byte buf2 0 >>> 3 = byte example_buf_unknown 0 >>> 3 →
      (∀ k, 0 < k → byte buf2 (0 + k) = byte example_buf_unknown (0 + k)) →
      read_fifo_record example_cfg 0 10000 buf2 { hw := example_hw, trace := [], ts_irq := 0 } 0 =
        read_fifo_record example_cfg 0 10000 example_buf_unknown
          { hw := example_hw, trace := [], ts_irq := 0 } 0) ∧
    (read_fifo_record example_cfg 0 10000 example_buf_unknown
        { hw := example_hw, trace := [], ts_irq := 0 } 0).trace = [] ∧
    (read_fifo_record example_cfg 0 10000 example_buf_unknown
        { hw := example_hw, trace := [], ts_irq := 0 } 0).hw = example_hw ∧
    (∀ (before after : List Step) (st0 : Loop),
      process example_cfg before st0 = { hw := example_hw, trace := [], ts_irq := 0 } →
      process example_cfg
          (before ++ { notify := 0, delta := 10000, buf := example_buf_unknown, i := 0 } :: after)
          st0 =
        process example_cfg after
          { ({ hw := example_hw, trace := [], ts_irq := 0 } : Loop) with
            ts_irq := s64 ((0 : Int) + 10000) }) ∧
    ∀ (hw : Hw) (dev : Dev) (now : Int), hw.operational = true → reads_succeed dev →
      ∃ r, st_asm330lhhx_read_fifo example_cfg hw dev 0 now = some r ∧
        r.ret = ((status_fifo_depth example_cfg dev * ST_ASM330LHHX_FIFO_SAMPLE_SIZE : Nat) : Int) :=
  unknown_tag_record_is_dropped example_cfg 0 10000 example_buf_unknown
    { hw := example_hw, trace := [], ts_irq := 0 } 0
    (Or.inl (by decide))

/-! ## Watermark -/

/-- Bits of C `a & ~m`. -/
theorem and_not_testBit (a m i : Nat) :
    (and_not a m).testBit i = (a.testBit i && !m.testBit i) := by
  unfold and_not
  rw [Nat.testBit_xor, Nat.testBit_and]
  cases a.testBit i <;> cases m.testBit i <;> rfl

/-- Bits of the merged watermark word. -/
theorem merge_watermark_testBit (cfg : Config) (data fifo_watermark i : Nat) :
    (merge_watermark cfg data fifo_watermark).testBit i =
      (decide (i < 16) &&
        (if cfg.fifo_wtm_mask.testBit i = true then fifo_watermark.testBit i
         else (data <<< 8).testBit i)) := by
  unfold merge_watermark u16
  rw [Nat.testBit_mod_two_pow, Nat.testBit_or, and_not_testBit, Nat.testBit_and]
  cases cfg.fifo_wtm_mask.testBit i <;> simp

theorem merge_watermark_lt (cfg : Config) (data fifo_watermark : Nat) :
    merge_watermark cfg data fifo_watermark < 2 ^ 16 := by
  unfold merge_watermark u16
  exact Nat.mod_lt _ (by norm_num)

/-- A failed read-back ends the watermark update with the driver state as it was. -/
theorem update_watermark_read_fail (cfg : Config) (hw : Hw) (dev : Dev) (id watermark : Nat)
    (h : dev.rc.headD 0 < 0) :
    st_asm330lhhx_update_watermark cfg hw dev id watermark =
      { ret := dev.rc.headD 0, hw := hw, dev := { dev with rc := dev.rc.tail },
        trace := [Action.regmap_read Reg.ST_ASM330LHHX_REG_FIFO_CTRL1_ADDR 1] } := by
  unfold st_asm330lhhx_update_watermark regmap_read
  simp only [h, if_true]

/-- After a read-back that succeeds the watermark update saves the merged word and
returns the code of the write. -/
theorem update_watermark_read_ok (cfg : Config) (hw : Hw) (dev : Dev) (id watermark : Nat)
    (h : ¬ dev.rc.headD 0 < 0) :
    (st_asm330lhhx_update_watermark cfg hw dev id watermark).ret = dev.rc.tail.headD 0 ∧
    (st_asm330lhhx_update_watermark cfg hw dev id watermark).hw =
      { hw with fifo_watermark := update_watermark_word cfg hw dev id watermark } ∧
    (st_asm330lhhx_update_watermark cfg hw dev id watermark).trace =
      [Action.regmap_read Reg.ST_ASM330LHHX_REG_FIFO_CTRL1_ADDR 1,
       Action.regmap_bulk_write Reg.ST_ASM330LHHX_REG_FIFO_CTRL1_ADDR
        (cpu_to_le16 (update_watermark_word cfg hw dev id watermark))] ∧
    (st_asm330lhhx_update_watermark cfg hw dev id watermark).dev =
      if dev.rc.tail.headD 0 < 0 then { dev with rc := dev.rc.tail.tail }
      else { dev with
        rc := dev.rc.tail.tail
        fifo_ctrl1 := update_watermark_word cfg hw dev id watermark % 256
        fifo_ctrl2 := update_watermark_word cfg hw dev id watermark / 256 } := by
  have hu : ∀ x, x < 2 ^ 16 → u16 x = x := fun x hx => Nat.mod_eq_of_lt hx
  unfold st_asm330lhhx_update_watermark regmap_read regmap_bulk_write cpu_to_le16
    update_watermark_word
  simp only [h, if_false, if_true, one_ne_zero, hu _ (merge_watermark_lt _ _ _)]
  split_ifs <;> refine ⟨?_, ?_, ?_, ?_⟩ <;> first | rfl | trivial

/-- The update of the watermark changes no field of the driver state but the saved word. -/
theorem update_watermark_frame (cfg : Config) (hw : Hw) (dev : Dev) (id watermark : Nat) :
    (st_asm330lhhx_update_watermark cfg hw dev id watermark).hw.enable_mask = hw.enable_mask ∧
    (st_asm330lhhx_update_watermark cfg hw dev id watermark).hw.fifo_mode = hw.fifo_mode ∧
    (st_asm330lhhx_update_watermark cfg hw dev id watermark).hw.iio_devs = hw.iio_devs := by
  by_cases h : dev.rc.headD 0 < 0
  · rw [update_watermark_read_fail cfg hw dev id watermark h]
    exact ⟨rfl, rfl, rfl⟩
  · rw [(update_watermark_read_ok cfg hw dev id watermark h).2.1]
    exact ⟨rfl, rfl, rfl⟩

/-- A registered slot is its own device. -/
theorem iio_dev_at_eq (hw : Hw) (i : Nat) :
    iio_dev_at hw i = if (iio_dev_at hw i).isSome = true then some i else none := by
  unfold iio_dev_at
  cases hw.iio_devs.getD i none <;> rfl

/-- One pass of the watermark scan, by cases on whether the slot counts. -/
theorem update_watermark_step_eq (hw : Hw) (id watermark fifo_watermark i : Nat) :
    update_watermark_step hw id watermark fifo_watermark i =
      if watermark_enabled hw i = true then
        min (u16 fifo_watermark)
          (u16 (if i = id then watermark else (iio_priv hw i).watermark))
      else fifo_watermark := by
  have hu : ∀ x, u16 (u16 x) = u16 x := fun x => Nat.mod_mod _ _
  unfold update_watermark_step watermark_enabled
  rw [iio_dev_at_eq hw i]
  cases h : (iio_dev_at hw i).isSome
  · simp
  · by_cases hm : hw.enable_mask &&& BIT i = 0
    · simp [hm]
    · simp [hm, hu]

/-- The watermark scan is the running minimum over the requests of the enabled channels. -/
theorem update_watermark_scan_eq (hw : Hw) (id watermark : Nat) (l : List Nat) :
    ∀ fifo_watermark, fifo_watermark < 2 ^ 16 →
      l.foldl (update_watermark_step hw id watermark) fifo_watermark =
        (((l.filter (watermark_enabled hw)).map
          (fun i => if i = id then watermark else (iio_priv hw i).watermark)).map u16).foldl min
          fifo_watermark := by
  induction l with
  | nil => intro _ _; rfl
  | cons i l ih =>
    intro fw hfw
    have hfw2 : u16 fw = fw := Nat.mod_eq_of_lt hfw
    rw [List.foldl_cons, update_watermark_step_eq, hfw2]
    by_cases he : watermark_enabled hw i = true
    · rw [if_pos he, List.filter_cons_of_pos he, List.map_cons, List.map_cons, List.foldl_cons]
      exact ih _ (lt_of_le_of_lt (min_le_left _ _) hfw)
    · rw [if_neg he, List.filter_cons_of_neg he]
      exact ih _ hfw

/-- A running minimum is below its start and every element, and is one of them. -/
theorem foldl_min_spec (l : List Nat) :
    ∀ a, l.foldl min a ≤ a ∧ (∀ x ∈ l, l.foldl min a ≤ x) ∧
      (l.foldl min a = a ∨ l.foldl min a ∈ l) := by
  induction l with
  | nil => intro a; simp
  | cons y l ih =>
    intro a
    obtain ⟨h1, h2, h3⟩ := ih (min a y)
    rw [List.foldl_cons]
    refine ⟨le_trans h1 (min_le_left _ _), ?_, ?_⟩
    · intro x hx
      rcases List.mem_cons.1 hx with rfl | hx
      · exact le_trans h1 (min_le_right _ _)
      · exact h2 x hx
    · rcases h3 with h3 | h3
      · rcases le_total a y with hay | hay
        · left; rw [h3, min_eq_left hay]
        · right; rw [h3, min_eq_right hay]; exact List.mem_cons_self _ _
      · right; exact List.mem_cons_of_mem _ h3

/-- The threshold of the watermark update in terms of the requests of the enabled
channels. -/
theorem update_watermark_threshold_eq (cfg : Config) (hw : Hw) (id watermark : Nat) :
    update_watermark_threshold cfg hw id watermark =
      if hw.resuming = true then u16 watermark
      else max (((enabled_requests hw id (u16 watermark)).map u16).foldl min
          (u16 cfg.max_fifo_depth))
        (if hw.hw_timestamp_enabled = true then 2 else 1) := by
  have hlt : ∀ x, u16 x < 2 ^ 16 := fun x => Nat.mod_lt _ (by norm_num)
  have hfl : ∀ (l : List Nat) (a : Nat), a < 2 ^ 16 → u16 (l.foldl min a) = l.foldl min a :=
    fun l a ha => Nat.mod_eq_of_lt (lt_of_le_of_lt (foldl_min_spec l a).1 ha)
  unfold update_watermark_threshold enabled_requests
  simp only []
  rw [update_watermark_scan_eq hw id (u16 watermark) watermark_ids _ (hlt _), hfl _ _ (hlt _)]
  cases hw.hw_timestamp_enabled <;> rfl

/-- The requests of the enabled channels are the same in two states that differ in the
stored requests of channels that are disabled or are the channel being updated. -/
theorem enabled_requests_congr (hw hw2 : Hw) (id watermark : Nat)
    (hmask : hw2.enable_mask = hw.enable_mask)
    (hdev : ∀ i, iio_dev_at hw2 i = iio_dev_at hw i)
    (hreq : ∀ i, watermark_enabled hw i = true → i ≠ id →
      (iio_priv hw2 i).watermark = (iio_priv hw i).watermark) :
    enabled_requests hw2 id watermark = enabled_requests hw id watermark := by
  have hen : watermark_enabled hw2 = watermark_enabled hw := by
    funext i
    unfold watermark_enabled
    rw [hdev i, hmask]
  unfold enabled_requests
  rw [hen]
  apply List.map_congr_left
  intro i hi
  by_cases hid : i = id
  · rw [if_pos hid, if_pos hid]
  · rw [if_neg hid, if_neg hid, hreq i (List.mem_filter.1 hi).2 hid]

/-- C11 (amended): while the device resumes the depth threshold of
`st_asm330lhhx_update_watermark(c, w)` is the request w itself; otherwise it is the
minimum of `ST_ASM330LHHX_MAX_FIFO_DEPTH` and of the requested depths, as 16-bit values, of
the registered channels that are enabled, w standing for the stored request of c, raised
to the floor (2 with hardware timestamping, else 1). That minimum is at most the maximum
depth and every enabled request, and is one of them; states that differ only in the
stored requests of disabled channels or of c give the same threshold; and when the
read-back succeeds the word saved is the high byte merged with this threshold. -/
theorem update_watermark_threshold_is_min (cfg : Config) (hw : Hw) (dev : Dev)
    (id watermark : Nat) :
    (if hw.resuming = true then
      update_watermark_threshold cfg hw id watermark = u16 watermark
    else
      update_watermark_threshold cfg hw id watermark =
        max (((enabled_requests hw id (u16 watermark)).map u16).foldl min
            (u16 cfg.max_fifo_depth))
          (if hw.hw_timestamp_enabled = true then 2 else 1)) ∧
    ((enabled_requests hw id (u16 watermark)).map u16).foldl min (u16 cfg.max_fifo_depth) ≤
      u16 cfg.max_fifo_depth ∧
    (∀ x ∈ enabled_requests hw id (u16 watermark),
      ((enabled_requests hw id (u16 watermark)).map u16).foldl min (u16 cfg.max_fifo_depth) ≤
        u16 x) ∧
    (((enabled_requests hw id (u16 watermark)).map u16).foldl min (u16 cfg.max_fifo_depth) =
        u16 cfg.max_fifo_depth ∨
      ∃ x ∈ enabled_requests hw id (u16 watermark),
        ((enabled_requests hw id (u16 watermark)).map u16).foldl min (u16 cfg.max_fifo_depth) =
          u16 x) ∧
    (∀ hw2 : Hw, hw2.enable_mask = hw.enable_mask → hw2.resuming = hw.resuming →
      hw2.hw_timestamp_enabled = hw.hw_timestamp_enabled →
      (∀ i, iio_dev_at hw2 i = iio_dev_at hw i) →
      (∀ i, watermark_enabled hw i = true → i ≠ id →
        (iio_priv hw2 i).watermark = (iio_priv hw i).watermark) →
      update_watermark_threshold cfg hw2 id watermark =
        update_watermark_threshold cfg hw id watermark) ∧
    (¬ dev.rc.headD 0 < 0 →
      (st_asm330lhhx_update_watermark cfg hw dev id watermark).hw.fifo_watermark =
        merge_watermark cfg (dev.fifo_ctrl2 % 256)
          (update_watermark_threshold cfg hw id watermark)) := by
  obtain ⟨m1, m2, m3⟩ := foldl_min_spec ((enabled_requests hw id (u16 watermark)).map u16)
    (u16 cfg.max_fifo_depth)
  refine ⟨?_, m1, ?_, ?_, ?_, ?_⟩
  · rw [update_watermark_threshold_eq]
    split_ifs <;> rfl
  · intro x hx
    exact m2 _ (List.mem_map_of_mem _ hx)
  · rcases m3 with m3 | m3
    · exact Or.inl m3
    · obtain ⟨x, hx, hxe⟩ := List.mem_map.1 m3
      exact Or.inr ⟨x, hx, hxe.symm⟩
  · intro hw2 hmask hres hts hdev hreq
    rw [update_watermark_threshold_eq, update_watermark_threshold_eq,
      enabled_requests_congr hw hw2 id (u16 watermark) hmask hdev hreq, hres, hts]
  · intro hrd
    rw [(update_watermark_read_ok cfg hw dev id watermark hrd).2.1]
    rfl

theorem update_watermark_threshold_is_min_witness :
    update_watermark_threshold example_cfg example_hw_watermark ST_ASM330LHHX_ID_ACC 8 = 5 ∧
    update_watermark_threshold example_cfg
      (set_sensor example_hw_watermark ST_ASM330LHHX_ID_TEMP { watermark := 3 })
      ST_ASM330LHHX_ID_ACC 8 = 5 ∧
    (st_asm330lhhx_update_watermark example_cfg example_hw_watermark {}
      ST_ASM330LHHX_ID_ACC 8).hw.fifo_watermark = 5 := by
  have h := update_watermark_threshold_is_min example_cfg example_hw_watermark {}
    ST_ASM330LHHX_ID_ACC 8
  have e : update_watermark_threshold example_cfg example_hw_watermark ST_ASM330LHHX_ID_ACC 8 =
      5 := h.1.trans (by decide)
  refine ⟨e, ?_, ?_⟩
  · refine (h.2.2.2.2.1 (set_sensor example_hw_watermark ST_ASM330LHHX_ID_TEMP { watermark := 3 })
      rfl rfl rfl (fun i => iio_dev_at_congr
        (same_routing_set_sensor example_hw_watermark ST_ASM330LHHX_ID_TEMP _ (by decide)) i)
      (fun i hen _ => ?_)).trans e
    by_cases hi : i = ST_ASM330LHHX_ID_TEMP
    · rw [hi] at hen
      exact absurd hen (by decide)
    · rw [iio_priv_set_sensor_ne _ _ _ _ hi]
  · exact (h.2.2.2.2.2 (by decide)).trans (by rw [e]; decide)

/-- C11 (counterexample): Gyro (request 5) and Accel are enabled and the device resumes;
`st_asm330lhhx_update_watermark(Accel, 8)` succeeds with threshold 8, the request itself,
while the minimum over the enabled channels is 5. -/
theorem update_watermark_resuming_takes_request :
    (st_asm330lhhx_update_watermark example_cfg example_hw_watermark_resuming {}
      ST_ASM330LHHX_ID_ACC 8).ret = 0 ∧
    update_watermark_threshold example_cfg example_hw_watermark_resuming
      ST_ASM330LHHX_ID_ACC 8 = 8 ∧
    (st_asm330lhhx_update_watermark example_cfg example_hw_watermark_resuming {}
      ST_ASM330LHHX_ID_ACC 8).hw.fifo_watermark = 8 ∧
    enabled_requests example_hw_watermark_resuming ST_ASM330LHHX_ID_ACC 8 = [5, 8] ∧
    example_hw_watermark_resuming.hw_timestamp_enabled = true := by
  decide

/-- The two bytes written make up the word again. -/
theorem cpu_to_le16_bytes (x : Nat) (h : x < 2 ^ 16) :
    cpu_to_le16 x = [x % 256, x / 256] ∧ x % 256 + 256 * (x / 256) = x := by
  unfold cpu_to_le16 u16
  rw [Nat.mod_eq_of_lt h]
  exact ⟨rfl, Nat.mod_add_div x 256⟩

/-- C13: when the read-back succeeds, the write of `st_asm330lhhx_update_watermark` is a
bulk write at the watermark register address of the two bytes, low byte first, of a 16-bit
word that has on every bit inside `ST_ASM330LHHX_REG_FIFO_WTM_MASK` the bit of the threshold
and on every bit outside it the bit of (h << 8), h being the high byte read back; and the
merge does so for every h and every threshold. -/
theorem update_watermark_merges_under_mask (cfg : Config) (hw : Hw) (dev : Dev)
    (id watermark : Nat) (hrd : ¬ dev.rc.headD 0 < 0) :
    (st_asm330lhhx_update_watermark cfg hw dev id watermark).trace =
      [Action.regmap_read Reg.ST_ASM330LHHX_REG_FIFO_CTRL1_ADDR 1,
       Action.regmap_bulk_write Reg.ST_ASM330LHHX_REG_FIFO_CTRL1_ADDR
        [update_watermark_word cfg hw dev id watermark % 256,
         update_watermark_word cfg hw dev id watermark / 256]] ∧
    update_watermark_word cfg hw dev id watermark % 256 +
      256 * (update_watermark_word cfg hw dev id watermark / 256) =
      update_watermark_word cfg hw dev id watermark ∧
    update_watermark_word cfg hw dev id watermark =
      merge_watermark cfg (dev.fifo_ctrl2 % 256)
        (update_watermark_threshold cfg hw id watermark) ∧
    ∀ h t : Nat, merge_watermark cfg h t < 2 ^ 16 ∧
      ∀ i, i < 16 →
        (merge_watermark cfg h t).testBit i =
          if cfg.fifo_wtm_mask.testBit i = true then t.testBit i else (h <<< 8).testBit i := by
  have hb := cpu_to_le16_bytes (update_watermark_word cfg hw dev id watermark)
    (merge_watermark_lt _ _ _)
  refine ⟨?_, hb.2, rfl, fun h t => ⟨merge_watermark_lt _ _ _, fun i hi => ?_⟩⟩
  · rw [(update_watermark_read_ok cfg hw dev id watermark hrd).2.2.1, hb.1]
  · rw [merge_watermark_testBit, decide_eq_true hi, Bool.true_and]

theorem update_watermark_merges_under_mask_witness :
    (st_asm330lhhx_update_watermark example_cfg example_hw_watermark
        { fifo_ctrl2 := 0xa5 } ST_ASM330LHHX_ID_ACC 8).trace =
      [Action.regmap_read Reg.ST_ASM330LHHX_REG_FIFO_CTRL1_ADDR 1,
       Action.regmap_bulk_write Reg.ST_ASM330LHHX_REG_FIFO_CTRL1_ADDR [0x05, 0xa4]] ∧
    update_watermark_word example_cfg example_hw_watermark { fifo_ctrl2 := 0xa5 }
      ST_ASM330LHHX_ID_ACC 8 = 0xa405 := by
  have h := update_watermark_merges_under_mask example_cfg example_hw_watermark
    { fifo_ctrl2 := 0xa5 } ST_ASM330LHHX_ID_ACC 8 (by decide)
  exact ⟨h.1.trans (by decide), by decide⟩

/-- C14 (failing input): Gyro and Accel enabled, saved word 0, and
`st_asm330lhhx_update_watermark(Accel, 8)` on a device whose read-back succeeds and whose
16-bit write fails with -5: the call returns -5 and the registers are as before, yet
`hw->fifo_watermark` is now the merged word 5. When the read-back itself fails the saved
word stays 0, and `st_asm330lhhx_set_watermark` keeps the stored request of the channel
in both cases. -/
theorem update_watermark_write_failure_saves_word :
    example_hw_watermark.fifo_watermark = 0 ∧
    (st_asm330lhhx_update_watermark example_cfg example_hw_watermark example_dev_write_fails
      ST_ASM330LHHX_ID_ACC 8).ret = -5 ∧
    (st_asm330lhhx_update_watermark example_cfg example_hw_watermark example_dev_write_fails
      ST_ASM330LHHX_ID_ACC 8).hw.fifo_watermark = 5 ∧
    (st_asm330lhhx_update_watermark example_cfg example_hw_watermark example_dev_write_fails
      ST_ASM330LHHX_ID_ACC 8).dev.fifo_ctrl1 = example_dev_write_fails.fifo_ctrl1 ∧
    (st_asm330lhhx_update_watermark example_cfg example_hw_watermark example_dev_read_fails
      ST_ASM330LHHX_ID_ACC 8).ret = -5 ∧
    (st_asm330lhhx_update_watermark example_cfg example_hw_watermark example_dev_read_fails
      ST_ASM330LHHX_ID_ACC 8).hw = example_hw_watermark ∧
    (st_asm330lhhx_set_watermark example_cfg example_hw_watermark example_dev_write_fails
      ST_ASM330LHHX_ID_ACC { val := 8, size := 2 }).ret = -5 ∧
    (iio_priv (st_asm330lhhx_set_watermark example_cfg example_hw_watermark
      example_dev_write_fails ST_ASM330LHHX_ID_ACC { val := 8, size := 2 }).hw
      ST_ASM330LHHX_ID_ACC).watermark = 10 ∧
    (st_asm330lhhx_set_watermark example_cfg example_hw_watermark example_dev_write_fails
      ST_ASM330LHHX_ID_ACC { val := 8, size := 2 }).hw.fifo_watermark = 5 := by
  decide

/-- The threshold bits of the merged word are the threshold when it fits in a mask of
low bits. -/
theorem merge_watermark_masked (cfg : Config) (data t k : Nat)
    (hmask : cfg.fifo_wtm_mask = 2 ^ k - 1) (ht : t < 2 ^ k) (ht16 : t < 2 ^ 16) :
    merge_watermark cfg data t &&& cfg.fifo_wtm_mask = t := by
  apply Nat.eq_of_testBit_eq
  intro i
  rw [Nat.testBit_and, merge_watermark_testBit, hmask, Nat.testBit_two_pow_sub_one]
  by_cases hi : i < k
  · rw [decide_eq_true hi, if_pos rfl, Bool.and_true]
    by_cases hi16 : i < 16
    · rw [decide_eq_true hi16, Bool.true_and]
    · rw [decide_eq_false hi16, Bool.false_and]
      exact (Nat.testBit_lt_two_pow (lt_of_lt_of_le ht16
        (Nat.pow_le_pow_right (by norm_num) (Nat.le_of_not_lt hi16)))).symm
  · rw [decide_eq_false hi, Bool.and_false]
    exact (Nat.testBit_lt_two_pow (lt_of_lt_of_le ht
      (Nat.pow_le_pow_right (by norm_num) (Nat.le_of_not_lt hi)))).symm

/-- C12 (amended): while the device is not resuming, the depth threshold of
`st_asm330lhhx_update_watermark` is at least 2 with hardware timestamping and at least 1
without, whatever the requests (0 included); and when the watermark mask is the low k
bits (k at least 2) and `ST_ASM330LHHX_MAX_FIFO_DEPTH` fits in them, this threshold is
what the masked bits of the word saved in `hw->fifo_watermark` hold and, when the write
succeeds, what the masked bits of the watermark register hold. -/
theorem update_watermark_floor (cfg : Config) (hw : Hw) (dev : Dev) (id watermark k : Nat)
    (hres : hw.resuming = false) (hmask : cfg.fifo_wtm_mask = 2 ^ k - 1) (hk : 2 ≤ k)
    (hmax : cfg.max_fifo_depth < 2 ^ k) (hrd : ¬ dev.rc.headD 0 < 0) :
    (if hw.hw_timestamp_enabled = true then 2 else 1) ≤
      update_watermark_threshold cfg hw id watermark ∧
    (st_asm330lhhx_update_watermark cfg hw dev id watermark).hw.fifo_watermark &&&
      cfg.fifo_wtm_mask = update_watermark_threshold cfg hw id watermark ∧
    (¬ dev.rc.tail.headD 0 < 0 →
      ((st_asm330lhhx_update_watermark cfg hw dev id watermark).dev.fifo_ctrl1 +
        256 * (st_asm330lhhx_update_watermark cfg hw dev id watermark).dev.fifo_ctrl2) &&&
        cfg.fifo_wtm_mask = update_watermark_threshold cfg hw id watermark) := by
  have hlt16 : ∀ x, u16 x < 2 ^ 16 := fun x => Nat.mod_lt _ (by norm_num)
  have hle : ∀ x, u16 x ≤ x := fun x => Nat.mod_le _ _
  obtain ⟨m1, _, _⟩ := foldl_min_spec ((enabled_requests hw id (u16 watermark)).map u16)
    (u16 cfg.max_fifo_depth)
  have hfl : (if hw.hw_timestamp_enabled = true then 2 else 1) ≤ 2 := by
    split_ifs <;> norm_num
  have h4 : 2 ^ 2 ≤ 2 ^ k := Nat.pow_le_pow_right (by norm_num) hk
  have e := update_watermark_threshold_eq cfg hw id watermark
  rw [hres, if_neg (by simp)] at e
  have ht : update_watermark_threshold cfg hw id watermark < 2 ^ k := by
    rw [e]
    apply max_lt
    · exact lt_of_le_of_lt (le_trans m1 (hle _)) hmax
    · exact lt_of_le_of_lt hfl (lt_of_lt_of_le (by norm_num) h4)
  have ht16 : update_watermark_threshold cfg hw id watermark < 2 ^ 16 := by
    rw [e]
    apply max_lt
    · exact lt_of_le_of_lt m1 (hlt16 _)
    · exact lt_of_le_of_lt hfl (by norm_num)
  have hword := merge_watermark_masked cfg (dev.fifo_ctrl2 % 256) _ k hmask ht ht16
  obtain ⟨_, k2, _, k4⟩ := update_watermark_read_ok cfg hw dev id watermark hrd
  refine ⟨?_, ?_, fun hwr => ?_⟩
  · rw [e]
    exact le_max_right _ _
  · rw [k2]
    exact hword
  · rw [k4, if_neg hwr]
    dsimp only
    rw [Nat.mod_add_div]
    exact hword

theorem update_watermark_floor_witness :
    2 ≤ update_watermark_threshold example_cfg example_hw_watermark ST_ASM330LHHX_ID_ACC 0 ∧
    (st_asm330lhhx_update_watermark example_cfg example_hw_watermark {}
      ST_ASM330LHHX_ID_ACC 0).hw.fifo_watermark &&& example_cfg.fifo_wtm_mask =
      update_watermark_threshold example_cfg example_hw_watermark ST_ASM330LHHX_ID_ACC 0 ∧
    update_watermark_threshold example_cfg example_hw_watermark ST_ASM330LHHX_ID_ACC 0 = 2 := by
  have h := update_watermark_floor example_cfg example_hw_watermark {} ST_ASM330LHHX_ID_ACC 0 9
    rfl (by decide) (by decide) (by decide) (by decide)
  exact ⟨h.1, h.2.1, by decide⟩

/-- C12 (counterexample): with hardware timestamping on and the device resuming,
`st_asm330lhhx_update_watermark(Accel, 0)` succeeds and the threshold it writes to the
watermark register and saves is 0. -/
theorem update_watermark_resuming_below_floor :
    example_hw_watermark_resuming.hw_timestamp_enabled = true ∧
    (st_asm330lhhx_update_watermark example_cfg example_hw_watermark_resuming {}
      ST_ASM330LHHX_ID_ACC 0).ret = 0 ∧
    (st_asm330lhhx_update_watermark example_cfg example_hw_watermark_resuming {}
      ST_ASM330LHHX_ID_ACC 0).hw.fifo_watermark = 0 ∧
    (st_asm330lhhx_update_watermark example_cfg example_hw_watermark_resuming {}
      ST_ASM330LHHX_ID_ACC 0).dev.fifo_ctrl1 = 0 ∧
    (st_asm330lhhx_update_watermark example_cfg example_hw_watermark_resuming {}
      ST_ASM330LHHX_ID_ACC 0).dev.fifo_ctrl2 = 0 ∧
    (st_asm330lhhx_update_watermark example_cfg example_hw_watermark_resuming {}
      ST_ASM330LHHX_ID_ACC 0).trace =
      [Action.regmap_read Reg.ST_ASM330LHHX_REG_FIFO_CTRL1_ADDR 1,
       Action.regmap_bulk_write Reg.ST_ASM330LHHX_REG_FIFO_CTRL1_ADDR [0, 0]] := by
  decide

/-! ## Enabling and disabling a sensor -/

theorem same_mode_and_clock_refl (a : Hw) : same_mode_and_clock a a :=
  ⟨rfl, rfl, rfl, rfl, rfl, rfl, rfl, rfl⟩

theorem same_mode_and_clock_trans {a b c : Hw} (h1 : same_mode_and_clock a b)
    (h2 : same_mode_and_clock b c) : same_mode_and_clock a c := by
  obtain ⟨a1, a2, a3, a4, a5, a6, a7, a8⟩ := h1
  obtain ⟨b1, b2, b3, b4, b5, b6, b7, b8⟩ := h2
  exact ⟨a1.trans b1, a2.trans b2, a3.trans b3, a4.trans b4, a5.trans b5, a6.trans b6,
    a7.trans b7, a8.trans b8⟩

/-- An enable mask with the bit of a sensor set is not empty. -/
theorem lor_BIT_ne_zero (mask id : Nat) : mask ||| BIT id ≠ 0 := by
  intro h
  have h2 : (mask ||| BIT id).testBit id = true := by
    unfold BIT
    rw [Nat.testBit_or, Nat.testBit_two_pow_self, Bool.or_true]
  rw [h] at h2
  simp at h2

/-- Enabling or disabling a sensor leaves mode and clock alone, and a successful enable
leaves the enable mask non-empty. -/
theorem sensor_set_enable_frame (hw : Hw) (dev : Dev) (id : Nat) (enable : Bool) :
    same_mode_and_clock (st_asm330lhhx_sensor_set_enable hw dev id enable).hw hw ∧
    (¬ (st_asm330lhhx_sensor_set_enable hw dev id enable).ret < 0 → enable = true →
      (st_asm330lhhx_sensor_set_enable hw dev id enable).hw.enable_mask ≠ 0) := by
  unfold st_asm330lhhx_sensor_set_enable
  by_cases h : (st_asm330lhhx_write_locked dev).1 < 0
  · rw [if_pos h]
    exact ⟨same_mode_and_clock_refl _, fun h2 => absurd h h2⟩
  · rw [if_neg h]
    cases enable
    · exact ⟨⟨rfl, rfl, rfl, rfl, rfl, rfl, rfl, rfl⟩, fun _ h3 => by simp at h3⟩
    · exact ⟨⟨rfl, rfl, rfl, rfl, rfl, rfl, rfl, rfl⟩, fun _ _ => lor_BIT_ne_zero _ _⟩

/-- The batching step does not touch the driver state. -/
theorem set_sensor_batching_odr_hw (hw : Hw) (dev : Dev) (id : Nat) (enable : Bool)
    (env : UpdateEnv) : (st_asm330lhhx_set_sensor_batching_odr hw dev id enable env).hw = hw := by
  unfold st_asm330lhhx_set_sensor_batching_odr
  split_ifs <;> rfl

/-- The first step of `st_asm330lhhx_update_fifo` leaves mode and clock alone, and when it
succeeds for an enable request the enable mask is not empty. -/
theorem update_fifo_enable_frame (hw : Hw) (dev : Dev) (id : Nat) (enable : Bool)
    (env : UpdateEnv) :
    same_mode_and_clock (update_fifo_enable hw dev id enable env).hw hw ∧
    (¬ (update_fifo_enable hw dev id enable env).ret < 0 → enable = true →
      (update_fifo_enable hw dev id enable env).hw.enable_mask ≠ 0) := by
  obtain ⟨f1, f2⟩ := sensor_set_enable_frame hw dev id enable
  unfold update_fifo_enable st_asm330lhhx_shub_set_enable
  by_cases hx : id = ST_ASM330LHHX_ID_EXT0 ∨ id = ST_ASM330LHHX_ID_EXT1
  · rw [if_pos hx]
    exact ⟨f1, f2⟩
  · rw [if_neg hx]
    by_cases hr : (st_asm330lhhx_sensor_set_enable hw dev id enable).ret < 0
    · rw [if_pos hr]
      exact ⟨f1, f2⟩
    · rw [if_neg hr]
      dsimp only
      rw [set_sensor_batching_odr_hw]
      exact ⟨f1, fun _ he => f2 hr he⟩

/-- The Temp step does not touch the driver state. -/
theorem update_fifo_temp_hw (hw : Hw) (dev : Dev) (id : Nat) (enable : Bool)
    (env : UpdateEnv) : (update_fifo_temp hw dev id enable env).hw = hw := by
  unfold update_fifo_temp
  split_ifs <;> rfl

/-- The watermark update leaves mode, clock and enable mask alone. -/
theorem update_watermark_mode_and_clock (cfg : Config) (hw : Hw) (dev : Dev)
    (id watermark : Nat) :
    same_mode_and_clock (st_asm330lhhx_update_watermark cfg hw dev id watermark).hw hw ∧
    (st_asm330lhhx_update_watermark cfg hw dev id watermark).hw.enable_mask =
      hw.enable_mask := by
  by_cases h : dev.rc.headD 0 < 0
  · rw [update_watermark_read_fail cfg hw dev id watermark h]
    exact ⟨same_mode_and_clock_refl _, rfl⟩
  · rw [(update_watermark_read_ok cfg hw dev id watermark h).2.1]
    exact ⟨⟨rfl, rfl, rfl, rfl, rfl, rfl, rfl, rfl⟩, rfl⟩

/-- The sub-steps before the mode decision leave mode and clock alone, and when they
succeed for an enable request the enable mask is not empty. -/
theorem update_fifo_prepare_frame (cfg : Config) (hw : Hw) (dev : Dev) (id : Nat)
    (enable : Bool) (env : UpdateEnv) :
    same_mode_and_clock (update_fifo_prepare cfg hw dev id enable env).hw hw ∧
    (¬ (update_fifo_prepare cfg hw dev id enable env).ret < 0 → enable = true →
      (update_fifo_prepare cfg hw dev id enable env).hw.enable_mask ≠ 0) := by
  obtain ⟨f1, f2⟩ := update_fifo_enable_frame hw dev id enable env
  unfold update_fifo_prepare
  by_cases h1 : (update_fifo_enable hw dev id enable env).ret < 0
  · rw [if_pos h1]
    exact ⟨f1, f2⟩
  · rw [if_neg h1]
    dsimp only
    by_cases h2 : (update_fifo_temp (update_fifo_enable hw dev id enable env).hw
        (update_fifo_enable hw dev id enable env).dev id enable env).ret < 0
    · rw [if_pos h2]
      dsimp only
      rw [update_fifo_temp_hw]
      exact ⟨f1, fun _ he => f2 h1 he⟩
    · rw [if_neg h2]
      dsimp only
      rw [update_fifo_temp_hw]
      obtain ⟨w1, w2⟩ := update_watermark_mode_and_clock cfg
        (update_fifo_enable hw dev id enable env).hw
        (update_fifo_temp (update_fifo_enable hw dev id enable env).hw
          (update_fifo_enable hw dev id enable env).dev id enable env).dev id
        (iio_priv (update_fifo_enable hw dev id enable env).hw id).watermark
      refine ⟨same_mode_and_clock_trans w1 f1, fun _ he => ?_⟩
      rw [w2]
      exact f2 h1 he

/-- The gyro delay leaves mode, clock and enable mask alone. -/
theorem update_fifo_gyro_delay_frame (hw : Hw) (id : Nat) (enable : Bool) :
    same_mode_and_clock (update_fifo_gyro_delay hw id enable).1 hw ∧
    (update_fifo_gyro_delay hw id enable).1.enable_mask = hw.enable_mask := by
  unfold update_fifo_gyro_delay
  dsimp only
  split_ifs <;> exact ⟨⟨rfl, rfl, rfl, rfl, rfl, rfl, rfl, rfl⟩, rfl⟩

/-- The two outcomes of `st_asm330lhhx_set_fifo_mode`. -/
theorem set_fifo_mode_cases (hw : Hw) (dev : Dev) (fifo_mode : FifoMode) :
    (if dev.rc.headD 0 < 0 then
      (st_asm330lhhx_set_fifo_mode hw dev fifo_mode).ret = dev.rc.headD 0 ∧
      (st_asm330lhhx_set_fifo_mode hw dev fifo_mode).hw = hw
    else
      (st_asm330lhhx_set_fifo_mode hw dev fifo_mode).ret = 0 ∧
      (st_asm330lhhx_set_fifo_mode hw dev fifo_mode).hw.fifo_mode = fifo_mode ∧
      (st_asm330lhhx_set_fifo_mode hw dev fifo_mode).hw.operational =
        decide (fifo_mode ≠ FifoMode.ST_ASM330LHHX_FIFO_BYPASS)) ∧
    (st_asm330lhhx_set_fifo_mode hw dev fifo_mode).hw.enable_mask = hw.enable_mask ∧
    (st_asm330lhhx_set_fifo_mode hw dev fifo_mode).hw.ts = hw.ts ∧
    (st_asm330lhhx_set_fifo_mode hw dev fifo_mode).hw.ts_offset = hw.ts_offset ∧
    (st_asm330lhhx_set_fifo_mode hw dev fifo_mode).hw.val_ts_old = hw.val_ts_old ∧
    (st_asm330lhhx_set_fifo_mode hw dev fifo_mode).hw.hw_ts_high = hw.hw_ts_high ∧
    (st_asm330lhhx_set_fifo_mode hw dev fifo_mode).hw.hw_ts = hw.hw_ts ∧
    (st_asm330lhhx_set_fifo_mode hw dev fifo_mode).hw.tsample = hw.tsample := by
  unfold st_asm330lhhx_set_fifo_mode st_asm330lhhx_write_locked
  dsimp only
  by_cases h : dev.rc.headD 0 < 0
  · rw [if_pos h, if_pos h]
    exact ⟨⟨rfl, rfl⟩, rfl, rfl, rfl, rfl, rfl, rfl, rfl⟩
  · rw [if_neg h, if_neg h]
    cases fifo_mode
    · rw [if_pos rfl]
      exact ⟨⟨rfl, rfl, rfl⟩, rfl, rfl, rfl, rfl, rfl, rfl, rfl⟩
    · rw [if_neg (by decide)]
      exact ⟨⟨rfl, rfl, rfl⟩, rfl, rfl, rfl, rfl, rfl, rfl, rfl⟩

/-- What `st_asm330lhhx_update_fifo` returns and leaves, from the outcome of the sub-steps
before the mode decision. -/
theorem update_fifo_eq (cfg : Config) (hw : Hw) (dev : Dev) (id : Nat) (enable : Bool)
    (env : UpdateEnv) (p : Result)
    (hp : p = update_fifo_prepare cfg (update_fifo_gyro_delay hw id enable).1 dev id enable env) :
    (p.ret < 0 →
      (st_asm330lhhx_update_fifo cfg hw dev id enable env).ret = p.ret ∧
      (st_asm330lhhx_update_fifo cfg hw dev id enable env).hw = p.hw) ∧
    (¬ p.ret < 0 →
      (st_asm330lhhx_update_fifo cfg hw dev id enable env).ret =
        (update_fifo_mode p.hw p.dev enable env p.ret).ret ∧
      (st_asm330lhhx_update_fifo cfg hw dev id enable env).hw =
        (update_fifo_mode p.hw p.dev enable env p.ret).hw) := by
  subst hp
  unfold st_asm330lhhx_update_fifo
  dsimp only
  constructor
  · intro h
    rw [if_pos h]
    exact ⟨rfl, rfl⟩
  · intro h
    rw [if_neg h]
    exact ⟨rfl, rfl⟩

/-- The mode decision for an enable request in Bypass: the clock is reset whatever the
code of the timestamp write, and the mode is what the mode write makes of it. -/
theorem update_fifo_mode_enable (hw : Hw) (dev : Dev) (env : UpdateEnv) (err : Int)
    (hm : hw.fifo_mode = FifoMode.ST_ASM330LHHX_FIFO_BYPASS) :
    (update_fifo_mode hw dev true env err).hw.ts_offset = env.now ∧
    (update_fifo_mode hw dev true env err).hw.ts = env.now ∧
    (update_fifo_mode hw dev true env err).hw.hw_ts_high = 0 ∧
    (update_fifo_mode hw dev true env err).hw.val_ts_old = 0 ∧
    (update_fifo_mode hw dev true env err).hw.tsample = 0 ∧
    (update_fifo_mode hw dev true env err).hw.hw_ts = hw.hw_ts ∧
    (update_fifo_mode hw dev true env err).hw.enable_mask = hw.enable_mask ∧
    (if dev.rc.tail.headD 0 < 0 then
      (update_fifo_mode hw dev true env err).hw.fifo_mode =
        FifoMode.ST_ASM330LHHX_FIFO_BYPASS ∧
      (update_fifo_mode hw dev true env err).ret = dev.rc.tail.headD 0
    else
      (update_fifo_mode hw dev true env err).hw.fifo_mode = FifoMode.ST_ASM330LHHX_FIFO_CONT ∧
      (update_fifo_mode hw dev true env err).hw.operational = true ∧
      (update_fifo_mode hw dev true env err).ret = 0) := by
  unfold update_fifo_mode
  rw [if_pos ⟨rfl, hm⟩]
  dsimp only
  obtain ⟨c1, c2, c3, c4, c5, c6, c7, c8⟩ := set_fifo_mode_cases
    (st_asm330lhhx_reset_hwts hw dev env.now).hw (st_asm330lhhx_reset_hwts hw dev env.now).dev
    FifoMode.ST_ASM330LHHX_FIFO_CONT
  have hd : (st_asm330lhhx_reset_hwts hw dev env.now).dev.rc = dev.rc.tail := by
    unfold st_asm330lhhx_reset_hwts st_asm330lhhx_write_locked
    rfl
  have hh : (st_asm330lhhx_reset_hwts hw dev env.now).hw.ts_offset = env.now ∧
      (st_asm330lhhx_reset_hwts hw dev env.now).hw.ts = env.now ∧
      (st_asm330lhhx_reset_hwts hw dev env.now).hw.hw_ts_high = 0 ∧
      (st_asm330lhhx_reset_hwts hw dev env.now).hw.val_ts_old = 0 ∧
      (st_asm330lhhx_reset_hwts hw dev env.now).hw.tsample = 0 ∧
      (st_asm330lhhx_reset_hwts hw dev env.now).hw.hw_ts = hw.hw_ts ∧
      (st_asm330lhhx_reset_hwts hw dev env.now).hw.enable_mask = hw.enable_mask ∧
      (st_asm330lhhx_reset_hwts hw dev env.now).hw.fifo_mode = hw.fifo_mode := by
    unfold st_asm330lhhx_reset_hwts
    exact ⟨rfl, rfl, rfl, rfl, rfl, rfl, rfl, rfl⟩
  obtain ⟨r1, r2, r3, r4, r5, r6, r7, r8⟩ := hh
  rw [hd] at c1
  refine ⟨c4.trans r1, c3.trans r2, c6.trans r3, c5.trans r4, c8.trans r5, c7.trans r6,
    c2.trans r7, ?_⟩
  by_cases h : dev.rc.tail.headD 0 < 0
  · rw [if_pos h] at c1 ⊢
    refine ⟨?_, c1.1⟩
    rw [c1.2, r8, hm]
  · rw [if_neg h] at c1 ⊢
    exact ⟨c1.2.1, c1.2.2.trans (by decide), c1.1⟩

/-- C16 (amended): for a call of `st_asm330lhhx_update_fifo` whose sub-steps up to the
watermark update succeed (p is their outcome). An enable request in Bypass resets the
clock state to the host-clock reading and then the mode is Continuous, operational flag
set, when the mode write succeeds, and stays Bypass with the error returned when it
fails. A disable request after which the enable mask is empty leaves the clock state
alone and the mode is Bypass, operational flag clear, when the mode write succeeds, and
the state is untouched when it fails. Enabling in Continuous, or disabling with a channel
still enabled, changes neither mode nor clock state. -/
theorem update_fifo_mode_transitions (cfg : Config) (hw : Hw) (dev : Dev) (id : Nat)
    (enable : Bool) (env : UpdateEnv) (p r : Result)
    (hp : p = update_fifo_prepare cfg (update_fifo_gyro_delay hw id enable).1 dev id enable env)
    (hr : r = st_asm330lhhx_update_fifo cfg hw dev id enable env)
    (hok : ¬ p.ret < 0) :
    (enable = true → hw.fifo_mode = FifoMode.ST_ASM330LHHX_FIFO_BYPASS →
      r.hw.ts_offset = env.now ∧ r.hw.ts = env.now ∧ r.hw.hw_ts_high = 0 ∧
      r.hw.val_ts_old = 0 ∧ r.hw.tsample = 0 ∧
      (if p.dev.rc.tail.headD 0 < 0 then
        r.hw.fifo_mode = FifoMode.ST_ASM330LHHX_FIFO_BYPASS ∧ r.ret = p.dev.rc.tail.headD 0
      else
        r.hw.fifo_mode = FifoMode.ST_ASM330LHHX_FIFO_CONT ∧ r.hw.operational = true ∧
        r.ret = 0)) ∧
    (enable = false → p.hw.enable_mask = 0 →
      r.hw.ts_offset = hw.ts_offset ∧ r.hw.ts = hw.ts ∧ r.hw.hw_ts_high = hw.hw_ts_high ∧
      r.hw.val_ts_old = hw.val_ts_old ∧ r.hw.hw_ts = hw.hw_ts ∧
      (if p.dev.rc.headD 0 < 0 then r.hw = p.hw ∧ r.ret = p.dev.rc.headD 0
      else
        r.hw.fifo_mode = FifoMode.ST_ASM330LHHX_FIFO_BYPASS ∧ r.hw.operational = false ∧
        r.ret = 0)) ∧
    ((enable = true ∧ hw.fifo_mode = FifoMode.ST_ASM330LHHX_FIFO_CONT) ∨
        (enable = false ∧ p.hw.enable_mask ≠ 0) →
      r.hw = p.hw ∧ same_mode_and_clock r.hw hw ∧ r.ret = p.ret) := by
  obtain ⟨g1, _⟩ := update_fifo_gyro_delay_frame hw id enable
  obtain ⟨f1, f2⟩ := update_fifo_prepare_frame cfg (update_fifo_gyro_delay hw id enable).1 dev id
    enable env
  rw [← hp] at f1 f2
  have hpc : same_mode_and_clock p.hw hw := same_mode_and_clock_trans f1 g1
  obtain ⟨e1, e2⟩ := (update_fifo_eq cfg hw dev id enable env p hp).2 hok
  rw [← hr] at e1 e2
  rw [e1, e2]
  obtain ⟨q1, q2, q3, q4, q5, q6, q7, q8⟩ := hpc
  refine ⟨fun he hm => ?_, fun he hmask => ?_, fun h => ?_⟩
  · subst he
    obtain ⟨m1, m2, m3, m4, m5, _, _, m8⟩ := update_fifo_mode_enable p.hw p.dev env p.ret
      (q1.trans hm)
    exact ⟨m1, m2, m3, m4, m5, m8⟩
  · subst he
    have hu : update_fifo_mode p.hw p.dev false env p.ret =
        st_asm330lhhx_set_fifo_mode p.hw p.dev FifoMode.ST_ASM330LHHX_FIFO_BYPASS := by
      unfold update_fifo_mode
      rw [if_neg (by simp), if_pos hmask]
    rw [hu]
    obtain ⟨c1, _, c3, c4, c5, c6, c7, _⟩ := set_fifo_mode_cases p.hw p.dev
      FifoMode.ST_ASM330LHHX_FIFO_BYPASS
    refine ⟨c4.trans q4, c3.trans q3, c6.trans q6, c5.trans q5, c7.trans q7, ?_⟩
    by_cases h : p.dev.rc.headD 0 < 0
    · rw [if_pos h] at c1 ⊢
      exact ⟨c1.2, c1.1⟩
    · rw [if_neg h] at c1 ⊢
      exact ⟨c1.2.1, c1.2.2.trans (by decide), c1.1⟩
  · have hu : update_fifo_mode p.hw p.dev enable env p.ret =
        { ret := p.ret, hw := p.hw, dev := p.dev, trace := [] } := by
      unfold update_fifo_mode
      rcases h with ⟨he, hm⟩ | ⟨he, hmask⟩
      · have hne : ¬ (enable = true ∧ p.hw.fifo_mode = FifoMode.ST_ASM330LHHX_FIFO_BYPASS) := by
          rw [q1, hm]
          simp
        rw [if_neg hne, if_neg (f2 hok he)]
      · rw [if_neg (by simp [he]), if_neg hmask]
    rw [hu]
    exact ⟨rfl, ⟨q1, q2, q3, q4, q5, q6, q7, q8⟩, rfl⟩

theorem update_fifo_mode_transitions_witness :
    (st_asm330lhhx_update_fifo example_cfg example_hw_initial {} ST_ASM330LHHX_ID_ACC true
        { now := 1000 }).hw.ts_offset = 1000 ∧
    (st_asm330lhhx_update_fifo example_cfg example_hw_initial {} ST_ASM330LHHX_ID_ACC true
        { now := 1000 }).hw.fifo_mode = FifoMode.ST_ASM330LHHX_FIFO_CONT ∧
    (st_asm330lhhx_update_fifo example_cfg example_hw_initial {} ST_ASM330LHHX_ID_ACC true
        { now := 1000 }).ret = 0 := by
  have h := (update_fifo_mode_transitions example_cfg example_hw_initial {}
    ST_ASM330LHHX_ID_ACC true { now := 1000 } _ _ rfl rfl (by decide)).1 rfl rfl
  have h6 := h.2.2.2.2.2
  rw [if_neg (by decide)] at h6
  exact ⟨h.1, h6.1, h6.2.2⟩

/-- C16 (counterexample): an enable of Accel in Bypass whose sub-steps up to the watermark
update succeed and whose mode write fails: the clock state is reset and the mode is still
Bypass. -/
theorem update_fifo_enable_stays_bypass :
    example_hw_initial.fifo_mode = FifoMode.ST_ASM330LHHX_FIFO_BYPASS ∧
    (update_fifo_prepare example_cfg
      (update_fifo_gyro_delay example_hw_initial ST_ASM330LHHX_ID_ACC true).1
      example_dev_mode_write_fails ST_ASM330LHHX_ID_ACC true { now := 1000 }).ret = 0 ∧
    (st_asm330lhhx_update_fifo example_cfg example_hw_initial example_dev_mode_write_fails
      ST_ASM330LHHX_ID_ACC true { now := 1000 }).ret = -5 ∧
    (st_asm330lhhx_update_fifo example_cfg example_hw_initial example_dev_mode_write_fails
      ST_ASM330LHHX_ID_ACC true { now := 1000 }).hw.fifo_mode =
      FifoMode.ST_ASM330LHHX_FIFO_BYPASS ∧
    (st_asm330lhhx_update_fifo example_cfg example_hw_initial example_dev_mode_write_fails
      ST_ASM330LHHX_ID_ACC true { now := 1000 }).hw.ts_offset = 1000 := by
  decide

/-- C17 (failing input): an enable of Accel in Bypass on a device whose timestamp write
fails with -5 and whose other accesses succeed: `st_asm330lhhx_reset_hwts` returns -5 at
the state the call reaches, and `st_asm330lhhx_update_fifo` returns 0 with the mode
Continuous. -/
theorem update_fifo_drops_reset_hwts_error :
    (update_fifo_prepare example_cfg
      (update_fifo_gyro_delay example_hw_initial ST_ASM330LHHX_ID_ACC true).1
      example_dev_timestamp_write_fails ST_ASM330LHHX_ID_ACC true { now := 1000 }).ret = 0 ∧
    (st_asm330lhhx_reset_hwts
      (update_fifo_prepare example_cfg
        (update_fifo_gyro_delay example_hw_initial ST_ASM330LHHX_ID_ACC true).1
        example_dev_timestamp_write_fails ST_ASM330LHHX_ID_ACC true { now := 1000 }).hw
      (update_fifo_prepare example_cfg
        (update_fifo_gyro_delay example_hw_initial ST_ASM330LHHX_ID_ACC true).1
        example_dev_timestamp_write_fails ST_ASM330LHHX_ID_ACC true { now := 1000 }).dev
      1000).ret = -5 ∧
    (st_asm330lhhx_update_fifo example_cfg example_hw_initial example_dev_timestamp_write_fails
      ST_ASM330LHHX_ID_ACC true { now := 1000 }).ret = 0 ∧
    (st_asm330lhhx_update_fifo example_cfg example_hw_initial example_dev_timestamp_write_fails
      ST_ASM330LHHX_ID_ACC true { now := 1000 }).hw.fifo_mode =
      FifoMode.ST_ASM330LHHX_FIFO_CONT ∧
    (st_asm330lhhx_update_fifo example_cfg example_hw_initial example_dev_timestamp_write_fails
      ST_ASM330LHHX_ID_ACC true { now := 1000 }).trace =
      [Action.disable_irq, Action.set_enable ST_ASM330LHHX_ID_ACC true, Action.msleep 100,
       Action.update_bits (Reg.batching_reg ST_ASM330LHHX_ID_ACC) 0,
       Action.regmap_read Reg.ST_ASM330LHHX_REG_FIFO_CTRL1_ADDR 1,
       Action.regmap_bulk_write Reg.ST_ASM330LHHX_REG_FIFO_CTRL1_ADDR [10, 0],
       Action.write Reg.ST_ASM330LHHX_REG_TIMESTAMP2_ADDR 0xaa,
       Action.write_fifo_mode Reg.ST_ASM330LHHX_REG_FIFO_CTRL4_ADDR
         FifoMode.ST_ASM330LHHX_FIFO_CONT,
       Action.enable_irq] := by
  decide

/-- After one call of `st_asm330lhhx_update_fifo` from any state: if the call returns
without error the mode is Continuous only with a channel enabled, and a call that finds
Bypass and leaves Continuous leaves a channel enabled. -/
theorem update_fifo_step_invariant (cfg : Config) (hw : Hw) (dev : Dev) (id : Nat)
    (enable : Bool) (env : UpdateEnv) :
    (¬ (st_asm330lhhx_update_fifo cfg hw dev id enable env).ret < 0 →
      (st_asm330lhhx_update_fifo cfg hw dev id enable env).hw.fifo_mode =
        FifoMode.ST_ASM330LHHX_FIFO_CONT →
      (st_asm330lhhx_update_fifo cfg hw dev id enable env).hw.enable_mask ≠ 0) ∧
    (hw.fifo_mode = FifoMode.ST_ASM330LHHX_FIFO_BYPASS →
      (st_asm330lhhx_update_fifo cfg hw dev id enable env).hw.fifo_mode =
        FifoMode.ST_ASM330LHHX_FIFO_CONT →
      (st_asm330lhhx_update_fifo cfg hw dev id enable env).hw.enable_mask ≠ 0) := by
  obtain ⟨g1, _⟩ := update_fifo_gyro_delay_frame hw id enable
  obtain ⟨f1, f2⟩ := update_fifo_prepare_frame cfg (update_fifo_gyro_delay hw id enable).1 dev id
    enable env
  have hpm := (same_mode_and_clock_trans f1 g1).1
  obtain ⟨e1, e2⟩ := update_fifo_eq cfg hw dev id enable env _ rfl
  by_cases hp : (update_fifo_prepare cfg (update_fifo_gyro_delay hw id enable).1 dev id enable
      env).ret < 0
  · obtain ⟨a1, a2⟩ := e1 hp
    rw [a1, a2]
    refine ⟨fun h => absurd hp h, fun hb hc => ?_⟩
    rw [hpm, hb] at hc
    exact absurd hc (by decide)
  · obtain ⟨a1, a2⟩ := e2 hp
    rw [a1, a2]
    by_cases hA : enable = true ∧ (update_fifo_prepare cfg (update_fifo_gyro_delay hw id enable).1
        dev id enable env).hw.fifo_mode = FifoMode.ST_ASM330LHHX_FIFO_BYPASS
    · obtain ⟨he, hm⟩ := hA
      subst he
      obtain ⟨_, _, _, _, _, _, m7, _⟩ := update_fifo_mode_enable _
        (update_fifo_prepare cfg (update_fifo_gyro_delay hw id true).1 dev id true env).dev env
        (update_fifo_prepare cfg (update_fifo_gyro_delay hw id true).1 dev id true env).ret hm
      rw [m7]
      exact ⟨fun _ _ => f2 hp rfl, fun _ _ => f2 hp rfl⟩
    · by_cases hB : (update_fifo_prepare cfg (update_fifo_gyro_delay hw id enable).1 dev id
          enable env).hw.enable_mask = 0
      · have hu : update_fifo_mode
            (update_fifo_prepare cfg (update_fifo_gyro_delay hw id enable).1 dev id enable env).hw
            (update_fifo_prepare cfg (update_fifo_gyro_delay hw id enable).1 dev id enable env).dev
            enable env
            (update_fifo_prepare cfg (update_fifo_gyro_delay hw id enable).1 dev id enable
              env).ret =
            st_asm330lhhx_set_fifo_mode
              (update_fifo_prepare cfg (update_fifo_gyro_delay hw id enable).1 dev id enable
                env).hw
              (update_fifo_prepare cfg (update_fifo_gyro_delay hw id enable).1 dev id enable
                env).dev FifoMode.ST_ASM330LHHX_FIFO_BYPASS := by
          unfold update_fifo_mode
          rw [if_neg hA, if_pos hB]
        rw [hu]
        obtain ⟨c1, _⟩ := set_fifo_mode_cases
          (update_fifo_prepare cfg (update_fifo_gyro_delay hw id enable).1 dev id enable env).hw
          (update_fifo_prepare cfg (update_fifo_gyro_delay hw id enable).1 dev id enable env).dev
          FifoMode.ST_ASM330LHHX_FIFO_BYPASS
        split_ifs at c1 with hw1
        · refine ⟨fun h => ?_, fun hb hc => ?_⟩
          · rw [c1.1] at h
            exact absurd hw1 h
          · rw [c1.2, hpm, hb] at hc
            exact absurd hc (by decide)
        · refine ⟨fun _ hc => ?_, fun _ hc => ?_⟩ <;>
          · rw [c1.2.1] at hc
            exact absurd hc (by decide)
      · have hu : update_fifo_mode
            (update_fifo_prepare cfg (update_fifo_gyro_delay hw id enable).1 dev id enable env).hw
            (update_fifo_prepare cfg (update_fifo_gyro_delay hw id enable).1 dev id enable env).dev
            enable env
            (update_fifo_prepare cfg (update_fifo_gyro_delay hw id enable).1 dev id enable
              env).ret =
            { ret := (update_fifo_prepare cfg (update_fifo_gyro_delay hw id enable).1 dev id
                enable env).ret,
              hw := (update_fifo_prepare cfg (update_fifo_gyro_delay hw id enable).1 dev id
                enable env).hw,
              dev := (update_fifo_prepare cfg (update_fifo_gyro_delay hw id enable).1 dev id
                enable env).dev,
              trace := [] } := by
          unfold update_fifo_mode
          rw [if_neg hA, if_neg hB]
        rw [hu]
        exact ⟨fun _ _ => hB, fun _ _ => hB⟩

/-- C18 (amended): in every sequence of `st_asm330lhhx_update_fifo` calls, whatever
sub-steps fail and from whatever state it starts (the initial one, Bypass with nothing
enabled, included), after every call that returns without error the mode is Continuous
only if the enable mask is not empty, and every call that finds the mode Bypass and leaves
it Continuous leaves the enable mask not empty. -/
theorem update_fifo_continuous_has_channel (cfg : Config) (hw : Hw) (dev : Dev)
    (calls : List UpdateCall) :
    ∀ x ∈ run_update_fifo cfg hw dev calls,
      (¬ x.2.ret < 0 → x.2.hw.fifo_mode = FifoMode.ST_ASM330LHHX_FIFO_CONT →
        x.2.hw.enable_mask ≠ 0) ∧
      (x.1.fifo_mode = FifoMode.ST_ASM330LHHX_FIFO_BYPASS →
        x.2.hw.fifo_mode = FifoMode.ST_ASM330LHHX_FIFO_CONT → x.2.hw.enable_mask ≠ 0) := by
  induction calls generalizing hw dev with
  | nil => intro x hx; simp [run_update_fifo] at hx
  | cons c rest ih =>
    intro x hx
    unfold run_update_fifo at hx
    rcases List.mem_cons.1 hx with rfl | hx
    · exact update_fifo_step_invariant cfg hw dev c.id c.enable c.env
    · exact ih _ _ x hx

theorem update_fifo_continuous_has_channel_witness :
    (st_asm330lhhx_update_fifo example_cfg example_hw_initial {} ST_ASM330LHHX_ID_ACC true
      {}).hw.fifo_mode = FifoMode.ST_ASM330LHHX_FIFO_CONT ∧
    (st_asm330lhhx_update_fifo example_cfg example_hw_initial {} ST_ASM330LHHX_ID_ACC true
      {}).hw.enable_mask ≠ 0 := by
  have h := update_fifo_continuous_has_channel example_cfg example_hw_initial {}
    [{ id := ST_ASM330LHHX_ID_ACC, enable := true }]
    (example_hw_initial, st_asm330lhhx_update_fifo example_cfg example_hw_initial {}
      ST_ASM330LHHX_ID_ACC true {}) (List.mem_cons_self _ _)
  exact ⟨by decide, h.1 (by decide) (by decide)⟩

/-- C18 (counterexample): from the initial state, an enable of Accel that succeeds and then
a disable of Accel whose mode write fails: the second call returns -5 and leaves the mode
Continuous with an empty enable mask. -/
theorem update_fifo_continuous_without_channel :
    example_hw_initial.fifo_mode = FifoMode.ST_ASM330LHHX_FIFO_BYPASS ∧
    example_hw_initial.enable_mask = 0 ∧
    (run_update_fifo example_cfg example_hw_initial example_dev_disable_mode_write_fails
      [{ id := ST_ASM330LHHX_ID_ACC, enable := true },
       { id := ST_ASM330LHHX_ID_ACC, enable := false }]).map
      (fun x => (x.2.ret, x.2.hw.fifo_mode, x.2.hw.enable_mask)) =
      [(0, FifoMode.ST_ASM330LHHX_FIFO_CONT, 2), (-5, FifoMode.ST_ASM330LHHX_FIFO_CONT, 0)] := by
  decide

/-! ## Hardware time -/

/-- What `timestamp_tick` computes. -/
theorem timestamp_tick_clock (hw : Hw) (val : Nat) :
    (timestamp_tick hw val).hw_ts_high =
      (if hw.val_ts_old > val then u32 (hw.hw_ts_high + 1) else hw.hw_ts_high) ∧
    (timestamp_tick hw val).val_ts_old = val ∧
    (timestamp_tick hw val).hw_ts =
      s64 (((val : Int) +
        ((if hw.val_ts_old > val then u32 (hw.hw_ts_high + 1) else hw.hw_ts_high : Nat) : Int) *
          2 ^ 32) * (hw.ts_delta_ns : Int)) := by
  unfold timestamp_tick
  exact ⟨rfl, rfl, rfl⟩

/-- The hardware clock after a timestamp record, flush or not. -/
theorem read_fifo_record_timestamp_clock (cfg : Config) (notify delta : Int) (buf : List Nat)
    (st : Loop) (i : Nat) (htag : byte buf i >>> 3 = ST_ASM330LHHX_TS_TAG) :
    (read_fifo_record cfg notify delta buf st i).hw.hw_ts_high =
      (if st.hw.val_ts_old > get_unaligned_le32 buf (i + ST_ASM330LHHX_TAG_SIZE) then
        u32 (st.hw.hw_ts_high + 1) else st.hw.hw_ts_high) ∧
    (read_fifo_record cfg notify delta buf st i).hw.val_ts_old =
      get_unaligned_le32 buf (i + ST_ASM330LHHX_TAG_SIZE) ∧
    (read_fifo_record cfg notify delta buf st i).hw.hw_ts =
      s64 (((get_unaligned_le32 buf (i + ST_ASM330LHHX_TAG_SIZE) : Int) +
        ((read_fifo_record cfg notify delta buf st i).hw.hw_ts_high : Int) * 2 ^ 32) *
          (st.hw.ts_delta_ns : Int)) ∧
    (read_fifo_record cfg notify delta buf st i).hw.ts_delta_ns = st.hw.ts_delta_ns := by
  obtain ⟨h, _, _⟩ := read_fifo_record_timestamp_hw cfg notify delta buf st i htag
  obtain ⟨t1, t2, t3⟩ := timestamp_tick_clock st.hw
    (get_unaligned_le32 buf (i + ST_ASM330LHHX_TAG_SIZE))
  obtain ⟨_, _, _, _, t5, _⟩ := timestamp_tick_frame st.hw
    (get_unaligned_le32 buf (i + ST_ASM330LHHX_TAG_SIZE))
  rw [h]
  by_cases hf : st.hw.flush = true
  · rw [if_pos hf, t1]
    exact ⟨rfl, t2, t3, t5⟩
  · rw [if_neg hf]
    obtain ⟨_, _, _, _, s5, s6, s7, s8⟩ := sync_hw_ts_frame
      (timestamp_tick st.hw (get_unaligned_le32 buf (i + ST_ASM330LHHX_TAG_SIZE)))
      (s64 (st.ts_irq + delta))
    rw [s6, s7, s8, s5, t1]
    exact ⟨rfl, t2, t3, t5⟩

/-- The 64-bit product of the hardware time does not wrap while the count of rollovers
leaves room. -/
theorem hw_ts_exact (val c h p : Nat) (hle : val + c * 2 ^ 32 ≤ (h + 2) * 2 ^ 32)
    (hfit : (h + 2) * 2 ^ 32 * p < 2 ^ 63) :
    s64 (((val : Int) + (c : Int) * 2 ^ 32) * (p : Int)) =
      ((val : Int) + (c : Int) * 2 ^ 32) * (p : Int) := by
  have h1 : (val + c * 2 ^ 32) * p ≤ (h + 2) * 2 ^ 32 * p :=
    Nat.mul_le_mul_right p hle
  have h2 : (((val + c * 2 ^ 32) * p : Nat) : Int) < 2 ^ 63 := by
    exact_mod_cast lt_of_le_of_lt h1 hfit
  have h3 : (0 : Int) ≤ (((val + c * 2 ^ 32) * p : Nat) : Int) := Int.natCast_nonneg _
  push_cast at h2 h3
  exact s64_of_range (by linarith) h2

/-- C6 (amended): for a hardware-clock state with positive tick period whose hardware
time leaves room below 2^63 ns, (rollover count + 2) * 2^32 * period < 2^63: a timestamp
record whose 32-bit tick is less than the stored previous tick raises the rollover count
by exactly 1, any other leaves it as it is; the stored tick becomes the tick of the record
and the hardware time (tick + rollover count * 2^32) * period; and a timestamp record with
tick 0xFFFFFFFF followed by one with tick 0 raises the count by exactly 1 and the
hardware time by exactly one period. -/
theorem timestamp_record_rollover (cfg : Config) (notify delta : Int) (buf : List Nat)
    (st : Loop) (i : Nat) (htag : byte buf i >>> 3 = ST_ASM330LHHX_TS_TAG)
    (hp : 0 < st.hw.ts_delta_ns)
    (hfit : (st.hw.hw_ts_high + 2) * 2 ^ 32 * st.hw.ts_delta_ns < 2 ^ 63) :
    (read_fifo_record cfg notify delta buf st i).hw.hw_ts_high =
      (if get_unaligned_le32 buf (i + 1) < st.hw.val_ts_old then st.hw.hw_ts_high + 1
       else st.hw.hw_ts_high) ∧
    (read_fifo_record cfg notify delta buf st i).hw.val_ts_old = get_unaligned_le32 buf (i + 1) ∧
    (read_fifo_record cfg notify delta buf st i).hw.hw_ts =
      ((get_unaligned_le32 buf (i + 1) : Int) +
        ((read_fifo_record cfg notify delta buf st i).hw.hw_ts_high : Int) * 2 ^ 32) *
        (st.hw.ts_delta_ns : Int) ∧
    ∀ (notify2 delta2 : Int) (buf2 : List Nat) (i2 : Nat),
      byte buf2 i2 >>> 3 = ST_ASM330LHHX_TS_TAG →
      get_unaligned_le32 buf (i + 1) = 0xFFFFFFFF → get_unaligned_le32 buf2 (i2 + 1) = 0 →
      (read_fifo_record cfg notify2 delta2 buf2
        (read_fifo_record cfg notify delta buf st i) i2).hw.hw_ts_high =
        (read_fifo_record cfg notify delta buf st i).hw.hw_ts_high + 1 ∧
      (read_fifo_record cfg notify2 delta2 buf2
        (read_fifo_record cfg notify delta buf st i) i2).hw.hw_ts =
        (read_fifo_record cfg notify delta buf st i).hw.hw_ts + (st.hw.ts_delta_ns : Int) := by
  have hh : st.hw.hw_ts_high + 2 < 2 ^ 31 := by
    by_contra hn
    have h1 : 2 ^ 31 * 2 ^ 32 * 1 ≤ (st.hw.hw_ts_high + 2) * 2 ^ 32 * st.hw.ts_delta_ns :=
      Nat.mul_le_mul (Nat.mul_le_mul_right _ (Nat.le_of_not_lt hn)) hp
    omega
  have hu : u32 (st.hw.hw_ts_high + 1) = st.hw.hw_ts_high + 1 :=
    Nat.mod_eq_of_lt (by omega)
  obtain ⟨r1, r2, r3, r4⟩ := read_fifo_record_timestamp_clock cfg notify delta buf st i htag
  have e1 : (read_fifo_record cfg notify delta buf st i).hw.hw_ts_high =
      (if get_unaligned_le32 buf (i + 1) < st.hw.val_ts_old then st.hw.hw_ts_high + 1
       else st.hw.hw_ts_high) := by
    rw [r1, hu]
    rfl
  have hc : (read_fifo_record cfg notify delta buf st i).hw.hw_ts_high ≤ st.hw.hw_ts_high + 1 := by
    rw [e1]
    split_ifs <;> omega
  have hlt := get_unaligned_le32_lt buf (i + ST_ASM330LHHX_TAG_SIZE)
  have e3 := r3.trans (hw_ts_exact _ _ _ _ (by omega) hfit)
  refine ⟨e1, r2, e3, ?_⟩
  intro notify2 delta2 buf2 i2 htag2 hv1 hv2
  obtain ⟨q1, _, q3, _⟩ := read_fifo_record_timestamp_clock cfg notify2 delta2 buf2
    (read_fifo_record cfg notify delta buf st i) i2 htag2
  have hv2b : get_unaligned_le32 buf2 (i2 + ST_ASM330LHHX_TAG_SIZE) = 0 := hv2
  have hv1b : get_unaligned_le32 buf (i + ST_ASM330LHHX_TAG_SIZE) = 0xFFFFFFFF := hv1
  have hu2 : u32 ((read_fifo_record cfg notify delta buf st i).hw.hw_ts_high + 1) =
      (read_fifo_record cfg notify delta buf st i).hw.hw_ts_high + 1 :=
    Nat.mod_eq_of_lt (by omega)
  have f1 : (read_fifo_record cfg notify2 delta2 buf2
      (read_fifo_record cfg notify delta buf st i) i2).hw.hw_ts_high =
      (read_fifo_record cfg notify delta buf st i).hw.hw_ts_high + 1 := by
    rw [q1, hv2b, r2, hv1b, if_pos (by norm_num), hu2]
  refine ⟨f1, ?_⟩
  rw [q3, f1, r4, hv2b]
  rw [hw_ts_exact 0 _ st.hw.hw_ts_high st.hw.ts_delta_ns (by omega) hfit, e3, hv1b]
  push_cast
  ring

theorem timestamp_record_rollover_witness :
    (read_fifo_record example_cfg 0 0 example_buf_wrap
      { hw := example_hw, trace := [], ts_irq := 0 } 0).hw.hw_ts_high = 0 ∧
    (read_fifo_record example_cfg 0 0 example_buf_wrap
      { hw := example_hw, trace := [], ts_irq := 0 } 0).hw.hw_ts = 0xFFFFFFFF * 25000 ∧
    (read_fifo_record example_cfg 0 0 example_buf_wrap
      (read_fifo_record example_cfg 0 0 example_buf_wrap
        { hw := example_hw, trace := [], ts_irq := 0 } 0) 7).hw.hw_ts_high = 1 ∧
    (read_fifo_record example_cfg 0 0 example_buf_wrap
      (read_fifo_record example_cfg 0 0 example_buf_wrap
        { hw := example_hw, trace := [], ts_irq := 0 } 0) 7).hw.hw_ts =
      0xFFFFFFFF * 25000 + 25000 := by
  have h := timestamp_record_rollover example_cfg 0 0 example_buf_wrap
    { hw := example_hw, trace := [], ts_irq := 0 } 0 (by decide) (by decide) (by decide)
  have h2 := h.2.2.2 0 0 example_buf_wrap 7 (by decide) (by decide) (by decide)
  have e1 := h.1.trans (show (if get_unaligned_le32 example_buf_wrap (0 + 1) <
      example_hw.val_ts_old then example_hw.hw_ts_high + 1 else example_hw.hw_ts_high) = 0 by
    decide)
  have e2 : (read_fifo_record example_cfg 0 0 example_buf_wrap
      { hw := example_hw, trace := [], ts_irq := 0 } 0).hw.hw_ts = 0xFFFFFFFF * 25000 := by
    rw [h.2.2.1, e1]
    decide
  refine ⟨e1, e2, ?_, ?_⟩
  · rw [h2.1, e1]
  · rw [h2.2, e2]
    rfl

/-- C6 (counterexample): rollover count 65535 and tick period 32768 ns. After a timestamp
record with tick 0xFFFFFFFF the hardware time is 2^63 - 32768; after the next one, with
tick 0, the count is 65536 and the hardware time is -2^63, below the one before. -/
theorem timestamp_record_wraps_hardware_time :
    (read_fifo_record example_cfg 0 0 example_buf_wrap
      { hw := example_hw_late, trace := [], ts_irq := 0 } 0).hw.hw_ts_high = 65535 ∧
    (read_fifo_record example_cfg 0 0 example_buf_wrap
      { hw := example_hw_late, trace := [], ts_irq := 0 } 0).hw.hw_ts = 2 ^ 63 - 32768 ∧
    (read_fifo_record example_cfg 0 0 example_buf_wrap
      (read_fifo_record example_cfg 0 0 example_buf_wrap
        { hw := example_hw_late, trace := [], ts_irq := 0 } 0) 7).hw.hw_ts_high = 65536 ∧
    (read_fifo_record example_cfg 0 0 example_buf_wrap
      (read_fifo_record example_cfg 0 0 example_buf_wrap
        { hw := example_hw_late, trace := [], ts_irq := 0 } 0) 7).hw.hw_ts = -2 ^ 63 ∧
    (read_fifo_record example_cfg 0 0 example_buf_wrap
      (read_fifo_record example_cfg 0 0 example_buf_wrap
        { hw := example_hw_late, trace := [], ts_irq := 0 } 0) 7).hw.hw_ts <
      (read_fifo_record example_cfg 0 0 example_buf_wrap
        { hw := example_hw_late, trace := [], ts_irq := 0 } 0).hw.hw_ts := by
  decide

/-! ## Offset filter -/

/-- The filter in machine arithmetic. -/
theorem ewma_eq (old new : Int) :
    st_asm330lhhx_ewma old new ST_ASM330LHHX_EWMA_LEVEL =
      s64 (old + s64 (Int.tdiv (s64 ((128 - 120) * s64 (new - old))) 128)) := by
  unfold st_asm330lhhx_ewma div_s64 ST_ASM330LHHX_EWMA_DIV ST_ASM330LHHX_EWMA_LEVEL
  rfl

/-- Truncating division by 128 of 8 times a difference stays between 0 and the
difference. -/
theorem tdiv_bounds (d : Int) :
    (0 ≤ d → 0 ≤ Int.tdiv (8 * d) 128 ∧ Int.tdiv (8 * d) 128 ≤ d) ∧
    (d ≤ 0 → d ≤ Int.tdiv (8 * d) 128 ∧ Int.tdiv (8 * d) 128 ≤ 0) := by
  constructor
  · intro h
    rw [Int.tdiv_eq_ediv (by omega : (0 : Int) ≤ 8 * d) (by norm_num : (0 : Int) ≤ 128)]
    omega
  · intro h
    have e : Int.tdiv (8 * d) 128 = -Int.tdiv (8 * (-d)) 128 := by
      rw [show 8 * d = -(8 * -d) by ring, Int.neg_tdiv]
    rw [e, Int.tdiv_eq_ediv (by omega : (0 : Int) ≤ 8 * -d) (by norm_num : (0 : Int) ≤ 128)]
    omega

/-- The filter without wrap: when old is a 64-bit value and the difference is below 2^59
in absolute value, the result is old + (8 * (new - old)) / 128, division truncating. -/
theorem ewma_exact (old new : Int) (ho1 : -2 ^ 63 ≤ old) (ho2 : old < 2 ^ 63)
    (hn1 : -2 ^ 63 ≤ new) (hn2 : new < 2 ^ 63)
    (hd1 : -2 ^ 59 < new - old) (hd2 : new - old < 2 ^ 59) :
    st_asm330lhhx_ewma old new ST_ASM330LHHX_EWMA_LEVEL =
      old + Int.tdiv ((128 - 120) * (new - old)) 128 := by
  rw [ewma_eq]
  have b := tdiv_bounds (new - old)
  rw [s64_of_range (x := new - old) (by omega) (by omega)]
  rw [show ((128 : Int) - 120) * (new - old) = 8 * (new - old) by ring]
  rw [s64_of_range (x := 8 * (new - old)) (by omega) (by omega)]
  rcases le_total 0 (new - old) with h | h
  · obtain ⟨b1, b2⟩ := b.1 h
    rw [s64_of_range (x := Int.tdiv (8 * (new - old)) 128) (by omega) (by omega)]
    exact s64_of_range (by omega) (by omega)
  · obtain ⟨b1, b2⟩ := b.2 h
    rw [s64_of_range (x := Int.tdiv (8 * (new - old)) 128) (by omega) (by omega)]
    exact s64_of_range (by omega) (by omega)

/-- The offset after `st_asm330lhhx_sync_hw_ts`. -/
theorem sync_hw_ts_offset (hw : Hw) (ts : Int) :
    (st_asm330lhhx_sync_hw_ts hw ts).ts_offset =
      st_asm330lhhx_ewma hw.ts_offset (s64 (ts - hw.hw_ts)) ST_ASM330LHHX_EWMA_LEVEL := by
  unfold st_asm330lhhx_sync_hw_ts
  rfl

/-- The offset after a timestamp record outside a flush, in terms of the state after the
record. -/
theorem read_fifo_record_timestamp_offset (cfg : Config) (notify delta : Int) (buf : List Nat)
    (st : Loop) (i : Nat) (htag : byte buf i >>> 3 = ST_ASM330LHHX_TS_TAG)
    (hfl : st.hw.flush = false) :
    (read_fifo_record cfg notify delta buf st i).hw.ts_offset =
      st_asm330lhhx_ewma st.hw.ts_offset
        (s64 ((read_fifo_record cfg notify delta buf st i).ts_irq -
          (read_fifo_record cfg notify delta buf st i).hw.hw_ts)) ST_ASM330LHHX_EWMA_LEVEL := by
  obtain ⟨h, _, h3⟩ := read_fifo_record_timestamp_hw cfg notify delta buf st i htag
  rw [hfl, if_neg (by simp)] at h
  obtain ⟨_, _, _, _, _, t6⟩ := timestamp_tick_frame st.hw
    (get_unaligned_le32 buf (i + ST_ASM330LHHX_TAG_SIZE))
  obtain ⟨_, _, _, _, _, s6, _, _⟩ := sync_hw_ts_frame
    (timestamp_tick st.hw (get_unaligned_le32 buf (i + ST_ASM330LHHX_TAG_SIZE)))
    (s64 (st.ts_irq + delta))
  rw [h3, h, s6, sync_hw_ts_offset, t6]

/-- C8: a timestamp record processed while no flush is in progress moves the clock offset
to offset + ((128 - 120) * (new_delta - offset)) / 128, the division truncating toward
zero, with new_delta = provisional host timestamp of the record minus the hardware time
just recomputed from it; every operation is the 64-bit one of the code, and as long as
none of them wraps (offset a 64-bit value, new_delta not wrapped, difference below 2^59 in
absolute value) the result is that integer value. -/
theorem timestamp_record_updates_offset (cfg : Config) (notify delta : Int) (buf : List Nat)
    (st : Loop) (i : Nat) (htag : byte buf i >>> 3 = ST_ASM330LHHX_TS_TAG)
    (hfl : st.hw.flush = false) :
    (read_fifo_record cfg notify delta buf st i).ts_irq = s64 (st.ts_irq + delta) ∧
    (read_fifo_record cfg notify delta buf st i).hw.ts_offset =
      s64 (st.hw.ts_offset + s64 (Int.tdiv (s64 ((128 - 120) *
        s64 (s64 ((read_fifo_record cfg notify delta buf st i).ts_irq -
          (read_fifo_record cfg notify delta buf st i).hw.hw_ts) - st.hw.ts_offset))) 128)) ∧
    (-2 ^ 63 ≤ st.hw.ts_offset → st.hw.ts_offset < 2 ^ 63 →
      -2 ^ 63 ≤ (read_fifo_record cfg notify delta buf st i).ts_irq -
        (read_fifo_record cfg notify delta buf st i).hw.hw_ts →
      (read_fifo_record cfg notify delta buf st i).ts_irq -
        (read_fifo_record cfg notify delta buf st i).hw.hw_ts < 2 ^ 63 →
      -2 ^ 59 < (read_fifo_record cfg notify delta buf st i).ts_irq -
        (read_fifo_record cfg notify delta buf st i).hw.hw_ts - st.hw.ts_offset →
      (read_fifo_record cfg notify delta buf st i).ts_irq -
        (read_fifo_record cfg notify delta buf st i).hw.hw_ts - st.hw.ts_offset < 2 ^ 59 →
      (read_fifo_record cfg notify delta buf st i).hw.ts_offset =
        st.hw.ts_offset + Int.tdiv ((128 - 120) *
          ((read_fifo_record cfg notify delta buf st i).ts_irq -
            (read_fifo_record cfg notify delta buf st i).hw.hw_ts - st.hw.ts_offset)) 128) := by
  have ho := read_fifo_record_timestamp_offset cfg notify delta buf st i htag hfl
  refine ⟨(read_fifo_record_timestamp_hw cfg notify delta buf st i htag).2.2, ?_, ?_⟩
  · rw [ho, ewma_eq]
  · intro h1 h2 h3 h4 h5 h6
    have e := s64_of_range h3 h4
    rw [ho, e]
    exact ewma_exact _ _ h1 h2 h3 h4 h5 h6

theorem timestamp_record_updates_offset_witness :
    (read_fifo_record example_cfg 0 10000 example_dev.fifo
      { hw := example_hw, trace := [], ts_irq := 970000 } 0).ts_irq = 980000 ∧
    (read_fifo_record example_cfg 0 10000 example_dev.fifo
      { hw := example_hw, trace := [], ts_irq := 970000 } 0).hw.hw_ts = 2500000 ∧
    (read_fifo_record example_cfg 0 10000 example_dev.fifo
      { hw := example_hw, trace := [], ts_irq := 970000 } 0).hw.ts_offset =
      500 + Int.tdiv (8 * (980000 - 2500000 - 500)) 128 := by
  have h := timestamp_record_updates_offset example_cfg 0 10000 example_dev.fifo
    { hw := example_hw, trace := [], ts_irq := 970000 } 0 (by decide) rfl
  have e1 : (read_fifo_record example_cfg 0 10000 example_dev.fifo
      { hw := example_hw, trace := [], ts_irq := 970000 } 0).ts_irq = 980000 :=
    h.1.trans (by decide)
  have e2 : (read_fifo_record example_cfg 0 10000 example_dev.fifo
      { hw := example_hw, trace := [], ts_irq := 970000 } 0).hw.hw_ts = 2500000 := by
    decide
  have h3 := h.2.2
  rw [e1, e2] at h3
  exact ⟨e1, e2, h3 (by decide) (by decide) (by decide) (by decide) (by decide) (by decide)⟩

/-! ## Drains while a flush is in progress -/

/-- What `set_sensor` leaves alone. -/
theorem set_sensor_frame (hw : Hw) (id : Nat) (sensor : Sensor) :
    hw_clock (set_sensor hw id sensor) = hw_clock hw ∧
    (set_sensor hw id sensor).flush = hw.flush ∧
    (set_sensor hw id sensor).ts_offset = hw.ts_offset := by
  unfold set_sensor hw_clock
  exact ⟨rfl, rfl, rfl⟩

/-- A record that is not a timestamp leaves the hardware clock, the flush flag and the
offset alone. -/
theorem read_fifo_record_data_frame (cfg : Config) (notify delta : Int) (buf : List Nat)
    (st : Loop) (i : Nat) (htag : byte buf i >>> 3 ≠ ST_ASM330LHHX_TS_TAG) :
    hw_clock (read_fifo_record cfg notify delta buf st i).hw = hw_clock st.hw ∧
    (read_fifo_record cfg notify delta buf st i).hw.flush = st.hw.flush ∧
    (read_fifo_record cfg notify delta buf st i).hw.ts_offset = st.hw.ts_offset := by
  by_cases hskip : st_asm330lhhx_get_iiodev_from_tag st.hw (byte buf i >>> 3) = none ∨
      s16 (get_unaligned_le16 buf (i + ST_ASM330LHHX_TAG_SIZE)) ≥ ST_ASM330LHHX_SAMPLE_DISCHARD
  · rw [read_fifo_record_skip cfg notify delta buf st i htag hskip]
    exact ⟨rfl, rfl, rfl⟩
  · rw [not_or] at hskip
    obtain ⟨hsome, hrdy⟩ := hskip
    obtain ⟨j, hj⟩ := Option.ne_none_iff_exists'.mp hsome
    have hrdy2 : s16 (get_unaligned_le16 buf (i + ST_ASM330LHHX_TAG_SIZE)) <
        ST_ASM330LHHX_SAMPLE_DISCHARD := by omega
    cases hrep : (cfg.may_wakeup && st.hw.resuming && decide (notify ≠ 0))
    · rw [read_fifo_record_sample cfg notify delta buf st i j htag hj hrdy2 hrep]
      split_ifs
      · exact set_sensor_frame _ _ _
      · exact set_sensor_frame _ _ _
    · rw [read_fifo_record_replay cfg notify delta buf st i j htag hj hrdy2 hrep]
      unfold hw_clock
      exact ⟨rfl, rfl, rfl⟩

/-- Any record leaves the flush flag alone, and the offset too while the flag is set. -/
theorem read_fifo_record_flush (cfg : Config) (notify delta : Int) (buf : List Nat)
    (st : Loop) (i : Nat) :
    (read_fifo_record cfg notify delta buf st i).hw.flush = st.hw.flush ∧
    (st.hw.flush = true →
      (read_fifo_record cfg notify delta buf st i).hw.ts_offset = st.hw.ts_offset) := by
  by_cases htag : byte buf i >>> 3 = ST_ASM330LHHX_TS_TAG
  · obtain ⟨h, _, _⟩ := read_fifo_record_timestamp_hw cfg notify delta buf st i htag
    obtain ⟨_, _, _, t4, _, t6⟩ := timestamp_tick_frame st.hw
      (get_unaligned_le32 buf (i + ST_ASM330LHHX_TAG_SIZE))
    rw [h]
    by_cases hf : st.hw.flush = true
    · rw [if_pos hf]
      exact ⟨t4, fun _ => t6⟩
    · rw [if_neg hf]
      obtain ⟨_, _, _, s4, _, _, _, _⟩ := sync_hw_ts_frame
        (timestamp_tick st.hw (get_unaligned_le32 buf (i + ST_ASM330LHHX_TAG_SIZE)))
        (s64 (st.ts_irq + delta))
      exact ⟨s4.trans t4, fun h2 => absurd h2 hf⟩
  · obtain ⟨_, f2, f3⟩ := read_fifo_record_data_frame cfg notify delta buf st i htag
    exact ⟨f2, fun _ => f3⟩

/-- Any record takes two states with the same hardware clock to states with the same
hardware clock, whatever else differs between them. -/
theorem read_fifo_record_clock (cfg : Config) (n1 n2 d1 d2 : Int) (buf : List Nat)
    (st1 st2 : Loop) (i : Nat) (h : hw_clock st1.hw = hw_clock st2.hw) :
    hw_clock (read_fifo_record cfg n1 d1 buf st1 i).hw =
      hw_clock (read_fifo_record cfg n2 d2 buf st2 i).hw := by
  by_cases htag : byte buf i >>> 3 = ST_ASM330LHHX_TS_TAG
  · obtain ⟨a1, a2, a3, a4⟩ := read_fifo_record_timestamp_clock cfg n1 d1 buf st1 i htag
    obtain ⟨b1, b2, b3, b4⟩ := read_fifo_record_timestamp_clock cfg n2 d2 buf st2 i htag
    unfold hw_clock at h ⊢
    simp only [Prod.mk.injEq] at h
    obtain ⟨h1, h2, _, h4⟩ := h
    have e1 : (read_fifo_record cfg n1 d1 buf st1 i).hw.hw_ts_high =
        (read_fifo_record cfg n2 d2 buf st2 i).hw.hw_ts_high := by
      rw [a1, b1, h1, h2]
    rw [a2, b2, a3, b3, a4, b4, e1, h4]
  · rw [(read_fifo_record_data_frame cfg n1 d1 buf st1 i htag).1,
      (read_fifo_record_data_frame cfg n2 d2 buf st2 i htag).1]
    exact h

/-- The `for` loop over the records of a chunk keeps a relation between two driver states
that every record keeps. -/
theorem fold_record_rel (cfg : Config) (R : Hw → Hw → Prop)
    (hrec : ∀ (n1 n2 d1 d2 : Int) (buf : List Nat) (st1 st2 : Loop) (i : Nat),
      R st1.hw st2.hw →
      R (read_fifo_record cfg n1 d1 buf st1 i).hw (read_fifo_record cfg n2 d2 buf st2 i).hw)
    (n1 n2 d1 d2 : Int) (buf : List Nat) (l : List Nat) :
    ∀ st1 st2 : Loop, R st1.hw st2.hw →
      R (l.foldl (read_fifo_record cfg n1 d1 buf) st1).hw
        (l.foldl (read_fifo_record cfg n2 d2 buf) st2).hw := by
  induction l with
  | nil => intro st1 st2 h; exact h
  | cons i l ih =>
    intro st1 st2 h
    rw [List.foldl_cons, List.foldl_cons]
    exact ih _ _ (hrec n1 n2 d1 d2 buf st1 st2 i h)

/-- One pass of the chunk loop on two drains that share device and `read_len`. -/
theorem read_fifo_chunk_rel (cfg : Config) (R : Hw → Hw → Prop)
    (hrec : ∀ (n1 n2 d1 d2 : Int) (buf : List Nat) (st1 st2 : Loop) (i : Nat),
      R st1.hw st2.hw →
      R (read_fifo_record cfg n1 d1 buf st1 i).hw (read_fifo_record cfg n2 d2 buf st2 i).hw)
    (n1 n2 : Int) (fifo_len : Nat) (d1 d2 : Int) (st1 st2 : Drain)
    (hR : R st1.loop.hw st2.loop.hw) (hdev : st1.dev = st2.dev)
    (hlen : st1.read_len = st2.read_len) :
    (read_fifo_chunk cfg n1 fifo_len d1 st1).1 = (read_fifo_chunk cfg n2 fifo_len d2 st2).1 ∧
    R (read_fifo_chunk cfg n1 fifo_len d1 st1).2.loop.hw
      (read_fifo_chunk cfg n2 fifo_len d2 st2).2.loop.hw ∧
    (read_fifo_chunk cfg n1 fifo_len d1 st1).2.dev =
      (read_fifo_chunk cfg n2 fifo_len d2 st2).2.dev ∧
    (read_fifo_chunk cfg n1 fifo_len d1 st1).2.read_len =
      (read_fifo_chunk cfg n2 fifo_len d2 st2).2.read_len ∧
    (¬ (read_fifo_chunk cfg n1 fifo_len d1 st1).1 < 0 → st1.read_len < fifo_len →
      st1.read_len < (read_fifo_chunk cfg n1 fifo_len d1 st1).2.read_len) := by
  unfold read_fifo_chunk
  rw [← hdev, ← hlen]
  dsimp only
  by_cases h : (st_asm330lhhx_read_locked st1.dev Reg.ST_ASM330LHHX_REG_FIFO_DATA_OUT_TAG_ADDR
      (min (fifo_len - st1.read_len) (60 * ST_ASM330LHHX_FIFO_SAMPLE_SIZE))).1 < 0
  · rw [if_pos h, if_pos h]
    exact ⟨rfl, hR, rfl, rfl, fun hn => absurd h hn⟩
  · rw [if_neg h, if_neg h]
    refine ⟨rfl, ?_, rfl, rfl, fun _ hlt => ?_⟩
    · exact fold_record_rel cfg R hrec n1 n2 d1 d2 _ _ _ _ hR
    · have hpos : 0 < 60 * ST_ASM330LHHX_FIFO_SAMPLE_SIZE := by decide
      dsimp only
      omega

/-- The chunk loop on two drains that share device and `read_len`: both end, with the
same code, device and `read_len`, in related driver states. -/
theorem read_fifo_loop_rel (cfg : Config) (R : Hw → Hw → Prop)
    (hrec : ∀ (n1 n2 d1 d2 : Int) (buf : List Nat) (st1 st2 : Loop) (i : Nat),
      R st1.hw st2.hw →
      R (read_fifo_record cfg n1 d1 buf st1 i).hw (read_fifo_record cfg n2 d2 buf st2 i).hw)
    (n1 n2 : Int) (fifo_len : Nat) (d1 d2 : Int) :
    ∀ (fuel : Nat) (st1 st2 : Drain), R st1.loop.hw st2.loop.hw → st1.dev = st2.dev →
      st1.read_len = st2.read_len → fifo_len - st1.read_len ≤ fuel →
      ∃ r1 r2, read_fifo_loop cfg n1 fifo_len d1 fuel st1 = some r1 ∧
        read_fifo_loop cfg n2 fifo_len d2 fuel st2 = some r2 ∧
        r1.1 = r2.1 ∧ R r1.2.loop.hw r2.2.loop.hw ∧ r1.2.dev = r2.2.dev ∧
        r1.2.read_len = r2.2.read_len := by
  intro fuel
  induction fuel with
  | zero =>
    intro st1 st2 hR hdev hlen hfuel
    have h1 : ¬ st1.read_len < fifo_len := by omega
    have h2 : ¬ st2.read_len < fifo_len := by omega
    refine ⟨(0, st1), (0, st2), ?_, ?_, rfl, hR, hdev, hlen⟩
    · unfold read_fifo_loop
      simp [h1]
    · unfold read_fifo_loop
      simp [h2]
  | succ n ih =>
    intro st1 st2 hR hdev hlen hfuel
    by_cases hlt : st1.read_len < fifo_len
    · have hlt2 : st2.read_len < fifo_len := by omega
      obtain ⟨c1, c2, c3, c4, c5⟩ :=
        read_fifo_chunk_rel cfg R hrec n1 n2 fifo_len d1 d2 st1 st2 hR hdev hlen
      by_cases hf : (read_fifo_chunk cfg n1 fifo_len d1 st1).1 < 0
      · have hf2 : (read_fifo_chunk cfg n2 fifo_len d2 st2).1 < 0 := by rw [← c1]; exact hf
        refine ⟨read_fifo_chunk cfg n1 fifo_len d1 st1, read_fifo_chunk cfg n2 fifo_len d2 st2,
          ?_, ?_, c1, c2, c3, c4⟩
        · rw [read_fifo_loop]
          simp only [hlt, if_true, hf]
        · rw [read_fifo_loop]
          simp only [hlt2, if_true, hf2]
      · have hf2 : ¬ (read_fifo_chunk cfg n2 fifo_len d2 st2).1 < 0 := by rw [← c1]; exact hf
        have hprog := c5 hf hlt
        obtain ⟨r1, r2, k1, k2, k3⟩ := ih _ _ c2 c3 c4 (by omega)
        refine ⟨r1, r2, ?_, ?_, k3⟩
        · rw [read_fifo_loop]
          simp only [hlt, if_true, hf, if_false]
          exact k1
        · rw [read_fifo_loop]
          simp only [hlt2, if_true, hf2, if_false]
          exact k2
    · have h2 : ¬ st2.read_len < fifo_len := by omega
      refine ⟨(0, st1), (0, st2), ?_, ?_, rfl, hR, hdev, hlen⟩
      · unfold read_fifo_loop
        simp [hlt]
      · unfold read_fifo_loop
        simp [h2]

/-- What the end of the drain passes on from the chunk loop. -/
theorem read_fifo_end_frame (cfg : Config) (notify : Int) (r : Int × Drain) :
    (read_fifo_end cfg notify r).hw = r.2.loop.hw ∧
    (read_fifo_end cfg notify r).dev = r.2.dev ∧
    (read_fifo_end cfg notify r).ret = (if r.1 < 0 then r.1 else (r.2.read_len : Int)) := by
  unfold read_fifo_end
  split_ifs <;> exact ⟨rfl, rfl, rfl⟩

/-- The drain by cases: not operational, failed status read, depth 0, chunk loop. -/
theorem read_fifo_cases (cfg : Config) (hw : Hw) (dev : Dev) (notify now : Int) :
    (hw.operational = false →
      st_asm330lhhx_read_fifo cfg hw dev notify now =
        some { ret := 0, hw := hw, dev := dev, trace := [] }) ∧
    (hw.operational = true → dev.rc.headD 0 < 0 →
      st_asm330lhhx_read_fifo cfg hw dev notify now =
        some { ret := dev.rc.headD 0, hw := hw, dev := { dev with rc := dev.rc.tail },
               trace := [Action.read Reg.ST_ASM330LHHX_REG_FIFO_STATUS1_ADDR 2] }) ∧
    (hw.operational = true → ¬ dev.rc.headD 0 < 0 → status_fifo_depth cfg dev = 0 →
      st_asm330lhhx_read_fifo cfg hw dev notify now =
        some { ret := 0, hw := hw, dev := { dev with rc := dev.rc.tail },
               trace := [Action.read Reg.ST_ASM330LHHX_REG_FIFO_STATUS1_ADDR 2] }) := by
  refine ⟨fun h => ?_, fun h1 h2 => ?_, fun h1 h2 h3 => ?_⟩
  · unfold st_asm330lhhx_read_fifo
    simp only [h, Bool.not_false, if_true]
  · unfold st_asm330lhhx_read_fifo
    simp only [h1, Bool.not_true, Bool.false_eq_true, if_false, st_asm330lhhx_read_locked, h2,
      if_true]
  · unfold st_asm330lhhx_read_fifo
    simp only [h1, Bool.not_true, Bool.false_eq_true, if_false, st_asm330lhhx_read_locked, h2,
      List.take]
    unfold status_fifo_depth at h3
    rw [if_pos h3]

/-- Two drains of the same device from driver states that agree on the operational flag
both return, with the same value and the same device, in driver states related by any
relation that the records and the resume baseline keep. -/
theorem read_fifo_rel (cfg : Config) (R : Hw → Hw → Prop)
    (hrec : ∀ (n1 n2 d1 d2 : Int) (buf : List Nat) (st1 st2 : Loop) (i : Nat),
      R st1.hw st2.hw →
      R (read_fifo_record cfg n1 d1 buf st1 i).hw (read_fifo_record cfg n2 d2 buf st2 i).hw)
    (hres1 : ∀ (a b : Hw) (x : Int), R a b → R { a with ts_offset_resume := x } b)
    (hres2 : ∀ (a b : Hw) (x : Int), R a b → R a { b with ts_offset_resume := x })
    (hw1 hw2 : Hw) (dev : Dev) (n1 n2 now1 now2 : Int)
    (hop : hw1.operational = hw2.operational) (hR : R hw1 hw2) :
    ∃ r1 r2, st_asm330lhhx_read_fifo cfg hw1 dev n1 now1 = some r1 ∧
      st_asm330lhhx_read_fifo cfg hw2 dev n2 now2 = some r2 ∧
      R r1.hw r2.hw ∧ r1.ret = r2.ret ∧ r1.dev = r2.dev := by
  obtain ⟨a1, a2, a3⟩ := read_fifo_cases cfg hw1 dev n1 now1
  obtain ⟨b1, b2, b3⟩ := read_fifo_cases cfg hw2 dev n2 now2
  cases hop1 : hw1.operational
  · exact ⟨_, _, a1 hop1, b1 (hop ▸ hop1), hR, rfl, rfl⟩
  · have hop2 : hw2.operational = true := hop ▸ hop1
    by_cases hh : dev.rc.headD 0 < 0
    · exact ⟨_, _, a2 hop1 hh, b2 hop2 hh, hR, rfl, rfl⟩
    · by_cases hd : status_fifo_depth cfg dev = 0
      · exact ⟨_, _, a3 hop1 hh hd, b3 hop2 hh hd, hR, rfl, rfl⟩
      · have hb : R (read_fifo_begin hw1 { dev with rc := dev.rc.tail } n1 now1
            (status_fifo_depth cfg dev)).loop.hw
            (read_fifo_begin hw2 { dev with rc := dev.rc.tail } n2 now2
              (status_fifo_depth cfg dev)).loop.hw := by
          unfold read_fifo_begin
          dsimp only
          split_ifs
          · exact hres1 _ _ _ (hres2 _ _ _ hR)
          · exact hres1 _ _ _ hR
          · exact hres2 _ _ _ hR
          · exact hR
        obtain ⟨r1, r2, k1, k2, k3, k4, k5, k6⟩ := read_fifo_loop_rel cfg R hrec n1 n2
          (status_fifo_depth cfg dev * ST_ASM330LHHX_FIFO_SAMPLE_SIZE)
          (div_s64 hw1.delta_ts (status_fifo_depth cfg dev))
          (div_s64 hw2.delta_ts (status_fifo_depth cfg dev))
          (status_fifo_depth cfg dev * ST_ASM330LHHX_FIFO_SAMPLE_SIZE)
          (read_fifo_begin hw1 { dev with rc := dev.rc.tail } n1 now1 (status_fifo_depth cfg dev))
          (read_fifo_begin hw2 { dev with rc := dev.rc.tail } n2 now2 (status_fifo_depth cfg dev))
          hb rfl rfl (Nat.sub_le _ _)
        obtain ⟨e1, e2, e3⟩ := read_fifo_end_frame cfg n1 r1
        obtain ⟨f1, f2, f3⟩ := read_fifo_end_frame cfg n2 r2
        refine ⟨read_fifo_end cfg n1 r1, read_fifo_end cfg n2 r2, ?_, ?_, ?_, ?_, ?_⟩
        · rw [read_fifo_eq_loop cfg hw1 dev n1 now1 hop1 hh hd, k1]
          rfl
        · rw [read_fifo_eq_loop cfg hw2 dev n2 now2 hop2 hh hd, k2]
          rfl
        · rw [e1, f1]
          exact k4
        · rw [e3, f3, k3, k6]
        · rw [e2, f2, k5]

/-- The drain always returns. -/
theorem read_fifo_total (cfg : Config) (hw : Hw) (dev : Dev) (notify now : Int) :
    ∃ r, st_asm330lhhx_read_fifo cfg hw dev notify now = some r := by
  obtain ⟨r, _, h, _⟩ := read_fifo_rel cfg (fun _ _ => True) (fun _ _ _ _ _ _ _ _ _ => trivial)
    (fun _ _ _ _ => trivial) (fun _ _ _ _ => trivial) hw hw dev notify notify now now rfl trivial
  exact ⟨r, h⟩

/-- C9: a drain started with the flush-in-progress flag set returns, whatever the FIFO
holds and whatever reads fail, with the clock offset and the flag as they were; and its
rollover count, stored low ticks and hardware time are those of the same drain of the
same device started from any state with the same hardware clock, the state without the
flag included. -/
theorem flush_drain_keeps_offset (cfg : Config) (hw : Hw) (dev : Dev) (notify now : Int)
    (hfl : hw.flush = true) :
    ∃ r, st_asm330lhhx_read_fifo cfg hw dev notify now = some r ∧
      r.hw.ts_offset = hw.ts_offset ∧ r.hw.flush = true ∧
      ∀ (hw2 : Hw) (notify2 now2 : Int), hw2.operational = hw.operational →
        hw_clock hw2 = hw_clock hw →
        ∃ r2, st_asm330lhhx_read_fifo cfg hw2 dev notify2 now2 = some r2 ∧
          hw_clock r2.hw = hw_clock r.hw ∧ r2.ret = r.ret ∧ r2.dev = r.dev := by
  obtain ⟨r, r', k1, k1', k2, _, _⟩ := read_fifo_rel cfg
    (fun a _ => a.flush = true ∧ a.ts_offset = hw.ts_offset)
    (fun n1 _ d1 _ buf st1 _ i h => by
      obtain ⟨f1, f2⟩ := read_fifo_record_flush cfg n1 d1 buf st1 i
      exact ⟨f1.trans h.1, (f2 h.1).trans h.2⟩)
    (fun _ _ _ h => h) (fun _ _ _ h => h) hw hw dev notify notify now now rfl ⟨hfl, rfl⟩
  refine ⟨r, k1, k2.2, k2.1, ?_⟩
  intro hw2 notify2 now2 hop hclk
  obtain ⟨r2, r3, m1, m2, m3, m4, m5⟩ := read_fifo_rel cfg
    (fun a b => hw_clock a = hw_clock b)
    (fun n1 n2 d1 d2 buf st1 st2 i h => read_fifo_record_clock cfg n1 n2 d1 d2 buf st1 st2 i h)
    (fun _ _ _ h => h) (fun _ _ _ h => h) hw2 hw dev notify2 notify now2 now hop hclk
  rw [k1] at m2
  cases m2
  exact ⟨r2, m1, m3, m4, m5⟩

theorem flush_drain_keeps_offset_witness :
    ∃ r, st_asm330lhhx_read_fifo example_cfg example_hw_flush example_dev 0 0 = some r ∧
      r.hw.ts_offset = example_hw_flush.ts_offset ∧ r.hw.flush = true ∧
      ∀ (hw2 : Hw) (notify2 now2 : Int), hw2.operational = example_hw_flush.operational →
        hw_clock hw2 = hw_clock example_hw_flush →
        ∃ r2, st_asm330lhhx_read_fifo example_cfg hw2 example_dev notify2 now2 = some r2 ∧
          hw_clock r2.hw = hw_clock r.hw ∧ r2.ret = r.ret ∧ r2.dev = r.dev :=
  flush_drain_keeps_offset example_cfg example_hw_flush example_dev 0 0 rfl

/-! ## Order of the forwarded timestamps -/

theorem push_timestamps_append (a b : List Action) :
    push_timestamps (a ++ b) = push_timestamps a ++ push_timestamps b := by
  induction a with
  | nil => rfl
  | cons x xs ih =>
    cases x <;> simp [push_timestamps, ih]

/-- Outside the wake-replay path a record forwards nothing or one sample, stamped with
hardware time plus offset as they are when the record comes. -/
theorem read_fifo_record_pushes (cfg : Config) (s : Step) (st : Loop)
    (hrep : (cfg.may_wakeup && st.hw.resuming && decide (s.notify ≠ 0)) = false) :
    push_timestamps (read_fifo_record cfg s.notify s.delta s.buf st s.i).trace =
        push_timestamps st.trace ∨
    push_timestamps (read_fifo_record cfg s.notify s.delta s.buf st s.i).trace =
        push_timestamps st.trace ++ [s64 (st.hw.hw_ts + st.hw.ts_offset)] := by
  by_cases htag : byte s.buf s.i >>> 3 = ST_ASM330LHHX_TS_TAG
  · left
    rw [(read_fifo_record_timestamp_hw cfg s.notify s.delta s.buf st s.i htag).2.1]
  · by_cases hskip : st_asm330lhhx_get_iiodev_from_tag st.hw (byte s.buf s.i >>> 3) = none ∨
        s16 (get_unaligned_le16 s.buf (s.i + ST_ASM330LHHX_TAG_SIZE)) ≥
          ST_ASM330LHHX_SAMPLE_DISCHARD
    · left
      rw [read_fifo_record_skip cfg s.notify s.delta s.buf st s.i htag hskip]
    · rw [not_or] at hskip
      obtain ⟨hsome, hrdy⟩ := hskip
      obtain ⟨j, hj⟩ := Option.ne_none_iff_exists'.mp hsome
      have hrdy2 : s16 (get_unaligned_le16 s.buf (s.i + ST_ASM330LHHX_TAG_SIZE)) <
          ST_ASM330LHHX_SAMPLE_DISCHARD := by omega
      rw [read_fifo_record_sample cfg s.notify s.delta s.buf st s.i j htag hj hrdy2 hrep]
      by_cases hc : (iio_priv st.hw j).dec_counter > 0
      · left
        rw [if_pos hc]
      · right
        rw [if_neg hc]
        dsimp only
        rw [push_timestamps_append]
        rfl

/-! ## A drain of one chunk -/

/-- The bytes of a chunk are the first bytes of the FIFO. -/
theorem byte_chunk (l : List Nat) (n i : Nat) (h : i < n) :
    byte ((List.range n).map (fun k => l.getD k 0 % 256)) i = byte l i := by
  unfold byte
  simp [List.getD_eq_getElem?_getD, List.getElem?_map, List.getElem?_range, h]

/-- A drain whose status read and one data read succeed, for a depth of at most 60
records: after the status read it makes one pass of the chunk loop over the whole
depth. -/
theorem read_fifo_single_chunk (cfg : Config) (hw : Hw) (dev : Dev) (notify now : Int)
    (hop : hw.operational = true) (hrc0 : ¬ dev.rc.headD 0 < 0)
    (hrc1 : ¬ dev.rc.tail.headD 0 < 0) (hd : status_fifo_depth cfg dev ≠ 0)
    (hsmall : status_fifo_depth cfg dev ≤ 60) :
    st_asm330lhhx_read_fifo cfg hw dev notify now =
      some (read_fifo_end cfg notify (0,
        (read_fifo_chunk cfg notify (status_fifo_depth cfg dev * ST_ASM330LHHX_FIFO_SAMPLE_SIZE)
          (div_s64 hw.delta_ts (status_fifo_depth cfg dev))
          (read_fifo_begin hw { dev with rc := dev.rc.tail } notify now
            (status_fifo_depth cfg dev))).2)) ∧
    (read_fifo_chunk cfg notify (status_fifo_depth cfg dev * ST_ASM330LHHX_FIFO_SAMPLE_SIZE)
      (div_s64 hw.delta_ts (status_fifo_depth cfg dev))
      (read_fifo_begin hw { dev with rc := dev.rc.tail } notify now
        (status_fifo_depth cfg dev))).2 =
      { loop := (for_offsets (status_fifo_depth cfg dev * ST_ASM330LHHX_FIFO_SAMPLE_SIZE)
            ST_ASM330LHHX_FIFO_SAMPLE_SIZE).foldl
          (read_fifo_record cfg notify (div_s64 hw.delta_ts (status_fifo_depth cfg dev))
            ((List.range (status_fifo_depth cfg dev * ST_ASM330LHHX_FIFO_SAMPLE_SIZE)).map
              (fun k => dev.fifo.getD k 0 % 256)))
          { (read_fifo_begin hw { dev with rc := dev.rc.tail } notify now
              (status_fifo_depth cfg dev)).loop with
            trace := (read_fifo_begin hw { dev with rc := dev.rc.tail } notify now
              (status_fifo_depth cfg dev)).loop.trace ++
              [Action.read Reg.ST_ASM330LHHX_REG_FIFO_DATA_OUT_TAG_ADDR
                (status_fifo_depth cfg dev * ST_ASM330LHHX_FIFO_SAMPLE_SIZE)] }
        dev := { dev with
          rc := dev.rc.tail.tail
          fifo := dev.fifo.drop (status_fifo_depth cfg dev * ST_ASM330LHHX_FIFO_SAMPLE_SIZE) }
        read_len := status_fifo_depth cfg dev * ST_ASM330LHHX_FIFO_SAMPLE_SIZE } := by
  have h7 : ST_ASM330LHHX_FIFO_SAMPLE_SIZE = 7 := rfl
  have hmin : min (status_fifo_depth cfg dev * ST_ASM330LHHX_FIFO_SAMPLE_SIZE - 0)
      (60 * ST_ASM330LHHX_FIFO_SAMPLE_SIZE) =
      status_fifo_depth cfg dev * ST_ASM330LHHX_FIFO_SAMPLE_SIZE := by
    rw [h7]
    omega
  have hb : (read_fifo_begin hw { dev with rc := dev.rc.tail } notify now
      (status_fifo_depth cfg dev)).dev = { dev with rc := dev.rc.tail } ∧
      (read_fifo_begin hw { dev with rc := dev.rc.tail } notify now
        (status_fifo_depth cfg dev)).read_len = 0 := ⟨rfl, rfl⟩
  have hc := read_fifo_chunk_ok_eq cfg notify
    (status_fifo_depth cfg dev * ST_ASM330LHHX_FIFO_SAMPLE_SIZE)
    (div_s64 hw.delta_ts (status_fifo_depth cfg dev))
    (read_fifo_begin hw { dev with rc := dev.rc.tail } notify now (status_fifo_depth cfg dev))
    (by rw [hb.1]; exact hrc1)
  rw [hb.2, hmin, hb.1] at hc
  have hc2 : (read_fifo_chunk cfg notify
      (status_fifo_depth cfg dev * ST_ASM330LHHX_FIFO_SAMPLE_SIZE)
      (div_s64 hw.delta_ts (status_fifo_depth cfg dev))
      (read_fifo_begin hw { dev with rc := dev.rc.tail } notify now
        (status_fifo_depth cfg dev))).2 = _ := congrArg Prod.snd hc
  have hc1 : (read_fifo_chunk cfg notify
      (status_fifo_depth cfg dev * ST_ASM330LHHX_FIFO_SAMPLE_SIZE)
      (div_s64 hw.delta_ts (status_fifo_depth cfg dev))
      (read_fifo_begin hw { dev with rc := dev.rc.tail } notify now
        (status_fifo_depth cfg dev))).1 = _ := congrArg Prod.fst hc
  refine ⟨?_, ?_⟩
  · rw [read_fifo_eq_loop cfg hw dev notify now hop hrc0 hd]
    have hpos : 0 < status_fifo_depth cfg dev * ST_ASM330LHHX_FIFO_SAMPLE_SIZE := by
      rw [h7]
      omega
    obtain ⟨n, hn⟩ : ∃ n, status_fifo_depth cfg dev * ST_ASM330LHHX_FIFO_SAMPLE_SIZE = n + 1 :=
      ⟨_, (Nat.succ_pred_eq_of_pos hpos).symm⟩
    have hloop : read_fifo_loop cfg notify
        (status_fifo_depth cfg dev * ST_ASM330LHHX_FIFO_SAMPLE_SIZE)
        (div_s64 hw.delta_ts (status_fifo_depth cfg dev)) (n + 1)
        (read_fifo_begin hw { dev with rc := dev.rc.tail } notify now
          (status_fifo_depth cfg dev)) =
        some (0, (read_fifo_chunk cfg notify
          (status_fifo_depth cfg dev * ST_ASM330LHHX_FIFO_SAMPLE_SIZE)
          (div_s64 hw.delta_ts (status_fifo_depth cfg dev))
          (read_fifo_begin hw { dev with rc := dev.rc.tail } notify now
            (status_fifo_depth cfg dev))).2) := by
      rw [read_fifo_loop]
      have hlt : (read_fifo_begin hw { dev with rc := dev.rc.tail } notify now
          (status_fifo_depth cfg dev)).read_len <
          status_fifo_depth cfg dev * ST_ASM330LHHX_FIFO_SAMPLE_SIZE := by
        rw [hb.2]
        exact hpos
      have hok : ¬ (read_fifo_chunk cfg notify
          (status_fifo_depth cfg dev * ST_ASM330LHHX_FIFO_SAMPLE_SIZE)
          (div_s64 hw.delta_ts (status_fifo_depth cfg dev))
          (read_fifo_begin hw { dev with rc := dev.rc.tail } notify now
            (status_fifo_depth cfg dev))).1 < 0 := by
        rw [hc1]
        exact hrc1
      simp only [hlt, if_true, hok, if_false]
      unfold read_fifo_loop
      have hend : ¬ (read_fifo_chunk cfg notify
          (status_fifo_depth cfg dev * ST_ASM330LHHX_FIFO_SAMPLE_SIZE)
          (div_s64 hw.delta_ts (status_fifo_depth cfg dev))
          (read_fifo_begin hw { dev with rc := dev.rc.tail } notify now
            (status_fifo_depth cfg dev))).2.read_len <
          status_fifo_depth cfg dev * ST_ASM330LHHX_FIFO_SAMPLE_SIZE := by
        rw [hc2]
        simp
      simp only [hend, if_false]
    rw [← hn] at hloop
    rw [hloop]
    rfl
  · rw [hc2]
    simp

/-- The variables the chunk loop starts with when the device is not resuming. -/
theorem read_fifo_begin_plain (hw : Hw) (dev : Dev) (notify now : Int) (fifo_depth : Nat)
    (hres : hw.resuming = false) :
    (read_fifo_begin hw dev notify now fifo_depth).loop =
      { hw := hw, trace := [Action.read Reg.ST_ASM330LHHX_REG_FIFO_STATUS1_ADDR 2],
        ts_irq := s64 (hw.ts - hw.delta_ts) } := by
  unfold read_fifo_begin
  simp only [hres, Bool.false_and, Bool.false_eq_true, if_false]

/-- What the chunk buffer of a drain of three records holds. -/
theorem chunk_of_three (l : List Nat) :
    (∀ i, i < 21 → byte ((List.range (3 * ST_ASM330LHHX_FIFO_SAMPLE_SIZE)).map
      (fun k => l.getD k 0 % 256)) i = byte l i) ∧
    get_unaligned_le32 ((List.range (3 * ST_ASM330LHHX_FIFO_SAMPLE_SIZE)).map
      (fun k => l.getD k 0 % 256)) (0 + ST_ASM330LHHX_TAG_SIZE) = get_unaligned_le32 l 1 ∧
    get_unaligned_le16 ((List.range (3 * ST_ASM330LHHX_FIFO_SAMPLE_SIZE)).map
      (fun k => l.getD k 0 % 256)) (7 + ST_ASM330LHHX_TAG_SIZE) = get_unaligned_le16 l 8 ∧
    get_unaligned_le16 ((List.range (3 * ST_ASM330LHHX_FIFO_SAMPLE_SIZE)).map
      (fun k => l.getD k 0 % 256)) (14 + ST_ASM330LHHX_TAG_SIZE) = get_unaligned_le16 l 15 ∧
    memcpy ((List.range (3 * ST_ASM330LHHX_FIFO_SAMPLE_SIZE)).map
      (fun k => l.getD k 0 % 256)) (7 + ST_ASM330LHHX_TAG_SIZE) ST_ASM330LHHX_SAMPLE_SIZE =
      memcpy l 8 6 := by
  have hb : ∀ i, i < 21 → byte ((List.range (3 * ST_ASM330LHHX_FIFO_SAMPLE_SIZE)).map
      (fun k => l.getD k 0 % 256)) i = byte l i := fun i hi => byte_chunk l _ i hi
  refine ⟨hb, ?_, ?_, ?_, ?_⟩
  · unfold get_unaligned_le32 ST_ASM330LHHX_TAG_SIZE
    rw [hb _ (by norm_num), hb _ (by norm_num), hb _ (by norm_num), hb _ (by norm_num)]
  · unfold get_unaligned_le16 ST_ASM330LHHX_TAG_SIZE
    rw [hb _ (by norm_num), hb _ (by norm_num)]
  · unfold get_unaligned_le16 ST_ASM330LHHX_TAG_SIZE
    rw [hb _ (by norm_num), hb _ (by norm_num)]
  · unfold memcpy ST_ASM330LHHX_TAG_SIZE ST_ASM330LHHX_SAMPLE_SIZE
    apply List.map_congr_left
    intro k hk
    have hk6 : k < 6 := List.mem_range.1 hk
    exact hb _ (by omega)

/-- The three records timestamp (tick 100), ready accelerometer sample, not-ready
gyroscope sample, handled in that order from a state outside flush and resume whose
rollover count is 0 and whose stored ticks are at most 100. -/
theorem three_records (cfg : Config) (notify delta : Int) (buf : List Nat) (st0 : Loop)
    (hfl : st0.hw.flush = false) (hres : st0.hw.resuming = false)
    (hacc : (st0.hw.iio_devs.getD ST_ASM330LHHX_ID_ACC none).isSome = true)
    (hdec : (iio_priv st0.hw ST_ASM330LHHX_ID_ACC).dec_counter = 0)
    (hhigh : st0.hw.hw_ts_high = 0) (hold : st0.hw.val_ts_old ≤ 100)
    (h0 : byte buf 0 >>> 3 = ST_ASM330LHHX_TS_TAG)
    (h1 : get_unaligned_le32 buf (0 + ST_ASM330LHHX_TAG_SIZE) = 100)
    (h2 : byte buf 7 >>> 3 = ST_ASM330LHHX_ACC_TAG)
    (h3 : s16 (get_unaligned_le16 buf (7 + ST_ASM330LHHX_TAG_SIZE)) <
      ST_ASM330LHHX_SAMPLE_DISCHARD)
    (h4 : byte buf 14 >>> 3 = ST_ASM330LHHX_GYRO_TAG)
    (h5 : s16 (get_unaligned_le16 buf (14 + ST_ASM330LHHX_TAG_SIZE)) ≥
      ST_ASM330LHHX_SAMPLE_DISCHARD) :
    ([0, 7, 14].foldl (read_fifo_record cfg notify delta buf) st0).hw.ts_offset =
      st_asm330lhhx_ewma st0.hw.ts_offset
        (s64 (s64 (st0.ts_irq + delta) - s64 (100 * (st0.hw.ts_delta_ns : Int))))
        ST_ASM330LHHX_EWMA_LEVEL ∧
    ([0, 7, 14].foldl (read_fifo_record cfg notify delta buf) st0).trace =
      st0.trace ++ [Action.push ST_ASM330LHHX_ID_ACC
        (memcpy buf (7 + ST_ASM330LHHX_TAG_SIZE) ST_ASM330LHHX_SAMPLE_SIZE)
        (s64 (s64 (100 * (st0.hw.ts_delta_ns : Int)) +
          ([0, 7, 14].foldl (read_fifo_record cfg notify delta buf) st0).hw.ts_offset))] ∧
    ([0, 7, 14].foldl (read_fifo_record cfg notify delta buf) st0).hw.resuming = false ∧
    (iio_priv ([0, 7, 14].foldl (read_fifo_record cfg notify delta buf) st0).hw
      ST_ASM330LHHX_ID_ACC).dec_counter = (iio_priv st0.hw ST_ASM330LHHX_ID_ACC).decimator := by
  -- record 1, the timestamp
  obtain ⟨a1, a2, a3⟩ := read_fifo_record_timestamp_hw cfg notify delta buf st0 0 h0
  obtain ⟨c1, _, c3, _⟩ := read_fifo_record_timestamp_clock cfg notify delta buf st0 0 h0
  obtain ⟨f1, f2, f3, f4, _, _⟩ := read_fifo_record_timestamp_frame cfg notify delta buf st0 0 h0
  have ho := read_fifo_record_timestamp_offset cfg notify delta buf st0 0 h0 hfl
  rw [h1, if_neg (by omega), hhigh] at c1
  rw [c1, h1] at c3
  have e100 : (((100 : Nat) : Int) + ((0 : Nat) : Int) * 2 ^ 32) * (st0.hw.ts_delta_ns : Int) =
      100 * (st0.hw.ts_delta_ns : Int) := by
    push_cast
    ring
  rw [e100] at c3
  rw [a3, c3] at ho
  -- record 2, the accelerometer sample
  have htag2 : byte buf 7 >>> 3 ≠ ST_ASM330LHHX_TS_TAG := by rw [h2]; decide
  have hacc1 : ((read_fifo_record cfg notify delta buf st0 0).hw.iio_devs.getD
      ST_ASM330LHHX_ID_ACC none).isSome = true := by rw [f1]; exact hacc
  have hid : st_asm330lhhx_get_iiodev_from_tag (read_fifo_record cfg notify delta buf st0 0).hw
      (byte buf 7 >>> 3) = some ST_ASM330LHHX_ID_ACC := by
    rw [h2]
    unfold st_asm330lhhx_get_iiodev_from_tag
    rw [if_neg (by decide), if_pos rfl]
    unfold iio_dev_at
    cases hx : (read_fifo_record cfg notify delta buf st0 0).hw.iio_devs.getD
      ST_ASM330LHHX_ID_ACC none
    · rw [hx] at hacc1
      simp at hacc1
    · rfl
  have hrep : (cfg.may_wakeup && (read_fifo_record cfg notify delta buf st0 0).hw.resuming &&
      decide (notify ≠ 0)) = false := by
    rw [f3, hres]
    simp
  have hpriv : iio_priv (read_fifo_record cfg notify delta buf st0 0).hw ST_ASM330LHHX_ID_ACC =
      iio_priv st0.hw ST_ASM330LHHX_ID_ACC := by
    unfold iio_priv
    rw [f1]
  have b := read_fifo_record_sample cfg notify delta buf
    (read_fifo_record cfg notify delta buf st0 0) 7 ST_ASM330LHHX_ID_ACC htag2 hid h3 hrep
  rw [hpriv, hdec, if_neg (by omega)] at b
  -- record 3, the gyroscope sample that is not ready
  have htag3 : byte buf 14 >>> 3 ≠ ST_ASM330LHHX_TS_TAG := by rw [h4]; decide
  have c := read_fifo_record_skip cfg notify delta buf
    (read_fifo_record cfg notify delta buf (read_fifo_record cfg notify delta buf st0 0) 7) 14
    htag3 (Or.inr h5)
  have hfold : [0, 7, 14].foldl (read_fifo_record cfg notify delta buf) st0 =
      read_fifo_record cfg notify delta buf
        (read_fifo_record cfg notify delta buf (read_fifo_record cfg notify delta buf st0 0) 7)
        14 := rfl
  rw [hfold, c, b]
  dsimp only
  obtain ⟨_, s2, s3⟩ := set_sensor_frame (read_fifo_record cfg notify delta buf st0 0).hw
    ST_ASM330LHHX_ID_ACC
    { iio_priv st0.hw ST_ASM330LHHX_ID_ACC with
      dec_counter := (iio_priv st0.hw ST_ASM330LHHX_ID_ACC).decimator
      last_fifo_timestamp := s64 ((read_fifo_record cfg notify delta buf st0 0).hw.hw_ts +
        (read_fifo_record cfg notify delta buf st0 0).hw.ts_offset) }
  refine ⟨?_, ?_, ?_, ?_⟩
  · rw [s3, ho]
  · rw [s3, a2, c3]
  · unfold set_sensor
    exact f3.trans hres
  · rw [iio_priv_set_sensor_self _ _ _ hacc1]

/-- C10 (amended): end to end, for every operational state outside flush and resume with
the Accel channel registered, its decimation counter 0, a rollover count of 0 and stored
low ticks of at most 100: when the status register reports depth 3, both reads succeed
and the data register yields a timestamp record (tick 100), a ready Accel record and a
not-ready Gyro record, the drain returns 3 * record_size; after its two reads its one
further action is the forward of the 6 Accel payload bytes on the Accel channel with
timestamp 100 * tick period + offset', in 64-bit arithmetic; nothing goes to the Gyro
channel; and the offset is left at offset', one filter step from the initial offset toward
(provisional timestamp of record 1) - 100 * tick period. -/
theorem drain_three_records (cfg : Config) (hw : Hw) (dev : Dev) (now : Int)
    (hop : hw.operational = true) (hfl : hw.flush = false) (hres : hw.resuming = false)
    (hacc : (hw.iio_devs.getD ST_ASM330LHHX_ID_ACC none).isSome = true)
    (hdec : (iio_priv hw ST_ASM330LHHX_ID_ACC).dec_counter = 0)
    (hhigh : hw.hw_ts_high = 0) (hold : hw.val_ts_old ≤ 100)
    (hrc0 : ¬ dev.rc.headD 0 < 0) (hrc1 : ¬ dev.rc.tail.headD 0 < 0)
    (hdepth : status_fifo_depth cfg dev = 3)
    (h0 : byte dev.fifo 0 >>> 3 = ST_ASM330LHHX_TS_TAG)
    (h1 : get_unaligned_le32 dev.fifo 1 = 100)
    (h2 : byte dev.fifo 7 >>> 3 = ST_ASM330LHHX_ACC_TAG)
    (h3 : s16 (get_unaligned_le16 dev.fifo 8) < ST_ASM330LHHX_SAMPLE_DISCHARD)
    (h4 : byte dev.fifo 14 >>> 3 = ST_ASM330LHHX_GYRO_TAG)
    (h5 : s16 (get_unaligned_le16 dev.fifo 15) ≥ ST_ASM330LHHX_SAMPLE_DISCHARD) :
    ∃ r, st_asm330lhhx_read_fifo cfg hw dev 0 now = some r ∧
      r.ret = ((3 * ST_ASM330LHHX_FIFO_SAMPLE_SIZE : Nat) : Int) ∧
      r.hw.ts_offset =
        st_asm330lhhx_ewma hw.ts_offset
          (s64 (s64 (s64 (hw.ts - hw.delta_ts) + div_s64 hw.delta_ts 3) -
            s64 (100 * (hw.ts_delta_ns : Int)))) ST_ASM330LHHX_EWMA_LEVEL ∧
      r.trace =
        [Action.read Reg.ST_ASM330LHHX_REG_FIFO_STATUS1_ADDR 2,
         Action.read Reg.ST_ASM330LHHX_REG_FIFO_DATA_OUT_TAG_ADDR
          (3 * ST_ASM330LHHX_FIFO_SAMPLE_SIZE),
         Action.push ST_ASM330LHHX_ID_ACC (memcpy dev.fifo 8 6)
          (s64 (s64 (100 * (hw.ts_delta_ns : Int)) + r.hw.ts_offset))] ∧
      pushed_to ST_ASM330LHHX_ID_GYRO r.trace = [] ∧
      (pushed_to ST_ASM330LHHX_ID_ACC r.trace).length = 1 := by
  obtain ⟨k1, k2⟩ := read_fifo_single_chunk cfg hw dev 0 now hop hrc0 hrc1
    (by rw [hdepth]; decide) (by rw [hdepth]; decide)
  rw [hdepth] at k1 k2
  have hfo : for_offsets (3 * ST_ASM330LHHX_FIFO_SAMPLE_SIZE) ST_ASM330LHHX_FIFO_SAMPLE_SIZE =
      [0, 7, 14] := by decide
  obtain ⟨b1, b2, b3, b4, b5⟩ := chunk_of_three dev.fifo
  have hbegin := read_fifo_begin_plain hw { dev with rc := dev.rc.tail } 0 now 3 hres
  rw [hfo, hbegin] at k2
  obtain ⟨t1, t2, t3, _⟩ := three_records cfg 0 (div_s64 hw.delta_ts ((3 : Nat) : Int))
    ((List.range (3 * ST_ASM330LHHX_FIFO_SAMPLE_SIZE)).map (fun k => dev.fifo.getD k 0 % 256))
    { hw := hw,
      trace := [Action.read Reg.ST_ASM330LHHX_REG_FIFO_STATUS1_ADDR 2] ++
        [Action.read Reg.ST_ASM330LHHX_REG_FIFO_DATA_OUT_TAG_ADDR
          (3 * ST_ASM330LHHX_FIFO_SAMPLE_SIZE)],
      ts_irq := s64 (hw.ts - hw.delta_ts) }
    hfl hres hacc hdec hhigh hold
    (by rw [b1 0 (by norm_num)]; exact h0) (by rw [b2]; exact h1)
    (by rw [b1 7 (by norm_num)]; exact h2) (by rw [b3]; exact h3)
    (by rw [b1 14 (by norm_num)]; exact h4) (by rw [b4]; exact h5)
  rw [b5] at t2
  dsimp only at t1 t2
  obtain ⟨D, hD⟩ : ∃ D, D = (read_fifo_chunk cfg 0 (3 * ST_ASM330LHHX_FIFO_SAMPLE_SIZE)
      (div_s64 hw.delta_ts ((3 : Nat) : Int))
      (read_fifo_begin hw { dev with rc := dev.rc.tail } 0 now 3)).2 := ⟨_, rfl⟩
  rw [← hD] at k1 k2
  have hloop : D.loop = [0, 7, 14].foldl
      (read_fifo_record cfg 0 (div_s64 hw.delta_ts ((3 : Nat) : Int))
        ((List.range (3 * ST_ASM330LHHX_FIFO_SAMPLE_SIZE)).map
          (fun k => dev.fifo.getD k 0 % 256)))
      { hw := hw,
        trace := [Action.read Reg.ST_ASM330LHHX_REG_FIFO_STATUS1_ADDR 2] ++
          [Action.read Reg.ST_ASM330LHHX_REG_FIFO_DATA_OUT_TAG_ADDR
            (3 * ST_ASM330LHHX_FIFO_SAMPLE_SIZE)],
        ts_irq := s64 (hw.ts - hw.delta_ts) } := by
    rw [k2]
  have hlen : D.read_len = 3 * ST_ASM330LHHX_FIFO_SAMPLE_SIZE := by
    rw [k2]
  rw [← hloop] at t1 t2 t3
  obtain ⟨e1, _, e3⟩ := read_fifo_end_frame cfg 0 ((0 : Int), D)
  have e4 : (read_fifo_end cfg 0 ((0 : Int), D)).trace = D.loop.trace := by
    unfold read_fifo_end
    dsimp only
    rw [if_neg (by decide), t3]
    rfl
  dsimp only at e1 e3
  rw [← e1] at t1 t2
  have htrace := e4.trans t2
  refine ⟨_, k1, ?_, t1, htrace, ?_, ?_⟩
  · rw [e3, hlen]
    simp
  · rw [htrace]
    rfl
  · rw [htrace]
    rfl

theorem drain_three_records_witness :
    ∃ r, st_asm330lhhx_read_fifo example_cfg example_hw example_dev 0 0 = some r ∧
      r.ret = ((3 * ST_ASM330LHHX_FIFO_SAMPLE_SIZE : Nat) : Int) ∧
      r.hw.ts_offset =
        st_asm330lhhx_ewma example_hw.ts_offset
          (s64 (s64 (s64 (example_hw.ts - example_hw.delta_ts) +
            div_s64 example_hw.delta_ts 3) -
            s64 (100 * (example_hw.ts_delta_ns : Int)))) ST_ASM330LHHX_EWMA_LEVEL ∧
      r.trace =
        [Action.read Reg.ST_ASM330LHHX_REG_FIFO_STATUS1_ADDR 2,
         Action.read Reg.ST_ASM330LHHX_REG_FIFO_DATA_OUT_TAG_ADDR
          (3 * ST_ASM330LHHX_FIFO_SAMPLE_SIZE),
         Action.push ST_ASM330LHHX_ID_ACC (memcpy example_dev.fifo 8 6)
          (s64 (s64 (100 * (example_hw.ts_delta_ns : Int)) + r.hw.ts_offset))] ∧
      pushed_to ST_ASM330LHHX_ID_GYRO r.trace = [] ∧
      (pushed_to ST_ASM330LHHX_ID_ACC r.trace).length = 1 :=
  drain_three_records example_cfg example_hw example_dev 0 rfl rfl rfl (by decide) (by decide)
    rfl (by decide) (by decide) (by decide) (by decide) (by decide) (by decide) (by decide)
    (by decide) (by decide) (by decide)

/-- C10 (counterexample): the same three records and an operational state outside flush
and resume, Accel registered with decimation counter 0, whose rollover count is 1. The
drain returns 21 and forwards one Accel sample, with timestamp 100663298405469 and the
offset left at -6710886494531, where 100 * tick period plus one filter step from the
initial offset 500 toward 980000 - 100 * tick period is 2405469. -/
theorem drain_three_records_after_rollover :
    example_hw_rolled.operational = true ∧ example_hw_rolled.flush = false ∧
    example_hw_rolled.resuming = false ∧
    (iio_priv example_hw_rolled ST_ASM330LHHX_ID_ACC).dec_counter = 0 ∧
    (st_asm330lhhx_read_fifo example_cfg example_hw_rolled example_dev 0 0).map
      (fun r => (r.ret, pushed_to ST_ASM330LHHX_ID_ACC r.trace, r.hw.ts_offset)) =
      some (21, [([1, 0, 2, 0, 3, 0], 100663298405469)], -6710886494531) ∧
    s64 (example_hw_rolled.ts - example_hw_rolled.delta_ts) +
      div_s64 example_hw_rolled.delta_ts 3 = 980000 ∧
    100 * (example_hw_rolled.ts_delta_ns : Int) +
      st_asm330lhhx_ewma example_hw_rolled.ts_offset
        (980000 - 100 * (example_hw_rolled.ts_delta_ns : Int)) ST_ASM330LHHX_EWMA_LEVEL =
      2405469 := by
  decide

/-! ## Routing of the tags -/

/-- C28: with the Ext0 and Ext1 devices registered, a record tagged Ext0 (0x0F) goes to
the Ext0 device exactly when the Ext0 bit of the enable mask is set and to the Ext1 device
otherwise, whatever the Ext1 bit; a record tagged Ext1 (0x10) goes to the Ext1 device; and
the Gyro, Accel, Temp and Ext1 tags go to the device in the slot of their own channel
whatever the enable mask is. -/
theorem ext_tag_routing (hw : Hw)
    (h0 : (hw.iio_devs.getD ST_ASM330LHHX_ID_EXT0 none).isSome = true)
    (h1 : (hw.iio_devs.getD ST_ASM330LHHX_ID_EXT1 none).isSome = true) :
    (st_asm330lhhx_get_iiodev_from_tag hw 0x0f = some ST_ASM330LHHX_ID_EXT0 ↔
      hw.enable_mask &&& BIT ST_ASM330LHHX_ID_EXT0 ≠ 0) ∧
    (hw.enable_mask &&& BIT ST_ASM330LHHX_ID_EXT0 = 0 →
      st_asm330lhhx_get_iiodev_from_tag hw 0x0f = some ST_ASM330LHHX_ID_EXT1) ∧
    st_asm330lhhx_get_iiodev_from_tag hw 0x10 = some ST_ASM330LHHX_ID_EXT1 ∧
    (∀ mask : Nat,
      st_asm330lhhx_get_iiodev_from_tag { hw with enable_mask := mask } 0x01 =
        iio_dev_at hw ST_ASM330LHHX_ID_GYRO ∧
      st_asm330lhhx_get_iiodev_from_tag { hw with enable_mask := mask } 0x02 =
        iio_dev_at hw ST_ASM330LHHX_ID_ACC ∧
      st_asm330lhhx_get_iiodev_from_tag { hw with enable_mask := mask } 0x03 =
        iio_dev_at hw ST_ASM330LHHX_ID_TEMP ∧
      st_asm330lhhx_get_iiodev_from_tag { hw with enable_mask := mask } 0x10 =
        iio_dev_at hw ST_ASM330LHHX_ID_EXT1 ∧
      st_asm330lhhx_get_iiodev_from_tag { hw with enable_mask := mask } 0x0f =
        if mask &&& BIT ST_ASM330LHHX_ID_EXT0 ≠ 0 then iio_dev_at hw ST_ASM330LHHX_ID_EXT0
        else iio_dev_at hw ST_ASM330LHHX_ID_EXT1) := by
  have e0 : iio_dev_at hw ST_ASM330LHHX_ID_EXT0 = some ST_ASM330LHHX_ID_EXT0 := by
    rw [iio_dev_at_eq, if_pos]
    unfold iio_dev_at
    cases hx : hw.iio_devs.getD ST_ASM330LHHX_ID_EXT0 none
    · rw [hx] at h0
      simp at h0
    · rfl
  have e1 : iio_dev_at hw ST_ASM330LHHX_ID_EXT1 = some ST_ASM330LHHX_ID_EXT1 := by
    rw [iio_dev_at_eq, if_pos]
    unfold iio_dev_at
    cases hx : hw.iio_devs.getD ST_ASM330LHHX_ID_EXT1 none
    · rw [hx] at h1
      simp at h1
    · rfl
  have hx : st_asm330lhhx_get_iiodev_from_tag hw 0x0f =
      if hw.enable_mask &&& BIT ST_ASM330LHHX_ID_EXT0 ≠ 0 then
        iio_dev_at hw ST_ASM330LHHX_ID_EXT0
      else iio_dev_at hw ST_ASM330LHHX_ID_EXT1 := by
    unfold st_asm330lhhx_get_iiodev_from_tag
    rw [if_neg (by decide), if_neg (by decide), if_neg (by decide), if_pos (by decide)]
  refine ⟨?_, ?_, ?_, fun mask => ⟨?_, ?_, ?_, ?_, ?_⟩⟩
  · rw [hx, e0, e1]
    by_cases hm : hw.enable_mask &&& BIT ST_ASM330LHHX_ID_EXT0 ≠ 0
    · rw [if_pos hm]
      exact ⟨fun _ => hm, fun _ => rfl⟩
    · rw [if_neg hm]
      exact ⟨fun h => absurd h (by decide), fun h => absurd h hm⟩
  · intro hm
    rw [hx, if_neg (by rw [hm]; simp), e1]
  · unfold st_asm330lhhx_get_iiodev_from_tag
    rw [if_neg (by decide), if_neg (by decide), if_neg (by decide), if_neg (by decide),
      if_pos (by decide), e1]
  · unfold st_asm330lhhx_get_iiodev_from_tag
    rw [if_pos (by decide)]
    rfl
  · unfold st_asm330lhhx_get_iiodev_from_tag
    rw [if_neg (by decide), if_pos (by decide)]
    rfl
  · unfold st_asm330lhhx_get_iiodev_from_tag
    rw [if_neg (by decide), if_neg (by decide), if_pos (by decide)]
    rfl
  · unfold st_asm330lhhx_get_iiodev_from_tag
    rw [if_neg (by decide), if_neg (by decide), if_neg (by decide), if_neg (by decide),
      if_pos (by decide)]
    rfl
  · unfold st_asm330lhhx_get_iiodev_from_tag
    rw [if_neg (by decide), if_neg (by decide), if_neg (by decide), if_pos (by decide)]
    rfl

theorem ext_tag_routing_witness :
    example_hw_ext.enable_mask &&& BIT ST_ASM330LHHX_ID_EXT0 = 0 ∧
    st_asm330lhhx_get_iiodev_from_tag example_hw_ext 0x0f = some ST_ASM330LHHX_ID_EXT1 ∧
    st_asm330lhhx_get_iiodev_from_tag example_hw_ext 0x10 = some ST_ASM330LHHX_ID_EXT1 ∧
    st_asm330lhhx_get_iiodev_from_tag { example_hw_ext with enable_mask := 0 } 0x0f =
      some ST_ASM330LHHX_ID_EXT1 := by
  have h := ext_tag_routing example_hw_ext (by decide) (by decide)
  exact ⟨by decide, h.2.1 (by decide), h.2.2.1, (h.2.2.2 0).2.2.2.2.trans (by decide)⟩

/-! ## The ready field -/

/-- The signed test on the ready field, on its unsigned value. -/
theorem not_ready_values (x : Nat) (hx : x < 65536) :
    s16 (x : Int) ≥ ST_ASM330LHHX_SAMPLE_DISCHARD ↔ (x = 0x7ffd ∨ x = 0x7ffe ∨ x = 0x7fff) := by
  unfold s16 ST_ASM330LHHX_SAMPLE_DISCHARD
  constructor
  · intro h
    omega
  · intro h
    omega

/-- C29: for a data record whose tag has a registered device, the record is discarded
(trace and driver state untouched) exactly when the unsigned little-endian value of its
bytes 1-2 is 0x7FFD, 0x7FFE or 0x7FFF, the values at which the signed 16-bit reading is at
least 0x7FFD; every other value, 0x8000..0xFFFF included, makes it a ready sample, which
outside the wake-replay path goes through the decimation counter of its device. -/
theorem not_ready_is_signed_comparison (cfg : Config) (notify delta : Int) (buf : List Nat)
    (st : Loop) (i : Nat) (id : Nat) (htag : byte buf i >>> 3 ≠ ST_ASM330LHHX_TS_TAG)
    (hid : st_asm330lhhx_get_iiodev_from_tag st.hw (byte buf i >>> 3) = some id) :
    (s16 (get_unaligned_le16 buf (i + 1)) ≥ 0x7ffd ↔
      (get_unaligned_le16 buf (i + 1) = 0x7ffd ∨ get_unaligned_le16 buf (i + 1) = 0x7ffe ∨
        get_unaligned_le16 buf (i + 1) = 0x7fff)) ∧
    (((read_fifo_record cfg notify delta buf st i).trace = st.trace ∧
        (read_fifo_record cfg notify delta buf st i).hw = st.hw) ↔
      (get_unaligned_le16 buf (i + 1) = 0x7ffd ∨ get_unaligned_le16 buf (i + 1) = 0x7ffe ∨
        get_unaligned_le16 buf (i + 1) = 0x7fff)) ∧
    (¬ (get_unaligned_le16 buf (i + 1) = 0x7ffd ∨ get_unaligned_le16 buf (i + 1) = 0x7ffe ∨
        get_unaligned_le16 buf (i + 1) = 0x7fff) →
      (cfg.may_wakeup && st.hw.resuming && decide (notify ≠ 0)) = false →
      read_fifo_record cfg notify delta buf st i =
        if (iio_priv st.hw id).dec_counter > 0 then
          { st with
            hw := set_sensor st.hw id
              { iio_priv st.hw id with dec_counter := (iio_priv st.hw id).dec_counter - 1 }
            ts_irq := s64 (st.ts_irq + delta) }
        else
          { st with
            hw := set_sensor st.hw id
              { iio_priv st.hw id with
                dec_counter := (iio_priv st.hw id).decimator
                last_fifo_timestamp := s64 (st.hw.hw_ts + st.hw.ts_offset) }
            trace := st.trace ++ [Action.push id
              (memcpy buf (i + ST_ASM330LHHX_TAG_SIZE) ST_ASM330LHHX_SAMPLE_SIZE)
              (s64 (st.hw.hw_ts + st.hw.ts_offset))]
            ts_irq := s64 (st.ts_irq + delta) }) := by
  have hv := not_ready_values (get_unaligned_le16 buf (i + 1))
    (get_unaligned_le16_lt buf (i + 1))
  have hv2 : s16 (get_unaligned_le16 buf (i + ST_ASM330LHHX_TAG_SIZE)) ≥
      ST_ASM330LHHX_SAMPLE_DISCHARD ↔
      (get_unaligned_le16 buf (i + 1) = 0x7ffd ∨ get_unaligned_le16 buf (i + 1) = 0x7ffe ∨
        get_unaligned_le16 buf (i + 1) = 0x7fff) := hv
  have hslot := (get_iiodev_from_tag_some hid)
  refine ⟨hv, ⟨fun h => ?_, fun h => ?_⟩, fun h hrep => ?_⟩
  · by_contra hn
    have hrdy : s16 (get_unaligned_le16 buf (i + ST_ASM330LHHX_TAG_SIZE)) <
        ST_ASM330LHHX_SAMPLE_DISCHARD := by
      have := mt hv2.1 hn
      omega
    obtain ⟨ht, hh⟩ := h
    cases hrep : (cfg.may_wakeup && st.hw.resuming && decide (notify ≠ 0))
    · rw [read_fifo_record_sample cfg notify delta buf st i id htag hid hrdy hrep] at ht hh
      by_cases hc : (iio_priv st.hw id).dec_counter > 0
      · rw [if_pos hc] at hh
        have := congrArg (fun h => (iio_priv h id).dec_counter) hh
        dsimp only at this
        rw [iio_priv_set_sensor_self _ _ _ hslot] at this
        dsimp only at this
        omega
      · rw [if_neg hc] at ht
        have := congrArg List.length ht
        simp at this
    · rw [read_fifo_record_replay cfg notify delta buf st i id htag hid hrdy hrep] at ht
      have := congrArg List.length ht
      simp at this
  · rw [read_fifo_record_skip cfg notify delta buf st i htag (Or.inr (hv2.2 h))]
    exact ⟨rfl, rfl⟩
  · have hrdy : s16 (get_unaligned_le16 buf (i + ST_ASM330LHHX_TAG_SIZE)) <
        ST_ASM330LHHX_SAMPLE_DISCHARD := by
      have := mt hv2.1 h
      omega
    exact read_fifo_record_sample cfg notify delta buf st i id htag hid hrdy hrep

theorem not_ready_is_signed_comparison_witness :
    get_unaligned_le16 example_buf_negative (0 + 1) = 0x8000 ∧
    s16 (get_unaligned_le16 example_buf_negative (0 + 1)) = -32768 ∧
    (read_fifo_record example_cfg 0 10000 example_buf_negative
      { hw := example_hw, trace := [], ts_irq := 0 } 0).trace =
      [Action.push ST_ASM330LHHX_ID_ACC [0x00, 0x80, 2, 0, 3, 0] 500] := by
  have h := (not_ready_is_signed_comparison example_cfg 0 10000 example_buf_negative
    { hw := example_hw, trace := [], ts_irq := 0 } 0 ST_ASM330LHHX_ID_ACC (by decide)
    (by decide)).2.2 (by decide) (by decide)
  refine ⟨by decide, by decide, ?_⟩
  rw [h]
  decide

/-! ## Samples between a timestamp reset and the next timestamp record -/

/-- A run of records with no timestamp record among them leaves hardware time and offset
alone. -/
theorem process_data_frame (cfg : Config) :
    ∀ (steps : List Step) (st : Loop),
      (∀ s ∈ steps, byte s.buf s.i >>> 3 ≠ ST_ASM330LHHX_TS_TAG) →
      (process cfg steps st).hw.hw_ts = st.hw.hw_ts ∧
      (process cfg steps st).hw.ts_offset = st.hw.ts_offset := by
  intro steps
  induction steps with
  | nil => intro st _; exact ⟨rfl, rfl⟩
  | cons s rest ih =>
    intro st h
    have hproc : process cfg (s :: rest) st =
        process cfg rest (read_fifo_record cfg s.notify s.delta s.buf st s.i) := rfl
    obtain ⟨f1, _, f3⟩ := read_fifo_record_data_frame cfg s.notify s.delta s.buf st s.i
      (h s (List.mem_cons_self _ _))
    unfold hw_clock at f1
    simp only [Prod.mk.injEq] at f1
    obtain ⟨k1, k2⟩ := ih (read_fifo_record cfg s.notify s.delta s.buf st s.i)
      (fun x hx => h x (List.mem_cons_of_mem _ hx))
    rw [hproc, k1, k2]
    exact ⟨f1.2.2.1, f3⟩

/-- C30: `st_asm330lhhx_reset_hwts` leaves the stored hardware time as it was and sets the
offset to the host-clock reading; the records that follow up to the first timestamp
record change neither, so a ready sample among them whose decimation counter is 0 is
forwarded, outside the wake-replay path, with timestamp (hardware time from before the
reset) + (host-clock reading taken at the reset), in 64-bit arithmetic. -/
theorem reset_hwts_keeps_hardware_time (cfg : Config) (hw : Hw) (dev : Dev) (now : Int)
    (steps : List Step) (trace : List Action) (ts_irq : Int) (s : Step) (id : Nat)
    (hsteps : ∀ x ∈ steps, byte x.buf x.i >>> 3 ≠ ST_ASM330LHHX_TS_TAG)
    (htag : byte s.buf s.i >>> 3 ≠ ST_ASM330LHHX_TS_TAG)
    (hid : st_asm330lhhx_get_iiodev_from_tag
      (process cfg steps
        { hw := (st_asm330lhhx_reset_hwts hw dev now).hw, trace := trace, ts_irq := ts_irq }).hw
      (byte s.buf s.i >>> 3) = some id)
    (hrdy : s16 (get_unaligned_le16 s.buf (s.i + 1)) < 0x7ffd)
    (hrep : (cfg.may_wakeup &&
      (process cfg steps
        { hw := (st_asm330lhhx_reset_hwts hw dev now).hw, trace := trace,
          ts_irq := ts_irq }).hw.resuming && decide (s.notify ≠ 0)) = false)
    (hdec : (iio_priv (process cfg steps
        { hw := (st_asm330lhhx_reset_hwts hw dev now).hw, trace := trace,
          ts_irq := ts_irq }).hw id).dec_counter = 0) :
    (st_asm330lhhx_reset_hwts hw dev now).hw.hw_ts = hw.hw_ts ∧
    (st_asm330lhhx_reset_hwts hw dev now).hw.ts_offset = now ∧
    (process cfg (steps ++ [s])
      { hw := (st_asm330lhhx_reset_hwts hw dev now).hw, trace := trace,
        ts_irq := ts_irq }).trace =
      (process cfg steps
        { hw := (st_asm330lhhx_reset_hwts hw dev now).hw, trace := trace,
          ts_irq := ts_irq }).trace ++
        [Action.push id (memcpy s.buf (s.i + 1) 6) (s64 (hw.hw_ts + now))] := by
  have hr : (st_asm330lhhx_reset_hwts hw dev now).hw.hw_ts = hw.hw_ts ∧
      (st_asm330lhhx_reset_hwts hw dev now).hw.ts_offset = now := by
    unfold st_asm330lhhx_reset_hwts
    exact ⟨rfl, rfl⟩
  obtain ⟨p1, p2⟩ := process_data_frame cfg steps
    { hw := (st_asm330lhhx_reset_hwts hw dev now).hw, trace := trace, ts_irq := ts_irq } hsteps
  refine ⟨hr.1, hr.2, ?_⟩
  have hproc : process cfg (steps ++ [s])
      { hw := (st_asm330lhhx_reset_hwts hw dev now).hw, trace := trace, ts_irq := ts_irq } =
      read_fifo_record cfg s.notify s.delta s.buf
        (process cfg steps
          { hw := (st_asm330lhhx_reset_hwts hw dev now).hw, trace := trace, ts_irq := ts_irq })
        s.i := by
    unfold process
    rw [List.foldl_append]
    rfl
  rw [hproc, read_fifo_record_sample cfg s.notify s.delta s.buf _ s.i id htag hid hrdy hrep,
    if_neg (by omega)]
  dsimp only
  rw [p1, p2, hr.1, hr.2]
  rfl

theorem reset_hwts_keeps_hardware_time_witness :
    (st_asm330lhhx_reset_hwts example_hw_running {} 7000000).hw.hw_ts = 2500000 ∧
    (process example_cfg
      ([{ notify := 0, delta := 10000, buf := example_dev.fifo, i := 14 }] ++
        [{ notify := 0, delta := 10000, buf := example_dev.fifo, i := 7 }])
      { hw := (st_asm330lhhx_reset_hwts example_hw_running {} 7000000).hw, trace := [],
        ts_irq := 0 }).trace =
      [Action.push ST_ASM330LHHX_ID_ACC [1, 0, 2, 0, 3, 0] 9500000] := by
  have h := reset_hwts_keeps_hardware_time example_cfg example_hw_running {} 7000000
    [{ notify := 0, delta := 10000, buf := example_dev.fifo, i := 14 }] [] 0
    { notify := 0, delta := 10000, buf := example_dev.fifo, i := 7 } ST_ASM330LHHX_ID_ACC
    (by decide) (by decide) (by decide) (by decide) (by decide) (by decide)
  exact ⟨h.1, h.2.2.trans (by decide)⟩

/-! ## Properties of the filter -/

/-- Truncating division by 128 of 8 times a difference, through floor division. -/
theorem tdiv_eq (d : Int) :
    Int.tdiv (8 * d) 128 = if 0 ≤ d then (8 * d) / 128 else -((8 * (-d)) / 128) := by
  by_cases h : 0 ≤ d
  · rw [if_pos h, Int.tdiv_eq_ediv (by omega : (0 : Int) ≤ 8 * d) (by norm_num : (0 : Int) ≤ 128)]
  · rw [if_neg h, show 8 * d = -(8 * -d) by ring, Int.neg_tdiv,
      Int.tdiv_eq_ediv (by omega : (0 : Int) ≤ 8 * -d) (by norm_num : (0 : Int) ≤ 128)]

/-- The filter without wrap: old and new 64-bit values whose difference times 8 fits in
64 bits. -/
theorem ewma_exact_of_fits (old new : Int) (ho1 : -2 ^ 63 ≤ old) (ho2 : old < 2 ^ 63)
    (hn1 : -2 ^ 63 ≤ new) (hn2 : new < 2 ^ 63)
    (hd1 : -2 ^ 63 ≤ 8 * (new - old)) (hd2 : 8 * (new - old) < 2 ^ 63) :
    st_asm330lhhx_ewma old new ST_ASM330LHHX_EWMA_LEVEL = old + Int.tdiv (8 * (new - old)) 128 := by
  rw [ewma_eq]
  have b := tdiv_bounds (new - old)
  rw [s64_of_range (x := new - old) (by omega) (by omega)]
  rw [show ((128 : Int) - 120) * (new - old) = 8 * (new - old) by ring]
  rw [s64_of_range (x := 8 * (new - old)) hd1 hd2]
  rcases le_total 0 (new - old) with h | h
  · obtain ⟨b1, b2⟩ := b.1 h
    rw [s64_of_range (x := Int.tdiv (8 * (new - old)) 128) (by omega) (by omega)]
    exact s64_of_range (by omega) (by omega)
  · obtain ⟨b1, b2⟩ := b.2 h
    rw [s64_of_range (x := Int.tdiv (8 * (new - old)) 128) (by omega) (by omega)]
    exact s64_of_range (by omega) (by omega)

/-- C24: for 64-bit old and new whose difference times 8 does not overflow, the filter
step with weight 120 lies between old and new, both included, and does not decrease when
new grows. -/
theorem ewma_no_overshoot (old new : Int) (ho1 : -2 ^ 63 ≤ old) (ho2 : old < 2 ^ 63)
    (hn1 : -2 ^ 63 ≤ new) (hn2 : new < 2 ^ 63)
    (hd1 : -2 ^ 63 ≤ 8 * (new - old)) (hd2 : 8 * (new - old) < 2 ^ 63) :
    min old new ≤ st_asm330lhhx_ewma old new 120 ∧
    st_asm330lhhx_ewma old new 120 ≤ max old new ∧
    ∀ new2 : Int, -2 ^ 63 ≤ new2 → new2 < 2 ^ 63 → -2 ^ 63 ≤ 8 * (new2 - old) →
      8 * (new2 - old) < 2 ^ 63 → new ≤ new2 →
      st_asm330lhhx_ewma old new 120 ≤ st_asm330lhhx_ewma old new2 120 := by
  have e := ewma_exact_of_fits old new ho1 ho2 hn1 hn2 hd1 hd2
  have e' : st_asm330lhhx_ewma old new 120 = old + Int.tdiv (8 * (new - old)) 128 := e
  have b := tdiv_bounds (new - old)
  refine ⟨?_, ?_, ?_⟩
  · rw [e']
    rcases le_total 0 (new - old) with h | h
    · obtain ⟨b1, b2⟩ := b.1 h
      exact le_trans (min_le_left _ _) (by omega)
    · obtain ⟨b1, b2⟩ := b.2 h
      exact le_trans (min_le_right _ _) (by omega)
  · rw [e']
    rcases le_total 0 (new - old) with h | h
    · obtain ⟨b1, b2⟩ := b.1 h
      exact le_trans (by omega) (le_max_right _ _)
    · obtain ⟨b1, b2⟩ := b.2 h
      exact le_trans (by omega) (le_max_left _ _)
  · intro new2 k1 k2 k3 k4 hle
    have e2 : st_asm330lhhx_ewma old new2 120 = old + Int.tdiv (8 * (new2 - old)) 128 :=
      ewma_exact_of_fits old new2 ho1 ho2 k1 k2 k3 k4
    rw [e', e2, tdiv_eq, tdiv_eq]
    split_ifs <;> omega

theorem ewma_no_overshoot_witness :
    min (500 : Int) (-1522500) ≤ st_asm330lhhx_ewma 500 (-1522500) 120 ∧
    st_asm330lhhx_ewma 500 (-1522500) 120 ≤ max 500 (-1522500) ∧
    st_asm330lhhx_ewma 500 (-1522500) 120 ≤ st_asm330lhhx_ewma 500 1000 120 ∧
    st_asm330lhhx_ewma 500 (-1522500) 120 = -94687 := by
  have h := ewma_no_overshoot 500 (-1522500) (by norm_num) (by norm_num) (by norm_num)
    (by norm_num) (by norm_num) (by norm_num)
  exact ⟨h.1, h.2.1,
    h.2.2 1000 (by norm_num) (by norm_num) (by norm_num) (by norm_num) (by norm_num), by decide⟩

/-- C25 (amended): for 64-bit old and new whose difference times 8 does not overflow, the
filter step with weight 120 returns old exactly when |new - old| < 16; so under a constant
measured delta an offset within 15 ns of it never moves again, however many steps are
taken, while a step taken at distance 16 or more strictly reduces the distance. -/
theorem ewma_dead_zone (old new : Int) (ho1 : -2 ^ 63 ≤ old) (ho2 : old < 2 ^ 63)
    (hn1 : -2 ^ 63 ≤ new) (hn2 : new < 2 ^ 63)
    (hd1 : -2 ^ 63 ≤ 8 * (new - old)) (hd2 : 8 * (new - old) < 2 ^ 63) :
    (st_asm330lhhx_ewma old new 120 = old ↔ |new - old| < 16) ∧
    (|new - old| < 16 →
      ∀ n : Nat, Nat.iterate (fun offset => st_asm330lhhx_ewma offset new 120) n old = old) ∧
    (16 ≤ |new - old| → |new - st_asm330lhhx_ewma old new 120| < |new - old|) := by
  have e : st_asm330lhhx_ewma old new 120 = old + Int.tdiv (8 * (new - old)) 128 :=
    ewma_exact_of_fits old new ho1 ho2 hn1 hn2 hd1 hd2
  have hiff : st_asm330lhhx_ewma old new 120 = old ↔ |new - old| < 16 := by
    rw [e, tdiv_eq, abs_lt]
    split_ifs <;> constructor <;> intro h <;> omega
  refine ⟨hiff, fun h n => ?_, fun h => ?_⟩
  · induction n with
    | zero => rfl
    | succ k ih =>
      rw [Function.iterate_succ_apply', ih]
      exact hiff.2 h
  · rw [e, tdiv_eq]
    rw [le_abs] at h
    rw [abs_lt]
    split_ifs with hs
    · rw [abs_of_nonneg (by omega : (0 : Int) ≤ new - old)]
      constructor <;> omega
    · rw [abs_of_neg (by omega : new - old < 0)]
      constructor <;> omega

theorem ewma_dead_zone_witness :
    (st_asm330lhhx_ewma 1000 1015 120 = 1000 ↔ |(1015 : Int) - 1000| < 16) ∧
    st_asm330lhhx_ewma 1000 1015 120 = 1000 ∧
    Nat.iterate (fun offset => st_asm330lhhx_ewma offset 1015 120) 3 1000 = 1000 ∧
    st_asm330lhhx_ewma 1000 1016 120 = 1001 := by
  have h := ewma_dead_zone 1000 1015 (by norm_num) (by norm_num) (by norm_num) (by norm_num)
    (by norm_num) (by norm_num)
  have hlt : |(1015 : Int) - 1000| < 16 := by norm_num
  exact ⟨h.1, h.1.2 hlt, h.2.1 hlt 3, by decide⟩

/-- C25 (counterexample): old = 0 and new = 2^61 are 2^61 apart, and the filter step
returns old: 8 times the difference is 2^64, which is 0 in 64 bits. -/
theorem ewma_stays_far_from_new :
    st_asm330lhhx_ewma 0 (2 ^ 61) 120 = 0 ∧ (16 : Int) ≤ |2 ^ 61 - 0| ∧
    (-2 ^ 63 : Int) ≤ 2 ^ 61 ∧ (2 ^ 61 : Int) < 2 ^ 63 := by
  refine ⟨by decide, ?_, by norm_num, by norm_num⟩
  norm_num

/-! ## The flush flag from a flush to the slow handler -/

/-- A drain leaves the flush flag as it is, and the offset too when the flag is set. -/
theorem read_fifo_flush (cfg : Config) (hw : Hw) (dev : Dev) (notify now : Int) :
    ∃ r, st_asm330lhhx_read_fifo cfg hw dev notify now = some r ∧ r.hw.flush = hw.flush ∧
      (hw.flush = true → r.hw.ts_offset = hw.ts_offset) := by
  obtain ⟨r, _, k1, _, k2, _, _⟩ := read_fifo_rel cfg
    (fun a _ => a.flush = hw.flush ∧ (hw.flush = true → a.ts_offset = hw.ts_offset))
    (fun n1 _ d1 _ buf st1 _ i h => by
      obtain ⟨f1, f2⟩ := read_fifo_record_flush cfg n1 d1 buf st1 i
      exact ⟨f1.trans h.1, fun hf => (f2 (h.1.trans hf)).trans (h.2 hf)⟩)
    (fun _ _ _ h => h) (fun _ _ _ h => h) hw hw dev notify notify now now rfl
    ⟨rfl, fun _ => rfl⟩
  exact ⟨r, k1, k2.1, k2.2⟩

/-- The flush request in terms of its drain. -/
theorem flush_fifo_eq (cfg : Config) (hw : Hw) (dev : Dev) (id : Nat) (now : Int) (r0 : Result)
    (h : st_asm330lhhx_read_fifo cfg
      { hw with delta_ts := s64 (now - hw.ts), ts := now, flush := true } dev 0 now = some r0) :
    ∃ r, st_asm330lhhx_flush_fifo cfg hw dev id now = some r ∧
      r.hw = set_sensor r0.hw id { iio_priv r0.hw id with dec_counter := 0 } ∧
      r.dev = r0.dev := by
  unfold st_asm330lhhx_flush_fifo
  dsimp only
  rw [h]
  exact ⟨_, rfl, rfl, rfl⟩

/-- The slow handler in terms of its drain. -/
theorem handler_thread_eq (cfg : Config) (hw : Hw) (dev : Dev) (notify now : Int) (r0 : Result)
    (h : st_asm330lhhx_read_fifo cfg hw dev notify now = some r0) :
    ∃ r, st_asm330lhhx_handler_thread cfg hw dev notify now = some r ∧
      r.hw = { r0.hw with flush := false } ∧ r.dev = r0.dev := by
  unfold st_asm330lhhx_handler_thread
  dsimp only
  rw [h]
  exact ⟨_, rfl, rfl, rfl⟩

/-- The suspend call in terms of its drain. -/
theorem suspend_fifo_eq (cfg : Config) (hw : Hw) (dev : Dev) (now : Int) (r0 : Result)
    (h : st_asm330lhhx_read_fifo cfg hw dev 0 now = some r0) :
    ∃ r, st_asm330lhhx_suspend_fifo cfg hw dev now = some r ∧
      r.hw = (st_asm330lhhx_set_fifo_mode r0.hw r0.dev
        FifoMode.ST_ASM330LHHX_FIFO_BYPASS).hw := by
  unfold st_asm330lhhx_suspend_fifo
  dsimp only
  rw [h]
  exact ⟨_, rfl, rfl⟩

/-- A mode change leaves flush flag and offset alone. -/
theorem set_fifo_mode_flush (hw : Hw) (dev : Dev) (fifo_mode : FifoMode) :
    (st_asm330lhhx_set_fifo_mode hw dev fifo_mode).hw.flush = hw.flush := by
  unfold st_asm330lhhx_set_fifo_mode
  dsimp only
  split_ifs <;> rfl

/-- C27: `st_asm330lhhx_flush_fifo` returns with the flush flag set and the offset as it
was. From a state with the flag set, every call of the buffer code other than the slow
handler, on whatever device, returns with the flag still set; and the slow handler, after
the fast one, makes its drain with the flag set, so that whatever the FIFO holds the
offset is still as it was, and returns with the flag clear: the drain of the next slow
handler is the first that can move the offset. -/
theorem flush_flag_until_slow_handler (cfg : Config) (hw : Hw) (dev : Dev) (id : Nat)
    (now : Int) :
    ∃ r, st_asm330lhhx_flush_fifo cfg hw dev id now = some r ∧ r.hw.flush = true ∧
      r.hw.ts_offset = hw.ts_offset ∧
      (∀ (hw2 : Hw) (dev2 : Dev) (c : Call), hw2.flush = true →
        (∀ notify t, c ≠ Call.handler_thread notify t) →
        ∃ r2, exec cfg hw2 dev2 c = some r2 ∧ r2.hw.flush = true) ∧
      ∀ (dev2 : Dev) (notify t1 t2 : Int),
        ∃ r2, st_asm330lhhx_handler_thread cfg (st_asm330lhhx_handler_irq r.hw t1) dev2
            notify t2 = some r2 ∧
          r2.hw.ts_offset = hw.ts_offset ∧ r2.hw.flush = false := by
  obtain ⟨r0, k1, k2, k3⟩ := read_fifo_flush cfg
    { hw with delta_ts := s64 (now - hw.ts), ts := now, flush := true } dev 0 now
  obtain ⟨r, e1, e2, _⟩ := flush_fifo_eq cfg hw dev id now r0 k1
  have hfl : r.hw.flush = true := by
    rw [e2]
    exact ((set_sensor_frame _ _ _).2.1).trans k2
  have hoff : r.hw.ts_offset = hw.ts_offset := by
    rw [e2]
    exact ((set_sensor_frame _ _ _).2.2).trans (k3 rfl)
  refine ⟨r, e1, hfl, hoff, ?_, ?_⟩
  · intro hw2 dev2 c hf hc
    cases c with
    | read_fifo notify t =>
      obtain ⟨r2, m1, m2, _⟩ := read_fifo_flush cfg hw2 dev2 notify t
      exact ⟨r2, m1, m2.trans hf⟩
    | flush_fifo id2 t =>
      obtain ⟨r2, m1, m2, _⟩ := read_fifo_flush cfg
        { hw2 with delta_ts := s64 (t - hw2.ts), ts := t, flush := true } dev2 0 t
      obtain ⟨r3, n1, n2, _⟩ := flush_fifo_eq cfg hw2 dev2 id2 t r2 m1
      refine ⟨r3, n1, ?_⟩
      rw [n2]
      exact ((set_sensor_frame _ _ _).2.1).trans m2
    | suspend_fifo t =>
      obtain ⟨r2, m1, m2, _⟩ := read_fifo_flush cfg hw2 dev2 0 t
      obtain ⟨r3, n1, n2⟩ := suspend_fifo_eq cfg hw2 dev2 t r2 m1
      refine ⟨r3, n1, ?_⟩
      rw [n2, set_fifo_mode_flush]
      exact m2.trans hf
    | handler_irq t =>
      exact ⟨_, rfl, hf⟩
    | handler_thread notify t => exact absurd rfl (hc notify t)
    | set_fifo_mode m =>
      exact ⟨_, rfl, (set_fifo_mode_flush hw2 dev2 m).trans hf⟩
    | reset_hwts t =>
      refine ⟨_, rfl, ?_⟩
      unfold st_asm330lhhx_reset_hwts
      exact hf
  · intro dev2 notify t1 t2
    have hirq : (st_asm330lhhx_handler_irq r.hw t1).flush = true ∧
        (st_asm330lhhx_handler_irq r.hw t1).ts_offset = hw.ts_offset := by
      unfold st_asm330lhhx_handler_irq
      exact ⟨hfl, hoff⟩
    obtain ⟨r2, m1, _, m3⟩ := read_fifo_flush cfg (st_asm330lhhx_handler_irq r.hw t1) dev2
      notify t2
    obtain ⟨r3, n1, n2, _⟩ := handler_thread_eq cfg (st_asm330lhhx_handler_irq r.hw t1) dev2
      notify t2 r2 m1
    refine ⟨r3, n1, ?_, ?_⟩
    · rw [n2]
      exact (m3 hirq.1).trans hirq.2
    · rw [n2]

theorem flush_flag_until_slow_handler_witness :
    (run example_cfg example_hw
      [(Call.flush_fifo ST_ASM330LHHX_ID_ACC 1030000, example_dev),
       (Call.handler_irq 1060000, example_dev),
       (Call.handler_thread 0 1060000, example_dev_two_ticks),
       (Call.handler_irq 1090000, example_dev),
       (Call.handler_thread 0 1090000, example_dev)]).map
      (fun rs => rs.map (fun r => (r.hw.flush, r.hw.ts_offset))) =
      some [(true, 500), (true, 500), (false, 500), (false, 500), (false, -6710886488906)] ∧
    ∃ r, st_asm330lhhx_flush_fifo example_cfg example_hw example_dev ST_ASM330LHHX_ID_ACC
        1030000 = some r ∧ r.hw.flush = true ∧ r.hw.ts_offset = example_hw.ts_offset := by
  obtain ⟨r, h1, h2, h3, _⟩ := flush_flag_until_slow_handler example_cfg example_hw example_dev
    ST_ASM330LHHX_ID_ACC 1030000
  set_option maxRecDepth 100000 in
  exact ⟨rfl, r, h1, h2, h3⟩

/-! ## The wake marker -/

/-- A property of the loop variables kept by every record is kept by the `for` loop. -/
theorem fold_record_inv (cfg : Config) (P : Loop → Prop)
    (hrec : ∀ (notify delta : Int) (buf : List Nat) (st : Loop) (i : Nat),
      P st → P (read_fifo_record cfg notify delta buf st i))
    (notify delta : Int) (buf : List Nat) (l : List Nat) :
    ∀ st : Loop, P st → P (l.foldl (read_fifo_record cfg notify delta buf) st) := by
  induction l with
  | nil => intro st h; exact h
  | cons i rest ih =>
    intro st h
    rw [List.foldl_cons]
    exact ih _ (hrec notify delta buf st i h)

/-- A property of the loop variables kept by every record and by the entry of a data
read in the trace is kept by a pass of the chunk loop. -/
theorem read_fifo_chunk_inv (cfg : Config) (P : Loop → Prop)
    (hrec : ∀ (notify delta : Int) (buf : List Nat) (st : Loop) (i : Nat),
      P st → P (read_fifo_record cfg notify delta buf st i))
    (hread : ∀ (st : Loop) (len : Nat), P st →
      P { st with
          trace := st.trace ++ [Action.read Reg.ST_ASM330LHHX_REG_FIFO_DATA_OUT_TAG_ADDR len] })
    (notify : Int) (fifo_len : Nat) (delta : Int) (st : Drain) (h : P st.loop) :
    P (read_fifo_chunk cfg notify fifo_len delta st).2.loop := by
  unfold read_fifo_chunk
  dsimp only
  split_ifs
  · exact hread _ _ h
  · exact fold_record_inv cfg P hrec notify delta _ _ _ (hread _ _ h)

/-- Such a property holds of the variables the chunk loop ends with. -/
theorem read_fifo_loop_inv (cfg : Config) (P : Loop → Prop)
    (hrec : ∀ (notify delta : Int) (buf : List Nat) (st : Loop) (i : Nat),
      P st → P (read_fifo_record cfg notify delta buf st i))
    (hread : ∀ (st : Loop) (len : Nat), P st →
      P { st with
          trace := st.trace ++ [Action.read Reg.ST_ASM330LHHX_REG_FIFO_DATA_OUT_TAG_ADDR len] })
    (notify : Int) (fifo_len : Nat) (delta : Int) :
    ∀ (fuel : Nat) (st : Drain) (r : Int × Drain), P st.loop →
      read_fifo_loop cfg notify fifo_len delta fuel st = some r → P r.2.loop := by
  intro fuel
  induction fuel with
  | zero =>
    intro st r h hr
    unfold read_fifo_loop at hr
    by_cases hlt : st.read_len < fifo_len
    · simp [hlt] at hr
    · simp only [hlt, if_false, Option.some.injEq] at hr
      rw [← hr]
      exact h
  | succ n ih =>
    intro st r h hr
    rw [read_fifo_loop] at hr
    by_cases hlt : st.read_len < fifo_len
    · simp only [hlt, if_true] at hr
      by_cases hf : (read_fifo_chunk cfg notify fifo_len delta st).1 < 0
      · simp only [hf, if_true, Option.some.injEq] at hr
        rw [← hr]
        exact read_fifo_chunk_inv cfg P hrec hread notify fifo_len delta st h
      · simp only [hf, if_false] at hr
        exact ih _ r (read_fifo_chunk_inv cfg P hrec hread notify fifo_len delta st h) hr
    · simp only [hlt, if_false, Option.some.injEq] at hr
      rw [← hr]
      exact h

/-- No record changes the resuming flag, and what a record adds to the trace is at most
the forwarding of its six sample bytes. -/
theorem read_fifo_record_drain_steps (cfg : Config) (notify delta : Int) (buf : List Nat)
    (st : Loop) (i : Nat) :
    (read_fifo_record cfg notify delta buf st i).hw.resuming = st.hw.resuming ∧
    ∃ ps, (read_fifo_record cfg notify delta buf st i).trace = st.trace ++ ps ∧
      ∀ a ∈ ps, a.is_drain_step = true := by
  have hpush : ∀ (dev : Nat) (ts : Int) (a : Action),
      a ∈ [Action.push dev (memcpy buf (i + ST_ASM330LHHX_TAG_SIZE) ST_ASM330LHHX_SAMPLE_SIZE) ts] →
      a.is_drain_step = true := by
    intro dev ts a ha
    rw [List.mem_singleton] at ha
    rw [ha]
    simp [Action.is_drain_step, memcpy]
  have hnil : ∀ a ∈ ([] : List Action), a.is_drain_step = true :=
    fun _ ha => (List.not_mem_nil _ ha).elim
  have hset : ∀ (hw : Hw) (id : Nat) (sensor : Sensor),
      (set_sensor hw id sensor).resuming = hw.resuming := by
    intro hw id sensor
    unfold set_sensor
    rfl
  by_cases htag : byte buf i >>> 3 = ST_ASM330LHHX_TS_TAG
  · obtain ⟨_, _, t3, _, _, t6⟩ := read_fifo_record_timestamp_frame cfg notify delta buf st i htag
    exact ⟨t3, [], by rw [t6, List.append_nil], hnil⟩
  · by_cases hskip : st_asm330lhhx_get_iiodev_from_tag st.hw (byte buf i >>> 3) = none ∨
        s16 (get_unaligned_le16 buf (i + ST_ASM330LHHX_TAG_SIZE)) ≥ ST_ASM330LHHX_SAMPLE_DISCHARD
    · rw [read_fifo_record_skip cfg notify delta buf st i htag hskip]
      exact ⟨rfl, [], (List.append_nil _).symm, hnil⟩
    · rw [not_or] at hskip
      obtain ⟨hsome, hrdy⟩ := hskip
      obtain ⟨j, hj⟩ := Option.ne_none_iff_exists'.mp hsome
      have hrdy2 : s16 (get_unaligned_le16 buf (i + ST_ASM330LHHX_TAG_SIZE)) <
          ST_ASM330LHHX_SAMPLE_DISCHARD := by omega
      cases hrep : (cfg.may_wakeup && st.hw.resuming && decide (notify ≠ 0))
      · rw [read_fifo_record_sample cfg notify delta buf st i j htag hj hrdy2 hrep]
        split_ifs
        · exact ⟨hset _ _ _, [], (List.append_nil _).symm, hnil⟩
        · exact ⟨hset _ _ _, _, rfl, hpush _ _⟩
      · rw [read_fifo_record_replay cfg notify delta buf st i j htag hj hrdy2 hrep]
        exact ⟨rfl, _, rfl, hpush _ _⟩

/-- No record takes a device out of its slot. -/
theorem read_fifo_record_slot (cfg : Config) (notify delta : Int) (buf : List Nat)
    (st : Loop) (i : Nat) (k : Nat) (h : (st.hw.iio_devs.getD k none).isSome = true) :
    ((read_fifo_record cfg notify delta buf st i).hw.iio_devs.getD k none).isSome = true := by
  have hset : ∀ (id : Nat) (sensor : Sensor),
      ((set_sensor st.hw id sensor).iio_devs.getD k none).isSome = true := by
    intro id sensor
    have e : (set_sensor st.hw id sensor).iio_devs = st.hw.iio_devs.set id (some sensor) := by
      unfold set_sensor
      rfl
    rw [e]
    by_cases hk : k = id
    · subst hk
      rw [getD_set_self st.hw.iio_devs k (some sensor) none (lt_length_of_getD_some h)]
      rfl
    · rw [getD_set_ne st.hw.iio_devs k id (some sensor) none hk]
      exact h
  by_cases htag : byte buf i >>> 3 = ST_ASM330LHHX_TS_TAG
  · rw [(read_fifo_record_timestamp_frame cfg notify delta buf st i htag).1]
    exact h
  · by_cases hskip : st_asm330lhhx_get_iiodev_from_tag st.hw (byte buf i >>> 3) = none ∨
        s16 (get_unaligned_le16 buf (i + ST_ASM330LHHX_TAG_SIZE)) ≥ ST_ASM330LHHX_SAMPLE_DISCHARD
    · rw [read_fifo_record_skip cfg notify delta buf st i htag hskip]
      exact h
    · rw [not_or] at hskip
      obtain ⟨hsome, hrdy⟩ := hskip
      obtain ⟨j, hj⟩ := Option.ne_none_iff_exists'.mp hsome
      have hrdy2 : s16 (get_unaligned_le16 buf (i + ST_ASM330LHHX_TAG_SIZE)) <
          ST_ASM330LHHX_SAMPLE_DISCHARD := by omega
      cases hrep : (cfg.may_wakeup && st.hw.resuming && decide (notify ≠ 0))
      · rw [read_fifo_record_sample cfg notify delta buf st i j htag hj hrdy2 hrep]
        split_ifs
        · exact hset _ _
        · exact hset _ _
      · rw [read_fifo_record_replay cfg notify delta buf st i j htag hj hrdy2 hrep]
        exact h

/-- C23: a drain of a non-empty FIFO whose reads all succeed, made with a device
registered in the wake-replay slot if the device is resuming and notification is
requested, runs the chunk loop to its end, where all the bytes have been read; the trace
of the loop holds nothing but register reads and forwarded six-byte samples, hence
neither the wake marker nor a wake event. If the device is resuming and notification is
requested, the drain then pushes the wake marker (sixteen zero bytes with timestamp
0xFFFFFFFF) once to the wake-replay device, which is still registered, and raises one wake
event with the timeout of 10000 ms, in this order and after everything else; otherwise the
drain does nothing after the loop. -/
theorem wake_marker_after_drain (cfg : Config) (hw : Hw) (dev : Dev) (notify now : Int)
    (hop : hw.operational = true) (hok : reads_succeed dev)
    (hd : status_fifo_depth cfg dev ≠ 0)
    (hslot : hw.resuming = true ∧ notify ≠ 0 →
      (hw.iio_devs.getD cfg.id_fifo_mlc none).isSome = true) :
    ∃ r st,
      st_asm330lhhx_read_fifo cfg hw dev notify now = some r ∧
      read_fifo_loop cfg notify (status_fifo_depth cfg dev * ST_ASM330LHHX_FIFO_SAMPLE_SIZE)
        (div_s64 hw.delta_ts (status_fifo_depth cfg dev))
        (status_fifo_depth cfg dev * ST_ASM330LHHX_FIFO_SAMPLE_SIZE)
        (read_fifo_begin hw { dev with rc := dev.rc.tail } notify now
          (status_fifo_depth cfg dev)) = some (0, st) ∧
      st.read_len = status_fifo_depth cfg dev * ST_ASM330LHHX_FIFO_SAMPLE_SIZE ∧
      data_bytes_requested st.loop.trace =
        status_fifo_depth cfg dev * ST_ASM330LHHX_FIFO_SAMPLE_SIZE ∧
      (∀ a ∈ st.loop.trace, a.is_drain_step = true) ∧
      wake_marker cfg ∉ st.loop.trace ∧
      (∀ msec, Action.wakeup msec ∉ st.loop.trace) ∧
      (hw.resuming = true ∧ notify ≠ 0 →
        (st.loop.hw.iio_devs.getD cfg.id_fifo_mlc none).isSome = true ∧
        r.trace = st.loop.trace ++
          [Action.push cfg.id_fifo_mlc (List.replicate 16 0) 0xFFFFFFFF, Action.wakeup 10000] ∧
        r.trace.count (wake_marker cfg) = 1 ∧
        r.trace.count (Action.wakeup 10000) = 1) ∧
      (¬ (hw.resuming = true ∧ notify ≠ 0) →
        r.trace = st.loop.trace ∧ wake_marker cfg ∉ r.trace ∧
        ∀ msec, Action.wakeup msec ∉ r.trace) := by
  have hhead := reads_succeed_head hok
  obtain ⟨st, k1, k2, k3⟩ := read_fifo_loop_begin_ok cfg notify
    (status_fifo_depth cfg dev * ST_ASM330LHHX_FIFO_SAMPLE_SIZE)
    (div_s64 hw.delta_ts (status_fifo_depth cfg dev)) hw { dev with rc := dev.rc.tail } now
    (status_fifo_depth cfg dev) (reads_succeed_tail hok _ rfl)
  have hbegin : (read_fifo_begin hw { dev with rc := dev.rc.tail } notify now
        (status_fifo_depth cfg dev)).loop.hw.resuming = hw.resuming ∧
      (read_fifo_begin hw { dev with rc := dev.rc.tail } notify now
        (status_fifo_depth cfg dev)).loop.hw.iio_devs = hw.iio_devs ∧
      ∀ a ∈ (read_fifo_begin hw { dev with rc := dev.rc.tail } notify now
        (status_fifo_depth cfg dev)).loop.trace, a.is_drain_step = true := by
    unfold read_fifo_begin
    dsimp only
    refine ⟨?_, ?_, ?_⟩
    · split_ifs
      · rfl
      · rfl
    · split_ifs
      · rfl
      · rfl
    · intro a ha
      rw [List.mem_singleton] at ha
      rw [ha]
      rfl
  obtain ⟨hres, hreg, hsteps⟩ := read_fifo_loop_inv cfg
    (fun l => l.hw.resuming = hw.resuming ∧
      ((hw.iio_devs.getD cfg.id_fifo_mlc none).isSome = true →
        (l.hw.iio_devs.getD cfg.id_fifo_mlc none).isSome = true) ∧
      ∀ a ∈ l.trace, a.is_drain_step = true)
    (fun n d buf l i hl => by
      obtain ⟨r1, ps, r2, r3⟩ := read_fifo_record_drain_steps cfg n d buf l i
      refine ⟨r1.trans hl.1,
        fun h0 => read_fifo_record_slot cfg n d buf l i cfg.id_fifo_mlc (hl.2.1 h0), ?_⟩
      intro a ha
      rw [r2] at ha
      rcases List.mem_append.mp ha with h | h
      · exact hl.2.2 a h
      · exact r3 a h)
    (fun l len hl => by
      refine ⟨hl.1, hl.2.1, ?_⟩
      intro a ha
      rcases List.mem_append.mp ha with h | h
      · exact hl.2.2 a h
      · rw [List.mem_singleton] at h
        rw [h]
        rfl)
    notify _ _ _ _ (0, st) ⟨hbegin.1, fun h0 => by rw [hbegin.2.1]; exact h0, hbegin.2.2⟩ k1
  dsimp only at hres hreg hsteps
  have hmark : wake_marker cfg ∉ st.loop.trace := by
    intro hm
    have := hsteps _ hm
    simp [wake_marker, Action.is_drain_step, ST_ASM330LHHX_SAMPLE_SIZE] at this
  have hwake : ∀ msec, Action.wakeup msec ∉ st.loop.trace := by
    intro msec hm
    have := hsteps _ hm
    simp [Action.is_drain_step] at this
  have hend1 : st.loop.hw.resuming = true ∧ notify ≠ 0 →
      (read_fifo_end cfg notify (0, st)).trace =
        st.loop.trace ++ [wake_marker cfg, Action.wakeup ST_ASM330LHHX_WAKEUP_MS] := by
    intro h
    unfold read_fifo_end
    rw [if_neg (lt_irrefl (0 : Int)), if_pos (by simp [h.1, h.2])]
  have hend2 : ¬ (st.loop.hw.resuming = true ∧ notify ≠ 0) →
      (read_fifo_end cfg notify (0, st)).trace = st.loop.trace := by
    intro h
    unfold read_fifo_end
    rw [if_neg (lt_irrefl (0 : Int)), if_neg (by simpa using h)]
  rw [hres] at hend1 hend2
  refine ⟨read_fifo_end cfg notify (0, st), st, ?_, k1, k2, k3, hsteps, hmark, hwake, ?_, ?_⟩
  · rw [read_fifo_eq_loop cfg hw dev notify now hop hhead hd, k1, Option.map_some']
  · intro h
    rw [hend1 h]
    refine ⟨hreg (hslot h), rfl, ?_, ?_⟩
    · rw [List.count_append, List.count_eq_zero.mpr hmark]
      simp [wake_marker]
    · rw [List.count_append, List.count_eq_zero.mpr (hwake 10000)]
      simp [wake_marker, ST_ASM330LHHX_WAKEUP_MS]
  · intro h
    rw [hend2 h]
    exact ⟨rfl, hmark, hwake⟩

theorem wake_marker_after_drain_witness :
    (example_hw_resuming.resuming = true ∧ (1 : Int) ≠ 0) ∧
    (example_hw_resuming.iio_devs.getD example_cfg.id_fifo_mlc none).isSome = true ∧
    ∃ (r : Result) (st : Drain),
      st_asm330lhhx_read_fifo example_cfg example_hw_resuming example_dev 1 5000000 = some r ∧
      st.read_len = status_fifo_depth example_cfg example_dev * ST_ASM330LHHX_FIFO_SAMPLE_SIZE ∧
      (st.loop.hw.iio_devs.getD example_cfg.id_fifo_mlc none).isSome = true ∧
      r.trace = st.loop.trace ++
        [Action.push example_cfg.id_fifo_mlc (List.replicate 16 0) 0xFFFFFFFF,
         Action.wakeup 10000] ∧
      r.trace.count (wake_marker example_cfg) = 1 := by
  obtain ⟨r, st, h1, _, h3, _, _, _, _, h8, _⟩ := wake_marker_after_drain example_cfg
    example_hw_resuming example_dev 1 5000000 rfl (by intro c hc; simp [example_dev] at hc)
    (by decide) (fun _ => rfl)
  exact ⟨⟨rfl, by decide⟩, rfl, r, st, h1, h3, (h8 ⟨rfl, by decide⟩).1,
    (h8 ⟨rfl, by decide⟩).2.1, (h8 ⟨rfl, by decide⟩).2.2.1⟩

/-! ## The drain record by record -/

/-- The body of the record loop reads nothing but the seven bytes of its record. -/
theorem read_fifo_record_shift (cfg : Config) (notify delta : Int) (buf buf2 : List Nat)
    (st : Loop) (i i2 : Nat)
    (h : ∀ k, k < ST_ASM330LHHX_FIFO_SAMPLE_SIZE → byte buf2 (i2 + k) = byte buf (i + k)) :
    read_fifo_record cfg notify delta buf2 st i2 = read_fifo_record cfg notify delta buf st i := by
  have e0 : byte buf2 i2 = byte buf i := h 0 (by decide)
  have e1 : byte buf2 (i2 + 1) = byte buf (i + 1) := h 1 (by decide)
  have e2 : byte buf2 (i2 + 1 + 1) = byte buf (i + 1 + 1) := h 2 (by decide)
  have e3 : byte buf2 (i2 + 1 + 2) = byte buf (i + 1 + 2) := h 3 (by decide)
  have e4 : byte buf2 (i2 + 1 + 3) = byte buf (i + 1 + 3) := h 4 (by decide)
  have h16 : get_unaligned_le16 buf2 (i2 + ST_ASM330LHHX_TAG_SIZE) =
      get_unaligned_le16 buf (i + ST_ASM330LHHX_TAG_SIZE) := by
    unfold get_unaligned_le16 ST_ASM330LHHX_TAG_SIZE
    rw [e1, e2]
  have h32 : get_unaligned_le32 buf2 (i2 + ST_ASM330LHHX_TAG_SIZE) =
      get_unaligned_le32 buf (i + ST_ASM330LHHX_TAG_SIZE) := by
    unfold get_unaligned_le32 ST_ASM330LHHX_TAG_SIZE
    rw [e1, e2, e3, e4]
  have hm : memcpy buf2 (i2 + ST_ASM330LHHX_TAG_SIZE) ST_ASM330LHHX_SAMPLE_SIZE =
      memcpy buf (i + ST_ASM330LHHX_TAG_SIZE) ST_ASM330LHHX_SAMPLE_SIZE := by
    unfold memcpy ST_ASM330LHHX_TAG_SIZE
    apply List.map_congr_left
    intro k hk
    have hk6 : k < 6 := by
      have := List.mem_range.mp hk
      simpa [ST_ASM330LHHX_SAMPLE_SIZE] using this
    rw [Nat.add_assoc, Nat.add_assoc, h (1 + k) (by
      show 1 + k < 7
      omega)]
  unfold read_fifo_record
  simp only [e0, h16, h32, hm]

/-- What a record does to the driver state and to `ts_irq`, and what it forwards, does not
depend on the trace so far. -/
theorem read_fifo_record_sim (cfg : Config) (notify delta : Int) (buf : List Nat)
    (a b : Loop) (i : Nat) (hhw : a.hw = b.hw) (hts : a.ts_irq = b.ts_irq) :
    (read_fifo_record cfg notify delta buf a i).hw =
      (read_fifo_record cfg notify delta buf b i).hw ∧
    (read_fifo_record cfg notify delta buf a i).ts_irq =
      (read_fifo_record cfg notify delta buf b i).ts_irq ∧
    ∃ ps, (∀ x ∈ ps, x.is_push = true) ∧
      (read_fifo_record cfg notify delta buf a i).trace = a.trace ++ ps ∧
      (read_fifo_record cfg notify delta buf b i).trace = b.trace ++ ps := by
  have hnil : ∀ x ∈ ([] : List Action), x.is_push = true :=
    fun _ hx => (List.not_mem_nil _ hx).elim
  by_cases htag : byte buf i >>> 3 = ST_ASM330LHHX_TS_TAG
  · obtain ⟨a1, a2, a3⟩ := read_fifo_record_timestamp_hw cfg notify delta buf a i htag
    obtain ⟨b1, b2, b3⟩ := read_fifo_record_timestamp_hw cfg notify delta buf b i htag
    refine ⟨?_, ?_, [], hnil, ?_, ?_⟩
    · rw [a1, b1, hhw, hts]
    · rw [a3, b3, hts]
    · rw [a2, List.append_nil]
    · rw [b2, List.append_nil]
  · by_cases hskip : st_asm330lhhx_get_iiodev_from_tag a.hw (byte buf i >>> 3) = none ∨
        s16 (get_unaligned_le16 buf (i + ST_ASM330LHHX_TAG_SIZE)) ≥ ST_ASM330LHHX_SAMPLE_DISCHARD
    · rw [read_fifo_record_skip cfg notify delta buf a i htag hskip,
        read_fifo_record_skip cfg notify delta buf b i htag (hhw ▸ hskip)]
      exact ⟨hhw, congrArg (fun t => s64 (t + delta)) hts, [], hnil,
        (List.append_nil _).symm, (List.append_nil _).symm⟩
    · rw [not_or] at hskip
      obtain ⟨hsome, hrdy⟩ := hskip
      obtain ⟨j, hj⟩ := Option.ne_none_iff_exists'.mp hsome
      have hrdy2 : s16 (get_unaligned_le16 buf (i + ST_ASM330LHHX_TAG_SIZE)) <
          ST_ASM330LHHX_SAMPLE_DISCHARD := by omega
      cases hrep : (cfg.may_wakeup && a.hw.resuming && decide (notify ≠ 0))
      · rw [read_fifo_record_sample cfg notify delta buf a i j htag hj hrdy2 hrep,
          read_fifo_record_sample cfg notify delta buf b i j htag (hhw ▸ hj) hrdy2 (hhw ▸ hrep)]
        rw [← hhw, ← hts]
        split_ifs
        · exact ⟨rfl, rfl, [], hnil, (List.append_nil _).symm, (List.append_nil _).symm⟩
        · exact ⟨rfl, rfl, _, fun _ hx => mem_singleton_push hx, rfl, rfl⟩
      · rw [read_fifo_record_replay cfg notify delta buf a i j htag hj hrdy2 hrep,
          read_fifo_record_replay cfg notify delta buf b i j htag (hhw ▸ hj) hrdy2 (hhw ▸ hrep)]
        rw [← hhw, ← hts]
        exact ⟨rfl, rfl, _, fun _ hx => mem_singleton_push hx, rfl, rfl⟩

theorem pushes_append (a b : List Action) : pushes (a ++ b) = pushes a ++ pushes b := by
  unfold pushes
  exact List.filter_append _ _

theorem pushes_of_pushes (ps : List Action) (h : ∀ x ∈ ps, x.is_push = true) :
    pushes ps = ps := by
  unfold pushes
  exact List.filter_eq_self.mpr h

theorem data_read_lengths_append (a b : List Action) :
    data_read_lengths (a ++ b) = data_read_lengths a ++ data_read_lengths b := by
  induction a with
  | nil => simp [data_read_lengths]
  | cons x xs ih =>
    cases x with
    | read reg len =>
      cases reg <;> simp [data_read_lengths, ih]
    | _ => simpa [data_read_lengths] using ih

theorem data_read_lengths_pushes (ps : List Action) (h : ∀ a ∈ ps, a.is_push = true) :
    data_read_lengths ps = [] := by
  induction ps with
  | nil => rfl
  | cons x xs ih =>
    have hx := h x (List.mem_cons_self _ _)
    have hxs : ∀ a ∈ xs, a.is_push = true := fun a ha => h a (List.mem_cons_of_mem _ ha)
    cases x <;> simp [Action.is_push] at hx
    simpa [data_read_lengths] using ih hxs

theorem same_effect_refl (a : Loop) : same_effect a a := ⟨rfl, rfl, rfl⟩

theorem same_effect_trans {a b c : Loop} (h1 : same_effect a b) (h2 : same_effect b c) :
    same_effect a c :=
  ⟨h1.1.trans h2.1, h1.2.1.trans h2.2.1, h1.2.2.trans h2.2.2⟩

/-- A record keeps two states of the loop alike. -/
theorem read_fifo_record_same_effect (cfg : Config) (notify delta : Int) (buf : List Nat)
    (a b : Loop) (i : Nat) (h : same_effect a b) :
    same_effect (read_fifo_record cfg notify delta buf a i)
      (read_fifo_record cfg notify delta buf b i) := by
  obtain ⟨h1, h2, ps, _, h4, h5⟩ := read_fifo_record_sim cfg notify delta buf a b i h.1 h.2.1
  refine ⟨h1, h2, ?_⟩
  rw [h4, h5, pushes_append, pushes_append, h.2.2]

theorem process_same_effect (cfg : Config) (steps : List Step) :
    ∀ a b : Loop, same_effect a b → same_effect (process cfg steps a) (process cfg steps b) := by
  induction steps with
  | nil => intro a b h; exact h
  | cons s rest ih =>
    intro a b h
    unfold process at ih ⊢
    rw [List.foldl_cons, List.foldl_cons]
    exact ih _ _ (read_fifo_record_same_effect cfg s.notify s.delta s.buf a b s.i h)

theorem process_append (cfg : Config) (s1 s2 : List Step) (st : Loop) :
    process cfg (s1 ++ s2) st = process cfg s2 (process cfg s1 st) := by
  unfold process
  rw [List.foldl_append]

/-- Passes that read the same seven bytes are the same passes. -/
theorem process_map_congr (cfg : Config) (l : List Nat) (f g : Nat → Step)
    (hn : ∀ q ∈ l, (f q).notify = (g q).notify) (hd : ∀ q ∈ l, (f q).delta = (g q).delta)
    (hb : ∀ q ∈ l, ∀ k, k < ST_ASM330LHHX_FIFO_SAMPLE_SIZE →
      byte (f q).buf ((f q).i + k) = byte (g q).buf ((g q).i + k)) :
    ∀ st : Loop, process cfg (l.map f) st = process cfg (l.map g) st := by
  induction l with
  | nil => intro st; rfl
  | cons q rest ih =>
    intro st
    have hq : q ∈ q :: rest := List.mem_cons_self _ _
    have e : read_fifo_record cfg (f q).notify (f q).delta (f q).buf st (f q).i =
        read_fifo_record cfg (g q).notify (g q).delta (g q).buf st (g q).i := by
      rw [hn q hq, hd q hq]
      exact read_fifo_record_shift cfg _ _ _ _ st _ _ (hb q hq)
    have ih2 := ih (fun x hx => hn x (List.mem_cons_of_mem _ hx))
      (fun x hx => hd x (List.mem_cons_of_mem _ hx))
      (fun x hx => hb x (List.mem_cons_of_mem _ hx))
    unfold process at ih2 ⊢
    rw [List.map_cons, List.map_cons, List.foldl_cons, List.foldl_cons, e]
    exact ih2 _

theorem byte_drop (l : List Nat) (r x : Nat) : byte (l.drop r) x = byte l (r + x) := by
  unfold byte
  rw [List.getD_eq_getElem?_getD, List.getD_eq_getElem?_getD, List.getElem?_drop]

theorem for_offsets_records (c : Nat) :
    for_offsets (c * ST_ASM330LHHX_FIFO_SAMPLE_SIZE) ST_ASM330LHHX_FIFO_SAMPLE_SIZE =
      (List.range c).map (fun q => q * ST_ASM330LHHX_FIFO_SAMPLE_SIZE) := by
  unfold for_offsets
  have : (c * ST_ASM330LHHX_FIFO_SAMPLE_SIZE + ST_ASM330LHHX_FIFO_SAMPLE_SIZE - 1) /
      ST_ASM330LHHX_FIFO_SAMPLE_SIZE = c := by
    show (c * 7 + 7 - 1) / 7 = c
    omega
  rw [this]

theorem process_data_read_lengths (cfg : Config) (steps : List Step) :
    ∀ st : Loop, data_read_lengths (process cfg steps st).trace = data_read_lengths st.trace := by
  induction steps with
  | nil => intro st; rfl
  | cons s rest ih =>
    intro st
    obtain ⟨_, ps, h4, h5⟩ := read_fifo_record_frame cfg s.notify s.delta s.buf st s.i
    unfold process at ih ⊢
    rw [List.foldl_cons, ih, h4, data_read_lengths_append, data_read_lengths_pushes ps h5,
      List.append_nil]

/-- A pass of the chunk loop whose read of `c` records succeeds handles these records
one by one in the order of the FIFO. -/
theorem read_fifo_chunk_records (cfg : Config) (notify : Int) (fifo_len : Nat) (delta : Int)
    (st : Drain) (c : Nat) (h : ¬ st.dev.rc.headD 0 < 0)
    (hlen : min (fifo_len - st.read_len) (60 * ST_ASM330LHHX_FIFO_SAMPLE_SIZE) =
      c * ST_ASM330LHHX_FIFO_SAMPLE_SIZE) :
    ¬ (read_fifo_chunk cfg notify fifo_len delta st).1 < 0 ∧
    (read_fifo_chunk cfg notify fifo_len delta st).2.loop =
      process cfg (fifo_steps notify delta st.dev.fifo c)
        { st.loop with
          trace := st.loop.trace ++ [Action.read Reg.ST_ASM330LHHX_REG_FIFO_DATA_OUT_TAG_ADDR
            (c * ST_ASM330LHHX_FIFO_SAMPLE_SIZE)] } ∧
    (read_fifo_chunk cfg notify fifo_len delta st).2.dev.fifo =
      st.dev.fifo.drop (c * ST_ASM330LHHX_FIFO_SAMPLE_SIZE) ∧
    (read_fifo_chunk cfg notify fifo_len delta st).2.dev.rc = st.dev.rc.tail ∧
    (read_fifo_chunk cfg notify fifo_len delta st).2.read_len =
      st.read_len + c * ST_ASM330LHHX_FIFO_SAMPLE_SIZE := by
  rw [read_fifo_chunk_ok_eq cfg notify fifo_len delta st h, hlen, for_offsets_records]
  refine ⟨h, ?_, rfl, rfl, rfl⟩
  dsimp only
  have e : ∀ (buf : List Nat) (L : Loop),
      ((List.range c).map (fun q => q * ST_ASM330LHHX_FIFO_SAMPLE_SIZE)).foldl
        (read_fifo_record cfg notify delta buf) L =
      process cfg ((List.range c).map (fun q =>
        ({ notify := notify, delta := delta, buf := buf,
           i := q * ST_ASM330LHHX_FIFO_SAMPLE_SIZE } : Step))) L := by
    intro buf L
    unfold process
    rw [List.foldl_map, List.foldl_map]
  rw [e]
  unfold fifo_steps
  apply process_map_congr
  · intro q _; rfl
  · intro q _; rfl
  · intro q hq k hk
    have hq2 := List.mem_range.mp hq
    have hk7 : k < 7 := hk
    exact byte_chunk st.dev.fifo _ _ (by
      show q * 7 + k < c * 7
      omega)

theorem chunk_lengths_step (e : Nat) (he : 0 < e) :
    chunk_lengths e = (min e 60 * ST_ASM330LHHX_FIFO_SAMPLE_SIZE) :: chunk_lengths (e - min e 60) := by
  unfold chunk_lengths
  by_cases h : 60 ≤ e
  · have h1 : e / 60 = (e - 60) / 60 + 1 := by omega
    have h2 : e % 60 = (e - 60) % 60 := by omega
    rw [Nat.min_eq_right h, h1, h2, List.replicate_succ]
    rfl
  · have h1 : e / 60 = 0 := by omega
    have h2 : e % 60 = e := by omega
    have h3 : min e 60 = e := by omega
    rw [h3, h1, h2, Nat.sub_self]
    simp
    omega

/-- The chunk loop with `e` records left and reads that succeed: it ends having read
every byte, its chunks are full buffers followed by the remainder, and its effect is the
one of the `e` records handled one by one in the order of the FIFO. -/
theorem read_fifo_loop_records (cfg : Config) (notify : Int) (fifo_len : Nat) (delta : Int) :
    ∀ (fuel e : Nat) (st : Drain), reads_succeed st.dev →
      st.read_len + e * ST_ASM330LHHX_FIFO_SAMPLE_SIZE = fifo_len →
      e * ST_ASM330LHHX_FIFO_SAMPLE_SIZE ≤ fuel →
      ∃ st2, read_fifo_loop cfg notify fifo_len delta fuel st = some (0, st2) ∧
        st2.read_len = fifo_len ∧
        same_effect st2.loop (process cfg (fifo_steps notify delta st.dev.fifo e) st.loop) ∧
        data_read_lengths st2.loop.trace = data_read_lengths st.loop.trace ++ chunk_lengths e := by
  intro fuel
  induction fuel with
  | zero =>
    intro e st _ h2 h3
    have he : e = 0 := by
      have : e * 7 ≤ 0 := h3
      omega
    subst he
    have hlt : ¬ st.read_len < fifo_len := by omega
    refine ⟨st, ?_, by omega, same_effect_refl _, ?_⟩
    · unfold read_fifo_loop
      simp [hlt]
    · simp [chunk_lengths]
  | succ n ih =>
    intro e st h1 h2 h3
    have h2b : st.read_len + e * 7 = fifo_len := h2
    have h3b : e * 7 ≤ n + 1 := h3
    by_cases he : e = 0
    · subst he
      have hlt : ¬ st.read_len < fifo_len := by omega
      refine ⟨st, ?_, by omega, same_effect_refl _, ?_⟩
      · unfold read_fifo_loop
        simp [hlt]
      · simp [chunk_lengths]
    · have hlt : st.read_len < fifo_len := by omega
      have hlen : min (fifo_len - st.read_len) (60 * ST_ASM330LHHX_FIFO_SAMPLE_SIZE) =
          min e 60 * ST_ASM330LHHX_FIFO_SAMPLE_SIZE := by
        show min (fifo_len - st.read_len) (60 * 7) = min e 60 * 7
        omega
      obtain ⟨c1, c2, c3, c4, c5⟩ := read_fifo_chunk_records cfg notify fifo_len delta st
        (min e 60) (reads_succeed_head h1) hlen
      have c5b : (read_fifo_chunk cfg notify fifo_len delta st).2.read_len =
          st.read_len + min e 60 * 7 := c5
      obtain ⟨st2, k1, k2, k3, k4⟩ := ih (e - min e 60)
        (read_fifo_chunk cfg notify fifo_len delta st).2 (reads_succeed_tail h1 _ c4)
        (by
          show _ + (e - min e 60) * 7 = fifo_len
          rw [c5b]
          omega)
        (by
          show (e - min e 60) * 7 ≤ n
          omega)
      refine ⟨st2, ?_, k2, ?_, ?_⟩
      · rw [read_fifo_loop]
        simp only [hlt, if_true, c1, if_false]
        exact k1
      · rw [c2, c3] at k3
        have hsplit : fifo_steps notify delta st.dev.fifo e =
            fifo_steps notify delta st.dev.fifo (min e 60) ++
              (List.range (e - min e 60)).map (fun q =>
                ({ notify := notify, delta := delta, buf := st.dev.fifo,
                   i := (min e 60 + q) * ST_ASM330LHHX_FIFO_SAMPLE_SIZE } : Step)) := by
          unfold fifo_steps
          have : e = min e 60 + (e - min e 60) := by omega
          conv_lhs => rw [this]
          rw [List.range_add, List.map_append, List.map_map]
          rfl
        have hshift : ∀ X : Loop,
            process cfg (fifo_steps notify delta
              (st.dev.fifo.drop (min e 60 * ST_ASM330LHHX_FIFO_SAMPLE_SIZE)) (e - min e 60)) X =
            process cfg ((List.range (e - min e 60)).map (fun q =>
                ({ notify := notify, delta := delta, buf := st.dev.fifo,
                   i := (min e 60 + q) * ST_ASM330LHHX_FIFO_SAMPLE_SIZE } : Step))) X := by
          unfold fifo_steps
          apply process_map_congr
          · intro q _; rfl
          · intro q _; rfl
          · intro q _ k _
            show byte (st.dev.fifo.drop (min e 60 * 7)) (q * 7 + k) =
              byte st.dev.fifo ((min e 60 + q) * 7 + k)
            rw [byte_drop]
            congr 1
            ring
        rw [hshift] at k3
        rw [hsplit, process_append]
        refine same_effect_trans k3 (process_same_effect cfg _ _ _
          (process_same_effect cfg _ _ _ ⟨rfl, rfl, ?_⟩))
        rw [pushes_append]
        simp [pushes, Action.is_push]
      · rw [k4, c2, process_data_read_lengths, chunk_lengths_step e (by omega)]
        dsimp only
        rw [data_read_lengths_append]
        simp [data_read_lengths]

theorem chunk_lengths_facts (d : Nat) :
    (chunk_lengths d).length = (d + 59) / 60 ∧ (chunk_lengths d).sum =
      d * ST_ASM330LHHX_FIFO_SAMPLE_SIZE ∧
    ∀ len ∈ chunk_lengths d, ∃ c, 0 < c ∧ c ≤ 60 ∧ len = c * ST_ASM330LHHX_FIFO_SAMPLE_SIZE := by
  unfold chunk_lengths
  refine ⟨?_, ?_, ?_⟩
  · rw [List.length_append, List.length_replicate]
    split_ifs with h
    · simp
      omega
    · simp
      omega
  · rw [List.sum_append, List.sum_replicate]
    show d / 60 * (60 * 7) + _ = d * 7
    split_ifs with h
    · simp
      omega
    · simp
      show d / 60 * (60 * 7) + d % 60 * 7 = d * 7
      omega
  · intro len hlen
    rcases List.mem_append.mp hlen with h | h
    · exact ⟨60, by decide, le_refl _, (List.mem_replicate.mp h).2⟩
    · split_ifs at h with h0
      · simp at h
      · rw [List.mem_singleton] at h
        exact ⟨d % 60, by omega, by omega, h⟩

/-- A drain of a non-empty FIFO whose reads succeed: the chunk loop ends, its chunks are
full buffers followed by the remainder, and its effect is the one of the records of the
FIFO handled one by one, oldest first. -/
theorem read_fifo_records (cfg : Config) (hw : Hw) (dev : Dev) (notify now : Int)
    (hop : hw.operational = true) (hok : reads_succeed dev)
    (hd : status_fifo_depth cfg dev ≠ 0) :
    ∃ st, st_asm330lhhx_read_fifo cfg hw dev notify now =
        some (read_fifo_end cfg notify (0, st)) ∧
      read_fifo_loop cfg notify (status_fifo_depth cfg dev * ST_ASM330LHHX_FIFO_SAMPLE_SIZE)
        (div_s64 hw.delta_ts (status_fifo_depth cfg dev))
        (status_fifo_depth cfg dev * ST_ASM330LHHX_FIFO_SAMPLE_SIZE)
        (read_fifo_begin hw { dev with rc := dev.rc.tail } notify now
          (status_fifo_depth cfg dev)) = some (0, st) ∧
      st.read_len = status_fifo_depth cfg dev * ST_ASM330LHHX_FIFO_SAMPLE_SIZE ∧
      same_effect st.loop
        (process cfg (fifo_steps notify (div_s64 hw.delta_ts (status_fifo_depth cfg dev))
            dev.fifo (status_fifo_depth cfg dev))
          (read_fifo_begin hw { dev with rc := dev.rc.tail } notify now
            (status_fifo_depth cfg dev)).loop) ∧
      data_read_lengths st.loop.trace = chunk_lengths (status_fifo_depth cfg dev) := by
  obtain ⟨st, k1, k2, k3, k4⟩ := read_fifo_loop_records cfg notify
    (status_fifo_depth cfg dev * ST_ASM330LHHX_FIFO_SAMPLE_SIZE)
    (div_s64 hw.delta_ts (status_fifo_depth cfg dev))
    (status_fifo_depth cfg dev * ST_ASM330LHHX_FIFO_SAMPLE_SIZE) (status_fifo_depth cfg dev)
    (read_fifo_begin hw { dev with rc := dev.rc.tail } notify now (status_fifo_depth cfg dev))
    (reads_succeed_tail hok _ rfl) (by
      show 0 + _ = _
      omega) (le_refl _)
  refine ⟨st, ?_, k1, k2, k3, ?_⟩
  · rw [read_fifo_eq_loop cfg hw dev notify now hop (reads_succeed_head hok) hd, k1,
      Option.map_some']
  · rw [k4]
    simp [read_fifo_begin, data_read_lengths]

theorem read_fifo_end_data_read_lengths (cfg : Config) (notify : Int) (st : Drain) :
    data_read_lengths (read_fifo_end cfg notify (0, st)).trace =
      data_read_lengths st.loop.trace := by
  unfold read_fifo_end
  rw [if_neg (lt_irrefl (0 : Int))]
  split_ifs
  · show data_read_lengths (st.loop.trace ++ _) = _
    rw [data_read_lengths_append]
    simp [data_read_lengths, wake_marker]
  · rfl

/-- C26: with a depth of d > 0 records and reads that succeed, the chunk loop of
`st_asm330lhhx_read_fifo` ends after (d + 59) / 60 reads of the data register, full
buffers of 60 records followed by the remainder; every read is of a positive number of
whole records, at most 60, the lengths add up to d records, and every offset the `for`
loop takes in a chunk leaves the whole record within the bytes just read, the pass at an
offset reading nothing but the seven bytes from that offset on. The driver state, the
provisional timestamp and the samples forwarded are those of the d records of the FIFO
handled one by one, each once, oldest first. -/
theorem chunk_loop_handles_each_record_once (cfg : Config) (hw : Hw) (dev : Dev)
    (notify now : Int) (hop : hw.operational = true) (hok : reads_succeed dev)
    (hd : status_fifo_depth cfg dev ≠ 0) :
    ∃ r st, st_asm330lhhx_read_fifo cfg hw dev notify now = some r ∧
      read_fifo_loop cfg notify (status_fifo_depth cfg dev * ST_ASM330LHHX_FIFO_SAMPLE_SIZE)
        (div_s64 hw.delta_ts (status_fifo_depth cfg dev))
        (status_fifo_depth cfg dev * ST_ASM330LHHX_FIFO_SAMPLE_SIZE)
        (read_fifo_begin hw { dev with rc := dev.rc.tail } notify now
          (status_fifo_depth cfg dev)) = some (0, st) ∧
      r.hw = st.loop.hw ∧
      data_read_lengths r.trace = chunk_lengths (status_fifo_depth cfg dev) ∧
      (data_read_lengths r.trace).length = (status_fifo_depth cfg dev + 59) / 60 ∧
      (data_read_lengths r.trace).sum =
        status_fifo_depth cfg dev * ST_ASM330LHHX_FIFO_SAMPLE_SIZE ∧
      (∀ len ∈ data_read_lengths r.trace,
        0 < len ∧ len % ST_ASM330LHHX_FIFO_SAMPLE_SIZE = 0 ∧
        len ≤ 60 * ST_ASM330LHHX_FIFO_SAMPLE_SIZE ∧
        ∀ i ∈ for_offsets len ST_ASM330LHHX_FIFO_SAMPLE_SIZE,
          i + ST_ASM330LHHX_FIFO_SAMPLE_SIZE ≤ len) ∧
      (∀ (buf buf2 : List Nat) (l : Loop) (i : Nat),
        (∀ k, k < ST_ASM330LHHX_FIFO_SAMPLE_SIZE → byte buf2 (i + k) = byte buf (i + k)) →
        read_fifo_record cfg notify (div_s64 hw.delta_ts (status_fifo_depth cfg dev)) buf2 l i =
          read_fifo_record cfg notify (div_s64 hw.delta_ts (status_fifo_depth cfg dev)) buf l i) ∧
      (fifo_steps notify (div_s64 hw.delta_ts (status_fifo_depth cfg dev)) dev.fifo
        (status_fifo_depth cfg dev)).length = status_fifo_depth cfg dev ∧
      same_effect st.loop
        (process cfg (fifo_steps notify (div_s64 hw.delta_ts (status_fifo_depth cfg dev))
            dev.fifo (status_fifo_depth cfg dev))
          (read_fifo_begin hw { dev with rc := dev.rc.tail } notify now
            (status_fifo_depth cfg dev)).loop) := by
  obtain ⟨st, k1, k2, _, k4, k5⟩ := read_fifo_records cfg hw dev notify now hop hok hd
  obtain ⟨f1, f2, f3⟩ := chunk_lengths_facts (status_fifo_depth cfg dev)
  have hl : data_read_lengths (read_fifo_end cfg notify (0, st)).trace =
      chunk_lengths (status_fifo_depth cfg dev) := by
    rw [read_fifo_end_data_read_lengths, k5]
  refine ⟨read_fifo_end cfg notify (0, st), st, k1, k2,
    (read_fifo_end_frame cfg notify (0, st)).1, hl, ?_, ?_, ?_, ?_, ?_, k4⟩
  · rw [hl, f1]
  · rw [hl, f2]
  · intro len hlen
    rw [hl] at hlen
    obtain ⟨c, c1, c2, c3⟩ := f3 len hlen
    subst c3
    refine ⟨?_, ?_, ?_, ?_⟩
    · show 0 < c * 7
      omega
    · show c * 7 % 7 = 0
      omega
    · show c * 7 ≤ 60 * 7
      omega
    · intro i hi
      rw [for_offsets_records] at hi
      obtain ⟨q, hq, rfl⟩ := List.mem_map.mp hi
      have := List.mem_range.mp hq
      show q * 7 + 7 ≤ c * 7
      omega
  · intro buf buf2 l i h
    exact read_fifo_record_shift cfg _ _ buf buf2 l i i h
  · simp [fifo_steps]

theorem chunk_loop_handles_each_record_once_witness :
    status_fifo_depth example_cfg example_dev_two_chunks = 61 ∧
    ∃ (r : Result) (st : Drain),
      st_asm330lhhx_read_fifo example_cfg example_hw example_dev_two_chunks 0 1030000 =
        some r ∧
      r.hw = st.loop.hw ∧
      data_read_lengths r.trace = [420, 7] ∧
      same_effect st.loop
        (process example_cfg (fifo_steps 0 (div_s64 example_hw.delta_ts 61)
            example_dev_two_chunks.fifo 61)
          (read_fifo_begin example_hw
            { example_dev_two_chunks with rc := example_dev_two_chunks.rc.tail } 0 1030000
            61).loop) := by
  obtain ⟨r, st, h1, _, h3, h4, _, _, _, _, _, h10⟩ := chunk_loop_handles_each_record_once
    example_cfg example_hw example_dev_two_chunks 0 1030000 rfl
    (by intro c hc; simp [example_dev_two_chunks] at hc) (by decide)
  exact ⟨by decide, r, st, h1, h3, h4, h10⟩

/-! ## The provisional timestamp of a record -/

theorem s64_add_mul_pow (a m : Int) : s64 (a + m * 2 ^ 64) = s64 a := by
  unfold s64
  rw [show a + m * 2 ^ 64 + 2 ^ 63 = a + 2 ^ 63 + m * 2 ^ 64 by ring, Int.add_mul_emod_self]

theorem s64_eq_add (q : Int) : ∃ t : Int, s64 q = q + t * 2 ^ 64 := by
  refine ⟨-((q + 2 ^ 63) / 2 ^ 64), ?_⟩
  unfold s64
  have := Int.emod_add_ediv (q + 2 ^ 63) (2 ^ 64)
  linarith

theorem s64_add_s64 (a b : Int) : s64 (s64 a + b) = s64 (a + b) := by
  obtain ⟨t, ht⟩ := s64_eq_add a
  rw [ht, show a + t * 2 ^ 64 + b = a + b + t * 2 ^ 64 by ring, s64_add_mul_pow]

theorem s64_add_mul_s64 (x n q : Int) : s64 (x + n * s64 q) = s64 (x + n * q) := by
  obtain ⟨t, ht⟩ := s64_eq_add q
  rw [ht, show x + n * (q + t * 2 ^ 64) = x + n * q + (n * t) * 2 ^ 64 by ring, s64_add_mul_pow]

/-- After passes that all add `delta`, `ts_irq` is its first value plus `delta` times the
number of passes, in 64-bit arithmetic. -/
theorem process_ts_irq (cfg : Config) (delta : Int) :
    ∀ (steps : List Step) (st : Loop) (x : Int), (∀ s ∈ steps, s.delta = delta) →
      st.ts_irq = s64 x →
      (process cfg steps st).ts_irq = s64 (x + (steps.length : Int) * delta) := by
  intro steps
  induction steps with
  | nil =>
    intro st x _ h
    unfold process
    rw [List.foldl_nil, h]
    simp
  | cons s rest ih =>
    intro st x hs h
    have hsd : s.delta = delta := hs s (List.mem_cons_self _ _)
    have h1 : (read_fifo_record cfg s.notify s.delta s.buf st s.i).ts_irq = s64 (x + delta) := by
      rw [(read_fifo_record_frame cfg s.notify s.delta s.buf st s.i).1, h, s64_add_s64, hsd]
    have h2 := ih (read_fifo_record cfg s.notify s.delta s.buf st s.i) (x + delta)
      (fun t ht => hs t (List.mem_cons_of_mem _ ht)) h1
    unfold process at h2 ⊢
    rw [List.foldl_cons, h2, List.length_cons]
    congr 1
    push_cast
    ring

theorem fifo_steps_take (notify delta : Int) (fifo : List Nat) (d k : Nat) (hk : k ≤ d) :
    ((fifo_steps notify delta fifo d).take k).length = k ∧
    ∀ s ∈ (fifo_steps notify delta fifo d).take k, s.delta = delta := by
  constructor
  · rw [List.length_take]
    simp [fifo_steps]
    exact hk
  · intro s hs
    have := List.mem_of_mem_take hs
    unfold fifo_steps at this
    obtain ⟨m, _, rfl⟩ := List.mem_map.mp this
    rfl

/-- Truncating division by a positive number, for a dividend that is not negative. -/
theorem tdiv_nonneg_facts (a : Int) (d : Nat) (ha : 0 ≤ a) (hd : d ≠ 0) :
    0 ≤ Int.tdiv a d ∧ (d : Int) * Int.tdiv a d = a - a % d ∧ 0 ≤ a % (d : Int) ∧
    a % (d : Int) < d := by
  have hd0 : (0 : Int) < d := by
    have : 0 < d := Nat.pos_of_ne_zero hd
    exact_mod_cast this
  rw [Int.tdiv_eq_ediv ha (le_of_lt hd0)]
  have h1 := Int.emod_add_ediv a d
  have h2 := Int.emod_nonneg a (ne_of_gt hd0)
  have h3 := Int.emod_lt_of_pos a hd0
  refine ⟨Int.ediv_nonneg ha (le_of_lt hd0), by linarith, h2, h3⟩

/-- Truncating division by a positive number brings the dividend toward zero. -/
theorem tdiv_toward_zero (a : Int) (d : Nat) (hd : d ≠ 0) :
    (0 ≤ a → 0 ≤ Int.tdiv a d ∧ (d : Int) * Int.tdiv a d ≤ a) ∧
    (a ≤ 0 → Int.tdiv a d ≤ 0 ∧ a ≤ (d : Int) * Int.tdiv a d) := by
  constructor
  · intro ha
    obtain ⟨h1, h2, h3, _⟩ := tdiv_nonneg_facts a d ha hd
    exact ⟨h1, by linarith⟩
  · intro ha
    obtain ⟨h1, h2, h3, _⟩ := tdiv_nonneg_facts (-a) d (by linarith) hd
    rw [Int.neg_tdiv] at h1 h2
    constructor
    · linarith
    · have : (d : Int) * -(a.tdiv d) = -((d : Int) * a.tdiv d) := by ring
      rw [this] at h2
      linarith

/-- Interpolated times stay between the start and the end of the interval, so that 64-bit
arithmetic gives them exactly when both ends are 64-bit values. -/
theorem spread_exact (ts delta : Int) (d k : Nat) (hd : d ≠ 0) (hk : k ≤ d)
    (h1 : -2 ^ 63 ≤ ts) (h2 : ts < 2 ^ 63) (h3 : -2 ^ 63 ≤ ts - delta)
    (h4 : ts - delta < 2 ^ 63) :
    s64 (ts - delta + (k : Int) * Int.tdiv delta d) = ts - delta + (k : Int) * Int.tdiv delta d := by
  have hkd : (k : Int) ≤ d := by exact_mod_cast hk
  have hk0 : (0 : Int) ≤ k := Int.natCast_nonneg _
  obtain ⟨p, n⟩ := tdiv_toward_zero delta d hd
  rcases le_total 0 delta with h | h
  · obtain ⟨q0, q1⟩ := p h
    have e1 : (k : Int) * Int.tdiv delta d ≤ (d : Int) * Int.tdiv delta d :=
      mul_le_mul_of_nonneg_right hkd q0
    have e2 : 0 ≤ (k : Int) * Int.tdiv delta d := mul_nonneg hk0 q0
    exact s64_of_range (by linarith) (by linarith)
  · obtain ⟨q0, q1⟩ := n h
    have e1 : (d : Int) * Int.tdiv delta d ≤ (k : Int) * Int.tdiv delta d :=
      mul_le_mul_of_nonpos_right hkd q0
    have e2 : (k : Int) * Int.tdiv delta d ≤ 0 := mul_nonpos_of_nonneg_of_nonpos hk0 q0
    exact s64_of_range (by linarith) (by linarith)

/-- Interpolated times over an interval that is not negative. -/
theorem spread_nonneg (ts delta : Int) (d : Nat) (hd : d ≠ 0) (h0 : 0 ≤ delta) :
    (∀ k : Nat, ts - delta + (k : Int) * Int.tdiv delta d ≤
      ts - delta + ((k + 1 : Nat) : Int) * Int.tdiv delta d) ∧
    (∀ k : Nat, k ≤ d → ts - delta + (k : Int) * Int.tdiv delta d ≤ ts) ∧
    ts - (ts - delta + (d : Int) * Int.tdiv delta d) = delta % (d : Int) ∧
    0 ≤ delta % (d : Int) ∧ delta % (d : Int) < d := by
  obtain ⟨q0, q1, q2, q3⟩ := tdiv_nonneg_facts delta d h0 hd
  refine ⟨?_, ?_, by linarith, q2, q3⟩
  · intro k
    push_cast
    linarith
  · intro k hk
    have hkd : (k : Int) ≤ d := by exact_mod_cast hk
    have e1 : (k : Int) * Int.tdiv delta d ≤ (d : Int) * Int.tdiv delta d :=
      mul_le_mul_of_nonneg_right hkd q0
    linarith

/-- C22: in a drain of depth d > 0 whose reads succeed, the chunk loop handles the d
records of the FIFO one by one, and the provisional timestamp `ts_irq` of the k-th of
them (k = 1..d, whatever the records are and wherever the chunks end) is
(ts - delta_ts) + k * (delta_ts / d) in 64-bit arithmetic, the division truncating; it is
that integer itself when ts and ts - delta_ts are 64-bit values. When moreover
delta_ts ≥ 0, the provisional timestamps do not decrease with k, do not exceed ts, and the
last one, with which the loop ends, is short of ts by delta_ts mod d, which is below d. -/
theorem provisional_timestamp_of_record (cfg : Config) (hw : Hw) (dev : Dev)
    (notify now : Int) (hop : hw.operational = true) (hok : reads_succeed dev)
    (hd : status_fifo_depth cfg dev ≠ 0) :
    ∃ r st, st_asm330lhhx_read_fifo cfg hw dev notify now = some r ∧
      read_fifo_loop cfg notify (status_fifo_depth cfg dev * ST_ASM330LHHX_FIFO_SAMPLE_SIZE)
        (div_s64 hw.delta_ts (status_fifo_depth cfg dev))
        (status_fifo_depth cfg dev * ST_ASM330LHHX_FIFO_SAMPLE_SIZE)
        (read_fifo_begin hw { dev with rc := dev.rc.tail } notify now
          (status_fifo_depth cfg dev)) = some (0, st) ∧
      r.hw = st.loop.hw ∧
      same_effect st.loop
        (process cfg (fifo_steps notify (div_s64 hw.delta_ts (status_fifo_depth cfg dev))
            dev.fifo (status_fifo_depth cfg dev))
          (read_fifo_begin hw { dev with rc := dev.rc.tail } notify now
            (status_fifo_depth cfg dev)).loop) ∧
      st.loop.ts_irq = provisional_timestamp cfg hw dev notify now (status_fifo_depth cfg dev) ∧
      (∀ k : Nat, k ≤ status_fifo_depth cfg dev →
        provisional_timestamp cfg hw dev notify now k =
          s64 (hw.ts - hw.delta_ts +
            (k : Int) * Int.tdiv hw.delta_ts (status_fifo_depth cfg dev))) ∧
      (-2 ^ 63 ≤ hw.ts → hw.ts < 2 ^ 63 → -2 ^ 63 ≤ hw.ts - hw.delta_ts →
        hw.ts - hw.delta_ts < 2 ^ 63 →
        ∀ k : Nat, k ≤ status_fifo_depth cfg dev →
          provisional_timestamp cfg hw dev notify now k =
            hw.ts - hw.delta_ts +
              (k : Int) * Int.tdiv hw.delta_ts (status_fifo_depth cfg dev)) ∧
      (0 ≤ hw.delta_ts → hw.ts < 2 ^ 63 → -2 ^ 63 ≤ hw.ts - hw.delta_ts →
        (∀ k : Nat, k < status_fifo_depth cfg dev →
          provisional_timestamp cfg hw dev notify now k ≤
            provisional_timestamp cfg hw dev notify now (k + 1)) ∧
        (∀ k : Nat, k ≤ status_fifo_depth cfg dev →
          provisional_timestamp cfg hw dev notify now k ≤ hw.ts) ∧
        hw.ts - provisional_timestamp cfg hw dev notify now (status_fifo_depth cfg dev) =
          hw.delta_ts % (status_fifo_depth cfg dev : Int) ∧
        0 ≤ hw.delta_ts % (status_fifo_depth cfg dev : Int) ∧
        hw.delta_ts % (status_fifo_depth cfg dev : Int) < status_fifo_depth cfg dev) := by
  obtain ⟨st, k1, k2, _, k4, _⟩ := read_fifo_records cfg hw dev notify now hop hok hd
  have hform : ∀ k : Nat, k ≤ status_fifo_depth cfg dev →
      provisional_timestamp cfg hw dev notify now k =
        s64 (hw.ts - hw.delta_ts +
          (k : Int) * Int.tdiv hw.delta_ts (status_fifo_depth cfg dev)) := by
    intro k hk
    obtain ⟨t1, t2⟩ := fifo_steps_take notify (div_s64 hw.delta_ts (status_fifo_depth cfg dev))
      dev.fifo (status_fifo_depth cfg dev) k hk
    unfold provisional_timestamp
    rw [process_ts_irq cfg (div_s64 hw.delta_ts (status_fifo_depth cfg dev)) _ _
      (hw.ts - hw.delta_ts) t2 (by unfold read_fifo_begin; rfl), t1]
    unfold div_s64
    exact s64_add_mul_s64 _ _ _
  have hexact : -2 ^ 63 ≤ hw.ts → hw.ts < 2 ^ 63 → -2 ^ 63 ≤ hw.ts - hw.delta_ts →
      hw.ts - hw.delta_ts < 2 ^ 63 →
      ∀ k : Nat, k ≤ status_fifo_depth cfg dev →
        provisional_timestamp cfg hw dev notify now k =
          hw.ts - hw.delta_ts +
            (k : Int) * Int.tdiv hw.delta_ts (status_fifo_depth cfg dev) := by
    intro h1 h2 h3 h4 k hk
    rw [hform k hk]
    exact spread_exact hw.ts hw.delta_ts (status_fifo_depth cfg dev) k hd hk h1 h2 h3 h4
  have hlast : st.loop.ts_irq =
      provisional_timestamp cfg hw dev notify now (status_fifo_depth cfg dev) := by
    unfold provisional_timestamp
    rw [List.take_of_length_le (by simp [fifo_steps])]
    exact k4.2.1
  refine ⟨read_fifo_end cfg notify (0, st), st, k1, k2,
    (read_fifo_end_frame cfg notify (0, st)).1, k4, hlast, hform, hexact, ?_⟩
  intro h0 h2 h3
  have h4 : hw.ts - hw.delta_ts < 2 ^ 63 := by linarith
  have h1 : -2 ^ 63 ≤ hw.ts := by linarith
  obtain ⟨s1, s2, s3, s4, s5⟩ := spread_nonneg hw.ts hw.delta_ts (status_fifo_depth cfg dev) hd h0
  refine ⟨?_, ?_, ?_, s4, s5⟩
  · intro k hk
    rw [hexact h1 h2 h3 h4 k (le_of_lt hk), hexact h1 h2 h3 h4 (k + 1) hk]
    exact s1 k
  · intro k hk
    rw [hexact h1 h2 h3 h4 k hk]
    exact s2 k hk
  · rw [hexact h1 h2 h3 h4 _ (le_refl _)]
    exact s3

theorem provisional_timestamp_of_record_witness :
    status_fifo_depth example_cfg example_dev = 3 ∧ example_hw_uneven.ts = 1000000 ∧
    example_hw_uneven.delta_ts = 30001 ∧
    (∀ k : Nat, k ≤ 3 →
      provisional_timestamp example_cfg example_hw_uneven example_dev 0 1000000 k =
        969999 + (k : Int) * 10000) ∧
    (1000000 : Int) -
      provisional_timestamp example_cfg example_hw_uneven example_dev 0 1000000 3 = 1 := by
  obtain ⟨r, st, _, _, _, _, _, _, h7, h8⟩ := provisional_timestamp_of_record example_cfg
    example_hw_uneven example_dev 0 1000000 rfl (by intro c hc; simp [example_dev] at hc)
    (by decide)
  exact ⟨by decide, rfl, rfl, h7 (by decide) (by decide) (by decide) (by decide),
    (h8 (by decide) (by decide) (by decide)).2.2.1⟩

/-! ## Order of the forwarded timestamps, record by record -/

theorem taken_bytes_append (l1 l2 : List FifoRead) :
    taken_bytes (l1 ++ l2) = taken_bytes l1 ++ taken_bytes l2 := by
  induction l1 with
  | nil => rfl
  | cons e rest ih =>
    show e.bytes ++ taken_bytes (rest ++ l2) = (e.bytes ++ taken_bytes rest) ++ taken_bytes l2
    rw [ih, List.append_assoc]

theorem fifo_taken_same (d e : Dev) (h : e.fifo = d.fifo) : fifo_taken d e = [] := by
  unfold fifo_taken
  rw [h, Nat.sub_self]
  rfl

theorem fifo_taken_drop (d e : Dev) (w : Nat) (h : e.fifo = d.fifo.drop w) :
    fifo_taken d e ++ e.fifo = d.fifo ∧ (w ≤ d.fifo.length → (fifo_taken d e).length = w) := by
  unfold fifo_taken
  rw [h, List.length_drop]
  by_cases hw : w ≤ d.fifo.length
  · have e1 : d.fifo.length - (d.fifo.length - w) = w := by omega
    rw [e1]
    refine ⟨List.take_append_drop w d.fifo, fun _ => ?_⟩
    rw [List.length_take]
    omega
  · have e1 : d.fifo.length - (d.fifo.length - w) = d.fifo.length := by omega
    rw [e1, List.take_length, List.drop_eq_nil_of_le (by omega), List.append_nil]
    exact ⟨rfl, fun h => absurd h hw⟩

/-- A read of the status register leaves the FIFO as it is and, when it succeeds, returns
the two bytes of the status word. -/
theorem read_status_frame (d : Dev) :
    (st_asm330lhhx_read_locked d Reg.ST_ASM330LHHX_REG_FIFO_STATUS1_ADDR 2).2.2.fifo = d.fifo ∧
    (¬ (st_asm330lhhx_read_locked d Reg.ST_ASM330LHHX_REG_FIFO_STATUS1_ADDR 2).1 < 0 →
      (st_asm330lhhx_read_locked d Reg.ST_ASM330LHHX_REG_FIFO_STATUS1_ADDR 2).2.1 =
        [d.fifo_status1 % 256, d.fifo_status2 % 256]) := by
  unfold st_asm330lhhx_read_locked
  dsimp only
  by_cases h : d.rc.headD 0 < 0
  · rw [if_pos h]
    exact ⟨rfl, fun h2 => absurd h h2⟩
  · rw [if_neg h]
    exact ⟨rfl, fun _ => rfl⟩

/-- The depth that the driver computes from the status word of a device whose status word
shows the number of records in its FIFO. -/
theorem hardware_depth (cfg : Config) (dev : Dev) :
    status_fifo_depth cfg (hardware_status dev) =
      (dev.fifo.length / ST_ASM330LHHX_FIFO_SAMPLE_SIZE % 65536) &&& cfg.fifo_status_diff := by
  unfold status_fifo_depth
  rw [status_depth]
  have e : (hardware_status dev).fifo_status1 % 256 +
      256 * ((hardware_status dev).fifo_status2 % 256) =
      dev.fifo.length / ST_ASM330LHHX_FIFO_SAMPLE_SIZE % 65536 := by
    show (dev.fifo.length / ST_ASM330LHHX_FIFO_SAMPLE_SIZE % 256) % 256 +
      256 * ((dev.fifo.length / ST_ASM330LHHX_FIFO_SAMPLE_SIZE / 256 % 256) % 256) = _
    generalize dev.fifo.length / ST_ASM330LHHX_FIFO_SAMPLE_SIZE = n
    omega
  rw [e]

theorem hardware_depth_le (cfg : Config) (dev : Dev) :
    status_fifo_depth cfg (hardware_status dev) * ST_ASM330LHHX_FIFO_SAMPLE_SIZE ≤
      dev.fifo.length := by
  rw [hardware_depth]
  exact le_trans
    (Nat.mul_le_mul_right _ (le_trans Nat.and_le_left (Nat.mod_le _ _)))
    (Nat.div_mul_le_self _ _)

/-- What a pass of the chunk loop does to the FIFO of the device: nothing when its read
fails, and when it succeeds it takes out the bytes it asked for and counts them. -/
theorem read_fifo_chunk_fifo (cfg : Config) (notify : Int) (fifo_len : Nat) (delta : Int)
    (st : Drain) :
    ((read_fifo_chunk cfg notify fifo_len delta st).1 < 0 →
      (read_fifo_chunk cfg notify fifo_len delta st).2.dev.fifo = st.dev.fifo) ∧
    (¬ (read_fifo_chunk cfg notify fifo_len delta st).1 < 0 →
      (read_fifo_chunk cfg notify fifo_len delta st).2.dev.fifo =
        st.dev.fifo.drop (min (fifo_len - st.read_len) (60 * ST_ASM330LHHX_FIFO_SAMPLE_SIZE)) ∧
      (read_fifo_chunk cfg notify fifo_len delta st).2.read_len =
        st.read_len + min (fifo_len - st.read_len) (60 * ST_ASM330LHHX_FIFO_SAMPLE_SIZE)) := by
  by_cases h : st.dev.rc.headD 0 < 0
  · rw [read_fifo_chunk_fail cfg notify fifo_len delta st h]
    exact ⟨fun _ => rfl, fun h2 => absurd h h2⟩
  · rw [read_fifo_chunk_ok_eq cfg notify fifo_len delta st h]
    exact ⟨fun h2 => absurd h2 h, fun _ => ⟨rfl, rfl⟩⟩

/-- A chunk loop that ends without a failed read has taken out of the FIFO the bytes that
were still to be read. -/
theorem read_fifo_loop_fifo (cfg : Config) (notify : Int) (fifo_len : Nat) (delta : Int) :
    ∀ (fuel : Nat) (st : Drain) (r : Int × Drain),
      read_fifo_loop cfg notify fifo_len delta fuel st = some r → ¬ r.1 < 0 →
      r.2.dev.fifo = st.dev.fifo.drop (fifo_len - st.read_len) := by
  intro fuel
  induction fuel with
  | zero =>
    intro st r hr _
    unfold read_fifo_loop at hr
    by_cases hlt : st.read_len < fifo_len
    · simp [hlt] at hr
    · simp only [hlt, if_false, Option.some.injEq] at hr
      rw [← hr, Nat.sub_eq_zero_of_le (Nat.le_of_not_lt hlt)]
      rfl
  | succ n ih =>
    intro st r hr hneg
    rw [read_fifo_loop] at hr
    by_cases hlt : st.read_len < fifo_len
    · simp only [hlt, if_true] at hr
      by_cases hf : (read_fifo_chunk cfg notify fifo_len delta st).1 < 0
      · simp only [hf, if_true, Option.some.injEq] at hr
        rw [← hr] at hneg
        exact absurd hf hneg
      · simp only [hf, if_false] at hr
        obtain ⟨c1, c2⟩ := (read_fifo_chunk_fifo cfg notify fifo_len delta st).2 hf
        rw [ih _ r hr hneg, c1, c2, List.drop_drop]
        congr 1
        omega
    · simp only [hlt, if_false, Option.some.injEq] at hr
      rw [← hr, Nat.sub_eq_zero_of_le (Nat.le_of_not_lt hlt)]
      rfl

theorem read_fifo_end_dev (cfg : Config) (notify : Int) (r : Int × Drain) :
    (read_fifo_end cfg notify r).dev = r.2.dev ∧
    ((read_fifo_end cfg notify r).ret < 0 ↔ r.1 < 0) := by
  unfold read_fifo_end
  by_cases h : r.1 < 0
  · rw [if_pos h]
    exact ⟨rfl, fun _ => h, fun _ => h⟩
  · rw [if_neg h]
    have hlen : ¬ ((r.2.read_len : Nat) : Int) < 0 := by omega
    split_ifs
    · exact ⟨rfl, fun h2 => absurd h2 hlen, fun h2 => absurd h2 h⟩
    · exact ⟨rfl, fun h2 => absurd h2 hlen, fun h2 => absurd h2 h⟩

/-- A drain of an operational driver that returns no error has taken out of the FIFO the
records that the status word showed. -/
theorem read_fifo_fifo (cfg : Config) (hw : Hw) (dev : Dev) (notify now : Int) (r : Result)
    (hop : hw.operational = true)
    (h : st_asm330lhhx_read_fifo cfg hw dev notify now = some r) (hret : ¬ r.ret < 0) :
    r.dev.fifo = dev.fifo.drop (status_fifo_depth cfg dev * ST_ASM330LHHX_FIFO_SAMPLE_SIZE) := by
  obtain ⟨f1, f2⟩ := read_status_frame dev
  unfold st_asm330lhhx_read_fifo at h
  dsimp only at h
  have hop2 : ¬ (!hw.operational) = true := by rw [hop]; decide
  rw [if_neg hop2] at h
  by_cases hf : (st_asm330lhhx_read_locked dev Reg.ST_ASM330LHHX_REG_FIFO_STATUS1_ADDR 2).1 < 0
  · rw [if_pos hf, Option.some.injEq] at h
    rw [← h] at hret
    exact absurd hf hret
  · rw [if_neg hf] at h
    have hdep : u16 (get_unaligned_le16
        (st_asm330lhhx_read_locked dev Reg.ST_ASM330LHHX_REG_FIFO_STATUS1_ADDR 2).2.1 0 &&&
        cfg.fifo_status_diff) = status_fifo_depth cfg dev := by
      rw [f2 hf]
      rfl
    rw [hdep] at h
    by_cases hd : status_fifo_depth cfg dev = 0
    · rw [if_pos hd, Option.some.injEq] at h
      rw [← h, hd, Nat.zero_mul]
      exact f1
    · rw [if_neg hd] at h
      obtain ⟨r0, hr0, hr1⟩ := Option.map_eq_some'.mp h
      obtain ⟨e1, e2⟩ := read_fifo_end_dev cfg notify r0
      rw [← hr1] at hret
      have hneg : ¬ r0.1 < 0 := fun hn => hret (e2.mpr hn)
      rw [← hr1, e1, read_fifo_loop_fifo cfg notify _ _ _ _ r0 hr0 hneg]
      show (st_asm330lhhx_read_locked dev Reg.ST_ASM330LHHX_REG_FIFO_STATUS1_ADDR 2).2.2.fifo.drop
        (status_fifo_depth cfg dev * ST_ASM330LHHX_FIFO_SAMPLE_SIZE - 0) = _
      rw [f1, Nat.sub_zero]

/-- What a step of a context does to the lock, to the places of the contexts and to the
list of reads: nothing; or it takes the free lock; or, holding the lock, it goes on
holding it and at most adds reads of its own; or it releases the lock. -/
theorem sys_step_cases (cfg : Config) (p : DrainCalls) (s : Sys) (c : Context) (now : Int) :
    ((sys_step cfg p s c now).reads = s.reads ∧ (sys_step cfg p s c now).pc = s.pc ∧
      (sys_step cfg p s c now).fifo_lock = s.fifo_lock) ∨
    (s.pc c = Pc.start ∧ s.fifo_lock = none ∧ (sys_step cfg p s c now).fifo_lock = some c ∧
      (sys_step cfg p s c now).pc = Function.update s.pc c Pc.entry ∧
      (sys_step cfg p s c now).reads = s.reads) ∨
    ((s.pc c).inside = true ∧ ∃ X l, X.inside = true ∧
      (sys_step cfg p s c now).pc = Function.update s.pc c X ∧
      (sys_step cfg p s c now).fifo_lock = s.fifo_lock ∧
      (sys_step cfg p s c now).reads = s.reads ++ l ∧ ∀ e ∈ l, e.ctx = c) ∨
    ((s.pc c).inside = true ∧ ∃ X, X.is_finished = true ∧
      (sys_step cfg p s c now).pc = Function.update s.pc c X ∧
      (sys_step cfg p s c now).fifo_lock = none ∧
      (sys_step cfg p s c now).reads = s.reads) := by
  have hnil : ∀ e ∈ ([] : List FifoRead), e.ctx = c :=
    fun _ he => (List.not_mem_nil _ he).elim
  have hone : ∀ (x : FifoRead), x.ctx = c → ∀ e ∈ [x], e.ctx = c := by
    intro x hx e he
    rw [List.mem_singleton] at he
    rw [he]
    exact hx
  unfold sys_step
  cases hpc : s.pc c with
  | start =>
    dsimp only
    unfold sys_lock mutex_lock
    by_cases hl : s.fifo_lock = none
    · rw [if_pos hl]
      exact Or.inr (Or.inl ⟨rfl, hl, rfl, rfl, rfl⟩)
    · rw [if_neg hl]
      exact Or.inl ⟨rfl, rfl, rfl⟩
  | entry =>
    dsimp only
    refine Or.inr (Or.inr (Or.inl ⟨rfl, ?_⟩))
    unfold sys_entry
    dsimp only
    split_ifs
    · refine ⟨_, [], ?_, rfl, rfl, (List.append_nil _).symm, hnil⟩
      rfl
    · refine ⟨_, _, ?_, rfl, rfl, rfl, hone _ rfl⟩
      rfl
    · refine ⟨_, _, ?_, rfl, rfl, rfl, hone _ rfl⟩
      rfl
    · refine ⟨_, _, ?_, rfl, rfl, rfl, hone _ rfl⟩
      rfl
  | loop fifo_len delta read_len ts_irq trace =>
    dsimp only
    refine Or.inr (Or.inr (Or.inl ⟨rfl, ?_⟩))
    unfold sys_pass
    dsimp only
    split_ifs
    · refine ⟨_, _, ?_, rfl, rfl, rfl, hone _ rfl⟩
      rfl
    · refine ⟨_, _, ?_, rfl, rfl, rfl, hone _ rfl⟩
      rfl
    · refine ⟨_, [], ?_, rfl, rfl, (List.append_nil _).symm, hnil⟩
      rfl
  | returned ret trace =>
    dsimp only
    refine Or.inr (Or.inr (Or.inr ⟨rfl, ?_⟩))
    unfold sys_unlock
    refine ⟨_, ?_, rfl, rfl, rfl⟩
    rfl
  | finished ret trace =>
    exact Or.inl ⟨rfl, rfl, rfl⟩

theorem context_other {a c e : Context} (h1 : e ≠ a) (h2 : a ≠ c) : e = c := by
  cases a <;> cases c <;> cases e <;> simp_all

theorem pc_outside {X : Pc} (h1 : X.inside = false) (h2 : X ≠ Pc.start) :
    X.is_finished = true := by
  cases X <;> simp_all [Pc.inside, Pc.is_finished]

theorem pc_inside {X : Pc} (h : X.inside = true) : X ≠ Pc.start ∧ X.is_finished = false := by
  cases X <;> simp_all [Pc.inside, Pc.is_finished]

theorem pc_finished {X : Pc} (h : X.is_finished = true) : X ≠ Pc.start ∧ X.inside = false := by
  cases X <;> simp_all [Pc.inside, Pc.is_finished]

/-- A step of a context keeps `sys_inv`. -/
theorem sys_inv_step (cfg : Config) (p : DrainCalls) (s : Sys) (c : Context) (now : Int)
    (h : sys_inv s) : sys_inv (sys_step cfg p s c now) := by
  obtain ⟨h1, h2, a, l1, l2, h3, h4, h5, h6⟩ := h
  rcases sys_step_cases cfg p s c now with
    ⟨e1, e2, e3⟩ | ⟨b1, b2, b3, b4, b5⟩ | ⟨c1, X, l, c2, c3, c4, c5, c6⟩ | ⟨d1, X, d2, d3, d4, d5⟩
  · unfold sys_inv
    rw [e1, e2, e3]
    exact ⟨h1, h2, a, l1, l2, h3, h4, h5, h6⟩
  · unfold sys_inv
    rw [b3, b4, b5]
    refine ⟨?_, ?_, a, l1, l2, h3, h4, h5, ?_⟩
    · intro k
      by_cases hc : k = c
      · subst hc
        rw [Function.update_same]
        exact ⟨fun _ => rfl, fun _ => rfl⟩
      · rw [Function.update_noteq hc]
        constructor
        · intro hin
          have := (h1 k).mp hin
          rw [b2] at this
          cases this
        · intro hl
          exact absurd (Option.some.inj hl).symm hc
    · intro k hs
      by_cases hc : k = c
      · subst hc
        rw [Function.update_same] at hs
        cases hs
      · rw [Function.update_noteq hc] at hs
        exact h2 k hs
    · intro hl2
      by_cases hc : a = c
      · subst hc
        have := h6 hl2
        rw [b1] at this
        cases this
      · rw [Function.update_noteq hc]
        exact h6 hl2
  · have hlock : s.fifo_lock = some c := (h1 c).mp c1
    unfold sys_inv
    rw [c3, c4, c5]
    refine ⟨?_, ?_, ?_⟩
    · intro k
      by_cases hc : k = c
      · subst hc
        rw [Function.update_same]
        exact ⟨fun _ => hlock, fun _ => c2⟩
      · rw [Function.update_noteq hc]
        exact h1 k
    · intro k hs e he
      by_cases hc : k = c
      · subst hc
        rw [Function.update_same] at hs
        exact absurd hs (pc_inside c2).1
      · rw [Function.update_noteq hc] at hs
        rcases List.mem_append.mp he with h | h
        · exact h2 k hs e h
        · rw [c6 e h]
          exact Ne.symm hc
    · by_cases hc : a = c
      · subst hc
        have hl2 : l2 = [] := by
          by_contra hne
          have := h6 hne
          rw [(pc_inside c1).2] at this
          cases this
        subst hl2
        refine ⟨a, l1 ++ l, [], ?_, ?_, ?_, ?_⟩
        · rw [h3]
          simp
        · intro e he
          rcases List.mem_append.mp he with h | h
          · exact h4 e h
          · exact c6 e h
        · intro e he
          cases he
        · intro h
          exact absurd rfl h
      · by_cases hst : s.pc a = Pc.start
        · have hl1 : l1 = [] := by
            cases l1 with
            | nil => rfl
            | cons x xs =>
              exfalso
              exact h2 a hst x (by rw [h3]; simp) (h4 x (List.mem_cons_self _ _))
          subst hl1
          refine ⟨c, l2 ++ l, [], ?_, ?_, ?_, ?_⟩
          · rw [h3]
            simp
          · intro e he
            rcases List.mem_append.mp he with h | h
            · exact context_other (h5 e h) hc
            · exact c6 e h
          · intro e he
            cases he
          · intro h
            exact absurd rfl h
        · have hin : (s.pc a).inside = false := by
            cases hx : (s.pc a).inside with
            | false => rfl
            | true =>
              have := (h1 a).mp hx
              rw [hlock] at this
              exact absurd (Option.some.inj this).symm hc
          have hfin := pc_outside hin hst
          refine ⟨a, l1, l2 ++ l, ?_, h4, ?_, ?_⟩
          · rw [h3, List.append_assoc]
          · intro e he
            rcases List.mem_append.mp he with h | h
            · exact h5 e h
            · rw [c6 e h]
              exact Ne.symm hc
          · intro _
            rw [Function.update_noteq hc]
            exact hfin
  · have hlock : s.fifo_lock = some c := (h1 c).mp d1
    unfold sys_inv
    rw [d3, d4, d5]
    refine ⟨?_, ?_, a, l1, l2, h3, h4, h5, ?_⟩
    · intro k
      by_cases hc : k = c
      · subst hc
        rw [Function.update_same, (pc_finished d2).2]
        exact ⟨fun h => (by cases h), fun h => (by cases h)⟩
      · rw [Function.update_noteq hc]
        constructor
        · intro hin
          have := (h1 k).mp hin
          rw [hlock] at this
          exact absurd (Option.some.inj this).symm hc
        · intro h
          cases h
    · intro k hs
      by_cases hc : k = c
      · subst hc
        rw [Function.update_same] at hs
        exact absurd hs (pc_finished d2).1
      · rw [Function.update_noteq hc] at hs
        exact h2 k hs
    · intro hl2
      by_cases hc : a = c
      · subst hc
        rw [Function.update_same]
        exact d2
      · rw [Function.update_noteq hc]
        exact h6 hl2

/-- The test of the loop when it fails: the context leaves the loop by the statements at
the end of `st_asm330lhhx_read_fifo`, without a read. -/
theorem sys_pass_exit (cfg : Config) (p : DrainCalls) (s : Sys) (c : Context)
    (fifo_len : Nat) (delta : Int) (read_len : Nat) (ts_irq : Int) (trace : List Action)
    (h : ¬ read_len < fifo_len) :
    (sys_pass cfg p s c fifo_len delta read_len ts_irq trace).pc =
      Function.update s.pc c
        (Pc.returned
          (read_fifo_end cfg (c.notify p) (0,
            { loop := { hw := s.hw, trace := trace, ts_irq := ts_irq }, dev := s.dev,
              read_len := read_len })).ret
          (read_fifo_end cfg (c.notify p) (0,
            { loop := { hw := s.hw, trace := trace, ts_irq := ts_irq }, dev := s.dev,
              read_len := read_len })).trace) ∧
    (sys_pass cfg p s c fifo_len delta read_len ts_irq trace).hw =
      (read_fifo_end cfg (c.notify p) (0,
        { loop := { hw := s.hw, trace := trace, ts_irq := ts_irq }, dev := s.dev,
          read_len := read_len })).hw ∧
    (sys_pass cfg p s c fifo_len delta read_len ts_irq trace).dev =
      (read_fifo_end cfg (c.notify p) (0,
        { loop := { hw := s.hw, trace := trace, ts_irq := ts_irq }, dev := s.dev,
          read_len := read_len })).dev ∧
    (sys_pass cfg p s c fifo_len delta read_len ts_irq trace).fifo_lock = s.fifo_lock ∧
    (sys_pass cfg p s c fifo_len delta read_len ts_irq trace).reads = s.reads ∧
    (sys_pass cfg p s c fifo_len delta read_len ts_irq trace).captured = s.captured := by
  unfold sys_pass
  dsimp only
  rw [if_neg h]
  exact ⟨rfl, rfl, rfl, rfl, rfl, rfl⟩

/-- The test of the loop when it holds: the context runs `read_fifo_chunk`. -/
theorem sys_pass_chunk (cfg : Config) (p : DrainCalls) (s : Sys) (c : Context)
    (fifo_len : Nat) (delta : Int) (read_len : Nat) (ts_irq : Int) (trace : List Action)
    (h : read_len < fifo_len) :
    (sys_pass cfg p s c fifo_len delta read_len ts_irq trace).pc =
      Function.update s.pc c
        (if (read_fifo_chunk cfg (c.notify p) fifo_len delta
            { loop := { hw := s.hw, trace := trace, ts_irq := ts_irq }, dev := s.dev,
              read_len := read_len }).1 < 0 then
          Pc.returned
            (read_fifo_chunk cfg (c.notify p) fifo_len delta
              { loop := { hw := s.hw, trace := trace, ts_irq := ts_irq }, dev := s.dev,
                read_len := read_len }).1
            (read_fifo_chunk cfg (c.notify p) fifo_len delta
              { loop := { hw := s.hw, trace := trace, ts_irq := ts_irq }, dev := s.dev,
                read_len := read_len }).2.loop.trace
        else
          Pc.loop fifo_len delta
            (read_fifo_chunk cfg (c.notify p) fifo_len delta
              { loop := { hw := s.hw, trace := trace, ts_irq := ts_irq }, dev := s.dev,
                read_len := read_len }).2.read_len
            (read_fifo_chunk cfg (c.notify p) fifo_len delta
              { loop := { hw := s.hw, trace := trace, ts_irq := ts_irq }, dev := s.dev,
                read_len := read_len }).2.loop.ts_irq
            (read_fifo_chunk cfg (c.notify p) fifo_len delta
              { loop := { hw := s.hw, trace := trace, ts_irq := ts_irq }, dev := s.dev,
                read_len := read_len }).2.loop.trace) ∧
    (sys_pass cfg p s c fifo_len delta read_len ts_irq trace).hw =
      (read_fifo_chunk cfg (c.notify p) fifo_len delta
        { loop := { hw := s.hw, trace := trace, ts_irq := ts_irq }, dev := s.dev,
          read_len := read_len }).2.loop.hw ∧
    (sys_pass cfg p s c fifo_len delta read_len ts_irq trace).dev =
      (read_fifo_chunk cfg (c.notify p) fifo_len delta
        { loop := { hw := s.hw, trace := trace, ts_irq := ts_irq }, dev := s.dev,
          read_len := read_len }).2.dev ∧
    (sys_pass cfg p s c fifo_len delta read_len ts_irq trace).fifo_lock = s.fifo_lock ∧
    (sys_pass cfg p s c fifo_len delta read_len ts_irq trace).reads =
      s.reads ++
        [{ ctx := c, reg := Reg.ST_ASM330LHHX_REG_FIFO_DATA_OUT_TAG_ADDR,
           len := min (fifo_len - read_len) (60 * ST_ASM330LHHX_FIFO_SAMPLE_SIZE),
           err := (read_fifo_chunk cfg (c.notify p) fifo_len delta
             { loop := { hw := s.hw, trace := trace, ts_irq := ts_irq }, dev := s.dev,
               read_len := read_len }).1,
           bytes := fifo_taken s.dev (read_fifo_chunk cfg (c.notify p) fifo_len delta
             { loop := { hw := s.hw, trace := trace, ts_irq := ts_irq }, dev := s.dev,
               read_len := read_len }).2.dev }] ∧
    (sys_pass cfg p s c fifo_len delta read_len ts_irq trace).captured = s.captured := by
  unfold sys_pass
  dsimp only
  rw [if_pos h]
  split_ifs
  · exact ⟨rfl, rfl, rfl, rfl, rfl, rfl⟩
  · exact ⟨rfl, rfl, rfl, rfl, rfl, rfl⟩

theorem whole_of_nil (c : Context) (reg : Reg) (len : Nat) (err : Int)
    (h : ¬ (reg = Reg.ST_ASM330LHHX_REG_FIFO_DATA_OUT_TAG_ADDR ∧ ¬ err < 0)) :
    FifoRead.whole { ctx := c, reg := reg, len := len, err := err, bytes := [] } = true := by
  unfold FifoRead.whole
  rw [if_neg h]
  rfl

theorem whole_of_length (c : Context) (reg : Reg) (len : Nat) (err : Int) (bytes : List Nat)
    (h1 : reg = Reg.ST_ASM330LHHX_REG_FIFO_DATA_OUT_TAG_ADDR ∧ ¬ err < 0)
    (h2 : bytes.length = len) :
    FifoRead.whole { ctx := c, reg := reg, len := len, err := err, bytes := bytes } = true := by
  unfold FifoRead.whole
  rw [if_pos h1]
  exact decide_eq_true h2

/-- What the entry of `st_asm330lhhx_read_fifo` does to the bytes: its read of the status
register takes nothing out of the FIFO, and the bytes of the depth it computes are in the
FIFO. -/
theorem sys_entry_stream (cfg : Config) (p : DrainCalls) (s : Sys) (c : Context) (now : Int) :
    (sys_entry cfg p s c now).captured = s.captured ∧
    ∃ X l, (sys_entry cfg p s c now).pc = Function.update s.pc c X ∧
      (sys_entry cfg p s c now).reads = s.reads ++ l ∧ (∀ e ∈ l, e.whole = true) ∧
      s.dev.fifo = taken_bytes l ++ (sys_entry cfg p s c now).dev.fifo ∧
      ∀ fifo_len delta read_len ts_irq trace,
        X = Pc.loop fifo_len delta read_len ts_irq trace →
        fifo_len - read_len ≤ (sys_entry cfg p s c now).dev.fifo.length := by
  obtain ⟨f1, f2⟩ := read_status_frame (hardware_status s.dev)
  have hf : (st_asm330lhhx_read_locked (hardware_status s.dev)
      Reg.ST_ASM330LHHX_REG_FIFO_STATUS1_ADDR 2).2.2.fifo = s.dev.fifo := f1
  have ht : fifo_taken s.dev (st_asm330lhhx_read_locked (hardware_status s.dev)
      Reg.ST_ASM330LHHX_REG_FIFO_STATUS1_ADDR 2).2.2 = [] := fifo_taken_same _ _ hf
  have hwhole : ∀ e ∈ [FifoRead.mk c Reg.ST_ASM330LHHX_REG_FIFO_STATUS1_ADDR 2
      (st_asm330lhhx_read_locked (hardware_status s.dev)
        Reg.ST_ASM330LHHX_REG_FIFO_STATUS1_ADDR 2).1
      (fifo_taken s.dev (st_asm330lhhx_read_locked (hardware_status s.dev)
        Reg.ST_ASM330LHHX_REG_FIFO_STATUS1_ADDR 2).2.2)], e.whole = true := by
    intro e he
    rw [List.mem_singleton] at he
    rw [he, ht]
    exact whole_of_nil _ _ _ _ (fun h => by cases h.1)
  have hbytes : s.dev.fifo =
      taken_bytes [FifoRead.mk c Reg.ST_ASM330LHHX_REG_FIFO_STATUS1_ADDR 2
        (st_asm330lhhx_read_locked (hardware_status s.dev)
          Reg.ST_ASM330LHHX_REG_FIFO_STATUS1_ADDR 2).1
        (fifo_taken s.dev (st_asm330lhhx_read_locked (hardware_status s.dev)
          Reg.ST_ASM330LHHX_REG_FIFO_STATUS1_ADDR 2).2.2)] ++
      (st_asm330lhhx_read_locked (hardware_status s.dev)
        Reg.ST_ASM330LHHX_REG_FIFO_STATUS1_ADDR 2).2.2.fifo := by
    show s.dev.fifo = (fifo_taken s.dev _ ++ []) ++ _
    rw [ht, hf]
    rfl
  unfold sys_entry
  dsimp only
  split_ifs with h1 h2 h3
  · refine ⟨rfl, _, [], rfl, (List.append_nil _).symm, ?_, rfl, ?_⟩
    · intro e he
      cases he
    · intro _ _ _ _ _ hX
      cases hX
  · refine ⟨rfl, _, _, rfl, rfl, hwhole, hbytes, ?_⟩
    intro _ _ _ _ _ hX
    cases hX
  · refine ⟨rfl, _, _, rfl, rfl, hwhole, hbytes, ?_⟩
    intro _ _ _ _ _ hX
    cases hX
  · refine ⟨rfl, _, _, rfl, rfl, hwhole, hbytes, ?_⟩
    intro fifo_len delta read_len ts_irq trace hX
    obtain ⟨e1, _, e3, _, _⟩ := Pc.loop.inj hX
    have hdep : u16 (get_unaligned_le16
        (st_asm330lhhx_read_locked (hardware_status s.dev)
          Reg.ST_ASM330LHHX_REG_FIFO_STATUS1_ADDR 2).2.1 0 &&&
        cfg.fifo_status_diff) = status_fifo_depth cfg (hardware_status s.dev) := by
      rw [f2 h2]
      rfl
    rw [← e1, ← e3, hdep]
    show _ ≤ (st_asm330lhhx_read_locked (hardware_status s.dev)
      Reg.ST_ASM330LHHX_REG_FIFO_STATUS1_ADDR 2).2.2.fifo.length
    rw [hf]
    exact le_trans (Nat.sub_le _ _) (hardware_depth_le cfg s.dev)

/-- What a test of the chunk loop does to the bytes when the bytes still to be read are
in the FIFO: a successful read takes out exactly the bytes it asks for, a failed one
nothing, and the bytes still to be read afterwards are in the FIFO. -/
theorem sys_pass_stream (cfg : Config) (p : DrainCalls) (s : Sys) (c : Context)
    (fifo_len : Nat) (delta : Int) (read_len : Nat) (ts_irq : Int) (trace : List Action)
    (hb : fifo_len - read_len ≤ s.dev.fifo.length) :
    (sys_pass cfg p s c fifo_len delta read_len ts_irq trace).captured = s.captured ∧
    ∃ X l, (sys_pass cfg p s c fifo_len delta read_len ts_irq trace).pc =
        Function.update s.pc c X ∧
      (sys_pass cfg p s c fifo_len delta read_len ts_irq trace).reads = s.reads ++ l ∧
      (∀ e ∈ l, e.whole = true) ∧
      s.dev.fifo = taken_bytes l ++
        (sys_pass cfg p s c fifo_len delta read_len ts_irq trace).dev.fifo ∧
      ∀ fifo_len2 delta2 read_len2 ts_irq2 trace2,
        X = Pc.loop fifo_len2 delta2 read_len2 ts_irq2 trace2 →
        fifo_len2 - read_len2 ≤
          (sys_pass cfg p s c fifo_len delta read_len ts_irq trace).dev.fifo.length := by
  by_cases hlt : read_len < fifo_len
  · obtain ⟨q1, _, q3, _, q5, q6⟩ :=
      sys_pass_chunk cfg p s c fifo_len delta read_len ts_irq trace hlt
    obtain ⟨k1, k2⟩ := read_fifo_chunk_fifo cfg (c.notify p) fifo_len delta
      { loop := { hw := s.hw, trace := trace, ts_irq := ts_irq }, dev := s.dev,
        read_len := read_len }
    rw [q1, q3, q5, q6]
    generalize read_fifo_chunk cfg (c.notify p) fifo_len delta
      { loop := { hw := s.hw, trace := trace, ts_irq := ts_irq }, dev := s.dev,
        read_len := read_len } = q at k1 k2
    by_cases hf : q.1 < 0
    · have hfifo : q.2.dev.fifo = s.dev.fifo := k1 hf
      rw [if_pos hf]
      refine ⟨rfl, _, _, rfl, rfl, ?_, ?_, ?_⟩
      · intro e he
        rw [List.mem_singleton] at he
        rw [he, fifo_taken_same _ _ hfifo]
        exact whole_of_nil _ _ _ _ (fun h => h.2 hf)
      · show s.dev.fifo = (fifo_taken s.dev q.2.dev ++ []) ++ q.2.dev.fifo
        rw [fifo_taken_same _ _ hfifo, hfifo]
        rfl
      · intro _ _ _ _ _ hX
        cases hX
    · obtain ⟨hfifo, hlen⟩ := k2 hf
      have hfifo2 : q.2.dev.fifo = s.dev.fifo.drop
          (min (fifo_len - read_len) (60 * ST_ASM330LHHX_FIFO_SAMPLE_SIZE)) := hfifo
      have hlen2 : q.2.read_len =
          read_len + min (fifo_len - read_len) (60 * ST_ASM330LHHX_FIFO_SAMPLE_SIZE) := hlen
      obtain ⟨t1, t2⟩ := fifo_taken_drop s.dev q.2.dev _ hfifo2
      rw [if_neg hf]
      refine ⟨rfl, _, _, rfl, rfl, ?_, ?_, ?_⟩
      · intro e he
        rw [List.mem_singleton] at he
        rw [he]
        exact whole_of_length _ _ _ _ _ ⟨rfl, hf⟩
          (t2 (le_trans (Nat.min_le_left _ _) hb))
      · show s.dev.fifo = (fifo_taken s.dev q.2.dev ++ []) ++ q.2.dev.fifo
        rw [List.append_nil, t1]
      · intro fifo_len2 delta2 read_len2 ts_irq2 trace2 hX
        obtain ⟨e1, _, e3, _, _⟩ := Pc.loop.inj hX
        rw [← e1, ← e3, hfifo2, hlen2, List.length_drop]
        omega
  · obtain ⟨q1, _, q3, _, q5, q6⟩ :=
      sys_pass_exit cfg p s c fifo_len delta read_len ts_irq trace hlt
    rw [q1, q3, q5, q6, (read_fifo_end_dev cfg (c.notify p) _).1]
    refine ⟨rfl, _, [], rfl, (List.append_nil _).symm, ?_, rfl, ?_⟩
    · intro e he
      cases he
    · intro _ _ _ _ _ hX
      cases hX

/-- A step of the context that holds the lock keeps `sys_stream`. -/
theorem sys_stream_body (s s2 : Sys) (c : Context)
    (hi : ∀ k, (s.pc k).inside = true ↔ s.fifo_lock = some k)
    (hin : (s.pc c).inside = true) (h : sys_stream s) (hc : s2.captured = s.captured)
    (hb : ∃ X l, s2.pc = Function.update s.pc c X ∧ s2.reads = s.reads ++ l ∧
      (∀ e ∈ l, e.whole = true) ∧ s.dev.fifo = taken_bytes l ++ s2.dev.fifo ∧
      ∀ fifo_len delta read_len ts_irq trace,
        X = Pc.loop fifo_len delta read_len ts_irq trace →
        fifo_len - read_len ≤ s2.dev.fifo.length) : sys_stream s2 := by
  obtain ⟨s1, s3, _⟩ := h
  obtain ⟨X, l, b1, b2, b3, b4, b5⟩ := hb
  refine ⟨?_, ?_, ?_⟩
  · rw [hc, s1, b2, taken_bytes_append, b4, List.append_assoc]
  · intro e he
    rw [b2] at he
    rcases List.mem_append.mp he with h | h
    · exact s3 e h
    · exact b3 e h
  · intro k fifo_len delta read_len ts_irq trace hk
    rw [b1] at hk
    by_cases hkc : k = c
    · subst hkc
      rw [Function.update_same] at hk
      exact b5 _ _ _ _ _ hk
    · rw [Function.update_noteq hkc] at hk
      have h1 := (hi k).mp (by rw [hk]; rfl)
      rw [(hi c).mp hin] at h1
      exact absurd (Option.some.inj h1).symm hkc

/-- A step of a context keeps `sys_stream`. -/
theorem sys_stream_step (cfg : Config) (p : DrainCalls) (s : Sys) (c : Context) (now : Int)
    (hi : sys_inv s) (h : sys_stream s) : sys_stream (sys_step cfg p s c now) := by
  obtain ⟨i1, _, _⟩ := hi
  cases hpc : s.pc c with
  | start =>
    have hstep : sys_step cfg p s c now = sys_lock s c now := by
      unfold sys_step
      rw [hpc]
    rw [hstep]
    obtain ⟨s1, s2, s3⟩ := h
    unfold sys_lock mutex_lock
    by_cases hl : s.fifo_lock = none
    · rw [if_pos hl]
      refine ⟨s1, s2, ?_⟩
      intro k fifo_len delta read_len ts_irq trace hk
      have hk2 : Function.update s.pc c Pc.entry k =
          Pc.loop fifo_len delta read_len ts_irq trace := hk
      by_cases hkc : k = c
      · subst hkc
        rw [Function.update_same] at hk2
        cases hk2
      · rw [Function.update_noteq hkc] at hk2
        exact s3 k _ _ _ _ _ hk2
    · rw [if_neg hl]
      exact ⟨s1, s2, s3⟩
  | entry =>
    have hstep : sys_step cfg p s c now = sys_entry cfg p s c now := by
      unfold sys_step
      rw [hpc]
    rw [hstep]
    exact sys_stream_body s _ c i1 (by rw [hpc]; rfl) h (sys_entry_stream cfg p s c now).1
      (sys_entry_stream cfg p s c now).2
  | loop fifo_len delta read_len ts_irq trace =>
    have hstep : sys_step cfg p s c now =
        sys_pass cfg p s c fifo_len delta read_len ts_irq trace := by
      unfold sys_step
      rw [hpc]
    rw [hstep]
    have hb := h.2.2 c _ _ _ _ _ hpc
    exact sys_stream_body s _ c i1 (by rw [hpc]; rfl) h
      (sys_pass_stream cfg p s c fifo_len delta read_len ts_irq trace hb).1
      (sys_pass_stream cfg p s c fifo_len delta read_len ts_irq trace hb).2
  | returned ret trace =>
    have hstep : sys_step cfg p s c now = sys_unlock p s c ret trace := by
      unfold sys_step
      rw [hpc]
    rw [hstep]
    obtain ⟨s1, s2, s3⟩ := h
    unfold sys_unlock
    refine ⟨s1, s2, ?_⟩
    intro k fifo_len delta read_len ts_irq trace2 hk
    have hk2 : Function.update s.pc c (Pc.finished ret trace) k =
        Pc.loop fifo_len delta read_len ts_irq trace2 := hk
    by_cases hkc : k = c
    · subst hkc
      rw [Function.update_same] at hk2
      cases hk2
    · rw [Function.update_noteq hkc] at hk2
      exact s3 k _ _ _ _ _ hk2
  | finished ret trace =>
    have hstep : sys_step cfg p s c now = s := by
      unfold sys_step
      rw [hpc]
    rw [hstep]
    exact h

theorem sys_inv_event (cfg : Config) (p : DrainCalls) (s : Sys) (ev : Event)
    (h : sys_inv s) : sys_inv (sys_event cfg p s ev) := by
  cases ev with
  | run c now => exact sys_inv_step cfg p s c now h
  | capture bytes => exact h

theorem sys_stream_event (cfg : Config) (p : DrainCalls) (s : Sys) (ev : Event)
    (hi : sys_inv s) (h : sys_stream s) : sys_stream (sys_event cfg p s ev) := by
  cases ev with
  | run c now => exact sys_stream_step cfg p s c now hi h
  | capture bytes =>
    obtain ⟨s1, s2, s3⟩ := h
    refine ⟨?_, s2, ?_⟩
    · show s.captured ++ bytes = taken_bytes s.reads ++ (s.dev.fifo ++ bytes)
      rw [s1, List.append_assoc]
    · intro k fifo_len delta read_len ts_irq trace hk
      show fifo_len - read_len ≤ (s.dev.fifo ++ bytes).length
      rw [List.length_append]
      exact le_trans (s3 k _ _ _ _ _ hk) (Nat.le_add_right _ _)

theorem sys_inv_run (cfg : Config) (p : DrainCalls) (events : List Event) :
    ∀ s : Sys, sys_inv s → sys_stream s →
      sys_inv (events.foldl (sys_event cfg p) s) ∧
      sys_stream (events.foldl (sys_event cfg p) s) := by
  induction events with
  | nil => intro s h1 h2; exact ⟨h1, h2⟩
  | cons ev rest ih =>
    intro s h1 h2
    rw [List.foldl_cons]
    exact ih _ (sys_inv_event cfg p s ev h1) (sys_stream_event cfg p s ev h1 h2)

theorem sys_inv_init (hw : Hw) (dev : Dev) : sys_inv (sys_init hw dev) := by
  refine ⟨?_, ?_, Context.flush, [], [], rfl, ?_, ?_, ?_⟩
  · intro c
    exact ⟨fun h => (by cases h), fun h => (by cases h)⟩
  · intro c _ e he
    cases he
  · intro e he
    cases he
  · intro e he
    cases he
  · intro h
    exact absurd rfl h

theorem sys_stream_init (hw : Hw) (dev : Dev) : sys_stream (sys_init hw dev) := by
  refine ⟨rfl, ?_, ?_⟩
  · intro e he
    cases he
  · intro c _ _ _ _ _ h
    cases h

theorem sys_steps_add (cfg : Config) (p : DrainCalls) (c : Context) (now : Int) (m : Nat) :
    ∀ (n : Nat) (s : Sys), sys_steps cfg p c now (n + m) s =
      sys_steps cfg p c now m (sys_steps cfg p c now n s) := by
  intro n
  induction n with
  | zero =>
    intro s
    rw [Nat.zero_add]
    rfl
  | succ k ih =>
    intro s
    rw [Nat.add_right_comm]
    exact ih _

/-- A context that is in the chunk loop and goes on alone leaves `st_asm330lhhx_read_fifo`
with what `read_fifo_loop` and `read_fifo_end` give. -/
theorem sys_loop_alone (cfg : Config) (p : DrainCalls) (c : Context) (now : Int)
    (fifo_len : Nat) (delta : Int) :
    ∀ (fuel : Nat) (s : Sys) (read_len : Nat) (ts_irq : Int) (trace : List Action)
      (r : Int × Drain), s.pc c = Pc.loop fifo_len delta read_len ts_irq trace →
      read_fifo_loop cfg (c.notify p) fifo_len delta fuel
        { loop := { hw := s.hw, trace := trace, ts_irq := ts_irq }, dev := s.dev,
          read_len := read_len } = some r →
      ∃ n, (sys_steps cfg p c now n s).pc =
          Function.update s.pc c
            (Pc.returned (read_fifo_end cfg (c.notify p) r).ret
              (read_fifo_end cfg (c.notify p) r).trace) ∧
        (sys_steps cfg p c now n s).hw = (read_fifo_end cfg (c.notify p) r).hw ∧
        (sys_steps cfg p c now n s).dev = (read_fifo_end cfg (c.notify p) r).dev ∧
        (sys_steps cfg p c now n s).fifo_lock = s.fifo_lock := by
  intro fuel
  induction fuel with
  | zero =>
    intro s read_len ts_irq trace r hpc hr
    unfold read_fifo_loop at hr
    by_cases hlt : read_len < fifo_len
    · simp [hlt] at hr
    · simp only [hlt, if_false, Option.some.injEq] at hr
      subst hr
      refine ⟨1, ?_⟩
      show (sys_step cfg p s c now).pc = _ ∧ (sys_step cfg p s c now).hw = _ ∧
        (sys_step cfg p s c now).dev = _ ∧ (sys_step cfg p s c now).fifo_lock = _
      unfold sys_step
      rw [hpc]
      obtain ⟨x1, x2, x3, x4, _, _⟩ :=
        sys_pass_exit cfg p s c fifo_len delta read_len ts_irq trace hlt
      exact ⟨x1, x2, x3, x4⟩
  | succ k ih =>
    intro s read_len ts_irq trace r hpc hr
    rw [read_fifo_loop] at hr
    by_cases hlt : read_len < fifo_len
    · simp only [hlt, if_true] at hr
      obtain ⟨q1, q2, q3, q4, _, _⟩ := sys_pass_chunk cfg p s c fifo_len delta read_len ts_irq trace hlt
      have hstep : sys_step cfg p s c now =
          sys_pass cfg p s c fifo_len delta read_len ts_irq trace := by
        unfold sys_step
        rw [hpc]
      by_cases hf : (read_fifo_chunk cfg (c.notify p) fifo_len delta
          { loop := { hw := s.hw, trace := trace, ts_irq := ts_irq }, dev := s.dev,
            read_len := read_len }).1 < 0
      · simp only [hf, if_true, Option.some.injEq] at hr
        subst hr
        rw [if_pos hf] at q1
        refine ⟨1, ?_⟩
        show (sys_step cfg p s c now).pc = _ ∧ (sys_step cfg p s c now).hw = _ ∧
          (sys_step cfg p s c now).dev = _ ∧ (sys_step cfg p s c now).fifo_lock = _
        rw [hstep, q1, q2, q3, q4]
        unfold read_fifo_end
        rw [if_pos hf]
        exact ⟨rfl, rfl, rfl, rfl⟩
      · simp only [hf, if_false] at hr
        rw [if_neg hf] at q1
        have hpc2 : (sys_step cfg p s c now).pc c = Pc.loop fifo_len delta
            (read_fifo_chunk cfg (c.notify p) fifo_len delta
              { loop := { hw := s.hw, trace := trace, ts_irq := ts_irq }, dev := s.dev,
                read_len := read_len }).2.read_len
            (read_fifo_chunk cfg (c.notify p) fifo_len delta
              { loop := { hw := s.hw, trace := trace, ts_irq := ts_irq }, dev := s.dev,
                read_len := read_len }).2.loop.ts_irq
            (read_fifo_chunk cfg (c.notify p) fifo_len delta
              { loop := { hw := s.hw, trace := trace, ts_irq := ts_irq }, dev := s.dev,
                read_len := read_len }).2.loop.trace := by
          rw [hstep, q1, Function.update_same]
        have hr2 : read_fifo_loop cfg (c.notify p) fifo_len delta k
            { loop := { hw := (sys_step cfg p s c now).hw,
                        trace := (read_fifo_chunk cfg (c.notify p) fifo_len delta
                          { loop := { hw := s.hw, trace := trace, ts_irq := ts_irq },
                            dev := s.dev, read_len := read_len }).2.loop.trace,
                        ts_irq := (read_fifo_chunk cfg (c.notify p) fifo_len delta
                          { loop := { hw := s.hw, trace := trace, ts_irq := ts_irq },
                            dev := s.dev, read_len := read_len }).2.loop.ts_irq },
              dev := (sys_step cfg p s c now).dev,
              read_len := (read_fifo_chunk cfg (c.notify p) fifo_len delta
                { loop := { hw := s.hw, trace := trace, ts_irq := ts_irq }, dev := s.dev,
                  read_len := read_len }).2.read_len } = some r := by
          rw [hstep, q2, q3]
          exact hr
        obtain ⟨n, n1, n2, n3, n4⟩ := ih (sys_step cfg p s c now) _ _ _ r hpc2 hr2
        refine ⟨n + 1, ?_⟩
        show (sys_steps cfg p c now n (sys_step cfg p s c now)).pc = _ ∧
          (sys_steps cfg p c now n (sys_step cfg p s c now)).hw = _ ∧
          (sys_steps cfg p c now n (sys_step cfg p s c now)).dev = _ ∧
          (sys_steps cfg p c now n (sys_step cfg p s c now)).fifo_lock = _
        refine ⟨?_, n2, n3, ?_⟩
        · rw [n1, hstep, q1, Function.update_idem]
        · rw [n4, hstep, q4]
    · simp only [hlt, if_false, Option.some.injEq] at hr
      subst hr
      refine ⟨1, ?_⟩
      show (sys_step cfg p s c now).pc = _ ∧ (sys_step cfg p s c now).hw = _ ∧
        (sys_step cfg p s c now).dev = _ ∧ (sys_step cfg p s c now).fifo_lock = _
      unfold sys_step
      rw [hpc]
      obtain ⟨x1, x2, x3, x4, _, _⟩ :=
        sys_pass_exit cfg p s c fifo_len delta read_len ts_irq trace hlt
      exact ⟨x1, x2, x3, x4⟩

/-- The entry of `st_asm330lhhx_read_fifo` when the chunk loop is reached. -/
theorem sys_entry_loop (cfg : Config) (p : DrainCalls) (s : Sys) (c : Context) (now : Int)
    (hop : ¬ (!s.hw.operational) = true)
    (hf : ¬ (st_asm330lhhx_read_locked (hardware_status s.dev)
      Reg.ST_ASM330LHHX_REG_FIFO_STATUS1_ADDR 2).1 < 0)
    (hd : ¬ u16 (get_unaligned_le16
      (st_asm330lhhx_read_locked (hardware_status s.dev)
        Reg.ST_ASM330LHHX_REG_FIFO_STATUS1_ADDR 2).2.1 0 &&& cfg.fifo_status_diff) = 0) :
    (sys_entry cfg p s c now).pc = Function.update s.pc c
      (Pc.loop
        (u16 (get_unaligned_le16
          (st_asm330lhhx_read_locked (hardware_status s.dev)
            Reg.ST_ASM330LHHX_REG_FIFO_STATUS1_ADDR 2).2.1 0 &&& cfg.fifo_status_diff) *
          ST_ASM330LHHX_FIFO_SAMPLE_SIZE)
        (div_s64 s.hw.delta_ts (u16 (get_unaligned_le16
          (st_asm330lhhx_read_locked (hardware_status s.dev)
            Reg.ST_ASM330LHHX_REG_FIFO_STATUS1_ADDR 2).2.1 0 &&& cfg.fifo_status_diff)))
        (read_fifo_begin s.hw
          (st_asm330lhhx_read_locked (hardware_status s.dev)
            Reg.ST_ASM330LHHX_REG_FIFO_STATUS1_ADDR 2).2.2
          (c.notify p) now (u16 (get_unaligned_le16
            (st_asm330lhhx_read_locked (hardware_status s.dev)
              Reg.ST_ASM330LHHX_REG_FIFO_STATUS1_ADDR 2).2.1 0 &&&
            cfg.fifo_status_diff))).read_len
        (read_fifo_begin s.hw
          (st_asm330lhhx_read_locked (hardware_status s.dev)
            Reg.ST_ASM330LHHX_REG_FIFO_STATUS1_ADDR 2).2.2
          (c.notify p) now (u16 (get_unaligned_le16
            (st_asm330lhhx_read_locked (hardware_status s.dev)
              Reg.ST_ASM330LHHX_REG_FIFO_STATUS1_ADDR 2).2.1 0 &&&
            cfg.fifo_status_diff))).loop.ts_irq
        (read_fifo_begin s.hw
          (st_asm330lhhx_read_locked (hardware_status s.dev)
            Reg.ST_ASM330LHHX_REG_FIFO_STATUS1_ADDR 2).2.2
          (c.notify p) now (u16 (get_unaligned_le16
            (st_asm330lhhx_read_locked (hardware_status s.dev)
              Reg.ST_ASM330LHHX_REG_FIFO_STATUS1_ADDR 2).2.1 0 &&&
            cfg.fifo_status_diff))).loop.trace) ∧
    (sys_entry cfg p s c now).hw =
      (read_fifo_begin s.hw
        (st_asm330lhhx_read_locked (hardware_status s.dev)
          Reg.ST_ASM330LHHX_REG_FIFO_STATUS1_ADDR 2).2.2
        (c.notify p) now (u16 (get_unaligned_le16
          (st_asm330lhhx_read_locked (hardware_status s.dev)
            Reg.ST_ASM330LHHX_REG_FIFO_STATUS1_ADDR 2).2.1 0 &&&
          cfg.fifo_status_diff))).loop.hw ∧
    (sys_entry cfg p s c now).dev =
      (read_fifo_begin s.hw
        (st_asm330lhhx_read_locked (hardware_status s.dev)
          Reg.ST_ASM330LHHX_REG_FIFO_STATUS1_ADDR 2).2.2
        (c.notify p) now (u16 (get_unaligned_le16
          (st_asm330lhhx_read_locked (hardware_status s.dev)
            Reg.ST_ASM330LHHX_REG_FIFO_STATUS1_ADDR 2).2.1 0 &&&
          cfg.fifo_status_diff))).dev ∧
    (sys_entry cfg p s c now).fifo_lock = s.fifo_lock := by
  unfold sys_entry
  dsimp only
  rw [if_neg hop, if_neg hf, if_neg hd]
  exact ⟨rfl, rfl, rfl, rfl⟩

/-- A context that holds the lock and goes on alone leaves `st_asm330lhhx_read_fifo` with
what the function returns and does in the state of that moment and on the device of that
moment, whose status word shows the depth of its FIFO. -/
theorem sys_drain_alone (cfg : Config) (p : DrainCalls) (c : Context) (now : Int) (s : Sys)
    (r : Result) (hpc : s.pc c = Pc.entry)
    (hr : st_asm330lhhx_read_fifo cfg s.hw (hardware_status s.dev) (c.notify p) now = some r) :
    ∃ n, (sys_steps cfg p c now n s).pc = Function.update s.pc c (Pc.returned r.ret r.trace) ∧
      (sys_steps cfg p c now n s).hw = r.hw ∧
      hardware_status (sys_steps cfg p c now n s).dev = hardware_status r.dev ∧
      (sys_steps cfg p c now n s).fifo_lock = s.fifo_lock := by
  have hstep : sys_step cfg p s c now = sys_entry cfg p s c now := by
    unfold sys_step
    rw [hpc]
  unfold st_asm330lhhx_read_fifo at hr
  dsimp only at hr
  by_cases hop : (!s.hw.operational) = true
  · rw [if_pos hop, Option.some.injEq] at hr
    subst hr
    refine ⟨1, ?_⟩
    show (sys_step cfg p s c now).pc = _ ∧ (sys_step cfg p s c now).hw = _ ∧
      hardware_status (sys_step cfg p s c now).dev = _ ∧
      (sys_step cfg p s c now).fifo_lock = _
    rw [hstep]
    unfold sys_entry
    dsimp only
    rw [if_pos hop]
    exact ⟨rfl, rfl, rfl, rfl⟩
  · rw [if_neg hop] at hr
    by_cases hf : (st_asm330lhhx_read_locked (hardware_status s.dev)
        Reg.ST_ASM330LHHX_REG_FIFO_STATUS1_ADDR 2).1 < 0
    · rw [if_pos hf, Option.some.injEq] at hr
      subst hr
      refine ⟨1, ?_⟩
      show (sys_step cfg p s c now).pc = _ ∧ (sys_step cfg p s c now).hw = _ ∧
        hardware_status (sys_step cfg p s c now).dev = _ ∧
        (sys_step cfg p s c now).fifo_lock = _
      rw [hstep]
      unfold sys_entry
      dsimp only
      rw [if_neg hop, if_pos hf]
      exact ⟨rfl, rfl, rfl, rfl⟩
    · rw [if_neg hf] at hr
      by_cases hd : u16 (get_unaligned_le16
          (st_asm330lhhx_read_locked (hardware_status s.dev)
            Reg.ST_ASM330LHHX_REG_FIFO_STATUS1_ADDR 2).2.1 0 &&&
          cfg.fifo_status_diff) = 0
      · rw [if_pos hd, Option.some.injEq] at hr
        subst hr
        refine ⟨1, ?_⟩
        show (sys_step cfg p s c now).pc = _ ∧ (sys_step cfg p s c now).hw = _ ∧
          hardware_status (sys_step cfg p s c now).dev = _ ∧
          (sys_step cfg p s c now).fifo_lock = _
        rw [hstep]
        unfold sys_entry
        dsimp only
        rw [if_neg hop, if_neg hf, if_pos hd]
        exact ⟨rfl, rfl, rfl, rfl⟩
      · rw [if_neg hd] at hr
        obtain ⟨r0, hr0, hr1⟩ := Option.map_eq_some'.mp hr
        subst hr1
        obtain ⟨e1, e2, e3, e4⟩ := sys_entry_loop cfg p s c now hop hf hd
        obtain ⟨n, n1, n2, n3, n4⟩ := sys_loop_alone cfg p c now _ _ _ (sys_step cfg p s c now)
          _ _ _ r0 (by rw [hstep, e1]; exact Function.update_same _ _ _) (by
            rw [hstep, e2, e3]
            exact hr0)
        refine ⟨n + 1, ?_⟩
        show (sys_steps cfg p c now n (sys_step cfg p s c now)).pc = _ ∧
          (sys_steps cfg p c now n (sys_step cfg p s c now)).hw = _ ∧
          hardware_status (sys_steps cfg p c now n (sys_step cfg p s c now)).dev = _ ∧
          (sys_steps cfg p c now n (sys_step cfg p s c now)).fifo_lock = _
        refine ⟨?_, n2, ?_, ?_⟩
        · rw [n1, hstep, e1]
          exact Function.update_idem _ _ _
        · rw [n3]
        · rw [n4, hstep, e4]

theorem sys_step_returned (cfg : Config) (p : DrainCalls) (s : Sys) (c : Context) (now : Int)
    (ret : Int) (trace : List Action) (h : s.pc c = Pc.returned ret trace) :
    sys_step cfg p s c now = sys_unlock p s c ret trace := by
  unfold sys_step
  rw [h]

theorem sys_unlock_frame (p : DrainCalls) (s : Sys) (ret : Int) (trace : List Action) :
    (sys_unlock p s Context.flush ret trace).hw =
      set_sensor s.hw p.id { iio_priv s.hw p.id with dec_counter := 0 } ∧
    (sys_unlock p s Context.handler ret trace).hw = { s.hw with flush := false } ∧
    (∀ c, (sys_unlock p s c ret trace).dev = s.dev) ∧
    (∀ c, (sys_unlock p s c ret trace).fifo_lock = none) ∧
    ∀ c, (sys_unlock p s c ret trace).pc = Function.update s.pc c (Pc.finished ret trace) := by
  unfold sys_unlock
  exact ⟨rfl, rfl, fun _ => rfl, fun _ => rfl, fun _ => rfl⟩

theorem sys_lock_free (s : Sys) (c : Context) (now : Int) (hl : s.fifo_lock = none) :
    (sys_lock s c now).hw = c.enter now s.hw ∧
    (sys_lock s c now).dev = s.dev ∧ (sys_lock s c now).fifo_lock = some c ∧
    (sys_lock s c now).pc = Function.update s.pc c Pc.entry := by
  unfold sys_lock mutex_lock
  rw [if_pos hl]
  exact ⟨rfl, rfl, rfl, rfl⟩

/-- A context that finds the lock free and goes on alone to its `mutex_unlock` leaves the
driver state and the device as its driver function does when called on the state of that
moment and on the device of that moment, whose status word shows the depth of its FIFO:
`st_asm330lhhx_flush_fifo` for the flush, `st_asm330lhhx_handler_thread` for the slow
handler. What it returns from `st_asm330lhhx_read_fifo` is what that drain returns. -/
theorem sys_context_alone (cfg : Config) (p : DrainCalls) (c : Context) (now : Int) (s : Sys)
    (hpc : s.pc c = Pc.start) (hl : s.fifo_lock = none) :
    ∃ n r r0,
      st_asm330lhhx_read_fifo cfg (c.enter now s.hw) (hardware_status s.dev) (c.notify p) now =
        some r0 ∧
      exec cfg s.hw (hardware_status s.dev) (c.call p now) = some r ∧
      (sys_steps cfg p c now n s).hw = r.hw ∧
      hardware_status (sys_steps cfg p c now n s).dev = hardware_status r.dev ∧
      r.dev = r0.dev ∧
      (sys_steps cfg p c now n s).fifo_lock = none ∧
      (sys_steps cfg p c now n s).pc c = Pc.finished r0.ret r0.trace := by
  have hstep1 : sys_step cfg p s c now = sys_lock s c now := by
    unfold sys_step
    rw [hpc]
  obtain ⟨l1, l2, l3, l4⟩ := sys_lock_free s c now hl
  obtain ⟨r0, hr0⟩ := read_fifo_total cfg (sys_step cfg p s c now).hw
    (hardware_status (sys_step cfg p s c now).dev) (c.notify p) now
  obtain ⟨n, n1, n2, n3, n4⟩ := sys_drain_alone cfg p c now (sys_step cfg p s c now) r0
    (by rw [hstep1, l4]; exact Function.update_same _ _ _) hr0
  have hpc2 : (sys_steps cfg p c now n (sys_step cfg p s c now)).pc c =
      Pc.returned r0.ret r0.trace := by
    rw [n1]
    exact Function.update_same _ _ _
  have hlast : sys_steps cfg p c now (n + 1 + 1) s =
      sys_unlock p (sys_steps cfg p c now n (sys_step cfg p s c now)) c r0.ret r0.trace := by
    rw [sys_steps_add cfg p c now 1 (n + 1) s]
    exact sys_step_returned cfg p _ c now _ _ hpc2
  obtain ⟨u1, u2, u3, u4, u5⟩ := sys_unlock_frame p
    (sys_steps cfg p c now n (sys_step cfg p s c now)) r0.ret r0.trace
  have hfin : (sys_steps cfg p c now (n + 1 + 1) s).pc c = Pc.finished r0.ret r0.trace := by
    rw [hlast, u5 c, Function.update_same]
  rw [hstep1, l1, l2] at hr0
  cases c with
  | flush =>
    obtain ⟨r, f1, f2, f3⟩ := flush_fifo_eq cfg s.hw (hardware_status s.dev) p.id now r0 hr0
    refine ⟨n + 1 + 1, r, r0, hr0, f1, ?_, ?_, f3, ?_, hfin⟩
    · rw [hlast, u1, n2, f2]
    · rw [hlast, u3, n3, f3]
    · rw [hlast, u4]
  | handler =>
    obtain ⟨r, f1, f2, f3⟩ := handler_thread_eq cfg s.hw (hardware_status s.dev) p.notify now
      r0 hr0
    refine ⟨n + 1 + 1, r, r0, hr0, f1, ?_, ?_, f3, ?_, hfin⟩
    · rw [hlast, u2, n2, f2]
    · rw [hlast, u3, n3, f3]
    · rw [hlast, u4]

/-- A drain that leaves less than one record in the FIFO: the depth that the next status
read yields is 0. -/
theorem hardware_depth_drained (cfg : Config) (dev dev2 : Dev)
    (h : dev2.fifo = dev.fifo.drop
      (status_fifo_depth cfg (hardware_status dev) * ST_ASM330LHHX_FIFO_SAMPLE_SIZE))
    (h1 : dev.fifo.length / ST_ASM330LHHX_FIFO_SAMPLE_SIZE < 65536)
    (h2 : dev.fifo.length / ST_ASM330LHHX_FIFO_SAMPLE_SIZE &&& cfg.fifo_status_diff =
      dev.fifo.length / ST_ASM330LHHX_FIFO_SAMPLE_SIZE) :
    dev2.fifo.length < ST_ASM330LHHX_FIFO_SAMPLE_SIZE ∧
    status_fifo_depth cfg (hardware_status dev2) = 0 := by
  have hS : ST_ASM330LHHX_FIFO_SAMPLE_SIZE = 7 := rfl
  have hlen : dev2.fifo.length < ST_ASM330LHHX_FIFO_SAMPLE_SIZE := by
    rw [h, List.length_drop, hardware_depth, Nat.mod_eq_of_lt h1, h2, hS]
    omega
  refine ⟨hlen, ?_⟩
  rw [hardware_depth, Nat.div_eq_of_lt hlen]
  exact Nat.zero_and _

theorem sys_step_captured (cfg : Config) (p : DrainCalls) (s : Sys) (c : Context) (now : Int) :
    (sys_step cfg p s c now).captured = s.captured := by
  unfold sys_step
  cases hpc : s.pc c with
  | start =>
    dsimp only
    unfold sys_lock mutex_lock
    split_ifs
    · rfl
    · rfl
  | entry => exact (sys_entry_stream cfg p s c now).1
  | loop fifo_len delta read_len ts_irq trace =>
    dsimp only
    unfold sys_pass
    dsimp only
    split_ifs
    · rfl
    · rfl
    · rfl
  | returned ret trace => rfl
  | finished ret trace => rfl

/-- The bytes that have been in the device FIFO are those it held at the start followed by
those captured since. -/
theorem sys_run_captured (cfg : Config) (p : DrainCalls) (events : List Event) :
    ∀ s : Sys, (events.foldl (sys_event cfg p) s).captured =
      s.captured ++ captured_bytes events := by
  induction events with
  | nil =>
    intro s
    exact (List.append_nil _).symm
  | cons ev rest ih =>
    intro s
    rw [List.foldl_cons, ih]
    cases ev with
    | run c now =>
      show (sys_step cfg p s c now).captured ++ _ = _
      rw [sys_step_captured]
      rfl
    | capture bytes =>
      show (s.captured ++ bytes) ++ _ = s.captured ++ (bytes ++ _)
      rw [List.append_assoc]

/-- A context that finds the lock free and goes on alone: its drain is the driver function
on the device of that moment, the depth it is shown is the number of records in the FIFO,
and when it returns no error it has taken that many records out of the FIFO. -/
theorem sys_context_drains (cfg : Config) (p : DrainCalls) (c : Context) (now : Int) (s : Sys)
    (hpc : s.pc c = Pc.start) (hl : s.fifo_lock = none) :
    ∃ n r r0,
      st_asm330lhhx_read_fifo cfg (c.enter now s.hw) (hardware_status s.dev) (c.notify p) now =
        some r0 ∧
      exec cfg s.hw (hardware_status s.dev) (c.call p now) = some r ∧
      (sys_steps cfg p c now n s).hw = r.hw ∧
      hardware_status (sys_steps cfg p c now n s).dev = hardware_status r.dev ∧
      (sys_steps cfg p c now n s).fifo_lock = none ∧
      (sys_steps cfg p c now n s).pc c = Pc.finished r0.ret r0.trace ∧
      status_fifo_depth cfg (hardware_status s.dev) =
        (s.dev.fifo.length / ST_ASM330LHHX_FIFO_SAMPLE_SIZE % 65536) &&&
          cfg.fifo_status_diff ∧
      (s.hw.operational = true → ¬ r0.ret < 0 →
        (sys_steps cfg p c now n s).dev.fifo =
          s.dev.fifo.drop
            (status_fifo_depth cfg (hardware_status s.dev) * ST_ASM330LHHX_FIFO_SAMPLE_SIZE) ∧
        (s.dev.fifo.length / ST_ASM330LHHX_FIFO_SAMPLE_SIZE < 65536 →
          s.dev.fifo.length / ST_ASM330LHHX_FIFO_SAMPLE_SIZE &&& cfg.fifo_status_diff =
            s.dev.fifo.length / ST_ASM330LHHX_FIFO_SAMPLE_SIZE →
          (sys_steps cfg p c now n s).dev.fifo.length < ST_ASM330LHHX_FIFO_SAMPLE_SIZE ∧
          status_fifo_depth cfg (hardware_status (sys_steps cfg p c now n s).dev) = 0)) := by
  obtain ⟨n, r, r0, a1, a2, a3, a4, a5, a6, a7⟩ := sys_context_alone cfg p c now s hpc hl
  refine ⟨n, r, r0, a1, a2, a3, a4, a6, a7, hardware_depth cfg s.dev, ?_⟩
  intro hop hret
  have hop2 : (c.enter now s.hw).operational = true := by
    cases c
    · exact hop
    · exact hop
  have hfifo : (sys_steps cfg p c now n s).dev.fifo =
      s.dev.fifo.drop
        (status_fifo_depth cfg (hardware_status s.dev) * ST_ASM330LHHX_FIFO_SAMPLE_SIZE) := by
    have e1 : (hardware_status (sys_steps cfg p c now n s).dev).fifo =
        (hardware_status r.dev).fifo := congrArg Dev.fifo a4
    have e2 : (sys_steps cfg p c now n s).dev.fifo = r.dev.fifo := e1
    rw [e2, a5]
    exact read_fifo_fifo cfg _ _ _ _ r0 hop2 a1 hret
  exact ⟨hfifo, fun h1 h2 => hardware_depth_drained cfg s.dev _ hfifo h1 h2⟩

/-- C21 (amended): in every interleaving of the steps of a flush, of the slow handler and
of the device capturing records, a context is between its `mutex_lock(&hw->fifo_lock)` and
its `mutex_unlock(&hw->fifo_lock)` exactly when it holds the lock, so the two are never
there together. The reads of the FIFO registers are those of the context that took the
lock first followed by those of the other, and the other has issued a read only once the
first has returned from its drain and released the lock. The bytes that the FIFO held at
the start and those captured since are, in order, the bytes taken out by the reads of the
first context, those taken out by the reads of the second, and those still in the FIFO:
no byte is handed to two reads. Every successful read of the data register took out all
the bytes it asked for, every other read none. A context that finds the lock free and
runs to its unlock does to the driver state and to the device what its driver function
does when called then on the device with its status word showing the number of records in
the FIFO; the depth it is shown is that number, modulo 2^16 and masked; and when the
driver is operational and the drain returns no error, it has taken that many records out
of the FIFO, so that, when the depth field can hold the number of records, less than one
record is left and the depth shown at the next status read with no record captured in
between is 0. -/
theorem drains_do_not_interleave (cfg : Config) (p : DrainCalls) (hw : Hw) (dev : Dev)
    (events : List Event) :
    (∀ c, ((sys_run cfg p hw dev events).pc c).inside = true ↔
      (sys_run cfg p hw dev events).fifo_lock = some c) ∧
    ¬ (((sys_run cfg p hw dev events).pc Context.flush).inside = true ∧
      ((sys_run cfg p hw dev events).pc Context.handler).inside = true) ∧
    (∃ a l1 l2, (sys_run cfg p hw dev events).reads = l1 ++ l2 ∧ (∀ e ∈ l1, e.ctx = a) ∧
      (∀ e ∈ l2, e.ctx ≠ a) ∧
      (l2 ≠ [] → ((sys_run cfg p hw dev events).pc a).is_finished = true) ∧
      dev.fifo ++ captured_bytes events =
        taken_bytes l1 ++ taken_bytes l2 ++ (sys_run cfg p hw dev events).dev.fifo) ∧
    (∀ e ∈ (sys_run cfg p hw dev events).reads, e.whole = true) ∧
    ∀ (c : Context) (now : Int),
      (sys_run cfg p hw dev events).pc c = Pc.start →
      (sys_run cfg p hw dev events).fifo_lock = none →
      ∃ n r r0,
        st_asm330lhhx_read_fifo cfg (c.enter now (sys_run cfg p hw dev events).hw)
          (hardware_status (sys_run cfg p hw dev events).dev) (c.notify p) now = some r0 ∧
        exec cfg (sys_run cfg p hw dev events).hw
          (hardware_status (sys_run cfg p hw dev events).dev) (c.call p now) = some r ∧
        (sys_steps cfg p c now n (sys_run cfg p hw dev events)).hw = r.hw ∧
        hardware_status (sys_steps cfg p c now n (sys_run cfg p hw dev events)).dev =
          hardware_status r.dev ∧
        (sys_steps cfg p c now n (sys_run cfg p hw dev events)).fifo_lock = none ∧
        (sys_steps cfg p c now n (sys_run cfg p hw dev events)).pc c =
          Pc.finished r0.ret r0.trace ∧
        status_fifo_depth cfg (hardware_status (sys_run cfg p hw dev events).dev) =
          ((sys_run cfg p hw dev events).dev.fifo.length / ST_ASM330LHHX_FIFO_SAMPLE_SIZE %
            65536) &&& cfg.fifo_status_diff ∧
        ((sys_run cfg p hw dev events).hw.operational = true → ¬ r0.ret < 0 →
          (sys_steps cfg p c now n (sys_run cfg p hw dev events)).dev.fifo =
            (sys_run cfg p hw dev events).dev.fifo.drop
              (status_fifo_depth cfg (hardware_status (sys_run cfg p hw dev events).dev) *
                ST_ASM330LHHX_FIFO_SAMPLE_SIZE) ∧
          ((sys_run cfg p hw dev events).dev.fifo.length / ST_ASM330LHHX_FIFO_SAMPLE_SIZE <
              65536 →
            (sys_run cfg p hw dev events).dev.fifo.length / ST_ASM330LHHX_FIFO_SAMPLE_SIZE &&&
                cfg.fifo_status_diff =
              (sys_run cfg p hw dev events).dev.fifo.length / ST_ASM330LHHX_FIFO_SAMPLE_SIZE →
            (sys_steps cfg p c now n (sys_run cfg p hw dev events)).dev.fifo.length <
              ST_ASM330LHHX_FIFO_SAMPLE_SIZE ∧
            status_fifo_depth cfg
              (hardware_status (sys_steps cfg p c now n (sys_run cfg p hw dev events)).dev) =
              0)) := by
  obtain ⟨⟨h1, _, a, l1, l2, h3, h4, h5, h6⟩, s1, s2, _⟩ :=
    sys_inv_run cfg p events (sys_init hw dev) (sys_inv_init hw dev) (sys_stream_init hw dev)
  have hcap := sys_run_captured cfg p events (sys_init hw dev)
  refine ⟨h1, ?_, ⟨a, l1, l2, h3, h4, h5, h6, ?_⟩, s2, ?_⟩
  · intro h
    have a1 := (h1 Context.flush).mp h.1
    have b1 := (h1 Context.handler).mp h.2
    unfold sys_run at a1 b1
    rw [a1] at b1
    cases b1
  · have e : dev.fifo ++ captured_bytes events =
        (sys_run cfg p hw dev events).captured := hcap.symm
    rw [e]
    unfold sys_run
    rw [s1, h3, taken_bytes_append]
  · intro c now hpc hl
    exact sys_context_drains cfg p c now _ hpc hl

/-- C21 (counterexample): a flush takes the lock and drains the three records of the
FIFO while the slow handler waits; the device captures a fourth record after the flush has
read the data register; when the flush has returned 21 and released the lock, the FIFO
holds that record and the status word yields a depth of 1; the slow handler then takes the
lock, reads the status register and drains that record. -/
theorem second_drain_observes_depth_one :
    (sys_run example_cfg { id := ST_ASM330LHHX_ID_ACC, notify := 0 } example_hw example_dev
      (example_events.take 9)).pc Context.flush =
      Pc.finished 21
        [Action.read Reg.ST_ASM330LHHX_REG_FIFO_STATUS1_ADDR 2,
         Action.read Reg.ST_ASM330LHHX_REG_FIFO_DATA_OUT_TAG_ADDR 21,
         Action.push 1 [1, 0, 2, 0, 3, 0] 2500500] ∧
    (sys_run example_cfg { id := ST_ASM330LHHX_ID_ACC, notify := 0 } example_hw example_dev
      (example_events.take 9)).pc Context.handler = Pc.start ∧
    (sys_run example_cfg { id := ST_ASM330LHHX_ID_ACC, notify := 0 } example_hw example_dev
      (example_events.take 9)).fifo_lock = none ∧
    (sys_run example_cfg { id := ST_ASM330LHHX_ID_ACC, notify := 0 } example_hw example_dev
      (example_events.take 9)).dev.fifo = [0x10, 7, 0, 8, 0, 9, 0] ∧
    status_fifo_depth example_cfg
      (hardware_status
        (sys_run example_cfg { id := ST_ASM330LHHX_ID_ACC, notify := 0 } example_hw example_dev
          (example_events.take 9)).dev) = 1 ∧
    (sys_run example_cfg { id := ST_ASM330LHHX_ID_ACC, notify := 0 } example_hw example_dev
      example_events).reads =
      [{ ctx := Context.flush, reg := Reg.ST_ASM330LHHX_REG_FIFO_STATUS1_ADDR, len := 2,
         err := 0, bytes := [] },
       { ctx := Context.flush, reg := Reg.ST_ASM330LHHX_REG_FIFO_DATA_OUT_TAG_ADDR, len := 21,
         err := 0, bytes := example_dev.fifo },
       { ctx := Context.handler, reg := Reg.ST_ASM330LHHX_REG_FIFO_STATUS1_ADDR, len := 2,
         err := 0, bytes := [] },
       { ctx := Context.handler, reg := Reg.ST_ASM330LHHX_REG_FIFO_DATA_OUT_TAG_ADDR, len := 7,
         err := 0, bytes := [0x10, 7, 0, 8, 0, 9, 0] }] ∧
    (sys_run example_cfg { id := ST_ASM330LHHX_ID_ACC, notify := 0 } example_hw example_dev
      example_events).pc Context.handler =
      Pc.finished 7
        [Action.read Reg.ST_ASM330LHHX_REG_FIFO_STATUS1_ADDR 2,
         Action.read Reg.ST_ASM330LHHX_REG_FIFO_DATA_OUT_TAG_ADDR 7,
         Action.push 1 [7, 0, 8, 0, 9, 0] 2500500] := by
  set_option maxRecDepth 100000 in
  exact ⟨rfl, rfl, rfl, rfl, rfl, rfl, rfl⟩

end Asm330lhhx
